import Mathlib

/-!
# SecurityWebCam: the auto-initialising tracking pipeline

A shallow embedding of the tracking core of `SecurityWebCam.cpp` (and of the
sibling variants `MyCamTracker.cpp` and `MySecCamcppDEV.cpp` where they differ).

Modelling conventions.

* `int` values are `Int`. Frame sizes are those of camera images, far below the
  range where `frame.cols * frame.rows` or `cols*cols + rows*rows` could leave
  32 bits, so these products are the exact integer products.
* `double` values are rationals (`ℚ`), and the pipeline is modelled twice. In
  the first model every `double` operation is exact. In the clamps, the sanity
  test and the contour filters every double is an integer, a half-integer
  contour area or a ratio of two such numbers, and every comparison is against
  a constant (`0.9`, `0.95`, `0.4`, `1.0`, `5.0`, `16.0`, `0.2`) whose boundary
  case the correctly rounded operation reproduces exactly, so these comparisons
  have the same outcome as in exact arithmetic. In the score, the preview
  layout and the screen-to-image transform rounding changes results: two scores
  that tie exactly can differ in the last place, a product just below an
  integer truncates to the integer below. The section *Double arithmetic*
  therefore repeats the contour loop, the HOG step, the layout, the transform
  and the manual selection with the result of every `double` operation passed
  through a rounding function `rnd`; `rnd = toDouble` (IEEE 754 binary64,
  round to nearest, ties to even) is the machine, `rnd = id` the first model.
  The claims whose truth depends on the rounding are stated for the rounded
  definitions.
  Where a divisor could be zero (the width of a rectangle, the frame diagonal
  delivered by `sqrt`) the IEEE result is treated explicitly. The selection
  only runs on a non-empty frame (the tick returns before it otherwise), so the
  frame area is never a zero divisor.
* `sqrt` (used by `cv::norm` and for the frame diagonal) is a parameter
  `Platform.sqrt`; nothing is assumed about it unless a theorem says so.
* OpenCV capabilities whose results depend on pixel data (frame read,
  background subtraction and contour extraction, the HOG detector, tracker
  creation, `init` and `update`) are inputs of a tick, collected in `TickEnv`.
  A call that may throw is an `Except Exn _` value; a `try`/`catch (...)` block
  is a `match` on it.
* `trace` records, in program order, the creation and destruction of tracker
  instances and the release of the other resources.
* `WndProc` handles the messages that touch the pipeline state, one after the
  other on the UI thread; an exception that leaves a handler ends the run.
  The rubber-band rectangle `g_selectionRect`, the timers and the file output
  are display or I/O only and are not part of the state; the save step is
  modelled by the crop rectangle it writes.
-/

namespace SecurityWebCam

/-! ## Data model -/

/-- The type `cv::Rect`: an integer rectangle. -/
structure Rect where
  x : Int
  y : Int
  width : Int
  height : Int
deriving DecidableEq

/-- The type `cv::Rect2d`: a rectangle with `double` fields. -/
structure Rect2d where
  x : ℚ
  y : ℚ
  width : ℚ
  height : ℚ
deriving DecidableEq

/-- The default-constructed `cv::Rect()`. -/
def Rect.zero : Rect := ⟨0, 0, 0, 0⟩

/-- The default-constructed `cv::Rect2d()`. -/
def Rect2d.zero : Rect2d := ⟨0, 0, 0, 0⟩

/-- The method `cv::Rect::area()`. -/
def Rect.area (r : Rect) : Int := r.width * r.height

/-- The method `cv::Rect::empty()`. -/
def Rect.empty (r : Rect) : Bool := decide (r.width ≤ 0) || decide (r.height ≤ 0)

/-- The method `cv::Rect2d::empty()`. -/
def Rect2d.empty (r : Rect2d) : Bool := decide (r.width ≤ 0) || decide (r.height ≤ 0)

/-- The conversion `cv::Rect2d(r.x, r.y, r.width, r.height)` of an integer rectangle. -/
def Rect.toRect2d (r : Rect) : Rect2d := ⟨r.x, r.y, r.width, r.height⟩

/-- The operator `a & b` of `cv::Rect`: the intersection, `cv::Rect()` when it is empty. -/
def Rect.inter (a b : Rect) : Rect :=
  let x1 := max a.x b.x
  let y1 := max a.y b.y
  let w := min (a.x + a.width) (b.x + b.width) - x1
  let h := min (a.y + a.height) (b.y + b.height) - y1
  if w ≤ 0 ∨ h ≤ 0 then Rect.zero else ⟨x1, y1, w, h⟩

/-- A `cv::Mat` as far as the pipeline looks at it: its size. -/
structure Frame where
  cols : Int
  rows : Int
deriving DecidableEq

/-- The method `cv::Mat::empty()`. -/
def Frame.empty (f : Frame) : Bool := decide (f.cols ≤ 0) || decide (f.rows ≤ 0)

/-- The Win32 `RECT`. -/
structure RECT where
  left : Int
  top : Int
  right : Int
  bottom : Int
deriving DecidableEq

/-- A tracker instance behind a `cv::Ptr<cv::Tracker>`, known by its identity. -/
structure Tracker where
  id : Nat
deriving DecidableEq

/-- Whatever a `catch (...)` can catch. -/
inductive Exn where
  | thrown
deriving DecidableEq

/-- What a contour contributes to the selection: `cv::contourArea(c)`,
`cv::boundingRect(c)` and `cv::contourArea` of `cv::convexHull(c)`. -/
structure Contour where
  area : ℚ
  rect : Rect
  hullArea : ℚ
deriving DecidableEq

/-- Resource events, in program order. -/
inductive Event where
  | trackerCreated (t : Tracker)
  | trackerDestroyed (t : Tracker)
  | capReleased
  | frameReleased
deriving DecidableEq

/-- The globals of `SecurityWebCam.cpp` that the pipeline reads or writes. -/
structure State where
  g_running : Bool
  g_capOpened : Bool
  g_frame : Frame
  g_autoMode : Bool
  g_saveEnabled : Bool
  g_tracker : Option Tracker
  g_tracking : Bool
  g_bbox : Rect2d
  g_selecting : Bool
  g_mouseStart : Int × Int
  g_previewRect : RECT
  g_backSub : Bool
  g_minContourArea : ℚ
  trace : List Event

/-- The globals as initialised at program start. -/
def State.initial : State where
  g_running := false
  g_capOpened := false
  g_frame := ⟨0, 0⟩
  g_autoMode := false
  g_saveEnabled := false
  g_tracker := none
  g_tracking := false
  g_bbox := Rect2d.zero
  g_selecting := false
  g_mouseStart := (0, 0)
  g_previewRect := ⟨0, 0, 0, 0⟩
  g_backSub := false
  g_minContourArea := 500.0
  trace := []

/-- What is fixed by the build and the C library. -/
structure Platform where
  HAVE_OPENCV_TRACKING : Bool
  sqrt : ℚ → ℚ

/-- What the external capabilities deliver during one preview tick. -/
structure TickEnv where
  /-- Result of `g_cap.read(frame)`: `none` when it returns false. -/
  read : Option Frame
  /-- Result of `cv::findContours` on the cleaned foreground mask. -/
  contours : List Contour
  /-- Result of `hog.detectMultiScale`. -/
  hogDet : List Rect
  /-- Result of `cv::TrackerCSRT::create()`. -/
  csrt : Except Exn Tracker
  /-- Result of `cv::TrackerKCF::create()`. -/
  kcf : Except Exn Tracker
  /-- Result of `t->init(frame, r2d)`. -/
  init : Except Exn Unit
  /-- Result of `g_tracker->update(frame, bboxInt)`: the returned flag and the box written. -/
  update : Except Exn (Bool × Rect)

/-- The statement `g_tracker.release()`: drops the handle, destroying the instance it held. -/
def State.releaseTracker (s : State) : State :=
  match s.g_tracker with
  | some t => { s with g_tracker := none, trace := s.trace ++ [Event.trackerDestroyed t] }
  | none => s

/-- The statement `g_tracker = t`: the instance held before, if any, is destroyed. -/
def State.storeTracker (s : State) (t : Tracker) : State :=
  match s.g_tracker with
  | some old => { s with g_tracker := some t, trace := s.trace ++ [Event.trackerDestroyed old] }
  | none => { s with g_tracker := some t }

/-! ## `makeTracker` -/

/-- The function `makeTracker`: CSRT first, KCF as fallback, a null pointer when neither can be
created; without the tracking module only KCF is tried. -/
def makeTracker (P : Platform) (csrt kcf : Except Exn Tracker) : Option Tracker :=
  if P.HAVE_OPENCV_TRACKING then
    match csrt with
    | .ok t => some t
    | .error _ =>
      match kcf with
      | .ok t => some t
      | .error _ => none
  else
    match kcf with
    | .ok t => some t
    | .error _ => none

/-! ## Clamps -/

/-- The clamp applied to a region before `t->init` (auto-init, lines 515-518; manual init,
lines 679-681; `MySecCamcppDEV.cpp`, lines 126-129). -/
def clampInit (frame : Frame) (r : Rect2d) : Rect2d :=
  let x := max 0.0 r.x
  let y := max 0.0 r.y
  let width := min r.width ((frame.cols : ℚ) - x)
  let height := min r.height ((frame.rows : ℚ) - y)
  ⟨x, y, width, height⟩

/-- The clamp applied to the box returned by `update` (lines 564-571). -/
def clampUpdate (frame : Frame) (bboxInt : Rect) : Rect2d :=
  let newbbox : Rect2d := ⟨(bboxInt.x : ℚ), (bboxInt.y : ℚ), (bboxInt.width : ℚ), (bboxInt.height : ℚ)⟩
  let x := max 0.0 newbbox.x
  let y := max 0.0 newbbox.y
  let width := max 0.0 (min newbbox.width ((frame.cols : ℚ) - x))
  let height := max 0.0 (min newbbox.height ((frame.rows : ℚ) - y))
  ⟨x, y, width, height⟩

/-- The constant `MAX_AREA_RATIO` of the update step. -/
def MAX_AREA_RATIO : ℚ := 0.95

/-- The constant `MIN_AREA` of the update step. -/
def MIN_AREA : ℚ := 16.0

/-- The sanity test of the update step (lines 574-580): true when the box is treated as lost. -/
def bboxInvalid (frame : Frame) (newbbox : Rect2d) : Bool :=
  let area := newbbox.width * newbbox.height
  let frameA := (frame.cols : ℚ) * (frame.rows : ℚ)
  decide (newbbox.width ≤ 1.0) || decide (newbbox.height ≤ 1.0) ||
    decide (area < MIN_AREA) || decide (area > MAX_AREA_RATIO * frameA)

/-! ## Candidate selection (lines 418-463) -/

/-- The local `minArea`. -/
def minArea (g_minContourArea : ℚ) : ℚ := max g_minContourArea 500.0

/-- The local `maxAreaRatio`. -/
def maxAreaRatio : ℚ := 0.9

/-- The local `minAspect`. -/
def minAspect : ℚ := 1.0

/-- The local `maxAspect`. -/
def maxAspect : ℚ := 5.0

/-- The local `minSolidity`. -/
def minSolidity : ℚ := 0.4

/-- The local `prefCenter` (lines 429-430). -/
def prefCenter (frame : Frame) (g_tracking : Bool) (g_bbox : Rect2d) : ℚ × ℚ :=
  if g_tracking && !g_bbox.empty then
    (g_bbox.x + g_bbox.width / 2.0, g_bbox.y + g_bbox.height / 2.0)
  else
    ((frame.cols : ℚ) / 2.0, (frame.rows : ℚ) / 2.0)

/-- The function `cv::norm` on a `cv::Point2d`. -/
def norm (P : Platform) (p : ℚ × ℚ) : ℚ := P.sqrt (p.1 * p.1 + p.2 * p.2)

/-- The test `aspect < minAspect || aspect > maxAspect` (lines 441-442), where `aspect` is
`(double)r.height / (double)r.width` when `r.height > 0` and `0.0` otherwise. A zero width with a
positive height divides to `+inf`, which exceeds `maxAspect`. -/
def aspectOutside (r : Rect) : Bool :=
  if r.height > 0 then
    if r.width = 0 then true
    else
      let aspect : ℚ := (r.height : ℚ) / (r.width : ℚ)
      decide (aspect < minAspect) || decide (aspect > maxAspect)
  else
    let aspect : ℚ := 0.0
    decide (aspect < minAspect) || decide (aspect > maxAspect)

/-- The local `solidity` (line 448). -/
def solidity (c : Contour) : ℚ :=
  if c.hullArea > 1e-6 then c.area / c.hullArea else 0.0

/-- The filters of the contour loop (lines 434-449): true when the loop body hits a `continue`. -/
def contourRejected (frame : Frame) (g_minContourArea : ℚ) (c : Contour) : Bool :=
  let area := c.area
  if area < minArea g_minContourArea then true
  else
    let areaRatio := area / ((frame.cols * frame.rows : Int) : ℚ)
    if areaRatio > maxAreaRatio then true
    else if aspectOutside c.rect then true
    else if solidity c < minSolidity then true
    else false

/-- The local `dist` (lines 452-453): distance from the centre of the bounding rectangle to the
preferred centre. -/
def contourDist (P : Platform) (prefCenter : ℚ × ℚ) (c : Contour) : ℚ :=
  let r := c.rect
  let cpos : ℚ × ℚ := ((r.x : ℚ) + (r.width : ℚ) / 2.0, (r.y : ℚ) + (r.height : ℚ) / 2.0)
  norm P (cpos.1 - prefCenter.1, cpos.2 - prefCenter.2)

/-- The local `diag` (line 455): the frame diagonal. -/
def frameDiag (P : Platform) (frame : Frame) : ℚ :=
  P.sqrt ((frame.cols * frame.cols + frame.rows * frame.rows : Int) : ℚ)

/-- The local `score` of a contour (lines 452-459). With `diag = 0` the quotient `dist / diag` is
`+inf` or NaN and `min(1.0, ·)` is `1.0`. -/
def contourScore (P : Platform) (frame : Frame) (prefCenter : ℚ × ℚ) (c : Contour) : ℚ :=
  let dist := contourDist P prefCenter c
  let diag := frameDiag P frame
  let distScore := 1.0 - (if diag = 0 then 1.0 else min 1.0 (dist / diag))
  0.6 * (c.area / ((frame.cols * frame.rows : Int) : ℚ)) + 0.4 * distScore

/-- The pair `bestRect`, `bestScore` carried through the selection. -/
structure Best where
  bestRect : Rect
  bestScore : ℚ
deriving DecidableEq

/-- One iteration of the contour loop (lines 432-463). -/
def contourStep (P : Platform) (frame : Frame) (g_minContourArea : ℚ) (prefCenter : ℚ × ℚ)
    (best : Best) (c : Contour) : Best :=
  if contourRejected frame g_minContourArea c then best
  else
    let score := contourScore P frame prefCenter c
    if score > best.bestScore then ⟨c.rect, score⟩ else best

/-- The contour loop, started from `cv::Rect bestRect; double bestScore = 0.0;`. -/
def contourLoop (P : Platform) (frame : Frame) (g_minContourArea : ℚ) (prefCenter : ℚ × ℚ)
    (contours : List Contour) : Best :=
  contours.foldl (contourStep P frame g_minContourArea prefCenter) ⟨Rect.zero, 0.0⟩

/-! ## HOG step (lines 474-509) -/

/-- One iteration of the largest-detection loop (lines 485-489) on `bestA`, `hogRect`. -/
def hogLargestStep (acc : ℚ × Rect) (hr : Rect) : ℚ × Rect :=
  let a : ℚ := (hr.area : ℚ)
  if a > acc.1 then (a, hr) else acc

/-- The local `iou` of the overlap loop (lines 500-506). -/
def iou (bestRect hr : Rect) : ℚ :=
  let inter := bestRect.inter hr
  if inter.area > 0 then
    let uni : ℚ := ((bestRect.area + hr.area - inter.area : Int) : ℚ)
    (inter.area : ℚ) / uni
  else 0.0

/-- The overlap loop (lines 498-508): adds `0.3` at the first detection with `iou > 0.2` and
leaves the loop. -/
def hogBoost (bestRect : Rect) : List Rect → ℚ → ℚ
  | [], bestScore => bestScore
  | hr :: rest, bestScore =>
    if iou bestRect hr > 0.2 then bestScore + 0.3 else hogBoost bestRect rest bestScore

/-- The HOG step (lines 474-509). -/
def hogStage (hogDet : List Rect) (best : Best) : Best :=
  if best.bestScore ≤ 0.0 then
    if !hogDet.isEmpty then
      let acc := hogDet.foldl hogLargestStep (0.0, Rect.zero)
      if acc.1 > 0 then ⟨acc.2, 0.5⟩ else best
    else best
  else
    ⟨best.bestRect, hogBoost best.bestRect hogDet best.bestScore⟩

/-- The candidate of a tick: contour loop followed by the HOG step. -/
def selectCandidate (P : Platform) (env : TickEnv) (frame : Frame) (s : State) : Best :=
  hogStage env.hogDet
    (contourLoop P frame s.g_minContourArea (prefCenter frame s.g_tracking s.g_bbox) env.contours)

/-! ## The preview tick (lines 389-595) -/

/-- The tracker creation of the auto-init block (lines 520-538): `makeTracker`, then `init`
inside `try`; on success handle, box and flag are stored, on a throw the new instance is
released. -/
def autoInitTracker (P : Platform) (env : TickEnv) (r2d : Rect2d) (s : State) : State :=
  match makeTracker P env.csrt env.kcf with
  | none => s
  | some t =>
    let s1 := { s with trace := s.trace ++ [Event.trackerCreated t] }
    match env.init with
    | .ok _ => { s1.storeTracker t with g_bbox := r2d, g_tracking := true }
    | .error _ => { s1 with trace := s1.trace ++ [Event.trackerDestroyed t] }

/-- The auto-init block (lines 402-540), entered when `g_autoMode && !g_tracking`. -/
def autoInit (P : Platform) (env : TickEnv) (frame : Frame) (s : State) : State :=
  let best := selectCandidate P env frame s
  if best.bestScore > 0.0 ∧ best.bestRect.area > 0 then
    autoInitTracker P env (clampInit frame best.bestRect.toRect2d) s
  else s

/-- The tracker-lost assignments `g_tracking = false; g_tracker.release();`. -/
def State.lost (s : State) : State :=
  { s with g_tracking := false }.releaseTracker

/-- The update block (lines 542-591). -/
def trackerUpdate (env : TickEnv) (frame : Frame) (s : State) : State :=
  if s.g_tracking && s.g_tracker.isSome then
    let r : Bool × Rect :=
      match env.update with
      | .ok r => r
      | .error _ => (false, Rect.zero)
    if !r.1 then s.lost
    else
      let newbbox := clampUpdate frame r.2
      if bboxInvalid frame newbbox then s.lost
      else { s with g_bbox := newbbox }
  else s

/-- The handler of `WM_TIMER` with `ID_TIMER_PREVIEW` (lines 389-595). -/
def timerPreview (P : Platform) (env : TickEnv) (s : State) : Except Exn State :=
  if !s.g_running then .ok s
  else
    match env.read with
    | none => .ok s
    | some frame =>
      if frame.empty then .ok s
      else
        let s1 := { s with g_frame := frame }
        let s2 := if s1.g_autoMode && !s1.g_tracking then autoInit P env frame s1 else s1
        .ok (trackerUpdate env frame s2)

/-! ## `MyCamTracker.cpp`: selection of the largest contour (lines 307-314) -/

/-- One iteration of the loop of `MyCamTracker.cpp` on `bestArea`, `bestRect`. -/
def largestContourStep (g_minContourArea : ℚ) (acc : ℚ × Rect) (c : Contour) : ℚ × Rect :=
  let area := c.area
  if area < g_minContourArea then acc
  else if area > acc.1 then (area, c.rect) else acc

/-- The loop of `MyCamTracker.cpp`, started from `double bestArea = 0; cv::Rect bestRect;`. -/
def largestContour (g_minContourArea : ℚ) (contours : List Contour) : ℚ × Rect :=
  contours.foldl (largestContourStep g_minContourArea) (0, Rect.zero)

/-! ## Start and stop (lines 264-296) -/

/-- The function `StartCamera` (lines 264-280); `opened` is whether `g_cap.open` succeeded. -/
def StartCamera (opened : Bool) (s : State) : State :=
  if s.g_running then s
  else
    let s1 :=
      if s.g_capOpened then
        { s with g_capOpened := false, trace := s.trace ++ [Event.capReleased] }
      else s
    if !opened then { s1 with g_capOpened := false }
    else { s1 with g_capOpened := true, g_backSub := true, g_running := true }

/-- The function `StopCamera` (lines 282-296). -/
def StopCamera (s : State) : State :=
  if !s.g_running then s
  else
    let s1 := { s with g_running := false }
    let s2 :=
      if s1.g_capOpened then
        { s1 with g_capOpened := false, trace := s1.trace ++ [Event.capReleased] }
      else s1
    let s3 := { s2 with g_frame := ⟨0, 0⟩, trace := s2.trace ++ [Event.frameReleased] }
    s3.lost

/-! ## Preview layout and manual selection (lines 196-226, 298-320, 630-698) -/

/-- The conversion `int(d)` of a `double`: truncation toward zero. -/
def truncToInt (q : ℚ) : Int := if 0 ≤ q then ⌊q⌋ else ⌈q⌉

/-- The placement of the scaled image inside the preview rectangle: scale factor, scaled width
and height, and top-left corner. -/
structure Layout where
  f : ℚ
  sw : Int
  sh : Int
  x : Int
  y : Int

/-- The layout computed by `PaintPreview` (lines 207-225); nothing is drawn for an empty frame or
a preview rectangle without positive width and height. -/
def paintLayout (frameCopy : Frame) (rc : RECT) : Option Layout :=
  if frameCopy.empty then none
  else
    let pw := rc.right - rc.left
    let ph := rc.bottom - rc.top
    if pw ≤ 0 ∨ ph ≤ 0 then none
    else
      let fx : ℚ := (pw : ℚ) / (frameCopy.cols : ℚ)
      let fy : ℚ := (ph : ℚ) / (frameCopy.rows : ℚ)
      let f := min fx fy
      let sw := truncToInt ((frameCopy.cols : ℚ) * f)
      let sh := truncToInt ((frameCopy.rows : ℚ) * f)
      let x := rc.left + Int.tdiv (pw - sw) 2
      let y := rc.top + Int.tdiv (ph - sh) 2
      some ⟨f, sw, sh, x, y⟩

/-- The state change of `PaintPreview` (lines 198-202): the preview rectangle is the client
rectangle without the 40 pixel tool strip and a 10 pixel bottom margin. -/
def PaintPreview (client : RECT) (s : State) : State :=
  { s with g_previewRect := ⟨client.left, client.top + 40, client.right, client.bottom - 10⟩ }

/-- The function `ScreenToImageRect` (lines 299-320). -/
def ScreenToImageRect (frame : Frame) (previewRc sel : RECT) : Rect2d :=
  let pw := previewRc.right - previewRc.left
  let ph := previewRc.bottom - previewRc.top
  let fx : ℚ := (pw : ℚ) / (frame.cols : ℚ)
  let fy : ℚ := (ph : ℚ) / (frame.rows : ℚ)
  let f := min fx fy
  let sw := truncToInt ((frame.cols : ℚ) * f)
  let sh := truncToInt ((frame.rows : ℚ) * f)
  let x := previewRc.left + Int.tdiv (pw - sw) 2
  let y := previewRc.top + Int.tdiv (ph - sh) 2
  let sx := max sel.left x
  let sy := max sel.top y
  let ex := min sel.right (x + sw)
  let ey := min sel.bottom (y + sh)
  if ex ≤ sx ∨ ey ≤ sy then Rect2d.zero
  else
    let rx : ℚ := ((sx - x : Int) : ℚ) / f
    let ry : ℚ := ((sy - y : Int) : ℚ) / f
    let rw : ℚ := ((ex - sx : Int) : ℚ) / f
    let rh : ℚ := ((ey - sy : Int) : ℚ) / f
    ⟨rx, ry, rw, rh⟩

/-- What the tracker capabilities deliver during a manual init. -/
structure SelEnv where
  /-- Result of `cv::TrackerCSRT::create()`. -/
  csrt : Except Exn Tracker
  /-- Result of `cv::TrackerKCF::create()`. -/
  kcf : Except Exn Tracker
  /-- Result of `t->init(frameCopy, r2d)`. -/
  init : Except Exn Unit

/-- The handler of `WM_LBUTTONDOWN` (lines 630-642). -/
def lbuttonDown (p : Int × Int) (s : State) : State :=
  if p.1 ≥ s.g_previewRect.left ∧ p.1 ≤ s.g_previewRect.right ∧
      p.2 ≥ s.g_previewRect.top ∧ p.2 ≤ s.g_previewRect.bottom then
    { s with g_selecting := true, g_mouseStart := p }
  else s

/-- The local `sel` of the `WM_LBUTTONUP` handler (lines 662-663): the rectangle spanned by the
point where the drag started and the point where the button was released. -/
def selectionRect (g_mouseStart p : Int × Int) : RECT :=
  ⟨min g_mouseStart.1 p.1, min g_mouseStart.2 p.2, max g_mouseStart.1 p.1, max g_mouseStart.2 p.2⟩

/-- The handler of `WM_LBUTTONUP` (lines 657-698). The call `t->init` is not inside a `try`, so
an exception it throws leaves the handler; `ok` is the constant `true`. -/
def lbuttonUp (P : Platform) (env : SelEnv) (p : Int × Int) (s : State) : Except Exn State :=
  if s.g_selecting then
    let sel : RECT := selectionRect s.g_mouseStart p
    let s1 := { s with g_selecting := false }
    if s1.g_frame.empty then .ok s1
    else
      let frameCopy := s1.g_frame
      let r2d := ScreenToImageRect frameCopy s1.g_previewRect sel
      if r2d.width > 5 ∧ r2d.height > 5 then
        match makeTracker P env.csrt env.kcf with
        | none => .ok s1
        | some t =>
          let s2 := { s1 with trace := s1.trace ++ [Event.trackerCreated t] }
          let r := clampInit frameCopy r2d
          match env.init with
          | .error e => .error e
          | .ok _ => .ok { s2.storeTracker t with g_bbox := r, g_tracking := true }
      else .ok s1
  else .ok s

/-! ## The window procedure -/

/-- The messages of `WndProc` that touch the pipeline state, with what the outside world delivers
while they are handled. -/
inductive Msg where
  | btnStart (opened : Bool)
  | btnStop
  | checkAuto (checked : Bool)
  | checkSave (checked : Bool)
  | timerPreview (env : TickEnv)
  | lbuttonDown (p : Int × Int)
  | lbuttonUp (env : SelEnv) (p : Int × Int)
  | paint (client : RECT)

/-- The function `WndProc` on these messages. -/
def WndProc (P : Platform) (msg : Msg) (s : State) : Except Exn State :=
  match msg with
  | .btnStart opened => .ok (StartCamera opened s)
  | .btnStop => .ok (StopCamera s)
  | .checkAuto checked => .ok { s with g_autoMode := checked }
  | .checkSave checked => .ok { s with g_saveEnabled := checked }
  | .timerPreview env => timerPreview P env s
  | .lbuttonDown p => .ok (lbuttonDown p s)
  | .lbuttonUp env p => lbuttonUp P env p s
  | .paint client => .ok (PaintPreview client s)

/-- The message loop: messages are handled one after the other; an exception that leaves a
handler ends the run. -/
def run (P : Platform) : List Msg → State → Except Exn State
  | [], s => .ok s
  | msg :: rest, s =>
    match WndProc P msg s with
    | .ok s' => run P rest s'
    | .error e => .error e

/-- A run of preview ticks only. -/
def runTicks (P : Platform) (envs : List TickEnv) (s : State) : Except Exn State :=
  run P (envs.map Msg.timerPreview) s

/-- The test of line 511 on the candidate of a tick: a viable candidate was found. -/
def candidateFound (P : Platform) (env : TickEnv) (frame : Frame) (s : State) : Bool :=
  decide ((selectCandidate P env frame s).bestScore > 0.0) &&
    decide ((selectCandidate P env frame s).bestRect.area > 0)

/-! ## Live tracker instances -/

/-- The change in the number of live tracker instances made by an event. -/
def Event.delta : Event → Int
  | .trackerCreated _ => 1
  | .trackerDestroyed _ => -1
  | .capReleased => 0
  | .frameReleased => 0

/-- The number of tracker instances alive after a sequence of events. -/
def liveCount (es : List Event) : Int := (es.map Event.delta).sum

/-- The number of tracker creations in a sequence of events. -/
def createdCount : List Event → Nat
  | [] => 0
  | .trackerCreated _ :: es => createdCount es + 1
  | _ :: es => createdCount es

/-! ## The update clamp on a box of doubles, the save step, the console variant -/

/-- The clamp of the update step (lines 568-571) as it acts on the converted box `newbbox`. -/
def clampBox (frame : Frame) (newbbox : Rect2d) : Rect2d :=
  let x := max 0.0 newbbox.x
  let y := max 0.0 newbbox.y
  let width := max 0.0 (min newbbox.width ((frame.cols : ℚ) - x))
  let height := max 0.0 (min newbbox.height ((frame.rows : ℚ) - y))
  ⟨x, y, width, height⟩

/-- The conversion `(int)round(d)`: the nearest integer, halves rounded away from zero. -/
def roundToInt (q : ℚ) : Int := if 0 ≤ q then ⌊q + 1 / 2⌋ else ⌈q - 1 / 2⌉

/-- The crop rectangle `ir` of the save step (lines 614-616; `MyCamTracker.cpp`, lines 410-412):
the box rounded to integers and intersected with the frame rectangle. -/
def cropRect (frameCopy : Frame) (g_bbox : Rect2d) : Rect :=
  let ir : Rect :=
    ⟨roundToInt g_bbox.x, roundToInt g_bbox.y, roundToInt g_bbox.width, roundToInt g_bbox.height⟩
  ir.inter ⟨0, 0, frameCopy.cols, frameCopy.rows⟩

/-- The handler of `WM_TIMER` for `ID_TIMER_SAVE` (lines 596-627): the rectangle of the crop it
writes, `none` when it writes no crop. The handler does not change the pipeline state. -/
def timerSave (s : State) : Option Rect :=
  if s.g_running && s.g_saveEnabled then
    if s.g_frame.empty then none
    else
      let frameCopy := s.g_frame
      if s.g_tracking && !s.g_bbox.empty then
        let ir := cropRect frameCopy s.g_bbox
        if ir.width > 0 ∧ ir.height > 0 then some ir else none
      else none
  else none

/-- The session variables of `main` in `MySecCamcppDEV.cpp`. -/
structure DevState where
  tracker : Option Tracker
  tracking : Bool
  haveSelection : Bool
  selectionForTracker : Rect2d

/-- The lambda `makeTracker` of `MySecCamcppDEV.cpp` (lines 88-99); `csrtAvailable` is whether
`CV_TRACKER_CSRT_AVAILABLE` is defined. -/
def devMakeTracker (csrtAvailable : Bool) (csrt kcf : Except Exn Tracker) : Option Tracker :=
  if csrtAvailable then
    match csrt with
    | .ok t => some t
    | .error _ =>
      match kcf with
      | .ok t => some t
      | .error _ => none
  else
    match kcf with
    | .ok t => some t
    | .error _ => none

/-- The manual init of `MySecCamcppDEV.cpp` (lines 121-146), on the frame just read (the loop
leaves before this point when the frame is empty). The size test comes after the clamp; the call
`tracker->init` is not inside a `try`, and `ok` is the constant `true`. -/
def devManualInit (csrtAvailable : Bool) (env : SelEnv) (frame : Frame) (s : DevState) :
    Except Exn DevState :=
  if s.haveSelection then
    let tracker :=
      match s.tracker with
      | some t => some t
      | none => devMakeTracker csrtAvailable env.csrt env.kcf
    match tracker with
    | none => .ok { s with tracker := none, haveSelection := false }
    | some t =>
      let sel := clampInit frame s.selectionForTracker
      let s1 := { s with tracker := some t, selectionForTracker := sel }
      if sel.width > 5 ∧ sel.height > 5 ∧ ¬ (frame.empty = true) then
        match env.init with
        | .error e => .error e
        | .ok _ => .ok { s1 with tracking := true, haveSelection := false }
      else .ok { s1 with haveSelection := false }
  else .ok s

/-! ## Double arithmetic

The contour filters, the score, the overlap test, the preview layout and the screen-to-image
transform are computed by the program in `double`. The definitions above follow them in exact
arithmetic; the definitions below follow the same source lines with the result of every `double`
operation passed through a rounding function `rnd`. With `rnd = toDouble` they are the machine's computation, with `rnd = id` they are the
exact definitions above. Integers of the size met here convert to `double` without rounding, and
integer arithmetic stays exact. -/

/-- Rounding to the nearest integer, a tie going to the even neighbour. -/
def roundHalfEven (x : ℚ) : Int :=
  let n := ⌊x⌋
  if x - n < 1 / 2 then n
  else if 1 / 2 < x - n then n + 1
  else if n % 2 = 0 then n else n + 1

/-- The `double` nearest to an exact result (IEEE 754 binary64: 53 significant bits, round to
nearest, ties to even). The exponent range is not bounded: overflow and underflow, which the
quantities of this program are far from, are not modelled. -/
def toDouble (q : ℚ) : ℚ :=
  if q = 0 then 0
  else
    let ulp : ℚ := (2 : ℚ) ^ (Int.log 2 |q| - 52)
    (roundHalfEven (q / ulp) : ℚ) * ulp

/-- The local `prefCenter` (lines 429-430), rounded. -/
def Rounded.prefCenter (rnd : ℚ → ℚ) (frame : Frame) (g_tracking : Bool) (g_bbox : Rect2d) :
    ℚ × ℚ :=
  if g_tracking && !g_bbox.empty then
    (rnd (g_bbox.x + rnd (g_bbox.width / 2.0)), rnd (g_bbox.y + rnd (g_bbox.height / 2.0)))
  else
    (rnd ((frame.cols : ℚ) / 2.0), rnd ((frame.rows : ℚ) / 2.0))

/-- The function `cv::norm` on a `cv::Point2d`, rounded: `sqrt(x*x + y*y)`. -/
def Rounded.norm (rnd : ℚ → ℚ) (P : Platform) (p : ℚ × ℚ) : ℚ :=
  P.sqrt (rnd (rnd (p.1 * p.1) + rnd (p.2 * p.2)))

/-- The local `dist` (lines 452-453), rounded. -/
def Rounded.contourDist (rnd : ℚ → ℚ) (P : Platform) (prefCenter : ℚ × ℚ) (c : Contour) : ℚ :=
  let r := c.rect
  let cpos : ℚ × ℚ :=
    (rnd ((r.x : ℚ) + rnd ((r.width : ℚ) / 2.0)), rnd ((r.y : ℚ) + rnd ((r.height : ℚ) / 2.0)))
  Rounded.norm rnd P (rnd (cpos.1 - prefCenter.1), rnd (cpos.2 - prefCenter.2))

/-- The local `score` of a contour (lines 452-459), rounded; `0.6` and `0.4` are the doubles
nearest to these decimals. The argument of `sqrt` in `diag` is an integer. -/
def Rounded.contourScore (rnd : ℚ → ℚ) (P : Platform) (frame : Frame) (prefCenter : ℚ × ℚ)
    (c : Contour) : ℚ :=
  let dist := Rounded.contourDist rnd P prefCenter c
  let diag := frameDiag P frame
  let distScore := rnd (1.0 - (if diag = 0 then 1.0 else min 1.0 (rnd (dist / diag))))
  rnd (rnd (rnd 0.6 * rnd (c.area / ((frame.cols * frame.rows : Int) : ℚ))) +
    rnd (rnd 0.4 * distScore))

/-- The test `aspect < minAspect || aspect > maxAspect` (lines 439-442), rounded: the quotient
`(double)r.height / (double)r.width` is a `double`; the bounds `1.0` and `5.0` are doubles. -/
def Rounded.aspectOutside (rnd : ℚ → ℚ) (r : Rect) : Bool :=
  if r.height > 0 then
    if r.width = 0 then true
    else
      let aspect : ℚ := rnd ((r.height : ℚ) / (r.width : ℚ))
      decide (aspect < minAspect) || decide (aspect > maxAspect)
  else
    let aspect : ℚ := 0.0
    decide (aspect < minAspect) || decide (aspect > maxAspect)

/-- The local `solidity` (line 448), rounded; `1e-6` is the double nearest to this decimal. -/
def Rounded.solidity (rnd : ℚ → ℚ) (c : Contour) : ℚ :=
  if c.hullArea > rnd 1e-6 then rnd (c.area / c.hullArea) else 0.0

/-- The filters of the contour loop (lines 434-449), rounded: `areaRatio`, `aspect` and
`solidity` are rounded quotients, `0.9` and `0.4` the doubles nearest to these decimals. -/
def Rounded.contourRejected (rnd : ℚ → ℚ) (frame : Frame) (g_minContourArea : ℚ)
    (c : Contour) : Bool :=
  let area := c.area
  if area < minArea g_minContourArea then true
  else
    let areaRatio := rnd (area / ((frame.cols * frame.rows : Int) : ℚ))
    if areaRatio > rnd maxAreaRatio then true
    else if Rounded.aspectOutside rnd c.rect then true
    else if Rounded.solidity rnd c < rnd minSolidity then true
    else false

/-- One iteration of the contour loop (lines 432-463) with the rounded filters and score. -/
def Rounded.contourStep (rnd : ℚ → ℚ) (P : Platform) (frame : Frame) (g_minContourArea : ℚ)
    (prefCenter : ℚ × ℚ) (best : Best) (c : Contour) : Best :=
  if Rounded.contourRejected rnd frame g_minContourArea c then best
  else
    let score := Rounded.contourScore rnd P frame prefCenter c
    if score > best.bestScore then ⟨c.rect, score⟩ else best

/-- The contour loop with the rounded filters and score. -/
def Rounded.contourLoop (rnd : ℚ → ℚ) (P : Platform) (frame : Frame) (g_minContourArea : ℚ)
    (prefCenter : ℚ × ℚ) (contours : List Contour) : Best :=
  contours.foldl (Rounded.contourStep rnd P frame g_minContourArea prefCenter) ⟨Rect.zero, 0.0⟩

/-- The local `iou` of the overlap loop (lines 500-506), rounded. -/
def Rounded.iou (rnd : ℚ → ℚ) (bestRect hr : Rect) : ℚ :=
  let inter := bestRect.inter hr
  if inter.area > 0 then
    let uni : ℚ := ((bestRect.area + hr.area - inter.area : Int) : ℚ)
    rnd ((inter.area : ℚ) / uni)
  else 0.0

/-- The overlap loop (lines 498-508), rounded: `bestScore += 0.3` is one `double` addition of the
double nearest to `0.3`. -/
def Rounded.hogBoost (rnd : ℚ → ℚ) (bestRect : Rect) : List Rect → ℚ → ℚ
  | [], bestScore => bestScore
  | hr :: rest, bestScore =>
    if Rounded.iou rnd bestRect hr > rnd 0.2 then rnd (bestScore + rnd 0.3)
    else Rounded.hogBoost rnd bestRect rest bestScore

/-- The HOG step (lines 474-509), rounded. -/
def Rounded.hogStage (rnd : ℚ → ℚ) (hogDet : List Rect) (best : Best) : Best :=
  if best.bestScore ≤ 0.0 then
    if !hogDet.isEmpty then
      let acc := hogDet.foldl hogLargestStep (0.0, Rect.zero)
      if acc.1 > 0 then ⟨acc.2, 0.5⟩ else best
    else best
  else
    ⟨best.bestRect, Rounded.hogBoost rnd best.bestRect hogDet best.bestScore⟩

/-- The candidate of a tick, rounded: contour loop followed by the HOG step. -/
def Rounded.selectCandidate (rnd : ℚ → ℚ) (P : Platform) (env : TickEnv) (frame : Frame)
    (s : State) : Best :=
  Rounded.hogStage rnd env.hogDet
    (Rounded.contourLoop rnd P frame s.g_minContourArea
      (Rounded.prefCenter rnd frame s.g_tracking s.g_bbox) env.contours)

/-- The test of line 511 on the rounded candidate. -/
def Rounded.candidateFound (rnd : ℚ → ℚ) (P : Platform) (env : TickEnv) (frame : Frame)
    (s : State) : Bool :=
  decide ((Rounded.selectCandidate rnd P env frame s).bestScore > 0.0) &&
    decide ((Rounded.selectCandidate rnd P env frame s).bestRect.area > 0)

/-- The layout computed by `PaintPreview` (lines 207-225), rounded. -/
def Rounded.paintLayout (rnd : ℚ → ℚ) (frameCopy : Frame) (rc : RECT) : Option Layout :=
  if frameCopy.empty then none
  else
    let pw := rc.right - rc.left
    let ph := rc.bottom - rc.top
    if pw ≤ 0 ∨ ph ≤ 0 then none
    else
      let fx : ℚ := rnd ((pw : ℚ) / (frameCopy.cols : ℚ))
      let fy : ℚ := rnd ((ph : ℚ) / (frameCopy.rows : ℚ))
      let f := min fx fy
      let sw := truncToInt (rnd ((frameCopy.cols : ℚ) * f))
      let sh := truncToInt (rnd ((frameCopy.rows : ℚ) * f))
      let x := rc.left + Int.tdiv (pw - sw) 2
      let y := rc.top + Int.tdiv (ph - sh) 2
      some ⟨f, sw, sh, x, y⟩

/-- The function `ScreenToImageRect` (lines 299-320), rounded. -/
def Rounded.ScreenToImageRect (rnd : ℚ → ℚ) (frame : Frame) (previewRc sel : RECT) : Rect2d :=
  let pw := previewRc.right - previewRc.left
  let ph := previewRc.bottom - previewRc.top
  let fx : ℚ := rnd ((pw : ℚ) / (frame.cols : ℚ))
  let fy : ℚ := rnd ((ph : ℚ) / (frame.rows : ℚ))
  let f := min fx fy
  let sw := truncToInt (rnd ((frame.cols : ℚ) * f))
  let sh := truncToInt (rnd ((frame.rows : ℚ) * f))
  let x := previewRc.left + Int.tdiv (pw - sw) 2
  let y := previewRc.top + Int.tdiv (ph - sh) 2
  let sx := max sel.left x
  let sy := max sel.top y
  let ex := min sel.right (x + sw)
  let ey := min sel.bottom (y + sh)
  if ex ≤ sx ∨ ey ≤ sy then Rect2d.zero
  else
    let rx : ℚ := rnd (((sx - x : Int) : ℚ) / f)
    let ry : ℚ := rnd (((sy - y : Int) : ℚ) / f)
    let rw : ℚ := rnd (((ex - sx : Int) : ℚ) / f)
    let rh : ℚ := rnd (((ey - sy : Int) : ℚ) / f)
    ⟨rx, ry, rw, rh⟩

/-- The clamp applied to the selected region before `t->init` (lines 679-681), rounded: the
region has `double` fields, so the subtractions round. -/
def Rounded.clampInit (rnd : ℚ → ℚ) (frame : Frame) (r : Rect2d) : Rect2d :=
  let x := max 0.0 r.x
  let y := max 0.0 r.y
  let width := min r.width (rnd ((frame.cols : ℚ) - x))
  let height := min r.height (rnd ((frame.rows : ℚ) - y))
  ⟨x, y, width, height⟩

/-- The handler of `WM_LBUTTONUP` (lines 657-698) with the rounded transform and clamp. -/
def Rounded.lbuttonUp (rnd : ℚ → ℚ) (P : Platform) (env : SelEnv) (p : Int × Int) (s : State) :
    Except Exn State :=
  if s.g_selecting then
    let sel : RECT := selectionRect s.g_mouseStart p
    let s1 := { s with g_selecting := false }
    if s1.g_frame.empty then .ok s1
    else
      let frameCopy := s1.g_frame
      let r2d := Rounded.ScreenToImageRect rnd frameCopy s1.g_previewRect sel
      if r2d.width > 5 ∧ r2d.height > 5 then
        match makeTracker P env.csrt env.kcf with
        | none => .ok s1
        | some t =>
          let s2 := { s1 with trace := s1.trace ++ [Event.trackerCreated t] }
          let r := Rounded.clampInit rnd frameCopy r2d
          match env.init with
          | .error e => .error e
          | .ok _ => .ok { s2.storeTracker t with g_bbox := r, g_tracking := true }
      else .ok s1
  else .ok s

/-! ## The score in the words of the specification -/

/-- The score as the specification states it:
`0.6 × (area ÷ frame area) + 0.4 × (1 − min(1, dist ÷ diag))`, with `dist` the distance from the
centre of the bounding rectangle to the preferred centre and `diag` the frame diagonal. -/
def specScore (P : Platform) (frame : Frame) (prefCenter : ℚ × ℚ) (c : Contour) : ℚ :=
  let cx : ℚ := (c.rect.x : ℚ) + (c.rect.width : ℚ) / 2
  let cy : ℚ := (c.rect.y : ℚ) + (c.rect.height : ℚ) / 2
  let dist := P.sqrt ((cx - prefCenter.1) ^ 2 + (cy - prefCenter.2) ^ 2)
  let diag := P.sqrt ((frame.cols : ℚ) ^ 2 + (frame.rows : ℚ) ^ 2)
  0.6 * (c.area / ((frame.cols : ℚ) * (frame.rows : ℚ))) + 0.4 * (1 - min 1 (dist / diag))

/-- A build with the tracking module, with the integer square root of the integer part standing
in for `sqrt`. -/
def samplePlatform : Platform := ⟨true, fun q => (Nat.sqrt ⌊q⌋₊ : ℚ)⟩

/-- A running camera with an Active session holding the box `(100, 100, 50, 80)`. -/
def sampleActive : State :=
  { State.initial with
    g_running := true, g_capOpened := true, g_backSub := true, g_frame := ⟨640, 480⟩,
    g_tracking := true, g_tracker := some ⟨7⟩, g_bbox := ⟨100, 100, 50, 80⟩ }

/-- A running camera with an Idle session and auto-detection switched on. -/
def sampleIdle : State :=
  { State.initial with
    g_running := true, g_capOpened := true, g_backSub := true, g_autoMode := true }

/-- A tick on a 640x480 frame in which the tracker reports the box `(-5, 10, 100, 200)`. -/
def sampleTickOk : TickEnv where
  read := some ⟨640, 480⟩
  contours := []
  hogDet := []
  csrt := .ok ⟨1⟩
  kcf := .ok ⟨2⟩
  init := .ok ()
  update := .ok (true, ⟨-5, 10, 100, 200⟩)

/-- A tick on a 640x480 frame in which the tracker's `update` throws. -/
def sampleTickThrow : TickEnv := { sampleTickOk with update := .error Exn.thrown }

/-- A contour of area 500 with bounding rectangle (300, 200, 40, 80), centred in a 640x480
frame, and convex-hull area 600. -/
def sampleContour : Contour := ⟨500, ⟨300, 200, 40, 80⟩, 600⟩

/-- A contour of the same area with bounding rectangle (100, 100, 40, 80), away from the centre. -/
def sampleContourFar : Contour := ⟨500, ⟨100, 100, 40, 80⟩, 600⟩

/-- A tick on a 640x480 frame whose mask holds the single contour `sampleContour`. -/
def sampleTickContour : TickEnv := { sampleTickOk with contours := [sampleContour] }

/-- A tick on a 640x480 frame whose mask holds the far contour first and the centred one second. -/
def sampleTickTwo : TickEnv :=
  { sampleTickOk with contours := [sampleContourFar, sampleContour] }

/-- A running camera in auto mode whose session was lost: Idle, with the last box
(80, 100, 80, 80), centred at (120, 140), still in `g_bbox`. -/
def sampleLost : State :=
  { sampleIdle with g_frame := ⟨640, 480⟩, g_bbox := ⟨80, 100, 80, 80⟩ }

/-- An Active session on a 640x480 frame drawn at scale 1 in the preview rectangle
(0, 40)-(640, 520), with a drag started at screen point (100, 140). -/
def sampleSelecting : State :=
  { sampleActive with
    g_previewRect := ⟨0, 40, 640, 520⟩, g_selecting := true, g_mouseStart := (100, 140) }

/-- The layout of a 640x480 frame in the preview rectangle (0, 40)-(640, 520): scale 1, the
image at (0, 40). -/
def sampleLayout : Layout := ⟨1, 640, 480, 0, 40⟩

/-- A manual init in which a tracker is created and `init` returns. -/
def sampleSelOk : SelEnv := ⟨.ok ⟨11⟩, .ok ⟨12⟩, .ok ()⟩

/-- A manual init in which a tracker is created and `init` throws. -/
def sampleSelThrow : SelEnv := ⟨.ok ⟨11⟩, .ok ⟨12⟩, .error Exn.thrown⟩

/-- A tick like `sampleTickContour` in which the tracker's `update` returns false. -/
def sampleTickContourLost : TickEnv :=
  { sampleTickContour with update := .ok (false, Rect.zero) }

/-- A tick on a 640x480 frame with one detector box and no tracker implementation available. -/
def sampleTickNoTracker : TickEnv :=
  { sampleTickOk with
    hogDet := [⟨200, 100, 64, 128⟩], csrt := .error Exn.thrown, kcf := .error Exn.thrown }

/-- The state after the camera was started from program start, auto mode was switched on and the
tick `sampleTickContour` was handled: an Active session on tracker 1 holding the clamped box of
the same-tick update. -/
def sampleTracked : State :=
  { State.initial with
    g_running := true, g_capOpened := true, g_backSub := true, g_autoMode := true,
    g_frame := ⟨640, 480⟩, g_tracker := some ⟨1⟩, g_tracking := true,
    g_bbox := ⟨0, 10, 100, 200⟩, trace := [Event.trackerCreated ⟨1⟩] }

/-- The state `sampleTracked` after a paint of the client area (0, 0)-(640, 530) and a button
press at screen point (100, 140). -/
def sampleDragging : State :=
  { sampleTracked with
    g_previewRect := ⟨0, 40, 640, 520⟩, g_selecting := true, g_mouseStart := (100, 140) }

/-- The messages that lead from program start to `sampleDragging`. -/
def sampleSession : List Msg :=
  [Msg.btnStart true, Msg.checkAuto true, Msg.timerPreview sampleTickContour,
    Msg.paint ⟨0, 0, 640, 530⟩, Msg.lbuttonDown (100, 140)]

/-- A contour of area 503 with bounding rectangle (300, 200, 40, 80), centred in a 640x480
frame. -/
def sampleContourA : Contour := ⟨503, ⟨300, 200, 40, 80⟩, 600⟩

/-- A contour of area 26103 with bounding rectangle (340, 140, 160, 200), whose centre
(420, 240) lies 100 pixels from the centre of a 640x480 frame. -/
def sampleContourB : Contour := ⟨26103, ⟨340, 140, 160, 200⟩, 30000⟩

/-- A contour of area 276480, nine tenths of a 480x640 frame, whose bounding rectangle is the
whole frame. -/
def sampleContourWide : Contour := ⟨276480, ⟨0, 0, 480, 640⟩, 307200⟩

/-- A tick on a 640x480 frame without contours in which the detector reports the box
(636, 100, 64, 128), which reaches 60 pixels beyond the right edge of the frame. -/
def sampleTickEdgeBox : TickEnv := { sampleTickOk with hogDet := [⟨636, 100, 64, 128⟩] }

/-- The state `sampleTracked` with the 640x480 frame letterboxed in the preview rectangle
(0, 40)-(1000, 530) and a drag started at screen point (200, 524). -/
def sampleLetterbox : State :=
  { sampleTracked with
    g_previewRect := ⟨0, 40, 1000, 530⟩, g_selecting := true, g_mouseStart := (200, 524) }

/-! ## Session predicates -/

/-- The session is Idle: the flag is clear and no tracker handle is held. -/
def State.Idle (s : State) : Prop := s.g_tracking = false ∧ s.g_tracker = none

/-- The session is Active: the flag is set and a tracker handle is held. -/
def State.Active (s : State) : Prop := s.g_tracking = true ∧ s.g_tracker.isSome = true

/-- The bounds a published box has to meet against a frame. -/
def Rect2d.ValidIn (b : Rect2d) (frame : Frame) : Prop :=
  1 < b.width ∧ 1 < b.height ∧
  16 ≤ b.width * b.height ∧ b.width * b.height ≤ 0.95 * ((frame.cols : ℚ) * (frame.rows : ℚ)) ∧
  0 ≤ b.x ∧ 0 ≤ b.y ∧ b.x + b.width ≤ (frame.cols : ℚ) ∧ b.y + b.height ≤ (frame.rows : ℚ)

/-- The states the window procedure can reach from program start. -/
def Reachable (P : Platform) (s : State) : Prop :=
  ∃ msgs, run P msgs State.initial = .ok s

/-- No prefix of the event sequence has more than one tracker instance alive. -/
def PeakOK (es : List Event) : Prop := ∀ pre, pre <+: es → liveCount pre ≤ 1

/-- The session is Idle or Active, the tracker instances alive are exactly the one held (if any),
and there was never more than one alive. -/
def State.TrackerInv (s : State) : Prop :=
  (s.Idle ∨ s.Active) ∧
  liveCount s.trace = (if s.g_tracker.isSome then 1 else 0) ∧
  PeakOK s.trace

/-- While the camera is not running there is no published frame and no session. -/
def State.StoppedInv (s : State) : Prop :=
  s.g_running = false → s.g_frame.empty = true ∧ s.Idle

/-- No prefix of the event sequence has more than `n` tracker instances alive. -/
def PeakLe (n : Int) (es : List Event) : Prop := ∀ pre, pre <+: es → liveCount pre ≤ n

/-- The session is Idle or Active, the tracker instances alive are exactly the one held (if any),
and there were never more than `n` alive. -/
def State.SessionInv (n : Int) (s : State) : Prop :=
  (s.Idle ∨ s.Active) ∧
  liveCount s.trace = (if s.g_tracker.isSome then 1 else 0) ∧
  PeakLe n s.trace

/-! ## Basic facts about the state updates -/

theorem lost_g_tracking (s : State) : s.lost.g_tracking = false := by
  unfold State.lost State.releaseTracker
  cases h : s.g_tracker <;> simp

theorem lost_g_tracker (s : State) : s.lost.g_tracker = none := by
  unfold State.lost State.releaseTracker
  cases h : s.g_tracker <;> simp [h]

theorem lost_g_bbox (s : State) : s.lost.g_bbox = s.g_bbox := by
  unfold State.lost State.releaseTracker
  cases h : s.g_tracker <;> simp

theorem lost_trace (s : State) (t : Tracker) (h : s.g_tracker = some t) :
    s.lost.trace = s.trace ++ [Event.trackerDestroyed t] := by
  unfold State.lost State.releaseTracker
  simp [h]

theorem lost_idle (s : State) : s.lost.Idle :=
  ⟨lost_g_tracking s, lost_g_tracker s⟩

/-- The update block when the tracker reports success with the box `bboxInt`. -/
theorem trackerUpdate_ok (env : TickEnv) (frame : Frame) (s : State) (bboxInt : Rect)
    (hact : s.Active) (hupd : env.update = .ok (true, bboxInt)) :
    trackerUpdate env frame s =
      if bboxInvalid frame (clampUpdate frame bboxInt) then s.lost
      else { s with g_bbox := clampUpdate frame bboxInt } := by
  obtain ⟨h1, h2⟩ := hact
  simp [trackerUpdate, h1, h2, hupd]

/-- The update block when the tracker reports failure or throws. -/
theorem trackerUpdate_fail (env : TickEnv) (frame : Frame) (s : State)
    (hact : s.Active)
    (hupd : (∃ e, env.update = .error e) ∨ (∃ b, env.update = .ok (false, b))) :
    trackerUpdate env frame s = s.lost := by
  obtain ⟨h1, h2⟩ := hact
  rcases hupd with ⟨e, he⟩ | ⟨b, hb⟩
  · simp [trackerUpdate, h1, h2, he]
  · simp [trackerUpdate, h1, h2, hb]

/-- The update block does nothing unless flag and handle are both set. -/
theorem trackerUpdate_skip (env : TickEnv) (frame : Frame) (s : State)
    (h : (s.g_tracking && s.g_tracker.isSome) = false) :
    trackerUpdate env frame s = s := by
  simp only [trackerUpdate, h]
  simp

/-- The sanity test spelled out on the box. -/
theorem bboxInvalid_iff (frame : Frame) (b : Rect2d) :
    bboxInvalid frame b = true ↔
      b.width ≤ 1 ∨ b.height ≤ 1 ∨ b.width * b.height < 16 ∨
        b.width * b.height > 0.95 * ((frame.cols : ℚ) * (frame.rows : ℚ)) := by
  simp only [bboxInvalid, MIN_AREA, MAX_AREA_RATIO, Bool.or_eq_true, decide_eq_true_eq]
  norm_num
  tauto

/-- A clamped box that passes the sanity test meets all the bounds. -/
theorem clampUpdate_valid (frame : Frame) (bboxInt : Rect)
    (h : bboxInvalid frame (clampUpdate frame bboxInt) = false) :
    (clampUpdate frame bboxInt).ValidIn frame := by
  have hn : ¬ (bboxInvalid frame (clampUpdate frame bboxInt) = true) := by simp [h]
  rw [bboxInvalid_iff] at hn
  push_neg at hn
  obtain ⟨hw, hh, ha, hA⟩ := hn
  refine ⟨hw, hh, ha, hA, ?_, ?_, ?_, ?_⟩
  · exact le_max_of_le_left (by norm_num)
  · exact le_max_of_le_left (by norm_num)
  · have hw2 : 1 < max (0.0 : ℚ) (min (bboxInt.width : ℚ) ((frame.cols : ℚ) - max 0.0 (bboxInt.x : ℚ))) := hw
    have hpos : (0.0 : ℚ) < 1 := by norm_num
    have h3 : 1 < min (bboxInt.width : ℚ) ((frame.cols : ℚ) - max 0.0 (bboxInt.x : ℚ)) := by
      rcases lt_max_iff.mp hw2 with h | h
      · norm_num at h
      · exact h
    have h4 := (lt_min_iff.mp h3).2
    show max 0.0 (bboxInt.x : ℚ) +
      max (0.0 : ℚ) (min (bboxInt.width : ℚ) ((frame.cols : ℚ) - max 0.0 (bboxInt.x : ℚ))) ≤ _
    rw [max_eq_right (by linarith : (0.0 : ℚ) ≤ min (bboxInt.width : ℚ) ((frame.cols : ℚ) - max 0.0 (bboxInt.x : ℚ)))]
    have := min_le_right (bboxInt.width : ℚ) ((frame.cols : ℚ) - max 0.0 (bboxInt.x : ℚ))
    linarith
  · have hh2 : 1 < max (0.0 : ℚ) (min (bboxInt.height : ℚ) ((frame.rows : ℚ) - max 0.0 (bboxInt.y : ℚ))) := hh
    have hpos : (0.0 : ℚ) < 1 := by norm_num
    have h3 : 1 < min (bboxInt.height : ℚ) ((frame.rows : ℚ) - max 0.0 (bboxInt.y : ℚ)) := by
      rcases lt_max_iff.mp hh2 with h | h
      · norm_num at h
      · exact h
    show max 0.0 (bboxInt.y : ℚ) +
      max (0.0 : ℚ) (min (bboxInt.height : ℚ) ((frame.rows : ℚ) - max 0.0 (bboxInt.y : ℚ))) ≤ _
    rw [max_eq_right (by linarith : (0.0 : ℚ) ≤ min (bboxInt.height : ℚ) ((frame.rows : ℚ) - max 0.0 (bboxInt.y : ℚ)))]
    have := min_le_right (bboxInt.height : ℚ) ((frame.rows : ℚ) - max 0.0 (bboxInt.y : ℚ))
    linarith

/-- A tick that reads a non-empty frame while the camera runs. -/
theorem timerPreview_run (P : Platform) (env : TickEnv) (s : State) (frame : Frame)
    (hrun : s.g_running = true) (hread : env.read = some frame) (hne : frame.empty = false) :
    timerPreview P env s = .ok (trackerUpdate env frame
      (if s.g_autoMode && !s.g_tracking then autoInit P env frame { s with g_frame := frame }
       else { s with g_frame := frame })) := by
  simp [timerPreview, hrun, hread, hne]

/-- The tracker creation of the auto-init block leaves an Idle session Idle or makes it Active. -/
theorem autoInitTracker_idle_or_active (P : Platform) (env : TickEnv) (r2d : Rect2d) (s : State)
    (hidle : s.Idle) :
    (autoInitTracker P env r2d s).Idle ∨ (autoInitTracker P env r2d s).Active := by
  obtain ⟨h1, h2⟩ := hidle
  unfold autoInitTracker
  cases hm : makeTracker P env.csrt env.kcf with
  | none => exact Or.inl ⟨h1, h2⟩
  | some t =>
    cases hi : env.init with
    | ok u => right; simp [State.Active, State.storeTracker, h2]
    | error e => left; exact ⟨h1, h2⟩

/-- The auto-init block leaves an Idle session Idle or makes it Active. -/
theorem autoInit_idle_or_active (P : Platform) (env : TickEnv) (frame : Frame) (s : State)
    (hidle : s.Idle) :
    (autoInit P env frame s).Idle ∨ (autoInit P env frame s).Active := by
  unfold autoInit
  by_cases hc : (selectCandidate P env frame s).bestScore > 0.0 ∧
      (selectCandidate P env frame s).bestRect.area > 0
  · simp only [hc, and_self, if_true]
    exact autoInitTracker_idle_or_active P env _ s hidle
  · simp only [hc, if_false]
    exact Or.inl hidle

/-- The tracker creation of the auto-init block changes neither flag, handle nor box when no
tracker can be made or `init` throws. -/
theorem autoInitTracker_fail (P : Platform) (env : TickEnv) (r2d : Rect2d) (s : State)
    (hfail : makeTracker P env.csrt env.kcf = none ∨ ∃ e, env.init = .error e) :
    (autoInitTracker P env r2d s).g_tracking = s.g_tracking ∧
    (autoInitTracker P env r2d s).g_tracker = s.g_tracker ∧
    (autoInitTracker P env r2d s).g_bbox = s.g_bbox := by
  unfold autoInitTracker
  cases hm : makeTracker P env.csrt env.kcf with
  | none => simp
  | some t =>
    rcases hfail with h | ⟨e, he⟩
    · rw [hm] at h; cases h
    · simp [he]

/-- The auto-init block changes neither flag, handle nor box when no tracker can be made or
`init` throws. -/
theorem autoInit_fail (P : Platform) (env : TickEnv) (frame : Frame) (s : State)
    (hfail : makeTracker P env.csrt env.kcf = none ∨ ∃ e, env.init = .error e) :
    (autoInit P env frame s).g_tracking = s.g_tracking ∧
    (autoInit P env frame s).g_tracker = s.g_tracker ∧
    (autoInit P env frame s).g_bbox = s.g_bbox := by
  unfold autoInit
  by_cases hc : (selectCandidate P env frame s).bestScore > 0.0 ∧
      (selectCandidate P env frame s).bestRect.area > 0
  · simp only [hc, and_self, if_true]
    exact autoInitTracker_fail P env _ s hfail
  · simp [hc]

/-! ## Facts about the candidate selection -/

/-- The aspect test in terms of the ratio height/width, for a rectangle of positive width. -/
theorem aspectOutside_iff (r : Rect) (hw : 0 < r.width) :
    aspectOutside r = true ↔
      (r.height : ℚ) / (r.width : ℚ) < 1 ∨ (r.height : ℚ) / (r.width : ℚ) > 5 := by
  have hwq : (0 : ℚ) < (r.width : ℚ) := by exact_mod_cast hw
  unfold aspectOutside
  by_cases hh : r.height > 0
  · simp only [hh, if_true, hw.ne', if_false, minAspect, maxAspect, Bool.or_eq_true,
      decide_eq_true_eq]
    norm_num
  · have hhq : (r.height : ℚ) ≤ 0 := by exact_mod_cast not_lt.mp hh
    have hq : (r.height : ℚ) / (r.width : ℚ) ≤ 0 := div_nonpos_of_nonpos_of_nonneg hhq hwq.le
    simp only [hh, if_false, minAspect, maxAspect]
    constructor
    · intro _; left; linarith
    · intro _; norm_num

/-- A rectangle that passes the aspect test has positive width and height. -/
theorem aspect_inside_pos (r : Rect) (h : aspectOutside r = false) :
    0 < r.width ∧ 0 < r.height := by
  unfold aspectOutside at h
  by_cases hh : r.height > 0
  · by_cases hw0 : r.width = 0
    · simp [hh, hw0] at h
    · simp only [hh, if_true, hw0, if_false, minAspect, maxAspect, Bool.or_eq_false_iff,
        decide_eq_false_iff_not, not_lt] at h
      refine ⟨?_, hh⟩
      by_contra hneg
      have hwneg : (r.width : ℚ) < 0 := by
        have : r.width < 0 := lt_of_le_of_ne (not_lt.mp hneg) hw0
        exact_mod_cast this
      have hhq : (0 : ℚ) < (r.height : ℚ) := by exact_mod_cast hh
      have : (r.height : ℚ) / (r.width : ℚ) < 0 := div_neg_of_pos_of_neg hhq hwneg
      have h1 := h.1
      norm_num at h1
      linarith
  · simp only [hh, if_false, minAspect, maxAspect] at h
    norm_num at h

/-- The threshold `minArea` is at least 500. -/
theorem minArea_ge (g : ℚ) : 500 ≤ minArea g := by
  unfold minArea
  exact le_max_of_le_right (by norm_num)

/-- The filters spelled out: for a contour whose bounding rectangle has positive width and whose
convex hull is at least as large as the contour, rejection is the disjunction of the four tests. -/
theorem contourRejected_iff (frame : Frame) (g : ℚ) (c : Contour)
    (hw : 0 < c.rect.width) (hhull : c.area ≤ c.hullArea) :
    contourRejected frame g c = true ↔
      c.area < max g 500 ∨
      c.area / ((frame.cols * frame.rows : Int) : ℚ) > 0.9 ∨
      ((c.rect.height : ℚ) / (c.rect.width : ℚ) < 1 ∨
        (c.rect.height : ℚ) / (c.rect.width : ℚ) > 5) ∨
      c.area / c.hullArea < 0.4 := by
  have hmin : minArea g = max g 500 := by unfold minArea; norm_num
  unfold contourRejected
  rw [← aspectOutside_iff c.rect hw, ← hmin]
  by_cases h1 : c.area < minArea g
  · simp [h1]
  · have h500 : 500 ≤ c.area := le_trans (minArea_ge g) (not_lt.mp h1)
    have hsol : solidity c = c.area / c.hullArea := by
      unfold solidity
      rw [if_pos]
      have : (1e-6 : ℚ) < 500 := by norm_num
      linarith
    simp only [h1, if_false, maxAreaRatio, minSolidity, hsol, false_or]
    by_cases h2 : c.area / ((frame.cols * frame.rows : Int) : ℚ) > 0.9
    · simp [h2]
    · simp only [h2, if_false, false_or]
      cases h3 : aspectOutside c.rect with
      | true => simp
      | false =>
        by_cases h4 : c.area / c.hullArea < 0.4
        · simp [h4]
        · simp [h4]

/-- A non-empty frame has a positive number of pixels. -/
theorem frame_area_pos (frame : Frame) (hne : frame.empty = false) :
    (0 : ℚ) < ((frame.cols * frame.rows : Int) : ℚ) := by
  simp only [Frame.empty, Bool.or_eq_false_iff, decide_eq_false_iff_not, not_le] at hne
  have : 0 < frame.cols * frame.rows := mul_pos hne.1 hne.2
  exact_mod_cast this

/-- The score of a contour of positive area in a non-empty frame is positive. -/
theorem contourScore_pos (P : Platform) (frame : Frame) (pc : ℚ × ℚ) (c : Contour)
    (hne : frame.empty = false) (harea : 0 < c.area) :
    0 < contourScore P frame pc c := by
  have hA := frame_area_pos frame hne
  have h1 : 0 < c.area / ((frame.cols * frame.rows : Int) : ℚ) := div_pos harea hA
  have h2 : (0 : ℚ) ≤ 1.0 - (if frameDiag P frame = 0 then (1.0 : ℚ)
      else min 1.0 (contourDist P pc c / frameDiag P frame)) := by
    split
    · norm_num
    · have := min_le_left (1.0 : ℚ) (contourDist P pc c / frameDiag P frame)
      linarith
  unfold contourScore
  have h3 : (0 : ℚ) < 0.6 := by norm_num
  have h4 : (0 : ℚ) < 0.4 := by norm_num
  have := mul_pos h3 h1
  have := mul_nonneg h4.le h2
  linarith

/-- A contour that passes the filters has area at least 500. -/
theorem area_of_not_rejected (frame : Frame) (g : ℚ) (c : Contour)
    (h : contourRejected frame g c = false) : 500 ≤ c.area := by
  by_contra hlt
  have h1 : c.area < minArea g := lt_of_lt_of_le (not_le.mp hlt) (minArea_ge g)
  simp [contourRejected, h1] at h

/-- A contour that passes the filters has a bounding rectangle of positive width and height. -/
theorem rect_of_not_rejected (frame : Frame) (g : ℚ) (c : Contour)
    (h : contourRejected frame g c = false) : 0 < c.rect.width ∧ 0 < c.rect.height := by
  apply aspect_inside_pos
  cases ha : aspectOutside c.rect with
  | false => rfl
  | true =>
    unfold contourRejected at h
    simp only [ha, if_true] at h
    split at h
    · cases h
    · split at h <;> cases h

/-- The overlap loop never lowers the score. -/
theorem hogBoost_ge (bestRect : Rect) (hogDet : List Rect) (bestScore : ℚ) :
    bestScore ≤ hogBoost bestRect hogDet bestScore := by
  induction hogDet with
  | nil => simp [hogBoost]
  | cons hr rest ih =>
    unfold hogBoost
    split
    · norm_num
    · exact ih

/-- With a positive contour score the HOG step keeps the rectangle and does not lower the score. -/
theorem hogStage_of_pos (hogDet : List Rect) (best : Best) (hpos : 0 < best.bestScore) :
    (hogStage hogDet best).bestRect = best.bestRect ∧
    best.bestScore ≤ (hogStage hogDet best).bestScore := by
  unfold hogStage
  have hn : ¬ (best.bestScore ≤ 0.0) := by norm_num; exact hpos
  simp only [hn, if_false]
  exact ⟨trivial, hogBoost_ge _ _ _⟩

/-- A contour that passes the filters and beats the best score so far becomes the best. -/
theorem contourStep_take (P : Platform) (frame : Frame) (g : ℚ) (pc : ℚ × ℚ) (b : Best)
    (c : Contour) (hacc : contourRejected frame g c = false)
    (hs : contourScore P frame pc c > b.bestScore) :
    contourStep P frame g pc b c = ⟨c.rect, contourScore P frame pc c⟩ := by
  simp [contourStep, hacc, hs]

/-- A contour that does not beat the best score so far changes nothing. -/
theorem contourStep_keep (P : Platform) (frame : Frame) (g : ℚ) (pc : ℚ × ℚ) (b : Best)
    (c : Contour) (hs : ¬ contourScore P frame pc c > b.bestScore) :
    contourStep P frame g pc b c = b := by
  unfold contourStep
  split
  · rfl
  · simp only [hs, if_false]

/-- The contour loop from any starting pair: either nothing beats the start, or the result is the
first survivor of maximal score. -/
theorem foldl_contourStep (P : Platform) (frame : Frame) (g : ℚ) (pc : ℚ × ℚ)
    (contours : List Contour) (b : Best) :
    (contours.foldl (contourStep P frame g pc) b = b ∧
      ∀ d ∈ contours.filter (fun c => !contourRejected frame g c),
        contourScore P frame pc d ≤ b.bestScore) ∨
    (∃ pre c post,
      contours.filter (fun c => !contourRejected frame g c) = pre ++ c :: post ∧
      contours.foldl (contourStep P frame g pc) b = ⟨c.rect, contourScore P frame pc c⟩ ∧
      b.bestScore < contourScore P frame pc c ∧
      (∀ d ∈ pre, contourScore P frame pc d < contourScore P frame pc c) ∧
      (∀ d ∈ post, contourScore P frame pc d ≤ contourScore P frame pc c)) := by
  induction contours generalizing b with
  | nil => left; simp
  | cons a t ih =>
    simp only [List.foldl_cons]
    cases hr : contourRejected frame g a with
    | true =>
      have hstep : contourStep P frame g pc b a = b := by simp [contourStep, hr]
      have hfil : (a :: t).filter (fun c => !contourRejected frame g c) =
          t.filter (fun c => !contourRejected frame g c) := by simp [List.filter_cons, hr]
      rw [hstep, hfil]
      exact ih b
    | false =>
      have hfil : (a :: t).filter (fun c => !contourRejected frame g c) =
          a :: t.filter (fun c => !contourRejected frame g c) := by simp [List.filter_cons, hr]
      rw [hfil]
      by_cases hs : contourScore P frame pc a > b.bestScore
      · have hstep : contourStep P frame g pc b a = ⟨a.rect, contourScore P frame pc a⟩ := by
          simp [contourStep, hr, hs]
        rw [hstep]
        right
        rcases ih ⟨a.rect, contourScore P frame pc a⟩ with ⟨he, hall⟩ | ⟨pre, c, post, hsp, he, hlt, hpre, hpost⟩
        · exact ⟨[], a, _, rfl, he, hs, by simp, hall⟩
        · refine ⟨a :: pre, c, post, by simp [hsp], he, lt_trans hs hlt, ?_, hpost⟩
          intro d hd
          rcases List.mem_cons.mp hd with rfl | hd
          · exact hlt
          · exact hpre d hd
      · have hstep : contourStep P frame g pc b a = b := by simp [contourStep, hr, hs]
        rw [hstep]
        rcases ih b with ⟨he, hall⟩ | ⟨pre, c, post, hsp, he, hlt, hpre, hpost⟩
        · left
          refine ⟨he, ?_⟩
          intro d hd
          rcases List.mem_cons.mp hd with rfl | hd
          · exact not_lt.mp hs
          · exact hall d hd
        · right
          refine ⟨a :: pre, c, post, by simp [hsp], he, hlt, ?_, hpost⟩
          intro d hd
          rcases List.mem_cons.mp hd with rfl | hd
          · exact lt_of_le_of_lt (not_lt.mp hs) hlt
          · exact hpre d hd

/-- When the contour loop ends on a contour rectangle of positive size with a positive score, that
rectangle is the candidate of the tick and, clamped, the region the tracker is created with. -/
theorem autoInit_of_contour (P : Platform) (env : TickEnv) (frame : Frame) (s : State)
    (r : Rect) (sc : ℚ)
    (hloop : contourLoop P frame s.g_minContourArea (prefCenter frame s.g_tracking s.g_bbox)
      env.contours = ⟨r, sc⟩)
    (hsc : 0 < sc) (hrect : 0 < r.width ∧ 0 < r.height) :
    (selectCandidate P env frame s).bestRect = r ∧
    0 < (selectCandidate P env frame s).bestScore ∧
    autoInit P env frame s = autoInitTracker P env (clampInit frame r.toRect2d) s := by
  have hh := hogStage_of_pos env.hogDet ⟨r, sc⟩ hsc
  have hsel : selectCandidate P env frame s = hogStage env.hogDet ⟨r, sc⟩ := by
    unfold selectCandidate
    rw [hloop]
  have hpos : 0 < (selectCandidate P env frame s).bestScore := by
    rw [hsel]
    exact lt_of_lt_of_le hsc hh.2
  have hr : (selectCandidate P env frame s).bestRect = r := by
    rw [hsel]
    exact hh.1
  refine ⟨hr, hpos, ?_⟩
  unfold autoInit
  have harea : (selectCandidate P env frame s).bestRect.area > 0 := by
    rw [hr]
    exact mul_pos hrect.1 hrect.2
  have hcond : (selectCandidate P env frame s).bestScore > 0.0 ∧
      (selectCandidate P env frame s).bestRect.area > 0 := ⟨by norm_num; exact hpos, harea⟩
  rw [if_pos hcond, hr]

/-- The score of the code is the score of the specification whenever the diagonal is not zero. -/
theorem contourScore_eq_specScore (P : Platform) (frame : Frame) (pc : ℚ × ℚ) (c : Contour)
    (hdiag : P.sqrt ((frame.cols : ℚ) ^ 2 + (frame.rows : ℚ) ^ 2) ≠ 0) :
    contourScore P frame pc c = specScore P frame pc c := by
  have e1 : ((frame.cols * frame.cols + frame.rows * frame.rows : Int) : ℚ) =
      (frame.cols : ℚ) ^ 2 + (frame.rows : ℚ) ^ 2 := by push_cast; ring
  have e2 : ((frame.cols * frame.rows : Int) : ℚ) = (frame.cols : ℚ) * (frame.rows : ℚ) := by
    push_cast; ring
  have e3 : ((c.rect.x : ℚ) + (c.rect.width : ℚ) / 2.0 - pc.1) *
      ((c.rect.x : ℚ) + (c.rect.width : ℚ) / 2.0 - pc.1) +
      ((c.rect.y : ℚ) + (c.rect.height : ℚ) / 2.0 - pc.2) *
      ((c.rect.y : ℚ) + (c.rect.height : ℚ) / 2.0 - pc.2) =
      ((c.rect.x : ℚ) + (c.rect.width : ℚ) / 2 - pc.1) ^ 2 +
      ((c.rect.y : ℚ) + (c.rect.height : ℚ) / 2 - pc.2) ^ 2 := by norm_num; ring
  have hd : frameDiag P frame ≠ 0 := by
    unfold frameDiag
    rw [e1]
    exact hdiag
  unfold contourScore specScore
  simp only [hd, if_false]
  unfold frameDiag contourDist norm
  simp only [e1, e2, e3]
  norm_num

/-- The preferred centre used by the auto-init block, which runs with the flag clear. -/
theorem prefCenter_idle (frame : Frame) (s : State) (h : s.g_tracking = false) :
    prefCenter frame s.g_tracking s.g_bbox = ((frame.cols : ℚ) / 2, (frame.rows : ℚ) / 2) := by
  unfold prefCenter
  simp only [h, Bool.false_and, if_false]
  norm_num

/-- The sample square root on a natural number. -/
theorem samplePlatform_sqrt (q : ℚ) (n k : ℕ) (hq : q = (n : ℚ))
    (h1 : k * k ≤ n) (h2 : n < (k + 1) * (k + 1)) : samplePlatform.sqrt q = (k : ℚ) := by
  subst hq
  simp only [samplePlatform, Nat.floor_natCast]
  exact congrArg _ (Nat.eq_sqrt.mpr ⟨h1, h2⟩).symm

/-- The sample square root is monotone. -/
theorem samplePlatform_mono (a b : ℚ) (_ : 0 ≤ a) (hab : a ≤ b) :
    samplePlatform.sqrt a ≤ samplePlatform.sqrt b :=
  Nat.cast_le.mpr (Nat.sqrt_le_sqrt (Nat.floor_mono hab))

/-- The sample Idle state has the default minimum contour area. -/
theorem sampleIdle_minContourArea : sampleIdle.g_minContourArea = 500 := by
  norm_num [sampleIdle, State.initial]

/-- The centred sample contour passes the filters. -/
theorem sampleContour_accepted : contourRejected ⟨640, 480⟩ 500 sampleContour = false := by
  norm_num [contourRejected, sampleContour, minArea, maxAreaRatio, aspectOutside, minAspect,
    maxAspect, solidity, minSolidity]

/-- The far sample contour passes the filters. -/
theorem sampleContourFar_accepted : contourRejected ⟨640, 480⟩ 500 sampleContourFar = false := by
  norm_num [contourRejected, sampleContourFar, minArea, maxAreaRatio, aspectOutside, minAspect,
    maxAspect, solidity, minSolidity]

/-- The centred sample contour is at distance 0 from the centre of a 640x480 frame. -/
theorem sampleContour_dist :
    contourDist samplePlatform (prefCenter ⟨640, 480⟩ sampleIdle.g_tracking sampleIdle.g_bbox)
      sampleContour = 0 := by
  unfold contourDist norm
  rw [samplePlatform_sqrt _ 0 0 (by norm_num [prefCenter, sampleContour, sampleIdle, State.initial])
    (by norm_num) (by norm_num)]
  norm_num

/-- The far sample contour is at distance 223 (rounded down) from the centre of a 640x480 frame. -/
theorem sampleContourFar_dist :
    contourDist samplePlatform (prefCenter ⟨640, 480⟩ sampleIdle.g_tracking sampleIdle.g_bbox)
      sampleContourFar = 223 := by
  unfold contourDist norm
  rw [samplePlatform_sqrt _ 50000 223
    (by norm_num [prefCenter, sampleContourFar, sampleIdle, State.initial])
    (by norm_num) (by norm_num)]
  norm_num

/-! ## The claims -/

/-- C1: after a tick in which the tracker's `update` returns `ok = true` with any integer box,
on any non-empty frame, either the session is Idle (flag clear, tracker released) or the stored
box `g_bbox` has width > 1, height > 1, 16 ≤ area ≤ 0.95 × frame area, x ≥ 0, y ≥ 0,
x + width ≤ cols and y + height ≤ rows. -/
theorem C1_tick_box_valid_or_idle (P : Platform) (env : TickEnv) (s : State) (frame : Frame)
    (bboxInt : Rect) (hwf : s.Idle ∨ s.Active)
    (hrun : s.g_running = true) (hread : env.read = some frame) (hne : frame.empty = false)
    (hupd : env.update = .ok (true, bboxInt)) :
    ∃ s', timerPreview P env s = .ok s' ∧ (s'.Idle ∨ s'.g_bbox.ValidIn frame) := by
  refine ⟨_, timerPreview_run P env s frame hrun hread hne, ?_⟩
  -- the state in which the update block is entered is Idle or Active
  have h2 : ∀ s2 : State, (s2.Idle ∨ s2.Active) →
      ((trackerUpdate env frame s2).Idle ∨ (trackerUpdate env frame s2).g_bbox.ValidIn frame) := by
    intro s2 hs2
    rcases hs2 with hi | ha
    · left
      have hskip : (s2.g_tracking && s2.g_tracker.isSome) = false := by simp [hi.1]
      rw [trackerUpdate_skip env frame s2 hskip]
      exact hi
    · rw [trackerUpdate_ok env frame s2 bboxInt ha hupd]
      cases hv : bboxInvalid frame (clampUpdate frame bboxInt) with
      | true => left; simpa using lost_idle s2
      | false => right; simpa using clampUpdate_valid frame bboxInt hv
  apply h2
  by_cases hauto : (s.g_autoMode && !s.g_tracking) = true
  · rw [if_pos hauto]
    have hidle : s.Idle := by
      rcases hwf with hi | ha
      · exact hi
      · simp [ha.1] at hauto
    exact autoInit_idle_or_active P env frame _ ⟨hidle.1, hidle.2⟩
  · rw [if_neg hauto]
    rcases hwf with hi | ha
    · exact Or.inl ⟨hi.1, hi.2⟩
    · exact Or.inr ⟨ha.1, ha.2⟩

/-- Witness of C1: an Active session on a 640x480 frame, the tracker reporting (-5, 10, 100, 200). -/
theorem C1_tick_box_valid_or_idle_witness :
    ∃ s', timerPreview samplePlatform sampleTickOk sampleActive = .ok s' ∧
      (s'.Idle ∨ s'.g_bbox.ValidIn ⟨640, 480⟩) :=
  C1_tick_box_valid_or_idle samplePlatform sampleTickOk sampleActive ⟨640, 480⟩ ⟨-5, 10, 100, 200⟩
    (Or.inr ⟨rfl, rfl⟩) rfl rfl (by decide) rfl

/-- C2: when the update block runs (flag and handle set) and the tracker returns `ok = true`
with any box, on any frame, the session becomes Idle exactly when the clamped box has
width ≤ 1, or height ≤ 1, or area < 16, or area > 0.95 × frame area; otherwise the session stays
Active with the same tracker and the stored box `g_bbox` is the clamped box. -/
theorem C2_update_lost_iff_invalid (env : TickEnv) (frame : Frame) (s : State) (bboxInt : Rect)
    (hact : s.Active) (hupd : env.update = .ok (true, bboxInt)) :
    ((trackerUpdate env frame s).Idle ↔
      ((clampUpdate frame bboxInt).width ≤ 1 ∨ (clampUpdate frame bboxInt).height ≤ 1 ∨
        (clampUpdate frame bboxInt).width * (clampUpdate frame bboxInt).height < 16 ∨
        (clampUpdate frame bboxInt).width * (clampUpdate frame bboxInt).height >
          0.95 * ((frame.cols : ℚ) * (frame.rows : ℚ)))) ∧
    (¬ ((clampUpdate frame bboxInt).width ≤ 1 ∨ (clampUpdate frame bboxInt).height ≤ 1 ∨
        (clampUpdate frame bboxInt).width * (clampUpdate frame bboxInt).height < 16 ∨
        (clampUpdate frame bboxInt).width * (clampUpdate frame bboxInt).height >
          0.95 * ((frame.cols : ℚ) * (frame.rows : ℚ))) →
      (trackerUpdate env frame s).Active ∧
      (trackerUpdate env frame s).g_tracker = s.g_tracker ∧
      (trackerUpdate env frame s).g_bbox = clampUpdate frame bboxInt) := by
  rw [trackerUpdate_ok env frame s bboxInt hact hupd, ← bboxInvalid_iff]
  cases hv : bboxInvalid frame (clampUpdate frame bboxInt) with
  | true =>
    refine ⟨⟨fun _ => rfl, fun _ => ?_⟩, fun h => absurd rfl h⟩
    simpa using lost_idle s
  | false =>
    refine ⟨⟨fun h => ?_, fun h => by cases h⟩, fun _ => ?_⟩
    · have h1 : s.g_tracking = false := by simpa [State.Idle] using h.1
      rw [hact.1] at h1
      cases h1
    · simpa [State.Active] using hact

/-- Witness of C2: an Active session on a 640x480 frame, the tracker reporting (-5, 10, 100, 200);
the box is accepted and stored as (0, 10, 100, 200). -/
theorem C2_update_lost_iff_invalid_witness :
    (trackerUpdate sampleTickOk ⟨640, 480⟩ sampleActive).Active ∧
    (trackerUpdate sampleTickOk ⟨640, 480⟩ sampleActive).g_tracker = some ⟨7⟩ ∧
    (trackerUpdate sampleTickOk ⟨640, 480⟩ sampleActive).g_bbox = ⟨0, 10, 100, 200⟩ := by
  have h := (C2_update_lost_iff_invalid sampleTickOk ⟨640, 480⟩ sampleActive ⟨-5, 10, 100, 200⟩
    ⟨rfl, rfl⟩ rfl).2 (by norm_num [clampUpdate])
  refine ⟨h.1, h.2.1, h.2.2.trans ?_⟩
  norm_num [clampUpdate]

/-- C3: when the session is Active and the tracker's `update` returns false or throws, the tick
returns normally (no exception leaves it) with the session Idle (flag clear, handle released, the
instance destroyed) and the previously stored box still in `g_bbox`. -/
theorem C3_update_failure_goes_idle (P : Platform) (env : TickEnv) (s : State) (frame : Frame)
    (t : Tracker) (hrun : s.g_running = true) (hread : env.read = some frame)
    (hne : frame.empty = false) (htracking : s.g_tracking = true) (htracker : s.g_tracker = some t)
    (hupd : (∃ e, env.update = .error e) ∨ (∃ b, env.update = .ok (false, b))) :
    ∃ s', timerPreview P env s = .ok s' ∧
      s'.g_tracking = false ∧ s'.g_tracker = none ∧ s'.g_bbox = s.g_bbox ∧
      s'.trace = s.trace ++ [Event.trackerDestroyed t] := by
  refine ⟨_, timerPreview_run P env s frame hrun hread hne, ?_⟩
  have hauto : ¬ ((s.g_autoMode && !s.g_tracking) = true) := by simp [htracking]
  rw [if_neg hauto]
  have hact : State.Active { s with g_frame := frame } := ⟨htracking, by simp [htracker]⟩
  rw [trackerUpdate_fail env frame _ hact hupd]
  exact ⟨lost_g_tracking _, lost_g_tracker _, lost_g_bbox _, lost_trace _ t htracker⟩

/-- Witness of C3: an Active session whose tracker throws in `update`. -/
theorem C3_update_failure_goes_idle_witness :
    ∃ s', timerPreview samplePlatform sampleTickThrow sampleActive = .ok s' ∧
      s'.g_tracking = false ∧ s'.g_tracker = none ∧ s'.g_bbox = sampleActive.g_bbox ∧
      s'.trace = sampleActive.trace ++ [Event.trackerDestroyed ⟨7⟩] :=
  C3_update_failure_goes_idle samplePlatform sampleTickThrow sampleActive ⟨640, 480⟩ ⟨7⟩
    rfl rfl (by decide) rfl rfl (Or.inl ⟨Exn.thrown, rfl⟩)

/-- C4, as stated, fails: clamping the init region (x=-10, y=5, w=50, h=50) against a 100x100
frame does not yield (x=0, y=5, w=40, h=50). -/
theorem C4_counterexample :
    clampInit ⟨100, 100⟩ ⟨-10, 5, 50, 50⟩ ≠ ⟨0, 5, 40, 50⟩ := by
  norm_num [clampInit]

/-- C4, amended: clamping the init region (x=-10, y=5, w=50, h=50) against a 100x100 frame
yields (x=0, y=5, w=50, h=50): x is raised to 0 and the width, capped only by the frame width
minus the new x, is kept. -/
theorem C4_init_clamp_example :
    clampInit ⟨100, 100⟩ ⟨-10, 5, 50, 50⟩ = ⟨0, 5, 50, 50⟩ := by
  norm_num [clampInit]

/-- C6: in a tick that starts Idle, if `makeTracker` returns null or the tracker's `init`
throws, the tick returns normally with the session still Idle, the tracker handle still null and
`g_bbox` unchanged. -/
theorem C6_auto_init_fails_silently (P : Platform) (env : TickEnv) (s : State) (frame : Frame)
    (hrun : s.g_running = true) (hread : env.read = some frame) (hne : frame.empty = false)
    (hidle : s.Idle)
    (hfail : makeTracker P env.csrt env.kcf = none ∨ ∃ e, env.init = .error e) :
    ∃ s', timerPreview P env s = .ok s' ∧ s'.Idle ∧ s'.g_bbox = s.g_bbox := by
  refine ⟨_, timerPreview_run P env s frame hrun hread hne, ?_⟩
  have h2 : ∀ s2 : State, s2.Idle → s2.g_bbox = s.g_bbox →
      (trackerUpdate env frame s2).Idle ∧ (trackerUpdate env frame s2).g_bbox = s.g_bbox := by
    intro s2 hi hb
    have hskip : (s2.g_tracking && s2.g_tracker.isSome) = false := by simp [hi.1]
    rw [trackerUpdate_skip env frame s2 hskip]
    exact ⟨hi, hb⟩
  by_cases hauto : (s.g_autoMode && !s.g_tracking) = true
  · rw [if_pos hauto]
    obtain ⟨a1, a2, a3⟩ := autoInit_fail P env frame { s with g_frame := frame } hfail
    exact h2 _ ⟨a1.trans hidle.1, a2.trans hidle.2⟩ a3
  · rw [if_neg hauto]
    exact h2 _ ⟨hidle.1, hidle.2⟩ rfl

/-- Witness of C6: an Idle session in auto mode, a detector box as candidate, and no tracker
implementation available. -/
theorem C6_auto_init_fails_silently_witness :
    ∃ s', timerPreview samplePlatform sampleTickNoTracker sampleIdle = .ok s' ∧
      s'.Idle ∧ s'.g_bbox = sampleIdle.g_bbox :=
  C6_auto_init_fails_silently samplePlatform sampleTickNoTracker sampleIdle ⟨640, 480⟩
    rfl rfl (by decide) ⟨rfl, rfl⟩ (Or.inl rfl)

/-- C7: a contour (with a bounding rectangle of positive width and a convex hull at least as
large as the contour) is rejected exactly when its area is below the minimum-area threshold
(`max(g_minContourArea, 500)`, which is 500 by default), or area / frame area > 0.9, or the
aspect ratio height/width is outside [1.0, 5.0], or area / hull area < 0.4; it is kept exactly
when all four bounds hold inclusively. -/
theorem C7_contour_filter (frame : Frame) (g : ℚ) (c : Contour)
    (hw : 0 < c.rect.width) (hhull : c.area ≤ c.hullArea) :
    (contourRejected frame g c = true ↔
      c.area < max g 500 ∨
      c.area / ((frame.cols * frame.rows : Int) : ℚ) > 0.9 ∨
      ((c.rect.height : ℚ) / (c.rect.width : ℚ) < 1 ∨
        (c.rect.height : ℚ) / (c.rect.width : ℚ) > 5) ∨
      c.area / c.hullArea < 0.4) ∧
    (contourRejected frame g c = false ↔
      max g 500 ≤ c.area ∧
      c.area / ((frame.cols * frame.rows : Int) : ℚ) ≤ 0.9 ∧
      1 ≤ (c.rect.height : ℚ) / (c.rect.width : ℚ) ∧
      (c.rect.height : ℚ) / (c.rect.width : ℚ) ≤ 5 ∧
      0.4 ≤ c.area / c.hullArea) ∧
    max State.initial.g_minContourArea 500 = 500 := by
  have h := contourRejected_iff frame g c hw hhull
  refine ⟨h, ?_, by norm_num [State.initial]⟩
  rw [← Bool.not_eq_true, h]
  push_neg
  tauto

/-- Witness of C7: the contour `sampleContour` passes the filters on a 640x480 frame. -/
theorem C7_contour_filter_witness : contourRejected ⟨640, 480⟩ 500 sampleContour = false :=
  (C7_contour_filter ⟨640, 480⟩ 500 sampleContour (by decide)
    (by norm_num [sampleContour])).2.1.mpr (by norm_num [sampleContour])

/-- C8: with the minimum-area threshold at 500 and a mask with a single contour, on a non-empty
frame: a contour of area 499 is rejected and the contour step yields nothing; a contour of area
500 with area ratio at most 0.9, aspect ratio in [1, 5] and solidity at least 0.4 passes the
filters, and its bounding rectangle is the candidate, the region (clamped) the tracker is created
with. The largest-contour selection of `MyCamTracker.cpp` has the same boundary. -/
theorem C8_area_threshold_boundary (P : Platform) (env : TickEnv) (frame : Frame) (s : State)
    (c : Contour) (hne : frame.empty = false) (hg : s.g_minContourArea = 500)
    (hone : env.contours = [c]) :
    (c.area = 499 →
      contourRejected frame s.g_minContourArea c = true ∧
      contourLoop P frame s.g_minContourArea (prefCenter frame s.g_tracking s.g_bbox)
        env.contours = ⟨Rect.zero, 0⟩ ∧
      largestContour s.g_minContourArea env.contours = (0, Rect.zero)) ∧
    (c.area = 500 → 0 < c.rect.width → c.area ≤ c.hullArea →
      c.area / ((frame.cols * frame.rows : Int) : ℚ) ≤ 0.9 →
      1 ≤ (c.rect.height : ℚ) / (c.rect.width : ℚ) →
      (c.rect.height : ℚ) / (c.rect.width : ℚ) ≤ 5 →
      0.4 ≤ c.area / c.hullArea →
      contourRejected frame s.g_minContourArea c = false ∧
      (selectCandidate P env frame s).bestRect = c.rect ∧
      autoInit P env frame s = autoInitTracker P env (clampInit frame c.rect.toRect2d) s ∧
      largestContour s.g_minContourArea env.contours = (500, c.rect)) := by
  constructor
  · intro ha
    have hrej : contourRejected frame s.g_minContourArea c = true := by
      have : c.area < minArea s.g_minContourArea :=
        lt_of_lt_of_le (by rw [ha]; norm_num) (minArea_ge _)
      simp [contourRejected, this]
    refine ⟨hrej, ?_, ?_⟩
    · rw [hone]
      simp only [contourLoop, List.foldl_cons, List.foldl_nil, contourStep, hrej, if_true]
      norm_num
    · rw [hone, hg]
      simp only [largestContour, List.foldl_cons, List.foldl_nil, largestContourStep, ha]
      norm_num
  · intro ha hw hhull hratio hasp1 hasp5 hsol
    have hacc : contourRejected frame s.g_minContourArea c = false := by
      rw [← Bool.not_eq_true, contourRejected_iff frame _ c hw hhull, hg, ha]
      rw [ha] at hratio hsol
      push_neg
      exact ⟨by norm_num, hratio, ⟨hasp1, hasp5⟩, hsol⟩
    have hpos : 0 < contourScore P frame (prefCenter frame s.g_tracking s.g_bbox) c :=
      contourScore_pos P frame _ c hne (by rw [ha]; norm_num)
    have hloop : contourLoop P frame s.g_minContourArea (prefCenter frame s.g_tracking s.g_bbox)
        env.contours =
        ⟨c.rect, contourScore P frame (prefCenter frame s.g_tracking s.g_bbox) c⟩ := by
      rw [hone]
      have h0 : contourScore P frame (prefCenter frame s.g_tracking s.g_bbox) c > 0.0 := by
        norm_num; exact hpos
      simp only [contourLoop, List.foldl_cons, List.foldl_nil, contourStep, hacc, h0, if_true]
      simp
    obtain ⟨h1, _, h3⟩ := autoInit_of_contour P env frame s c.rect _ hloop hpos
      (rect_of_not_rejected frame _ c hacc)
    refine ⟨hacc, h1, h3, ?_⟩
    rw [hone, hg]
    simp only [largestContour, List.foldl_cons, List.foldl_nil, largestContourStep, ha]
    norm_num

/-- Witness of C8: the single contour `sampleContour`, of area 500, on a 640x480 frame. -/
theorem C8_area_threshold_boundary_witness :
    contourRejected ⟨640, 480⟩ sampleIdle.g_minContourArea sampleContour = false ∧
    (selectCandidate samplePlatform sampleTickContour ⟨640, 480⟩ sampleIdle).bestRect =
      sampleContour.rect ∧
    autoInit samplePlatform sampleTickContour ⟨640, 480⟩ sampleIdle =
      autoInitTracker samplePlatform sampleTickContour
        (clampInit ⟨640, 480⟩ sampleContour.rect.toRect2d) sampleIdle ∧
    largestContour sampleIdle.g_minContourArea sampleTickContour.contours =
      (500, sampleContour.rect) :=
  (C8_area_threshold_boundary samplePlatform sampleTickContour ⟨640, 480⟩ sampleIdle sampleContour
    (by decide) (by norm_num [sampleIdle, State.initial]) rfl).2 rfl (by decide)
    (by norm_num [sampleContour]) (by norm_num [sampleContour]) (by norm_num [sampleContour])
    (by norm_num [sampleContour]) (by norm_num [sampleContour])

/-- C10: in the auto-init block (flag clear, so the preferred centre is the frame centre), with
a monotone `sqrt` that is 0 at 0, on a non-empty frame: of two contours that both pass the
filters, have the same area and different distances to the preferred centre, the farther one lying
inside the frame, the closer one scores strictly higher, and when the mask holds just these two,
in either order, the closer one's rectangle is the candidate the tracker is created with. -/
theorem C10_closer_wins (P : Platform) (env : TickEnv) (frame : Frame) (s : State)
    (c1 c2 : Contour)
    (hmono : ∀ a b : ℚ, 0 ≤ a → a ≤ b → P.sqrt a ≤ P.sqrt b) (hzero : P.sqrt 0 = 0)
    (hne : frame.empty = false) (hidle : s.g_tracking = false)
    (h1 : contourRejected frame s.g_minContourArea c1 = false)
    (h2 : contourRejected frame s.g_minContourArea c2 = false)
    (hin : 0 ≤ c2.rect.x ∧ 0 ≤ c2.rect.y ∧ c2.rect.x + c2.rect.width ≤ frame.cols ∧
      c2.rect.y + c2.rect.height ≤ frame.rows)
    (harea : c1.area = c2.area)
    (hdist : contourDist P (prefCenter frame s.g_tracking s.g_bbox) c1 <
      contourDist P (prefCenter frame s.g_tracking s.g_bbox) c2) :
    contourScore P frame (prefCenter frame s.g_tracking s.g_bbox) c2 <
      contourScore P frame (prefCenter frame s.g_tracking s.g_bbox) c1 ∧
    ((env.contours = [c1, c2] ∨ env.contours = [c2, c1]) →
      (selectCandidate P env frame s).bestRect = c1.rect ∧
      autoInit P env frame s = autoInitTracker P env (clampInit frame c1.rect.toRect2d) s) := by
  have hpc := prefCenter_idle frame s hidle
  have hfr := hne
  simp only [Frame.empty, Bool.or_eq_false_iff, decide_eq_false_iff_not, not_le] at hfr
  have hcols : (0 : ℚ) < (frame.cols : ℚ) := by exact_mod_cast hfr.1
  have hrows : (0 : ℚ) < (frame.rows : ℚ) := by exact_mod_cast hfr.2
  obtain ⟨hw2, hh2⟩ := rect_of_not_rejected frame _ c2 h2
  have hw2q : (0 : ℚ) < (c2.rect.width : ℚ) := by exact_mod_cast hw2
  have hh2q : (0 : ℚ) < (c2.rect.height : ℚ) := by exact_mod_cast hh2
  obtain ⟨hx, hy, hxw, hyh⟩ := hin
  have hxq : (0 : ℚ) ≤ (c2.rect.x : ℚ) := by exact_mod_cast hx
  have hyq : (0 : ℚ) ≤ (c2.rect.y : ℚ) := by exact_mod_cast hy
  have hxwq : (c2.rect.x : ℚ) + (c2.rect.width : ℚ) ≤ (frame.cols : ℚ) := by exact_mod_cast hxw
  have hyhq : (c2.rect.y : ℚ) + (c2.rect.height : ℚ) ≤ (frame.rows : ℚ) := by exact_mod_cast hyh
  -- the farther contour is at most one diagonal away
  have hd2 : contourDist P (prefCenter frame s.g_tracking s.g_bbox) c2 ≤ frameDiag P frame := by
    unfold contourDist norm frameDiag
    rw [hpc]
    apply hmono
    · exact add_nonneg (mul_self_nonneg _) (mul_self_nonneg _)
    · push_cast
      norm_num
      nlinarith [mul_nonneg (by linarith : (0 : ℚ) ≤ (c2.rect.x : ℚ) + (c2.rect.width : ℚ) / 2)
          (by linarith : (0 : ℚ) ≤ (frame.cols : ℚ) - ((c2.rect.x : ℚ) + (c2.rect.width : ℚ) / 2)),
        mul_nonneg (by linarith : (0 : ℚ) ≤ (c2.rect.y : ℚ) + (c2.rect.height : ℚ) / 2)
          (by linarith : (0 : ℚ) ≤ (frame.rows : ℚ) - ((c2.rect.y : ℚ) + (c2.rect.height : ℚ) / 2)),
        mul_pos hcols hcols, mul_pos hrows hrows]
  have hd1 : 0 ≤ contourDist P (prefCenter frame s.g_tracking s.g_bbox) c1 := by
    unfold contourDist norm
    have := hmono 0 _ le_rfl (add_nonneg (mul_self_nonneg
      ((c1.rect.x : ℚ) + (c1.rect.width : ℚ) / 2.0 - (prefCenter frame s.g_tracking s.g_bbox).1))
      (mul_self_nonneg
      ((c1.rect.y : ℚ) + (c1.rect.height : ℚ) / 2.0 - (prefCenter frame s.g_tracking s.g_bbox).2)))
    rw [hzero] at this
    exact this
  have hD : 0 < frameDiag P frame := by linarith
  -- the closer contour scores strictly higher
  have hscore : contourScore P frame (prefCenter frame s.g_tracking s.g_bbox) c2 <
      contourScore P frame (prefCenter frame s.g_tracking s.g_bbox) c1 := by
    have hq1 : contourDist P (prefCenter frame s.g_tracking s.g_bbox) c1 / frameDiag P frame < 1 :=
      (div_lt_one hD).mpr (lt_of_lt_of_le hdist hd2)
    have hq2 : contourDist P (prefCenter frame s.g_tracking s.g_bbox) c1 / frameDiag P frame <
        contourDist P (prefCenter frame s.g_tracking s.g_bbox) c2 / frameDiag P frame :=
      div_lt_div_of_pos_right hdist hD
    have hmin : min (1.0 : ℚ)
        (contourDist P (prefCenter frame s.g_tracking s.g_bbox) c1 / frameDiag P frame) <
        min (1.0 : ℚ)
        (contourDist P (prefCenter frame s.g_tracking s.g_bbox) c2 / frameDiag P frame) :=
      lt_of_le_of_lt (min_le_right _ _) (lt_min (by norm_num; exact hq1) hq2)
    unfold contourScore
    simp only [hD.ne', if_false, harea]
    have h4 : (0 : ℚ) < 0.4 := by norm_num
    nlinarith
  refine ⟨hscore, ?_⟩
  intro horder
  have hp1 : 0 < contourScore P frame (prefCenter frame s.g_tracking s.g_bbox) c1 :=
    contourScore_pos P frame _ c1 hne (by have := area_of_not_rejected frame _ c1 h1; linarith)
  have hp2 : 0 < contourScore P frame (prefCenter frame s.g_tracking s.g_bbox) c2 :=
    contourScore_pos P frame _ c2 hne (by have := area_of_not_rejected frame _ c2 h2; linarith)
  have hg1 : contourScore P frame (prefCenter frame s.g_tracking s.g_bbox) c1 > 0.0 := by
    norm_num; exact hp1
  have hg2 : contourScore P frame (prefCenter frame s.g_tracking s.g_bbox) c2 > 0.0 := by
    norm_num; exact hp2
  have hloop : contourLoop P frame s.g_minContourArea (prefCenter frame s.g_tracking s.g_bbox)
      env.contours =
      ⟨c1.rect, contourScore P frame (prefCenter frame s.g_tracking s.g_bbox) c1⟩ := by
    rcases horder with ho | ho
    · rw [ho]
      simp only [contourLoop, List.foldl_cons, List.foldl_nil]
      rw [contourStep_take P frame _ _ ⟨Rect.zero, 0.0⟩ c1 h1 hg1]
      exact contourStep_keep P frame _ _
        ⟨c1.rect, contourScore P frame (prefCenter frame s.g_tracking s.g_bbox) c1⟩ c2
        (not_lt.mpr hscore.le)
    · rw [ho]
      simp only [contourLoop, List.foldl_cons, List.foldl_nil]
      rw [contourStep_take P frame _ _ ⟨Rect.zero, 0.0⟩ c2 h2 hg2]
      exact contourStep_take P frame _ _
        ⟨c2.rect, contourScore P frame (prefCenter frame s.g_tracking s.g_bbox) c2⟩ c1 h1 hscore
  obtain ⟨r1, _, r3⟩ := autoInit_of_contour P env frame s c1.rect _ hloop hp1
    (rect_of_not_rejected frame _ c1 h1)
  exact ⟨r1, r3⟩

/-- Witness of C10: the centred and the far sample contour, listed far first, on a 640x480 frame. -/
theorem C10_closer_wins_witness :
    contourScore samplePlatform ⟨640, 480⟩
        (prefCenter ⟨640, 480⟩ sampleIdle.g_tracking sampleIdle.g_bbox) sampleContourFar <
      contourScore samplePlatform ⟨640, 480⟩
        (prefCenter ⟨640, 480⟩ sampleIdle.g_tracking sampleIdle.g_bbox) sampleContour ∧
    (selectCandidate samplePlatform sampleTickTwo ⟨640, 480⟩ sampleIdle).bestRect =
      sampleContour.rect := by
  have h := C10_closer_wins samplePlatform sampleTickTwo ⟨640, 480⟩ sampleIdle
    sampleContour sampleContourFar samplePlatform_mono (by simp [samplePlatform])
    (by decide) rfl (by rw [sampleIdle_minContourArea]; exact sampleContour_accepted)
    (by rw [sampleIdle_minContourArea]; exact sampleContourFar_accepted) (by decide) rfl
    (by rw [sampleContour_dist, sampleContourFar_dist]; norm_num)
  exact ⟨h.1, (h.2 (Or.inr rfl)).1⟩

/-! ## Further facts about the selection -/

/-- The candidate test of line 511 as a proposition. -/
theorem candidateFound_iff (P : Platform) (env : TickEnv) (frame : Frame) (s : State) :
    candidateFound P env frame s = true ↔
      (selectCandidate P env frame s).bestScore > 0.0 ∧
      (selectCandidate P env frame s).bestRect.area > 0 := by
  simp [candidateFound]

/-- The auto-init block in terms of the candidate test. -/
theorem autoInit_eq (P : Platform) (env : TickEnv) (frame : Frame) (s : State) :
    autoInit P env frame s =
      if candidateFound P env frame s = true then
        autoInitTracker P env (clampInit frame (selectCandidate P env frame s).bestRect.toRect2d) s
      else s := by
  unfold autoInit
  by_cases hc : (selectCandidate P env frame s).bestScore > 0.0 ∧
      (selectCandidate P env frame s).bestRect.area > 0
  · rw [if_pos hc, if_pos ((candidateFound_iff P env frame s).mpr hc)]
  · rw [if_neg hc, if_neg (fun h => hc ((candidateFound_iff P env frame s).mp h))]

/-- While the flag is clear the candidate depends on the state only through
`g_minContourArea`. -/
theorem selectCandidate_idle_congr (P : Platform) (env : TickEnv) (frame : Frame) (s t : State)
    (hs : s.g_tracking = false) (ht : t.g_tracking = false)
    (hg : s.g_minContourArea = t.g_minContourArea) :
    selectCandidate P env frame s = selectCandidate P env frame t := by
  unfold selectCandidate
  rw [prefCenter_idle frame s hs, prefCenter_idle frame t ht, hg]

/-- The largest-detection loop from any starting pair: either no box is larger than the start, or
the result is the first box of maximal area. -/
theorem foldl_hogLargestStep (l : List Rect) (acc : ℚ × Rect) :
    (l.foldl hogLargestStep acc = acc ∧ ∀ d ∈ l, (d.area : ℚ) ≤ acc.1) ∨
    (∃ pre hr post, l = pre ++ hr :: post ∧
      l.foldl hogLargestStep acc = ((hr.area : ℚ), hr) ∧ acc.1 < (hr.area : ℚ) ∧
      (∀ d ∈ pre, (d.area : ℚ) < (hr.area : ℚ)) ∧
      (∀ d ∈ post, (d.area : ℚ) ≤ (hr.area : ℚ))) := by
  induction l generalizing acc with
  | nil => left; simp
  | cons a t ih =>
    simp only [List.foldl_cons]
    by_cases hs : (a.area : ℚ) > acc.1
    · have hstep : hogLargestStep acc a = ((a.area : ℚ), a) := by simp [hogLargestStep, hs]
      rw [hstep]
      right
      rcases ih ((a.area : ℚ), a) with ⟨he, hall⟩ | ⟨pre, hr, post, hsp, he, hlt, hpre, hpost⟩
      · exact ⟨[], a, t, rfl, he, hs, by simp, hall⟩
      · refine ⟨a :: pre, hr, post, by simp [hsp], he, lt_trans hs hlt, ?_, hpost⟩
        intro d hd
        rcases List.mem_cons.mp hd with rfl | hd
        · exact hlt
        · exact hpre d hd
    · have hstep : hogLargestStep acc a = acc := by simp [hogLargestStep, hs]
      rw [hstep]
      rcases ih acc with ⟨he, hall⟩ | ⟨pre, hr, post, hsp, he, hlt, hpre, hpost⟩
      · left
        refine ⟨he, ?_⟩
        intro d hd
        rcases List.mem_cons.mp hd with rfl | hd
        · exact not_lt.mp hs
        · exact hall d hd
      · right
        refine ⟨a :: pre, hr, post, by simp [hsp], he, hlt, ?_, hpost⟩
        intro d hd
        rcases List.mem_cons.mp hd with rfl | hd
        · exact lt_of_le_of_lt (not_lt.mp hs) hlt
        · exact hpre d hd

/-- The frame diagonal of a 640x480 frame under the sample square root. -/
theorem sample_frameDiag : frameDiag samplePlatform ⟨640, 480⟩ = 800 := by
  unfold frameDiag
  rw [samplePlatform_sqrt _ 640000 800 (by norm_num) (by norm_num) (by norm_num)]
  norm_num

/-- The score of the centred sample contour on a 640x480 frame. -/
theorem sampleContour_score :
    contourScore samplePlatform ⟨640, 480⟩
      (prefCenter ⟨640, 480⟩ sampleIdle.g_tracking sampleIdle.g_bbox) sampleContour
      = 0.6 * (500 / 307200) + 0.4 := by
  unfold contourScore
  rw [sampleContour_dist, sample_frameDiag]
  norm_num [sampleContour]

/-- The score of the far sample contour on a 640x480 frame. -/
theorem sampleContourFar_score :
    contourScore samplePlatform ⟨640, 480⟩
      (prefCenter ⟨640, 480⟩ sampleIdle.g_tracking sampleIdle.g_bbox) sampleContourFar
      = 0.6 * (500 / 307200) + 0.4 * (1 - 223 / 800) := by
  unfold contourScore
  rw [sampleContourFar_dist, sample_frameDiag]
  norm_num [sampleContourFar]

/-- With the far sample contour listed first, the contour loop still ends on the centred one. -/
theorem sampleTickTwo_loop :
    contourLoop samplePlatform ⟨640, 480⟩ sampleIdle.g_minContourArea
      (prefCenter ⟨640, 480⟩ sampleIdle.g_tracking sampleIdle.g_bbox) sampleTickTwo.contours =
    ⟨sampleContour.rect, 0.6 * (500 / 307200) + 0.4⟩ := by
  have h1 : contourStep samplePlatform ⟨640, 480⟩ sampleIdle.g_minContourArea
      (prefCenter ⟨640, 480⟩ sampleIdle.g_tracking sampleIdle.g_bbox) ⟨Rect.zero, 0.0⟩
      sampleContourFar = ⟨sampleContourFar.rect, 0.6 * (500 / 307200) + 0.4 * (1 - 223 / 800)⟩ := by
    rw [← sampleContourFar_score]
    apply contourStep_take
    · rw [sampleIdle_minContourArea]; exact sampleContourFar_accepted
    · rw [sampleContourFar_score]; norm_num
  have h2 : contourStep samplePlatform ⟨640, 480⟩ sampleIdle.g_minContourArea
      (prefCenter ⟨640, 480⟩ sampleIdle.g_tracking sampleIdle.g_bbox)
      ⟨sampleContourFar.rect, 0.6 * (500 / 307200) + 0.4 * (1 - 223 / 800)⟩
      sampleContour = ⟨sampleContour.rect, 0.6 * (500 / 307200) + 0.4⟩ := by
    rw [← sampleContour_score]
    apply contourStep_take
    · rw [sampleIdle_minContourArea]; exact sampleContour_accepted
    · rw [sampleContour_score]; norm_num
  have hc : sampleTickTwo.contours = [sampleContourFar, sampleContour] := rfl
  unfold contourLoop
  rw [hc, List.foldl_cons, List.foldl_cons, List.foldl_nil, h1, h2]

/-! ## The claims, continued -/

/-- C11, evaluated at a failing input: a session was lost with the last box (80, 100, 80, 80),
centred at (120, 140), still in `g_bbox`; on the next tick the preferred centre is nevertheless
the centre (320, 240) of the 640x480 frame, the candidate is the same as without any previous box,
and of two equal contours the one at the frame centre is chosen over the one centred on the
previous box. -/
theorem C11_previous_box_ignored :
    sampleLost.g_bbox.empty = false ∧
    (sampleLost.g_bbox.x + sampleLost.g_bbox.width / 2,
      sampleLost.g_bbox.y + sampleLost.g_bbox.height / 2) = ((120 : ℚ), (140 : ℚ)) ∧
    ((sampleContourFar.rect.x : ℚ) + (sampleContourFar.rect.width : ℚ) / 2,
      (sampleContourFar.rect.y : ℚ) + (sampleContourFar.rect.height : ℚ) / 2) =
      ((120 : ℚ), (140 : ℚ)) ∧
    prefCenter ⟨640, 480⟩ sampleLost.g_tracking sampleLost.g_bbox = ((320 : ℚ), (240 : ℚ)) ∧
    selectCandidate samplePlatform sampleTickTwo ⟨640, 480⟩ sampleLost =
      selectCandidate samplePlatform sampleTickTwo ⟨640, 480⟩ sampleIdle ∧
    (selectCandidate samplePlatform sampleTickTwo ⟨640, 480⟩ sampleLost).bestRect =
      sampleContour.rect := by
  have hcongr := selectCandidate_idle_congr samplePlatform sampleTickTwo ⟨640, 480⟩
    sampleLost sampleIdle rfl rfl rfl
  refine ⟨by norm_num [sampleLost, Rect2d.empty], by norm_num [sampleLost],
    by norm_num [sampleContourFar], ?_, hcongr, ?_⟩
  · rw [prefCenter_idle _ _ rfl]
    norm_num
  · rw [hcongr]
    exact (autoInit_of_contour samplePlatform sampleTickTwo ⟨640, 480⟩ sampleIdle
      sampleContour.rect _ sampleTickTwo_loop (by norm_num) (by decide)).1

/-- C12: when the contour step found nothing (`bestScore <= 0` after the loop): if the detector
reports a box of positive area, the candidate is the detector box of largest area, the first such
on ties, with score 0.5, and it is the region (clamped) the tracker is created with; if the
detector reports no box, no candidate is found and the auto-init block changes nothing, so no
tracker is created. -/
theorem C12_detector_fallback (P : Platform) (env : TickEnv) (frame : Frame) (s : State)
    (hnone : (contourLoop P frame s.g_minContourArea (prefCenter frame s.g_tracking s.g_bbox)
      env.contours).bestScore ≤ 0) :
    ((∃ hr ∈ env.hogDet, 0 < hr.area) →
      ∃ pre hr post, env.hogDet = pre ++ hr :: post ∧ 0 < hr.area ∧
        (∀ d ∈ pre, d.area < hr.area) ∧ (∀ d ∈ post, d.area ≤ hr.area) ∧
        selectCandidate P env frame s = ⟨hr, 0.5⟩ ∧
        autoInit P env frame s = autoInitTracker P env (clampInit frame hr.toRect2d) s) ∧
    (env.hogDet = [] →
      candidateFound P env frame s = false ∧ autoInit P env frame s = s) := by
  have hle : (contourLoop P frame s.g_minContourArea (prefCenter frame s.g_tracking s.g_bbox)
      env.contours).bestScore ≤ 0.0 := by norm_num; exact hnone
  constructor
  · rintro ⟨h0, hmem0, hpos0⟩
    have hne : env.hogDet.isEmpty = false := by
      cases hd : env.hogDet with
      | nil => rw [hd] at hmem0; simp at hmem0
      | cons a t => rfl
    rcases foldl_hogLargestStep env.hogDet (0.0, Rect.zero) with
      ⟨_, hall⟩ | ⟨pre, hr, post, hsp, he, hlt, hpre, hpost⟩
    · exfalso
      have h1 := hall h0 hmem0
      have h2 : (0 : ℚ) < (h0.area : ℚ) := by exact_mod_cast hpos0
      norm_num at h1
      linarith
    · have hpos : 0 < hr.area := by norm_num at hlt; exact hlt
      have hposq : (0 : ℚ) < (hr.area : ℚ) := by exact_mod_cast hpos
      have hsel : selectCandidate P env frame s = ⟨hr, 0.5⟩ := by
        unfold selectCandidate hogStage
        rw [if_pos hle]
        simp only [hne, Bool.not_false, if_true, he]
        rw [if_pos hposq]
      refine ⟨pre, hr, post, hsp, hpos, ?_, ?_, hsel, ?_⟩
      · intro d hd
        exact_mod_cast hpre d hd
      · intro d hd
        exact_mod_cast hpost d hd
      · have hfound : candidateFound P env frame s = true := by
          rw [candidateFound_iff, hsel]
          exact ⟨by norm_num, hpos⟩
        rw [autoInit_eq, if_pos hfound, hsel]
  · intro hnil
    have hsel : selectCandidate P env frame s =
        contourLoop P frame s.g_minContourArea (prefCenter frame s.g_tracking s.g_bbox)
          env.contours := by
      unfold selectCandidate hogStage
      rw [if_pos hle, hnil]
      simp
    have hnf : candidateFound P env frame s = false := by
      rw [← Bool.not_eq_true, candidateFound_iff, hsel]
      intro h
      exact absurd h.1 (not_lt.mpr hle)
    refine ⟨hnf, ?_⟩
    rw [autoInit_eq, hnf]
    simp

/-- Witness of C12: no contour, and the detector reports the single box (200, 100, 64, 128). -/
theorem C12_detector_fallback_witness :
    ∃ pre hr post, sampleTickNoTracker.hogDet = pre ++ hr :: post ∧ 0 < hr.area ∧
      (∀ d ∈ pre, d.area < hr.area) ∧ (∀ d ∈ post, d.area ≤ hr.area) ∧
      selectCandidate samplePlatform sampleTickNoTracker ⟨640, 480⟩ sampleIdle = ⟨hr, 0.5⟩ ∧
      autoInit samplePlatform sampleTickNoTracker ⟨640, 480⟩ sampleIdle =
        autoInitTracker samplePlatform sampleTickNoTracker
          (clampInit ⟨640, 480⟩ hr.toRect2d) sampleIdle :=
  (C12_detector_fallback samplePlatform sampleTickNoTracker ⟨640, 480⟩ sampleIdle
    (by
      have hc : sampleTickNoTracker.contours = [] := rfl
      unfold contourLoop
      rw [hc, List.foldl_nil]
      norm_num)).1
    ⟨⟨200, 100, 64, 128⟩, by simp [sampleTickNoTracker], by decide⟩

/-! ## Facts about the preview layout and the manual selection -/

/-- A layout is only computed for a non-empty frame and a preview rectangle of positive size, and
then with a positive scale factor. -/
theorem paintLayout_some (frame : Frame) (rc : RECT) (L : Layout)
    (hL : paintLayout frame rc = some L) :
    0 < frame.cols ∧ 0 < frame.rows ∧ 0 < rc.right - rc.left ∧ 0 < rc.bottom - rc.top ∧
    0 < L.f ∧
    L.f = min (((rc.right - rc.left : Int) : ℚ) / (frame.cols : ℚ))
      (((rc.bottom - rc.top : Int) : ℚ) / (frame.rows : ℚ)) ∧
    L.sw = truncToInt ((frame.cols : ℚ) * L.f) ∧
    L.sh = truncToInt ((frame.rows : ℚ) * L.f) ∧
    L.x = rc.left + Int.tdiv (rc.right - rc.left - L.sw) 2 ∧
    L.y = rc.top + Int.tdiv (rc.bottom - rc.top - L.sh) 2 := by
  unfold paintLayout at hL
  by_cases he : frame.empty = true
  · rw [if_pos he] at hL; cases hL
  · rw [if_neg he] at hL
    by_cases hp : rc.right - rc.left ≤ 0 ∨ rc.bottom - rc.top ≤ 0
    · simp only [hp, if_true] at hL; cases hL
    · simp only [hp, if_false, Option.some.injEq] at hL
      simp only [Frame.empty, Bool.or_eq_true, decide_eq_true_eq, not_or, not_le] at he
      push_neg at hp
      obtain ⟨hc, hr⟩ := he
      obtain ⟨hpw, hph⟩ := hp
      have hcq : (0 : ℚ) < (frame.cols : ℚ) := by exact_mod_cast hc
      have hrq : (0 : ℚ) < (frame.rows : ℚ) := by exact_mod_cast hr
      have hpwq : (0 : ℚ) < ((rc.right - rc.left : Int) : ℚ) := by exact_mod_cast hpw
      have hphq : (0 : ℚ) < ((rc.bottom - rc.top : Int) : ℚ) := by exact_mod_cast hph
      subst hL
      refine ⟨hc, hr, hpw, hph, ?_, rfl, rfl, rfl, rfl, rfl⟩
      exact lt_min (div_pos hpwq hcq) (div_pos hphq hrq)

/-- The function `ScreenToImageRect` in terms of the layout used when painting. -/
theorem ScreenToImageRect_eq (frame : Frame) (rc sel : RECT) (L : Layout)
    (hL : paintLayout frame rc = some L) :
    ScreenToImageRect frame rc sel =
      if min sel.right (L.x + L.sw) ≤ max sel.left L.x ∨
          min sel.bottom (L.y + L.sh) ≤ max sel.top L.y then Rect2d.zero
      else
        ⟨((max sel.left L.x - L.x : Int) : ℚ) / L.f,
         ((max sel.top L.y - L.y : Int) : ℚ) / L.f,
         ((min sel.right (L.x + L.sw) - max sel.left L.x : Int) : ℚ) / L.f,
         ((min sel.bottom (L.y + L.sh) - max sel.top L.y : Int) : ℚ) / L.f⟩ := by
  unfold paintLayout at hL
  by_cases he : frame.empty = true
  · rw [if_pos he] at hL; cases hL
  · rw [if_neg he] at hL
    by_cases hp : rc.right - rc.left ≤ 0 ∨ rc.bottom - rc.top ≤ 0
    · simp only [hp, if_true] at hL; cases hL
    · simp only [hp, if_false, Option.some.injEq] at hL
      subst hL
      rfl

/-- A tick whose frame read fails or delivers an empty frame returns the state it got. -/
theorem C18_aux (P : Platform) (env : TickEnv) (s : State)
    (hread : env.read = none ∨ ∃ frame, env.read = some frame ∧ frame.empty = true) :
    timerPreview P env s = .ok s := by
  unfold timerPreview
  by_cases hrun : s.g_running = true
  · rcases hread with hn | ⟨frame, hf, he⟩
    · simp [hrun, hn]
    · simp [hrun, hf, he]
  · simp [hrun]

/-- C18: when the frame read fails or delivers an empty frame, the tick returns without changing
the state: frame, tracking flag, tracker handle, bounding box and everything else are as
before. -/
theorem C18_failed_read_changes_nothing (P : Platform) (env : TickEnv) (s : State)
    (hread : env.read = none ∨ ∃ frame, env.read = some frame ∧ frame.empty = true) :
    timerPreview P env s = .ok s := by
  unfold timerPreview
  by_cases hrun : s.g_running = true
  · rcases hread with hn | ⟨frame, hf, he⟩
    · simp [hrun, hn]
    · simp [hrun, hf, he]
  · simp [hrun]

/-- Witness of C18: an Active session and a tick whose frame read fails. -/
theorem C18_failed_read_changes_nothing_witness :
    timerPreview samplePlatform { sampleTickOk with read := none } sampleActive
      = .ok sampleActive :=
  C18_failed_read_changes_nothing samplePlatform { sampleTickOk with read := none } sampleActive
    (Or.inl rfl)

/-- The layout of the sample preview. -/
theorem sample_paintLayout : paintLayout ⟨640, 480⟩ ⟨0, 40, 640, 520⟩ = some sampleLayout := by
  have h1 : truncToInt (((640 : Int) : ℚ) * 1) = 640 := by norm_num [truncToInt]
  have h2 : truncToInt (((480 : Int) : ℚ) * 1) = 480 := by norm_num [truncToInt]
  have h3 : min ((((640 : Int) - 0 : Int) : ℚ) / ((640 : Int) : ℚ))
        ((((520 : Int) - 40 : Int) : ℚ) / ((480 : Int) : ℚ)) = 1 := by
    norm_num
  unfold paintLayout
  rw [if_neg (by decide), if_neg (by decide)]
  simp only [h3, h1, h2, sampleLayout]
  rfl

/-- The sample drag from (100, 140) to (200, 340) selects the image region (100, 100, 100, 200). -/
theorem sample_selection :
    ScreenToImageRect ⟨640, 480⟩ ⟨0, 40, 640, 520⟩ (selectionRect (100, 140) (200, 340)) =
      ⟨100, 100, 100, 200⟩ := by
  rw [ScreenToImageRect_eq _ _ _ _ sample_paintLayout, if_neg (by decide)]
  norm_num [sampleLayout, selectionRect]

/-- The `WM_LBUTTONUP` handler on a committed selection of more than 5 by 5 image pixels with a
frame and a tracker available, when `init` throws: the exception leaves the handler. -/
theorem lbuttonUp_init_throws (P : Platform) (env : SelEnv) (p : Int × Int) (s : State)
    (t : Tracker) (e : Exn)
    (hsel : s.g_selecting = true) (hframe : s.g_frame.empty = false)
    (hwide : (ScreenToImageRect s.g_frame s.g_previewRect
      (selectionRect s.g_mouseStart p)).width > 5)
    (htall : (ScreenToImageRect s.g_frame s.g_previewRect
      (selectionRect s.g_mouseStart p)).height > 5)
    (hmk : makeTracker P env.csrt env.kcf = some t) (hinit : env.init = .error e) :
    lbuttonUp P env p s = .error e := by
  unfold lbuttonUp
  simp only [hsel, if_true, hframe, Bool.false_eq_true, if_false, hwide, htall, and_self, hmk,
    hinit]

/-- The `WM_LBUTTONUP` handler on a committed selection of more than 5 by 5 image pixels with a
frame and a tracker available, when `init` returns: the new tracker, the clamped region and the
flag are stored, and the tracker held before is destroyed. -/
theorem lbuttonUp_init_ok (P : Platform) (env : SelEnv) (p : Int × Int) (s : State)
    (t : Tracker)
    (hsel : s.g_selecting = true) (hframe : s.g_frame.empty = false)
    (hwide : (ScreenToImageRect s.g_frame s.g_previewRect
      (selectionRect s.g_mouseStart p)).width > 5)
    (htall : (ScreenToImageRect s.g_frame s.g_previewRect
      (selectionRect s.g_mouseStart p)).height > 5)
    (hmk : makeTracker P env.csrt env.kcf = some t) (hinit : env.init = .ok ()) :
    ∃ s', lbuttonUp P env p s = .ok s' ∧
      s'.g_tracking = true ∧ s'.g_tracker = some t ∧
      s'.g_bbox = clampInit s.g_frame
        (ScreenToImageRect s.g_frame s.g_previewRect (selectionRect s.g_mouseStart p)) ∧
      s'.trace = s.trace ++ Event.trackerCreated t ::
        (match s.g_tracker with
         | some old => [Event.trackerDestroyed old]
         | none => []) := by
  unfold lbuttonUp
  simp only [hsel, if_true, hframe, Bool.false_eq_true, if_false, hwide, htall, and_self, hmk,
    hinit]
  refine ⟨_, rfl, rfl, ?_, rfl, ?_⟩
  · unfold State.storeTracker
    cases s.g_tracker <;> rfl
  · unfold State.storeTracker
    cases s.g_tracker <;> simp

/-! ## Facts about ticks -/

/-- The tracker-lost assignments leave running flag, auto mode, threshold and frame alone. -/
theorem lost_config (s : State) :
    s.lost.g_running = s.g_running ∧ s.lost.g_autoMode = s.g_autoMode ∧
    s.lost.g_minContourArea = s.g_minContourArea ∧ s.lost.g_frame = s.g_frame := by
  unfold State.lost State.releaseTracker
  cases s.g_tracker <;> simp

/-- The tracker creation of the auto-init block leaves running flag, auto mode and threshold
alone. -/
theorem autoInitTracker_config (P : Platform) (env : TickEnv) (r2d : Rect2d) (s : State) :
    (autoInitTracker P env r2d s).g_running = s.g_running ∧
    (autoInitTracker P env r2d s).g_autoMode = s.g_autoMode ∧
    (autoInitTracker P env r2d s).g_minContourArea = s.g_minContourArea := by
  unfold autoInitTracker
  cases makeTracker P env.csrt env.kcf with
  | none => simp
  | some t =>
    cases env.init with
    | error e => simp
    | ok u =>
      simp only [State.storeTracker]
      cases s.g_tracker <;> simp

/-- The auto-init block leaves running flag, auto mode and threshold alone. -/
theorem autoInit_config (P : Platform) (env : TickEnv) (frame : Frame) (s : State) :
    (autoInit P env frame s).g_running = s.g_running ∧
    (autoInit P env frame s).g_autoMode = s.g_autoMode ∧
    (autoInit P env frame s).g_minContourArea = s.g_minContourArea := by
  rw [autoInit_eq]
  split
  · exact autoInitTracker_config P env _ s
  · exact ⟨rfl, rfl, rfl⟩

/-- The three outcomes of the update block: nothing, the tracker-lost assignments, or a new box. -/
theorem trackerUpdate_cases (env : TickEnv) (frame : Frame) (s : State) :
    trackerUpdate env frame s = s ∨ trackerUpdate env frame s = s.lost ∨
    ∃ b, s.Active ∧ trackerUpdate env frame s = { s with g_bbox := b } := by
  by_cases h : (s.g_tracking && s.g_tracker.isSome) = true
  · have hact : s.Active := by
      simp only [Bool.and_eq_true] at h
      exact h
    right
    cases hu : env.update with
    | error e => left; exact trackerUpdate_fail env frame s hact (Or.inl ⟨e, hu⟩)
    | ok r =>
      obtain ⟨ok, b⟩ := r
      cases ok with
      | false => left; exact trackerUpdate_fail env frame s hact (Or.inr ⟨b, hu⟩)
      | true =>
        rw [trackerUpdate_ok env frame s b hact hu]
        by_cases hv : bboxInvalid frame (clampUpdate frame b) = true
        · left; rw [if_pos hv]
        · right; exact ⟨_, hact, by rw [if_neg hv]⟩
  · left
    exact trackerUpdate_skip env frame s (by simpa using h)

/-- The update block leaves running flag, auto mode and threshold alone. -/
theorem trackerUpdate_config (env : TickEnv) (frame : Frame) (s : State) :
    (trackerUpdate env frame s).g_running = s.g_running ∧
    (trackerUpdate env frame s).g_autoMode = s.g_autoMode ∧
    (trackerUpdate env frame s).g_minContourArea = s.g_minContourArea := by
  have hl := lost_config s
  rcases trackerUpdate_cases env frame s with h | h | ⟨b, _, h⟩
  · rw [h]; exact ⟨rfl, rfl, rfl⟩
  · rw [h]; exact ⟨hl.1, hl.2.1, hl.2.2.1⟩
  · rw [h]; exact ⟨rfl, rfl, rfl⟩

/-- A tick always returns, and leaves running flag, auto mode and threshold alone. -/
theorem timerPreview_config (P : Platform) (env : TickEnv) (s : State) :
    ∃ s', timerPreview P env s = .ok s' ∧ s'.g_running = s.g_running ∧
      s'.g_autoMode = s.g_autoMode ∧ s'.g_minContourArea = s.g_minContourArea := by
  by_cases hrun : s.g_running = true
  · cases hread : env.read with
    | none => exact ⟨s, C18_aux P env s (Or.inl hread), rfl, rfl, rfl⟩
    | some frame =>
      by_cases he : frame.empty = true
      · exact ⟨s, C18_aux P env s (Or.inr ⟨frame, hread, he⟩), rfl, rfl, rfl⟩
      · have hne : frame.empty = false := by simpa using he
        refine ⟨_, timerPreview_run P env s frame hrun hread hne, ?_⟩
        have hu := trackerUpdate_config env frame
          (if s.g_autoMode && !s.g_tracking then autoInit P env frame { s with g_frame := frame }
           else { s with g_frame := frame })
        have ha := autoInit_config P env frame { s with g_frame := frame }
        have hmid : (if s.g_autoMode && !s.g_tracking then
              autoInit P env frame { s with g_frame := frame }
            else { s with g_frame := frame }).g_running = s.g_running ∧
            (if s.g_autoMode && !s.g_tracking then
              autoInit P env frame { s with g_frame := frame }
            else { s with g_frame := frame }).g_autoMode = s.g_autoMode ∧
            (if s.g_autoMode && !s.g_tracking then
              autoInit P env frame { s with g_frame := frame }
            else { s with g_frame := frame }).g_minContourArea = s.g_minContourArea := by
          split
          · exact ha
          · exact ⟨rfl, rfl, rfl⟩
        exact ⟨hu.1.trans hmid.1, hu.2.1.trans hmid.2.1, hu.2.2.trans hmid.2.2⟩
  · refine ⟨s, ?_, rfl, rfl, rfl⟩
    unfold timerPreview
    simp [hrun]

/-- The tracker creation of the auto-init block when it starts without a handle, a tracker is
made and `init` returns. -/
theorem autoInitTracker_ok (P : Platform) (env : TickEnv) (r2d : Rect2d) (s : State)
    (t : Tracker) (hnone : s.g_tracker = none)
    (hm : makeTracker P env.csrt env.kcf = some t) (hi : env.init = .ok ()) :
    autoInitTracker P env r2d s =
      { s with g_tracker := some t, g_bbox := r2d, g_tracking := true,
               trace := s.trace ++ [Event.trackerCreated t] } := by
  unfold autoInitTracker
  simp only [hm, hi, State.storeTracker, hnone]

/-- The tracker creation of the auto-init block when it starts without a handle, a tracker is
made and `init` throws. -/
theorem autoInitTracker_throw (P : Platform) (env : TickEnv) (r2d : Rect2d) (s : State)
    (t : Tracker) (e : Exn)
    (hm : makeTracker P env.csrt env.kcf = some t) (hi : env.init = .error e) :
    autoInitTracker P env r2d s =
      { s with trace := (s.trace ++ [Event.trackerCreated t]) ++ [Event.trackerDestroyed t] } := by
  unfold autoInitTracker
  simp only [hm, hi]

/-- The candidate depends on the tick only through the contours and the detector boxes. -/
theorem candidateFound_env_congr (P : Platform) (env env2 : TickEnv) (frame : Frame) (s : State)
    (hc : env.contours = env2.contours) (hh : env.hogDet = env2.hogDet) :
    candidateFound P env frame s = candidateFound P env2 frame s := by
  unfold candidateFound selectCandidate
  rw [hc, hh]

/-- While the flag is clear the candidate test depends on the state only through
`g_minContourArea`. -/
theorem candidateFound_idle_congr (P : Platform) (env : TickEnv) (frame : Frame) (s t : State)
    (hs : s.g_tracking = false) (ht : t.g_tracking = false)
    (hg : s.g_minContourArea = t.g_minContourArea) :
    candidateFound P env frame s = candidateFound P env frame t := by
  unfold candidateFound
  rw [selectCandidate_idle_congr P env frame s t hs ht hg]

/-- A tick that starts Idle in auto mode, finds a candidate, gets a tracker and has `init` return:
the update block is entered in an Active state holding the new tracker. -/
theorem tick_idle_init (P : Platform) (env : TickEnv) (s : State) (frame : Frame) (t : Tracker)
    (hrun : s.g_running = true) (hauto : s.g_autoMode = true) (hidle : s.Idle)
    (hread : env.read = some frame) (hne : frame.empty = false)
    (hc : candidateFound P env frame s = true)
    (hm : makeTracker P env.csrt env.kcf = some t) (hi : env.init = .ok ()) :
    ∃ sI, timerPreview P env s = .ok (trackerUpdate env frame sI) ∧ sI.Active ∧
      sI.g_tracker = some t ∧ sI.g_running = s.g_running ∧ sI.g_autoMode = s.g_autoMode ∧
      sI.g_minContourArea = s.g_minContourArea ∧
      sI.trace = s.trace ++ [Event.trackerCreated t] := by
  have hc2 : candidateFound P env frame { s with g_frame := frame } = true := hc
  refine ⟨autoInit P env frame { s with g_frame := frame }, ?_, ?_⟩
  · rw [timerPreview_run P env s frame hrun hread hne]
    have : (s.g_autoMode && !s.g_tracking) = true := by simp [hauto, hidle.1]
    rw [if_pos this]
  · rw [autoInit_eq, if_pos hc2,
      autoInitTracker_ok P env _ { s with g_frame := frame } t hidle.2 hm hi]
    exact ⟨⟨rfl, rfl⟩, rfl, rfl, rfl, rfl, rfl⟩

/-- A tick that starts Idle and finds no candidate, or is not in auto mode, stays Idle and
changes at most the published frame. -/
theorem tick_idle_nocand (P : Platform) (env : TickEnv) (s : State) (hidle : s.Idle)
    (hc : s.g_autoMode = false ∨
      ∀ frame, env.read = some frame → candidateFound P env frame s = false) :
    ∃ s', timerPreview P env s = .ok s' ∧ s'.Idle ∧
      s'.g_minContourArea = s.g_minContourArea ∧ s'.trace = s.trace ∧
      s'.g_bbox = s.g_bbox := by
  by_cases hrun : s.g_running = true
  · cases hread : env.read with
    | none => exact ⟨s, C18_aux P env s (Or.inl hread), hidle, rfl, rfl, rfl⟩
    | some frame =>
      by_cases he : frame.empty = true
      · exact ⟨s, C18_aux P env s (Or.inr ⟨frame, hread, he⟩), hidle, rfl, rfl, rfl⟩
      · have hne : frame.empty = false := by simpa using he
        have hno : (if s.g_autoMode && !s.g_tracking then
              autoInit P env frame { s with g_frame := frame }
            else { s with g_frame := frame }) = { s with g_frame := frame } := by
          rcases hc with ha | hn
          · simp [ha]
          · split
            · have h0 : candidateFound P env frame { s with g_frame := frame } = false :=
                hn frame hread
              rw [autoInit_eq, h0]
              simp
            · rfl
        refine ⟨_, timerPreview_run P env s frame hrun hread hne, ?_⟩
        rw [hno]
        have hskip : (({ s with g_frame := frame } : State).g_tracking &&
            ({ s with g_frame := frame } : State).g_tracker.isSome) = false := by
          simp [hidle.1]
        rw [trackerUpdate_skip env frame _ hskip]
        exact ⟨⟨hidle.1, hidle.2⟩, rfl, rfl, rfl⟩
  · refine ⟨s, ?_, hidle, rfl, rfl, rfl⟩
    unfold timerPreview
    simp [hrun]

/-- A tick that starts Active and whose `update` returns false or throws ends Idle. -/
theorem tick_active_fail (P : Platform) (env : TickEnv) (s : State) (frame : Frame)
    (hrun : s.g_running = true) (hread : env.read = some frame) (hne : frame.empty = false)
    (hact : s.Active)
    (hupd : (∃ e, env.update = .error e) ∨ (∃ b, env.update = .ok (false, b))) :
    ∃ s', timerPreview P env s = .ok s' ∧ s'.Idle ∧ s'.g_running = s.g_running ∧
      s'.g_autoMode = s.g_autoMode ∧ s'.g_minContourArea = s.g_minContourArea := by
  refine ⟨_, timerPreview_run P env s frame hrun hread hne, ?_⟩
  have hauto : ¬ ((s.g_autoMode && !s.g_tracking) = true) := by simp [hact.1]
  rw [if_neg hauto]
  have hact2 : State.Active { s with g_frame := frame } := ⟨hact.1, hact.2⟩
  rw [trackerUpdate_fail env frame _ hact2 hupd]
  have hl := lost_config { s with g_frame := frame }
  exact ⟨lost_idle _, hl.1, hl.2.1, hl.2.2.1⟩

/-- A tick that starts Idle in auto mode, finds a candidate, gets a tracker, has `init` return
and has the update that follows in the same tick return a box that passes the sanity test ends
Active. -/
theorem tick_idle_init_ok (P : Platform) (env : TickEnv) (s : State) (frame : Frame)
    (t : Tracker) (b : Rect)
    (hrun : s.g_running = true) (hauto : s.g_autoMode = true) (hidle : s.Idle)
    (hread : env.read = some frame) (hne : frame.empty = false)
    (hc : candidateFound P env frame s = true)
    (hm : makeTracker P env.csrt env.kcf = some t) (hi : env.init = .ok ())
    (hu : env.update = .ok (true, b)) (hv : bboxInvalid frame (clampUpdate frame b) = false) :
    ∃ s', timerPreview P env s = .ok s' ∧ s'.Active ∧ s'.g_running = s.g_running ∧
      s'.g_autoMode = s.g_autoMode ∧ s'.g_minContourArea = s.g_minContourArea := by
  obtain ⟨sI, h1, hact, _, h3, h4, h5, _⟩ :=
    tick_idle_init P env s frame t hrun hauto hidle hread hne hc hm hi
  refine ⟨_, h1, ?_⟩
  rw [trackerUpdate_ok env frame sI b hact hu, hv]
  exact ⟨⟨hact.1, hact.2⟩, h3, h4, h5⟩

/-- A tick that starts Idle in auto mode, finds a candidate, gets a tracker and has `init` return,
but has the update that follows in the same tick fail, ends Idle. -/
theorem tick_idle_init_fail (P : Platform) (env : TickEnv) (s : State) (frame : Frame)
    (t : Tracker)
    (hrun : s.g_running = true) (hauto : s.g_autoMode = true) (hidle : s.Idle)
    (hread : env.read = some frame) (hne : frame.empty = false)
    (hc : candidateFound P env frame s = true)
    (hm : makeTracker P env.csrt env.kcf = some t) (hi : env.init = .ok ())
    (hupd : (∃ e, env.update = .error e) ∨ (∃ b, env.update = .ok (false, b))) :
    ∃ s', timerPreview P env s = .ok s' ∧ s'.Idle := by
  obtain ⟨sI, h1, hact, _⟩ := tick_idle_init P env s frame t hrun hauto hidle hread hne hc hm hi
  refine ⟨_, h1, ?_⟩
  rw [trackerUpdate_fail env frame sI hact hupd]
  exact lost_idle sI

/-- The single centred sample contour is a viable candidate. -/
theorem sampleTickContour_found :
    candidateFound samplePlatform sampleTickContour ⟨640, 480⟩ sampleIdle = true := by
  have hc : sampleTickContour.contours = [sampleContour] := rfl
  have hstep : contourStep samplePlatform ⟨640, 480⟩ sampleIdle.g_minContourArea
      (prefCenter ⟨640, 480⟩ sampleIdle.g_tracking sampleIdle.g_bbox) ⟨Rect.zero, 0.0⟩
      sampleContour = ⟨sampleContour.rect, 0.6 * (500 / 307200) + 0.4⟩ := by
    rw [← sampleContour_score]
    apply contourStep_take
    · rw [sampleIdle_minContourArea]; exact sampleContour_accepted
    · rw [sampleContour_score]; norm_num
  have hloop : contourLoop samplePlatform ⟨640, 480⟩ sampleIdle.g_minContourArea
      (prefCenter ⟨640, 480⟩ sampleIdle.g_tracking sampleIdle.g_bbox) sampleTickContour.contours =
      ⟨sampleContour.rect, 0.6 * (500 / 307200) + 0.4⟩ := by
    unfold contourLoop
    rw [hc, List.foldl_cons, List.foldl_nil, hstep]
  obtain ⟨h1, h2, _⟩ := autoInit_of_contour samplePlatform sampleTickContour ⟨640, 480⟩ sampleIdle
    sampleContour.rect _ hloop (by norm_num) (by decide)
  rw [candidateFound_iff, h1]
  exact ⟨by norm_num; exact h2, by decide⟩

/-- The box (-5, 10, 100, 200) passes the sanity test on a 640x480 frame. -/
theorem sample_box_valid :
    bboxInvalid ⟨640, 480⟩ (clampUpdate ⟨640, 480⟩ ⟨-5, 10, 100, 200⟩) = false := by
  norm_num [bboxInvalid, clampUpdate, MIN_AREA, MAX_AREA_RATIO]

/-- C14, as stated, fails: auto-detection is on and the session Idle; at tick 1 a candidate is
found and `init` succeeds (the tick ends Active); at tick 2 the tracker's `update` throws (the
tick ends Idle); at tick 3 a candidate is available, detection runs again and `init` succeeds,
but the update that the code runs in the same tick returns false, so the state after tick 3 is
Idle and the trace is Idle, Active, Idle, Idle. -/
theorem C14_counterexample :
    sampleIdle.g_autoMode = true ∧ sampleIdle.Idle ∧
    ∃ s1 s2 s3,
      timerPreview samplePlatform sampleTickContour sampleIdle = .ok s1 ∧
      timerPreview samplePlatform sampleTickThrow s1 = .ok s2 ∧
      timerPreview samplePlatform sampleTickContourLost s2 = .ok s3 ∧
      s1.Active ∧ s2.Idle ∧
      candidateFound samplePlatform sampleTickContourLost ⟨640, 480⟩ s2 = true ∧
      makeTracker samplePlatform sampleTickContourLost.csrt sampleTickContourLost.kcf
        = some ⟨1⟩ ∧
      sampleTickContourLost.init = .ok () ∧
      s3.Idle ∧ ¬ s3.Active := by
  refine ⟨rfl, ⟨rfl, rfl⟩, ?_⟩
  obtain ⟨s1, h1, hact1, hr1, ha1, hg1⟩ := tick_idle_init_ok samplePlatform sampleTickContour
    sampleIdle ⟨640, 480⟩ ⟨1⟩ ⟨-5, 10, 100, 200⟩ rfl rfl ⟨rfl, rfl⟩ rfl (by decide)
    sampleTickContour_found rfl rfl rfl sample_box_valid
  obtain ⟨s2, h2, hidle2, hr2, ha2, hg2⟩ := tick_active_fail samplePlatform sampleTickThrow s1
    ⟨640, 480⟩ (hr1.trans rfl) rfl (by decide) hact1 (Or.inl ⟨Exn.thrown, rfl⟩)
  have hc3 : candidateFound samplePlatform sampleTickContourLost ⟨640, 480⟩ s2 = true := by
    rw [candidateFound_env_congr samplePlatform sampleTickContourLost sampleTickContour _ _
      rfl rfl,
      candidateFound_idle_congr samplePlatform sampleTickContour ⟨640, 480⟩ s2 sampleIdle
        hidle2.1 rfl (hg2.trans hg1)]
    exact sampleTickContour_found
  obtain ⟨s3, h3, hidle3⟩ := tick_idle_init_fail samplePlatform sampleTickContourLost s2
    ⟨640, 480⟩ ⟨1⟩ (hr2.trans (hr1.trans rfl)) (ha2.trans (ha1.trans rfl)) hidle2 rfl (by decide)
    hc3 rfl rfl (Or.inr ⟨Rect.zero, rfl⟩)
  refine ⟨s1, s2, s3, h1, h2, h3, hact1, hidle2, hc3, rfl, rfl, hidle3, ?_⟩
  intro hact3
  have hf := hidle3.1
  rw [hact3.1] at hf
  exact Bool.noConfusion hf

/-- C14, amended: with auto-detection enabled and the session Idle after start, for the tick
sequence [candidate found, `init` succeeds and the update run in the same tick returns a box
that passes the sanity test at tick 1] [tracker update fails at tick 2] [candidate available,
tracker created, `init` succeeds and the update run in the same tick returns a box that passes
the sanity test at tick 3], the tracking state after start and after each tick is Idle, Active,
Idle, Active: tick 3 runs detection again. The candidate test of tick 3 is stated on the start
state: with the flag clear it depends on the state only through `g_minContourArea`, which no
tick changes. -/
theorem C14_loss_triggers_redetection (P : Platform) (e1 e2 e3 : TickEnv) (s0 : State)
    (f1 f2 f3 : Frame) (t1 t3 : Tracker) (b1 b3 : Rect)
    (hrun : s0.g_running = true) (hauto : s0.g_autoMode = true) (hidle : s0.Idle)
    (hr1 : e1.read = some f1) (hn1 : f1.empty = false)
    (hc1 : candidateFound P e1 f1 s0 = true)
    (hm1 : makeTracker P e1.csrt e1.kcf = some t1) (hi1 : e1.init = .ok ())
    (hu1 : e1.update = .ok (true, b1)) (hv1 : bboxInvalid f1 (clampUpdate f1 b1) = false)
    (hr2 : e2.read = some f2) (hn2 : f2.empty = false)
    (hu2 : (∃ e, e2.update = .error e) ∨ (∃ b, e2.update = .ok (false, b)))
    (hr3 : e3.read = some f3) (hn3 : f3.empty = false)
    (hc3 : candidateFound P e3 f3 s0 = true)
    (hm3 : makeTracker P e3.csrt e3.kcf = some t3) (hi3 : e3.init = .ok ())
    (hu3 : e3.update = .ok (true, b3)) (hv3 : bboxInvalid f3 (clampUpdate f3 b3) = false) :
    ∃ s1 s2 s3,
      timerPreview P e1 s0 = .ok s1 ∧ timerPreview P e2 s1 = .ok s2 ∧
      timerPreview P e3 s2 = .ok s3 ∧
      s0.Idle ∧ s1.Active ∧ s2.Idle ∧ s3.Active := by
  obtain ⟨s1, h1, hact1, hrn1, ha1, hg1⟩ :=
    tick_idle_init_ok P e1 s0 f1 t1 b1 hrun hauto hidle hr1 hn1 hc1 hm1 hi1 hu1 hv1
  obtain ⟨s2, h2, hidle2, hrn2, ha2, hg2⟩ :=
    tick_active_fail P e2 s1 f2 (hrn1.trans hrun) hr2 hn2 hact1 hu2
  have hc3b : candidateFound P e3 f3 s2 = true := by
    rw [candidateFound_idle_congr P e3 f3 s2 s0 hidle2.1 hidle.1 (hg2.trans hg1)]
    exact hc3
  obtain ⟨s3, h3, hact3, _⟩ :=
    tick_idle_init_ok P e3 s2 f3 t3 b3 (hrn2.trans (hrn1.trans hrun))
      (ha2.trans (ha1.trans hauto)) hidle2 hr3 hn3 hc3b hm3 hi3 hu3 hv3
  exact ⟨s1, s2, s3, h1, h2, h3, hidle, hact1, hidle2, hact3⟩

/-- Witness of C14: the single centred contour at ticks 1 and 3, a throwing `update` at tick 2. -/
theorem C14_loss_triggers_redetection_witness :
    ∃ s1 s2 s3,
      timerPreview samplePlatform sampleTickContour sampleIdle = .ok s1 ∧
      timerPreview samplePlatform sampleTickThrow s1 = .ok s2 ∧
      timerPreview samplePlatform sampleTickContour s2 = .ok s3 ∧
      sampleIdle.Idle ∧ s1.Active ∧ s2.Idle ∧ s3.Active :=
  C14_loss_triggers_redetection samplePlatform sampleTickContour sampleTickThrow sampleTickContour
    sampleIdle ⟨640, 480⟩ ⟨640, 480⟩ ⟨640, 480⟩ ⟨1⟩ ⟨1⟩ ⟨-5, 10, 100, 200⟩ ⟨-5, 10, 100, 200⟩
    rfl rfl ⟨rfl, rfl⟩ rfl (by decide) sampleTickContour_found rfl rfl rfl sample_box_valid
    rfl (by decide) (Or.inl ⟨Exn.thrown, rfl⟩)
    rfl (by decide) sampleTickContour_found rfl rfl rfl sample_box_valid

/-- A run of ticks that all start Idle without a candidate stays Idle. -/
theorem runTicks_idle (P : Platform) (s0 : State) (envs : List TickEnv)
    (hnone : ∀ env ∈ envs, ∀ frame, env.read = some frame →
      candidateFound P env frame s0 = false) (h0 : s0.g_tracking = false) :
    ∀ s : State, s.Idle → s.g_minContourArea = s0.g_minContourArea →
      ∃ s', runTicks P envs s = .ok s' ∧ s'.Idle ∧ s'.trace = s.trace := by
  induction envs with
  | nil => intro s hidle _; exact ⟨s, rfl, hidle, rfl⟩
  | cons e es ih =>
    intro s hidle hg
    have hno : ∀ frame, e.read = some frame → candidateFound P e frame s = false := by
      intro frame hf
      rw [candidateFound_idle_congr P e frame s s0 hidle.1 h0 hg]
      exact hnone e (List.mem_cons_self e es) frame hf
    obtain ⟨s1, h1, hidle1, hg1, ht1, _⟩ := tick_idle_nocand P e s hidle (Or.inr hno)
    obtain ⟨s', h2, hidle2, ht2⟩ :=
      ih (fun env hmem => hnone env (List.mem_cons_of_mem e hmem)) s1 hidle1 (hg1.trans hg)
    refine ⟨s', ?_, hidle2, ht2.trans ht1⟩
    show run P (Msg.timerPreview e :: es.map Msg.timerPreview) s = .ok s'
    unfold run WndProc
    simp only [h1]
    exact h2

/-- C15: if the session is Idle and at every tick neither the contour step nor the detector
yields a candidate, then after any number of ticks the run has returned normally, the session is
still Idle (flag clear, no tracker handle) and no tracker instance was created or destroyed. -/
theorem C15_idle_without_candidate_stays_idle (P : Platform) (envs : List TickEnv) (s0 : State)
    (hidle : s0.Idle)
    (hnone : ∀ env ∈ envs, ∀ frame, env.read = some frame →
      candidateFound P env frame s0 = false) :
    ∃ s', runTicks P envs s0 = .ok s' ∧ s'.Idle ∧ s'.trace = s0.trace :=
  runTicks_idle P s0 envs hnone hidle.1 s0 hidle rfl

/-- Witness of C15: two ticks without contours and without detector boxes. -/
theorem C15_idle_without_candidate_stays_idle_witness :
    ∃ s', runTicks samplePlatform [sampleTickOk, sampleTickOk] sampleIdle = .ok s' ∧ s'.Idle ∧
      s'.trace = sampleIdle.trace :=
  C15_idle_without_candidate_stays_idle samplePlatform [sampleTickOk, sampleTickOk] sampleIdle
    ⟨rfl, rfl⟩
    (by
      intro env hmem frame _
      have he : env = sampleTickOk := by simpa using hmem
      subst he
      have hc : sampleTickOk.contours = [] := rfl
      have hh : sampleTickOk.hogDet = [] := rfl
      rw [← Bool.not_eq_true, candidateFound_iff]
      unfold selectCandidate contourLoop hogStage
      rw [hc, hh, List.foldl_nil]
      norm_num)

/-! ## Live tracker instances along a run of ticks -/

/-- The live count of a concatenation. -/
theorem liveCount_append (a b : List Event) : liveCount (a ++ b) = liveCount a + liveCount b := by
  simp [liveCount]

/-- The creation count of a concatenation. -/
theorem createdCount_append (a b : List Event) :
    createdCount (a ++ b) = createdCount a + createdCount b := by
  induction a with
  | nil => simp [createdCount]
  | cons e es ih =>
    cases e with
    | trackerCreated t => simp [createdCount, ih]; omega
    | trackerDestroyed t => simp [createdCount, ih]
    | capReleased => simp [createdCount, ih]
    | frameReleased => simp [createdCount, ih]

/-- Appending an event keeps the peak at one when the new total is at most one. -/
theorem peakOK_snoc (es : List Event) (e : Event) (h : PeakOK es)
    (hc : liveCount (es ++ [e]) ≤ 1) : PeakOK (es ++ [e]) := by
  intro pre hpre
  rcases List.prefix_concat_iff.mp hpre with rfl | h2
  · exact hc
  · exact h pre h2

/-- An Idle state without events satisfies the tracker invariant. -/
theorem trackerInv_of_idle_nil (s : State) (hidle : s.Idle) (ht : s.trace = []) :
    s.TrackerInv := by
  refine ⟨Or.inl hidle, ?_, ?_⟩
  · rw [ht, hidle.2]; rfl
  · intro pre hpre
    rw [ht] at hpre
    rw [List.prefix_nil.mp hpre]
    decide

/-- The tracker-lost assignments keep the tracker invariant. -/
theorem lost_inv (s : State) (h : s.TrackerInv) : s.lost.TrackerInv := by
  obtain ⟨hwf, hcount, hpeak⟩ := h
  cases ht : s.g_tracker with
  | none =>
    have hl : s.lost = { s with g_tracking := false } := by
      unfold State.lost State.releaseTracker
      simp [ht]
    rw [hl]
    refine ⟨Or.inl ⟨rfl, ht⟩, ?_, hpeak⟩
    show liveCount s.trace = if s.g_tracker.isSome then 1 else 0
    exact hcount
  | some t =>
    have hc1 : liveCount s.trace = 1 := by rw [hcount, ht]; rfl
    have hc0 : liveCount (s.trace ++ [Event.trackerDestroyed t]) = 0 := by
      rw [liveCount_append, hc1]; rfl
    refine ⟨Or.inl (lost_idle s), ?_, ?_⟩
    · rw [lost_trace s t ht, lost_g_tracker, hc0]; rfl
    · rw [lost_trace s t ht]
      exact peakOK_snoc _ _ hpeak (by rw [hc0]; decide)

/-- The update block keeps the tracker invariant and creates no tracker. -/
theorem trackerUpdate_inv (env : TickEnv) (frame : Frame) (s : State) (h : s.TrackerInv) :
    (trackerUpdate env frame s).TrackerInv ∧
    createdCount (trackerUpdate env frame s).trace = createdCount s.trace := by
  have hlc : createdCount s.lost.trace = createdCount s.trace := by
    cases ht : s.g_tracker with
    | none =>
      have hl : s.lost = { s with g_tracking := false } := by
        unfold State.lost State.releaseTracker
        simp [ht]
      rw [hl]
    | some t =>
      rw [lost_trace s t ht, createdCount_append]
      rfl
  rcases trackerUpdate_cases env frame s with hu | hu | ⟨b, hact, hu⟩
  · rw [hu]; exact ⟨h, rfl⟩
  · rw [hu]; exact ⟨lost_inv s h, hlc⟩
  · rw [hu]
    exact ⟨⟨Or.inr ⟨hact.1, hact.2⟩, h.2.1, h.2.2⟩, rfl⟩

/-- The tracker creation of the auto-init block, entered Idle, keeps the tracker invariant. -/
theorem autoInitTracker_inv (P : Platform) (env : TickEnv) (r2d : Rect2d) (s : State)
    (h : s.TrackerInv) (hidle : s.Idle) : (autoInitTracker P env r2d s).TrackerInv := by
  obtain ⟨_, hcount, hpeak⟩ := h
  have hc0 : liveCount s.trace = 0 := by rw [hcount, hidle.2]; rfl
  cases hm : makeTracker P env.csrt env.kcf with
  | none =>
    have : autoInitTracker P env r2d s = s := by
      unfold autoInitTracker
      simp only [hm]
    rw [this]
    exact ⟨Or.inl hidle, hcount, hpeak⟩
  | some t =>
    have hc1 : liveCount (s.trace ++ [Event.trackerCreated t]) = 1 := by
      rw [liveCount_append, hc0]; rfl
    have hp1 : PeakOK (s.trace ++ [Event.trackerCreated t]) :=
      peakOK_snoc _ _ hpeak (by rw [hc1])
    cases hi : env.init with
    | ok u =>
      cases u
      rw [autoInitTracker_ok P env r2d s t hidle.2 hm hi]
      exact ⟨Or.inr ⟨rfl, rfl⟩, hc1, hp1⟩
    | error e =>
      rw [autoInitTracker_throw P env r2d s t e hm hi]
      have hc2 : liveCount ((s.trace ++ [Event.trackerCreated t]) ++
          [Event.trackerDestroyed t]) = 0 := by
        rw [liveCount_append, hc1]; rfl
      refine ⟨Or.inl ⟨hidle.1, hidle.2⟩, ?_, peakOK_snoc _ _ hp1 (by rw [hc2]; decide)⟩
      show liveCount ((s.trace ++ [Event.trackerCreated t]) ++ [Event.trackerDestroyed t]) =
        if s.g_tracker.isSome then 1 else 0
      rw [hc2, hidle.2]
      rfl

/-- A tick keeps the tracker invariant, and creates no tracker while a handle is held. -/
theorem timerPreview_inv (P : Platform) (env : TickEnv) (s : State) (h : s.TrackerInv) :
    ∃ s', timerPreview P env s = .ok s' ∧ s'.TrackerInv ∧
      (s.g_tracker ≠ none → createdCount s'.trace = createdCount s.trace) := by
  by_cases hrun : s.g_running = true
  · cases hread : env.read with
    | none => exact ⟨s, C18_aux P env s (Or.inl hread), h, fun _ => rfl⟩
    | some frame =>
      by_cases he : frame.empty = true
      · exact ⟨s, C18_aux P env s (Or.inr ⟨frame, hread, he⟩), h, fun _ => rfl⟩
      · have hne : frame.empty = false := by simpa using he
        refine ⟨_, timerPreview_run P env s frame hrun hread hne, ?_⟩
        have h1 : State.TrackerInv { s with g_frame := frame } := h
        by_cases hauto : (s.g_autoMode && !s.g_tracking) = true
        · rw [if_pos hauto]
          have htr : s.g_tracking = false := by
            simp only [Bool.and_eq_true, Bool.not_eq_true'] at hauto
            exact hauto.2
          have hidle : s.Idle := by
            rcases h.1 with hi | ha
            · exact hi
            · rw [ha.1] at htr; cases htr
          have h2 : (autoInit P env frame { s with g_frame := frame }).TrackerInv := by
            rw [autoInit_eq]
            split
            · exact autoInitTracker_inv P env _ _ h1 ⟨hidle.1, hidle.2⟩
            · exact h1
          refine ⟨(trackerUpdate_inv env frame _ h2).1, ?_⟩
          intro hheld
          exact absurd hidle.2 hheld
        · rw [if_neg hauto]
          have h3 := trackerUpdate_inv env frame { s with g_frame := frame } h1
          exact ⟨h3.1, fun _ => h3.2⟩
  · refine ⟨s, ?_, h, fun _ => rfl⟩
    unfold timerPreview
    simp [hrun]

/-- A run of ticks keeps the tracker invariant. -/
theorem runTicks_inv (P : Platform) (envs : List TickEnv) :
    ∀ s : State, s.TrackerInv → ∃ s', runTicks P envs s = .ok s' ∧ s'.TrackerInv := by
  induction envs with
  | nil => intro s h; exact ⟨s, rfl, h⟩
  | cons e es ih =>
    intro s h
    obtain ⟨s1, h1, hinv1, _⟩ := timerPreview_inv P e s h
    obtain ⟨s', h2, hinv2⟩ := ih s1 hinv1
    refine ⟨s', ?_, hinv2⟩
    show run P (Msg.timerPreview e :: es.map Msg.timerPreview) s = .ok s'
    unfold run WndProc
    simp only [h1]
    exact h2

/-- C16: every run of ticks from a state in which the session is Idle or Active and the live
tracker instances are exactly the one held (the initial state is such a state) returns normally,
and at no point of the event sequence is more than one tracker instance alive; in such a state a
tick creates no tracker while a tracker handle is held. -/
theorem C16_at_most_one_live_tracker (P : Platform) (envs : List TickEnv) (s0 : State)
    (h0 : s0.TrackerInv) :
    State.initial.TrackerInv ∧
    (∃ s', runTicks P envs s0 = .ok s' ∧
      (∀ pre, pre <+: s'.trace → liveCount pre ≤ 1) ∧
      liveCount s'.trace = (if s'.g_tracker.isSome then 1 else 0)) ∧
    (∀ (env : TickEnv) (s : State), s.TrackerInv → s.g_tracker ≠ none →
      ∃ s', timerPreview P env s = .ok s' ∧ createdCount s'.trace = createdCount s.trace) := by
  refine ⟨trackerInv_of_idle_nil _ ⟨rfl, rfl⟩ rfl, ?_, ?_⟩
  · obtain ⟨s', h1, hinv⟩ := runTicks_inv P envs s0 h0
    exact ⟨s', h1, hinv.2.2, hinv.2.1⟩
  · intro env s hs hheld
    obtain ⟨s', h1, _, hc⟩ := timerPreview_inv P env s hs
    exact ⟨s', h1, hc hheld⟩

/-- Witness of C16: an Idle session in auto mode; a tick that creates a tracker, then a tick in
which its `update` throws. -/
theorem C16_at_most_one_live_tracker_witness :
    ∃ s', runTicks samplePlatform [sampleTickContour, sampleTickThrow] sampleIdle = .ok s' ∧
      (∀ pre, pre <+: s'.trace → liveCount pre ≤ 1) ∧
      liveCount s'.trace = (if s'.g_tracker.isSome then 1 else 0) :=
  (C16_at_most_one_live_tracker samplePlatform [sampleTickContour, sampleTickThrow] sampleIdle
    (trackerInv_of_idle_nil sampleIdle ⟨rfl, rfl⟩ rfl)).2.1

/-! ## The stop operation in reachable states -/

/-- The `WM_LBUTTONUP` handler leaves the running flag alone, and without a frame it touches
neither frame, flag nor handle. -/
theorem lbuttonUp_stopped (P : Platform) (env : SelEnv) (p : Int × Int) (s s' : State)
    (h : lbuttonUp P env p s = .ok s') :
    s'.g_running = s.g_running ∧
    (s.g_frame.empty = true →
      s'.g_frame = s.g_frame ∧ s'.g_tracking = s.g_tracking ∧ s'.g_tracker = s.g_tracker) := by
  unfold lbuttonUp at h
  by_cases hsel : s.g_selecting = true
  · rw [if_pos hsel] at h
    by_cases he : s.g_frame.empty = true
    · simp only [he, if_true, Except.ok.injEq] at h
      subst h
      exact ⟨rfl, fun _ => ⟨rfl, rfl, rfl⟩⟩
    · have hne : s.g_frame.empty = false := by simpa using he
      simp only [hne, Bool.false_eq_true, if_false] at h
      refine ⟨?_, fun hemp => absurd hemp he⟩
      split at h
      · cases hm : makeTracker P env.csrt env.kcf with
        | none =>
          simp only [hm, Except.ok.injEq] at h
          subst h
          rfl
        | some t =>
          simp only [hm] at h
          cases hi : env.init with
          | error e => simp only [hi] at h; cases h
          | ok u =>
            simp only [hi, Except.ok.injEq] at h
            subst h
            unfold State.storeTracker
            cases s.g_tracker <;> rfl
      · simp only [Except.ok.injEq] at h
        subst h
        rfl
  · rw [if_neg hsel] at h
    simp only [Except.ok.injEq] at h
    subst h
    exact ⟨rfl, fun _ => ⟨rfl, rfl, rfl⟩⟩

/-- The function `StopCamera` ends Idle whenever the camera runs. -/
theorem StopCamera_running (s : State) (hrun : s.g_running = true) :
    (StopCamera s).Idle ∧ (StopCamera s).g_running = false ∧
    (StopCamera s).g_frame.empty = true := by
  unfold StopCamera
  rw [if_neg (by simp [hrun])]
  refine ⟨lost_idle _, ?_, ?_⟩
  · rw [(lost_config _).1]
    dsimp only
    split <;> rfl
  · rw [(lost_config _).2.2.2]
    rfl

/-- Every handler keeps the invariant of a stopped camera. -/
theorem stoppedInv_WndProc (P : Platform) (msg : Msg) (s s' : State) (h : s.StoppedInv)
    (hstep : WndProc P msg s = .ok s') : s'.StoppedInv := by
  cases msg with
  | btnStart opened =>
    simp only [WndProc, Except.ok.injEq] at hstep
    subst hstep
    unfold StartCamera
    by_cases hrun : s.g_running = true
    · rw [if_pos hrun]; exact h
    · have hr : s.g_running = false := by simpa using hrun
      rw [if_neg hrun]
      cases opened with
      | true =>
        intro hcontra
        simp at hcontra
      | false =>
        intro _
        have := h hr
        by_cases hcap : s.g_capOpened = true
        · simp only [hcap, if_true]
          exact this
        · simp only [hcap]
          exact this
  | btnStop =>
    simp only [WndProc, Except.ok.injEq] at hstep
    subst hstep
    by_cases hrun : s.g_running = true
    · intro _
      exact ⟨(StopCamera_running s hrun).2.2, (StopCamera_running s hrun).1⟩
    · have : StopCamera s = s := by
        unfold StopCamera
        simp [hrun]
      rw [this]
      exact h
  | checkAuto checked =>
    simp only [WndProc, Except.ok.injEq] at hstep
    subst hstep
    exact h
  | checkSave checked =>
    simp only [WndProc, Except.ok.injEq] at hstep
    subst hstep
    exact h
  | timerPreview env =>
    simp only [WndProc] at hstep
    by_cases hrun : s.g_running = true
    · obtain ⟨s2, h2, hr2, _⟩ := timerPreview_config P env s
      rw [h2] at hstep
      simp only [Except.ok.injEq] at hstep
      subst hstep
      intro hcontra
      rw [hr2, hrun] at hcontra
      cases hcontra
    · have : timerPreview P env s = .ok s := by
        unfold timerPreview
        simp [hrun]
      rw [this] at hstep
      simp only [Except.ok.injEq] at hstep
      subst hstep
      exact h
  | lbuttonDown p =>
    simp only [WndProc, Except.ok.injEq] at hstep
    subst hstep
    unfold lbuttonDown
    split
    · exact h
    · exact h
  | lbuttonUp env p =>
    simp only [WndProc] at hstep
    obtain ⟨hr, hf⟩ := lbuttonUp_stopped P env p s s' hstep
    intro hstop
    have hs := h (hr ▸ hstop)
    obtain ⟨e1, e2, e3⟩ := hf hs.1
    exact ⟨by rw [e1]; exact hs.1, by rw [e2]; exact hs.2.1, by rw [e3]; exact hs.2.2⟩
  | paint client =>
    simp only [WndProc, Except.ok.injEq] at hstep
    subst hstep
    exact h

/-- Every run keeps the invariant of a stopped camera. -/
theorem stoppedInv_run (P : Platform) (msgs : List Msg) :
    ∀ s s' : State, s.StoppedInv → run P msgs s = .ok s' → s'.StoppedInv := by
  induction msgs with
  | nil =>
    intro s s' h hr
    simp only [run, Except.ok.injEq] at hr
    subst hr
    exact h
  | cons m rest ih =>
    intro s s' h hr
    unfold run at hr
    cases hw : WndProc P m s with
    | error e => rw [hw] at hr; cases hr
    | ok s1 =>
      rw [hw] at hr
      exact ih s1 s' (stoppedInv_WndProc P m s s1 h hw) hr

/-- C19: in every state reachable from the initial state by start, stop, auto/save checkbox,
tick, paint and selection messages, the stop operation returns normally and ends with the session
Idle (flag clear, tracker handle discarded), whatever the tracking state before; the reset of
`MySecTrackApp.cpp` and the `c` key of `MySecCamcppDEV.cpp`, which are the two tracker-lost
assignments alone, end Idle from any state. -/
theorem C19_stop_ends_idle (P : Platform) (s : State) (hreach : Reachable P s) :
    (∃ s', WndProc P Msg.btnStop s = .ok s' ∧ s' = StopCamera s ∧ s'.Idle) ∧
    (∀ s0 : State, s0.lost.Idle) := by
  obtain ⟨msgs, hrun⟩ := hreach
  have hinit : State.initial.StoppedInv := fun _ => ⟨rfl, rfl, rfl⟩
  have hinv := stoppedInv_run P msgs State.initial s hinit hrun
  refine ⟨⟨StopCamera s, rfl, rfl, ?_⟩, lost_idle⟩
  by_cases hr : s.g_running = true
  · exact (StopCamera_running s hr).1
  · have hr2 : s.g_running = false := by simpa using hr
    have : StopCamera s = s := by
      unfold StopCamera
      simp [hr]
    rw [this]
    exact (hinv hr2).2

/-- Witness of C19: the camera was started and a tick made the session Active. -/
theorem C19_stop_ends_idle_witness :
    ∃ s, Reachable samplePlatform s ∧
      ∃ s', WndProc samplePlatform Msg.btnStop s = .ok s' ∧ s' = StopCamera s ∧ s'.Idle := by
  have hstart : run samplePlatform [Msg.btnStart true, Msg.checkAuto true] State.initial =
      .ok sampleIdle := rfl
  obtain ⟨s1, h1, _⟩ := tick_idle_init_ok samplePlatform sampleTickContour
    sampleIdle ⟨640, 480⟩ ⟨1⟩ ⟨-5, 10, 100, 200⟩ rfl rfl ⟨rfl, rfl⟩ rfl (by decide)
    sampleTickContour_found rfl rfl rfl sample_box_valid
  have hreach : Reachable samplePlatform s1 := by
    refine ⟨[Msg.btnStart true, Msg.checkAuto true, Msg.timerPreview sampleTickContour], ?_⟩
    show run samplePlatform (Msg.btnStart true :: Msg.checkAuto true ::
      [Msg.timerPreview sampleTickContour]) State.initial = .ok s1
    have h2 : run samplePlatform [Msg.timerPreview sampleTickContour] sampleIdle = .ok s1 := by
      unfold run WndProc
      simp only [h1]
      rfl
    exact h2
  exact ⟨s1, hreach, (C19_stop_ends_idle samplePlatform s1 hreach).1⟩

/-! ## The claims on the tick, the session invariant and the stop (C21 - C25) -/

/-- A tick that starts Idle in auto mode, finds a candidate, gets a tracker and has `init` return:
the state in which the update block of the same tick is entered. -/
theorem tick_idle_init_state (P : Platform) (env : TickEnv) (s : State) (frame : Frame)
    (t : Tracker)
    (hrun : s.g_running = true) (hauto : s.g_autoMode = true) (hidle : s.Idle)
    (hread : env.read = some frame) (hne : frame.empty = false)
    (hc : candidateFound P env frame s = true)
    (hm : makeTracker P env.csrt env.kcf = some t) (hi : env.init = .ok ()) :
    timerPreview P env s = .ok (trackerUpdate env frame
      { s with g_frame := frame, g_tracker := some t,
               g_bbox := clampInit frame (selectCandidate P env frame s).bestRect.toRect2d,
               g_tracking := true, trace := s.trace ++ [Event.trackerCreated t] }) := by
  have hc2 : candidateFound P env frame { s with g_frame := frame } = true := hc
  have hcond : (s.g_autoMode && !s.g_tracking) = true := by simp [hauto, hidle.1]
  rw [timerPreview_run P env s frame hrun hread hne, if_pos hcond, autoInit_eq, if_pos hc2,
    autoInitTracker_ok P env _ { s with g_frame := frame } t hidle.2 hm hi]
  rfl

/-- A tick that starts Idle in auto mode, finds a candidate, gets a tracker and has `init` return
enters the update block of the same tick Active, holding the new tracker and the clamped region
of the candidate. -/
theorem tick_idle_init_full (P : Platform) (env : TickEnv) (s : State) (frame : Frame)
    (t : Tracker)
    (hrun : s.g_running = true) (hauto : s.g_autoMode = true) (hidle : s.Idle)
    (hread : env.read = some frame) (hne : frame.empty = false)
    (hc : candidateFound P env frame s = true)
    (hm : makeTracker P env.csrt env.kcf = some t) (hi : env.init = .ok ()) :
    ∃ sI, timerPreview P env s = .ok (trackerUpdate env frame sI) ∧ sI.Active ∧
      sI.g_tracker = some t ∧
      sI.g_bbox = clampInit frame (selectCandidate P env frame s).bestRect.toRect2d ∧
      sI.trace = s.trace ++ [Event.trackerCreated t] :=
  ⟨_, tick_idle_init_state P env s frame t hrun hauto hidle hread hne hc hm hi,
    ⟨rfl, rfl⟩, rfl, rfl, rfl⟩

/-- The candidate of the tick `sampleTickContour` is the rectangle of its single contour. -/
theorem sampleTickContour_candidate :
    (selectCandidate samplePlatform sampleTickContour ⟨640, 480⟩ sampleIdle).bestRect =
      ⟨300, 200, 40, 80⟩ := by
  have hc : sampleTickContour.contours = [sampleContour] := rfl
  have hstep : contourStep samplePlatform ⟨640, 480⟩ sampleIdle.g_minContourArea
      (prefCenter ⟨640, 480⟩ sampleIdle.g_tracking sampleIdle.g_bbox) ⟨Rect.zero, 0.0⟩
      sampleContour = ⟨sampleContour.rect, 0.6 * (500 / 307200) + 0.4⟩ := by
    rw [← sampleContour_score]
    apply contourStep_take
    · rw [sampleIdle_minContourArea]; exact sampleContour_accepted
    · rw [sampleContour_score]; norm_num
  have hloop : contourLoop samplePlatform ⟨640, 480⟩ sampleIdle.g_minContourArea
      (prefCenter ⟨640, 480⟩ sampleIdle.g_tracking sampleIdle.g_bbox) sampleTickContour.contours =
      ⟨sampleContour.rect, 0.6 * (500 / 307200) + 0.4⟩ := by
    unfold contourLoop
    rw [hc, List.foldl_cons, List.foldl_nil, hstep]
  exact (autoInit_of_contour samplePlatform sampleTickContour ⟨640, 480⟩ sampleIdle
    sampleContour.rect _ hloop (by norm_num) (by decide)).1

/-- The tick `sampleTickContour` takes the started camera in auto mode to `sampleTracked`. -/
theorem sampleTickContour_tick :
    timerPreview samplePlatform sampleTickContour sampleIdle = .ok sampleTracked := by
  rw [tick_idle_init_state samplePlatform sampleTickContour sampleIdle ⟨640, 480⟩ ⟨1⟩ rfl rfl
    ⟨rfl, rfl⟩ rfl (by decide) sampleTickContour_found rfl rfl,
    trackerUpdate_ok sampleTickContour ⟨640, 480⟩
      { sampleIdle with
        g_frame := ⟨640, 480⟩, g_tracker := some ⟨1⟩,
        g_bbox := clampInit ⟨640, 480⟩
          (selectCandidate samplePlatform sampleTickContour ⟨640, 480⟩
            sampleIdle).bestRect.toRect2d,
        g_tracking := true, trace := sampleIdle.trace ++ [Event.trackerCreated ⟨1⟩] }
      ⟨-5, 10, 100, 200⟩ ⟨rfl, rfl⟩ rfl,
    sample_box_valid]
  have hb : clampUpdate ⟨640, 480⟩ ⟨-5, 10, 100, 200⟩ = ⟨0, 10, 100, 200⟩ := by
    norm_num [clampUpdate]
  rw [hb]
  rfl

/-- C21, as stated, fails. On the started camera in auto mode with no session, the tick
`sampleTickContourLost` finds the candidate (300, 200, 40, 80), creates tracker 1 and `init`
returns; the update that runs in the same tick returns false, so the tick ends Idle with the
tracker destroyed. With the tick `sampleTickContour`, whose same-tick update returns the box
(-5, 10, 100, 200), the tick ends with `g_bbox` the box (0, 10, 100, 200), not the candidate's
region. -/
theorem C21_counterexample :
    (selectCandidate samplePlatform sampleTickContour ⟨640, 480⟩ sampleIdle).bestRect =
      ⟨300, 200, 40, 80⟩ ∧
    (∃ s', timerPreview samplePlatform sampleTickContourLost sampleIdle = .ok s' ∧
      s'.trace = [Event.trackerCreated ⟨1⟩, Event.trackerDestroyed ⟨1⟩] ∧
      s'.g_tracking = false ∧ s'.g_tracker = none) ∧
    (∃ s', timerPreview samplePlatform sampleTickContour sampleIdle = .ok s' ∧
      s'.trace = [Event.trackerCreated ⟨1⟩] ∧ s'.g_tracking = true ∧
      s'.g_bbox = ⟨0, 10, 100, 200⟩ ∧ s'.g_bbox ≠ ⟨300, 200, 40, 80⟩) := by
  refine ⟨sampleTickContour_candidate, ?_, ?_⟩
  · have hc : candidateFound samplePlatform sampleTickContourLost ⟨640, 480⟩ sampleIdle = true := by
      rw [candidateFound_env_congr samplePlatform sampleTickContourLost sampleTickContour
        ⟨640, 480⟩ sampleIdle rfl rfl]
      exact sampleTickContour_found
    obtain ⟨sI, h1, hact, ht, _, htr⟩ := tick_idle_init_full samplePlatform
      sampleTickContourLost sampleIdle ⟨640, 480⟩ ⟨1⟩ rfl rfl ⟨rfl, rfl⟩ rfl (by decide) hc rfl rfl
    refine ⟨_, h1, ?_⟩
    rw [trackerUpdate_fail sampleTickContourLost ⟨640, 480⟩ sI hact (Or.inr ⟨Rect.zero, rfl⟩)]
    refine ⟨?_, lost_g_tracking sI, lost_g_tracker sI⟩
    rw [lost_trace sI ⟨1⟩ ht, htr]
    rfl
  · refine ⟨sampleTracked, sampleTickContour_tick, rfl, rfl, rfl, ?_⟩
    intro h
    have hx : (0 : ℚ) = 300 := congrArg Rect2d.x h
    norm_num at hx

/-- C21, amended: each tick runs the detection block and then the update block. A tick that
starts Idle in auto mode, finds a candidate, gets a tracker and has `init` return also runs the
tracker update on the same frame: when that update returns a box that passes the sanity test the
tick ends Active with the new tracker and `g_bbox` the clamped box of the update; when the update
throws, returns false or returns a box that fails the test, the tick ends Idle with `g_bbox` the
clamped region of the candidate. -/
theorem C21_auto_init_then_update (P : Platform) (env : TickEnv) (s : State) (frame : Frame)
    (t : Tracker)
    (hrun : s.g_running = true) (hauto : s.g_autoMode = true) (hidle : s.Idle)
    (hread : env.read = some frame) (hne : frame.empty = false)
    (hc : candidateFound P env frame s = true)
    (hm : makeTracker P env.csrt env.kcf = some t) (hi : env.init = .ok ()) :
    ∃ s', timerPreview P env s = .ok s' ∧
      (∀ b, env.update = .ok (true, b) → bboxInvalid frame (clampUpdate frame b) = false →
        s'.Active ∧ s'.g_tracker = some t ∧ s'.g_bbox = clampUpdate frame b) ∧
      (((∃ e, env.update = .error e) ∨ (∃ b, env.update = .ok (false, b)) ∨
          (∃ b, env.update = .ok (true, b) ∧ bboxInvalid frame (clampUpdate frame b) = true)) →
        s'.Idle ∧
        s'.g_bbox = clampInit frame (selectCandidate P env frame s).bestRect.toRect2d) := by
  obtain ⟨sI, h1, hact, ht, hb, _⟩ :=
    tick_idle_init_full P env s frame t hrun hauto hidle hread hne hc hm hi
  refine ⟨_, h1, ?_, ?_⟩
  · intro b hu hv
    rw [trackerUpdate_ok env frame sI b hact hu, hv]
    exact ⟨⟨hact.1, hact.2⟩, ht, rfl⟩
  · intro h
    rcases h with he | hf | ⟨b, hu, hv⟩
    · rw [trackerUpdate_fail env frame sI hact (Or.inl he)]
      exact ⟨lost_idle sI, by rw [lost_g_bbox, hb]⟩
    · rw [trackerUpdate_fail env frame sI hact (Or.inr hf)]
      exact ⟨lost_idle sI, by rw [lost_g_bbox, hb]⟩
    · rw [trackerUpdate_ok env frame sI b hact hu, hv]
      exact ⟨lost_idle sI, by rw [if_pos rfl, lost_g_bbox, hb]⟩

/-- C21, amended, on the started camera in auto mode and the tick `sampleTickContour`. -/
theorem C21_auto_init_then_update_witness :
    ∃ s', timerPreview samplePlatform sampleTickContour sampleIdle = .ok s' ∧
      (∀ b, sampleTickContour.update = .ok (true, b) →
        bboxInvalid ⟨640, 480⟩ (clampUpdate ⟨640, 480⟩ b) = false →
        s'.Active ∧ s'.g_tracker = some ⟨1⟩ ∧ s'.g_bbox = clampUpdate ⟨640, 480⟩ b) ∧
      (((∃ e, sampleTickContour.update = .error e) ∨
          (∃ b, sampleTickContour.update = .ok (false, b)) ∨
          (∃ b, sampleTickContour.update = .ok (true, b) ∧
            bboxInvalid ⟨640, 480⟩ (clampUpdate ⟨640, 480⟩ b) = true)) →
        s'.Idle ∧
        s'.g_bbox = clampInit ⟨640, 480⟩
          (selectCandidate samplePlatform sampleTickContour ⟨640, 480⟩
            sampleIdle).bestRect.toRect2d) :=
  C21_auto_init_then_update samplePlatform sampleTickContour sampleIdle ⟨640, 480⟩ ⟨1⟩ rfl rfl
    ⟨rfl, rfl⟩ rfl (by decide) sampleTickContour_found rfl rfl

/-! ## The session invariant over all messages -/

/-- Appending an event keeps the peak at `n` when the new total is at most `n`. -/
theorem peakLe_snoc (n : Int) (es : List Event) (e : Event) (h : PeakLe n es)
    (hc : liveCount (es ++ [e]) ≤ n) : PeakLe n (es ++ [e]) := by
  intro pre hpre
  rcases List.prefix_concat_iff.mp hpre with rfl | h2
  · exact hc
  · exact h pre h2

/-- A peak bound is not negative and bounds the final count. -/
theorem peakLe_bounds (n : Int) (es : List Event) (h : PeakLe n es) :
    0 ≤ n ∧ liveCount es ≤ n :=
  ⟨h [] List.nil_prefix, h es (List.prefix_refl es)⟩

/-- The session invariant depends on the state only through flag, handle and event sequence. -/
theorem sessionInv_congr (n : Int) (s t : State) (h : s.SessionInv n)
    (h1 : t.g_tracking = s.g_tracking) (h2 : t.g_tracker = s.g_tracker)
    (h3 : t.trace = s.trace) : t.SessionInv n := by
  unfold State.SessionInv State.Idle State.Active at *
  rw [h1, h2, h3]
  exact h

/-- An event that neither creates nor destroys a tracker keeps the session invariant. -/
theorem sessionInv_neutral (n : Int) (s t : State) (e : Event) (he : e.delta = 0)
    (h : s.SessionInv n) (h1 : t.g_tracking = s.g_tracking) (h2 : t.g_tracker = s.g_tracker)
    (h3 : t.trace = s.trace ++ [e]) : t.SessionInv n := by
  have hc : liveCount (s.trace ++ [e]) = liveCount s.trace := by
    rw [liveCount_append]
    simp [liveCount, he]
  unfold State.SessionInv State.Idle State.Active at *
  rw [h1, h2, h3, hc]
  refine ⟨h.1, h.2.1, peakLe_snoc n _ _ h.2.2 ?_⟩
  rw [hc]
  exact (peakLe_bounds n _ h.2.2).2

/-- The tracker-lost assignments keep the session invariant. -/
theorem lost_sessionInv (n : Int) (s : State) (h : s.SessionInv n) : s.lost.SessionInv n := by
  obtain ⟨hwf, hcount, hpeak⟩ := h
  cases ht : s.g_tracker with
  | none =>
    have hl : s.lost = { s with g_tracking := false } := by
      unfold State.lost State.releaseTracker
      simp [ht]
    rw [hl]
    refine ⟨Or.inl ⟨rfl, ht⟩, ?_, hpeak⟩
    show liveCount s.trace = if s.g_tracker.isSome then 1 else 0
    exact hcount
  | some t =>
    have hc1 : liveCount s.trace = 1 := by rw [hcount, ht]; rfl
    have hc0 : liveCount (s.trace ++ [Event.trackerDestroyed t]) = 0 := by
      rw [liveCount_append, hc1]; rfl
    refine ⟨Or.inl (lost_idle s), ?_, ?_⟩
    · rw [lost_trace s t ht, lost_g_tracker, hc0]; rfl
    · rw [lost_trace s t ht]
      exact peakLe_snoc n _ _ hpeak (by rw [hc0]; exact (peakLe_bounds n _ hpeak).1)

/-- The tracker-lost assignments create no tracker. -/
theorem lost_created (s : State) : createdCount s.lost.trace = createdCount s.trace := by
  cases ht : s.g_tracker with
  | none =>
    have hl : s.lost = { s with g_tracking := false } := by
      unfold State.lost State.releaseTracker
      simp [ht]
    rw [hl]
  | some t =>
    rw [lost_trace s t ht, createdCount_append]
    rfl

/-- The update block keeps the session invariant and creates no tracker. -/
theorem trackerUpdate_sessionInv (n : Int) (env : TickEnv) (frame : Frame) (s : State)
    (h : s.SessionInv n) :
    (trackerUpdate env frame s).SessionInv n ∧
    createdCount (trackerUpdate env frame s).trace = createdCount s.trace := by
  rcases trackerUpdate_cases env frame s with hu | hu | ⟨b, hact, hu⟩
  · rw [hu]; exact ⟨h, rfl⟩
  · rw [hu]; exact ⟨lost_sessionInv n s h, lost_created s⟩
  · rw [hu]
    exact ⟨⟨Or.inr ⟨hact.1, hact.2⟩, h.2.1, h.2.2⟩, rfl⟩

/-- The tracker creation of the auto-init block, entered Idle, keeps the session invariant. -/
theorem autoInitTracker_sessionInv (n : Int) (hn : 1 ≤ n) (P : Platform) (env : TickEnv)
    (r2d : Rect2d) (s : State) (h : s.SessionInv n) (hidle : s.Idle) :
    (autoInitTracker P env r2d s).SessionInv n := by
  obtain ⟨_, hcount, hpeak⟩ := h
  have hc0 : liveCount s.trace = 0 := by rw [hcount, hidle.2]; rfl
  cases hm : makeTracker P env.csrt env.kcf with
  | none =>
    have : autoInitTracker P env r2d s = s := by
      unfold autoInitTracker
      simp only [hm]
    rw [this]
    exact ⟨Or.inl hidle, hcount, hpeak⟩
  | some t =>
    have hc1 : liveCount (s.trace ++ [Event.trackerCreated t]) = 1 := by
      rw [liveCount_append, hc0]; rfl
    have hp1 : PeakLe n (s.trace ++ [Event.trackerCreated t]) :=
      peakLe_snoc n _ _ hpeak (by rw [hc1]; exact hn)
    cases hi : env.init with
    | ok u =>
      cases u
      rw [autoInitTracker_ok P env r2d s t hidle.2 hm hi]
      exact ⟨Or.inr ⟨rfl, rfl⟩, hc1, hp1⟩
    | error e =>
      rw [autoInitTracker_throw P env r2d s t e hm hi]
      have hc2 : liveCount ((s.trace ++ [Event.trackerCreated t]) ++
          [Event.trackerDestroyed t]) = 0 := by
        rw [liveCount_append, hc1]; rfl
      refine ⟨Or.inl ⟨hidle.1, hidle.2⟩, ?_,
        peakLe_snoc n _ _ hp1 (by rw [hc2]; exact (peakLe_bounds n _ hpeak).1)⟩
      show liveCount ((s.trace ++ [Event.trackerCreated t]) ++ [Event.trackerDestroyed t]) =
        if s.g_tracker.isSome then 1 else 0
      rw [hc2, hidle.2]
      rfl

/-- A tick returns normally, keeps the session invariant, and creates no tracker while a handle
is held. -/
theorem timerPreview_sessionInv (n : Int) (hn : 1 ≤ n) (P : Platform) (env : TickEnv)
    (s : State) (h : s.SessionInv n) :
    ∃ s', timerPreview P env s = .ok s' ∧ s'.SessionInv n ∧
      (s.g_tracker ≠ none → createdCount s'.trace = createdCount s.trace) := by
  by_cases hrun : s.g_running = true
  · cases hread : env.read with
    | none => exact ⟨s, C18_aux P env s (Or.inl hread), h, fun _ => rfl⟩
    | some frame =>
      by_cases he : frame.empty = true
      · exact ⟨s, C18_aux P env s (Or.inr ⟨frame, hread, he⟩), h, fun _ => rfl⟩
      · have hne : frame.empty = false := by simpa using he
        refine ⟨_, timerPreview_run P env s frame hrun hread hne, ?_⟩
        have h1 : State.SessionInv n { s with g_frame := frame } := h
        by_cases hauto : (s.g_autoMode && !s.g_tracking) = true
        · rw [if_pos hauto]
          have htr : s.g_tracking = false := by
            simp only [Bool.and_eq_true, Bool.not_eq_true'] at hauto
            exact hauto.2
          have hidle : s.Idle := by
            rcases h.1 with hi | ha
            · exact hi
            · rw [ha.1] at htr; cases htr
          have h2 : (autoInit P env frame { s with g_frame := frame }).SessionInv n := by
            rw [autoInit_eq]
            split
            · exact autoInitTracker_sessionInv n hn P env _ _ h1 ⟨hidle.1, hidle.2⟩
            · exact h1
          refine ⟨(trackerUpdate_sessionInv n env frame _ h2).1, ?_⟩
          intro hheld
          exact absurd hidle.2 hheld
        · rw [if_neg hauto]
          have h3 := trackerUpdate_sessionInv n env frame { s with g_frame := frame } h1
          exact ⟨h3.1, fun _ => h3.2⟩
  · refine ⟨s, ?_, h, fun _ => rfl⟩
    unfold timerPreview
    simp [hrun]

/-- The function `StartCamera` keeps the session invariant. -/
theorem StartCamera_sessionInv (n : Int) (opened : Bool) (s : State) (h : s.SessionInv n) :
    (StartCamera opened s).SessionInv n := by
  unfold StartCamera
  by_cases hrun : s.g_running = true
  · rw [if_pos hrun]; exact h
  · rw [if_neg hrun]
    by_cases hcap : s.g_capOpened = true
    · have h1 : State.SessionInv n
          { s with g_capOpened := false, trace := s.trace ++ [Event.capReleased] } :=
        sessionInv_neutral n s _ Event.capReleased rfl h rfl rfl rfl
      rw [if_pos hcap]
      cases opened
      · exact sessionInv_congr n _ _ h1 rfl rfl rfl
      · exact sessionInv_congr n _ _ h1 rfl rfl rfl
    · rw [if_neg hcap]
      cases opened
      · exact sessionInv_congr n _ _ h rfl rfl rfl
      · exact sessionInv_congr n _ _ h rfl rfl rfl

/-- The function `StopCamera` keeps the session invariant. -/
theorem StopCamera_sessionInv (n : Int) (s : State) (h : s.SessionInv n) :
    (StopCamera s).SessionInv n := by
  unfold StopCamera
  by_cases hrun : s.g_running = true
  · have hr : (!s.g_running) = false := by simp [hrun]
    rw [hr]
    simp only [Bool.false_eq_true, if_false]
    apply lost_sessionInv
    by_cases hcap : s.g_capOpened = true
    · have h1 : State.SessionInv n
          { s with g_running := false, g_capOpened := false,
                   trace := s.trace ++ [Event.capReleased] } :=
        sessionInv_neutral n s _ Event.capReleased rfl h rfl rfl rfl
      rw [if_pos hcap]
      exact sessionInv_neutral n _ _ Event.frameReleased rfl h1 rfl rfl rfl
    · rw [if_neg hcap]
      have h1 : State.SessionInv n { s with g_running := false } :=
        sessionInv_congr n _ _ h rfl rfl rfl
      exact sessionInv_neutral n _ _ Event.frameReleased rfl h1 rfl rfl rfl
  · have hr : (!s.g_running) = true := by simpa using hrun
    rw [if_pos hr]
    exact h

/-- The `WM_LBUTTONUP` handler, when it returns, keeps the session invariant with room for two
live instances: the new tracker is created while the old one is still held. -/
theorem lbuttonUp_sessionInv (n : Int) (hn : 2 ≤ n) (P : Platform) (env : SelEnv)
    (p : Int × Int) (s s' : State) (h : s.SessionInv n)
    (hok : lbuttonUp P env p s = .ok s') : s'.SessionInv n := by
  have hs1 : State.SessionInv n { s with g_selecting := false } :=
    sessionInv_congr n _ _ h rfl rfl rfl
  unfold lbuttonUp at hok
  by_cases hsel : s.g_selecting = true
  · rw [if_pos hsel] at hok
    by_cases hfe : s.g_frame.empty = true
    · simp only [hfe, if_true] at hok
      cases hok
      exact hs1
    · have hfe2 : s.g_frame.empty = false := by simpa using hfe
      simp only [hfe2, Bool.false_eq_true, if_false] at hok
      split at hok
      · cases hm : makeTracker P env.csrt env.kcf with
        | none =>
          rw [hm] at hok
          cases hok
          exact hs1
        | some t =>
          rw [hm] at hok
          cases hi : env.init with
          | error e =>
            rw [hi] at hok
            cases hok
          | ok u =>
            rw [hi] at hok
            cases hok
            obtain ⟨hwf, hcount, hpeak⟩ := h
            have hb := peakLe_bounds n _ hpeak
            cases ht : s.g_tracker with
            | none =>
              have hc0 : liveCount s.trace = 0 := by rw [hcount, ht]; rfl
              have hc1 : liveCount (s.trace ++ [Event.trackerCreated t]) = 1 := by
                rw [liveCount_append, hc0]; rfl
              refine ⟨Or.inr ⟨rfl, ?_⟩, ?_, ?_⟩
              · simp [State.storeTracker]
              · simp only [State.storeTracker, ht]
                exact hc1
              · simp only [State.storeTracker, ht]
                exact peakLe_snoc n _ _ hpeak (by rw [hc1]; omega)
            | some old =>
              have hc1 : liveCount s.trace = 1 := by rw [hcount, ht]; rfl
              have hc2 : liveCount (s.trace ++ [Event.trackerCreated t]) = 2 := by
                rw [liveCount_append, hc1]; rfl
              have hc3 : liveCount ((s.trace ++ [Event.trackerCreated t]) ++
                  [Event.trackerDestroyed old]) = 1 := by
                rw [liveCount_append, hc2]; rfl
              have hp2 : PeakLe n (s.trace ++ [Event.trackerCreated t]) :=
                peakLe_snoc n _ _ hpeak (by rw [hc2]; exact hn)
              refine ⟨Or.inr ⟨rfl, ?_⟩, ?_, ?_⟩
              · simp [State.storeTracker]
              · simp only [State.storeTracker, ht]
                exact hc3
              · simp only [State.storeTracker, ht]
                exact peakLe_snoc n _ _ hp2 (by rw [hc3]; omega)
      · cases hok
        exact hs1
  · rw [if_neg hsel] at hok
    cases hok
    exact h

/-- Every handler of the window procedure, when it returns, keeps the session invariant with
room for two live instances. -/
theorem WndProc_sessionInv (n : Int) (hn : 2 ≤ n) (P : Platform) (msg : Msg) (s s' : State)
    (h : s.SessionInv n) (hok : WndProc P msg s = .ok s') : s'.SessionInv n := by
  cases msg with
  | btnStart opened =>
    have : s' = StartCamera opened s := by
      unfold WndProc at hok; cases hok; rfl
    rw [this]; exact StartCamera_sessionInv n opened s h
  | btnStop =>
    have : s' = StopCamera s := by
      unfold WndProc at hok; cases hok; rfl
    rw [this]; exact StopCamera_sessionInv n s h
  | checkAuto checked =>
    unfold WndProc at hok; cases hok
    exact sessionInv_congr n _ _ h rfl rfl rfl
  | checkSave checked =>
    unfold WndProc at hok; cases hok
    exact sessionInv_congr n _ _ h rfl rfl rfl
  | timerPreview env =>
    obtain ⟨s1, h1, hinv, _⟩ := timerPreview_sessionInv n (by omega) P env s h
    have h2 : timerPreview P env s = .ok s' := hok
    rw [h1] at h2
    cases h2
    exact hinv
  | lbuttonDown p =>
    have : s' = lbuttonDown p s := by
      unfold WndProc at hok; cases hok; rfl
    rw [this]
    unfold lbuttonDown
    split
    · exact sessionInv_congr n _ _ h rfl rfl rfl
    · exact h
  | lbuttonUp env p => exact lbuttonUp_sessionInv n hn P env p s s' h hok
  | paint client =>
    unfold WndProc at hok; cases hok
    exact sessionInv_congr n _ _ h rfl rfl rfl

/-- A run that returns keeps the session invariant with room for two live instances. -/
theorem run_sessionInv (n : Int) (hn : 2 ≤ n) (P : Platform) (msgs : List Msg) :
    ∀ s s' : State, s.SessionInv n → run P msgs s = .ok s' → s'.SessionInv n := by
  induction msgs with
  | nil =>
    intro s s' h hok
    unfold run at hok
    cases hok
    exact h
  | cons m rest ih =>
    intro s s' h hok
    unfold run at hok
    cases hw : WndProc P m s with
    | error e => rw [hw] at hok; cases hok
    | ok s1 =>
      rw [hw] at hok
      exact ih s1 s' (WndProc_sessionInv n hn P m s s1 h hw) hok

/-- The state at program start satisfies the session invariant. -/
theorem initial_sessionInv (n : Int) (hn : 0 ≤ n) : State.initial.SessionInv n := by
  refine ⟨Or.inl ⟨rfl, rfl⟩, rfl, ?_⟩
  intro pre hpre
  have : pre = [] := List.prefix_nil.mp hpre
  rw [this]
  exact hn

/-- A run continues with the rest of the messages after a handler that returns. -/
theorem run_cons_ok (P : Platform) (m : Msg) (rest : List Msg) (s s1 : State)
    (h : WndProc P m s = .ok s1) : run P (m :: rest) s = run P rest s1 := by
  simp only [run, h]

/-- A run continues after a prefix that returns. -/
theorem run_append_ok (P : Platform) (a b : List Msg) :
    ∀ s s1 : State, run P a s = .ok s1 → run P (a ++ b) s = run P b s1 := by
  induction a with
  | nil =>
    intro s s1 h
    simp only [run, Except.ok.injEq] at h
    rw [h]
    rfl
  | cons m rest ih =>
    intro s s1 h
    cases hw : WndProc P m s with
    | error e =>
      simp only [run, hw] at h
      cases h
    | ok s2 =>
      rw [run_cons_ok P m rest s s2 hw] at h
      show run P (m :: (rest ++ b)) s = run P b s1
      rw [run_cons_ok P m (rest ++ b) s s2 hw]
      exact ih s2 s1 h

/-- The messages `sampleSession` lead from program start to `sampleDragging`. -/
theorem sampleSession_run :
    run samplePlatform sampleSession State.initial = .ok sampleDragging := by
  have h1 : WndProc samplePlatform (Msg.btnStart true) State.initial =
      .ok { State.initial with g_capOpened := true, g_backSub := true, g_running := true } := rfl
  have h2 : WndProc samplePlatform (Msg.checkAuto true)
      { State.initial with g_capOpened := true, g_backSub := true, g_running := true } =
      .ok sampleIdle := rfl
  have h3 : WndProc samplePlatform (Msg.timerPreview sampleTickContour) sampleIdle =
      .ok sampleTracked := sampleTickContour_tick
  have h4 : WndProc samplePlatform (Msg.paint ⟨0, 0, 640, 530⟩) sampleTracked =
      .ok { sampleTracked with g_previewRect := ⟨0, 40, 640, 520⟩ } := rfl
  have h5 : WndProc samplePlatform (Msg.lbuttonDown (100, 140))
      { sampleTracked with g_previewRect := ⟨0, 40, 640, 520⟩ } = .ok sampleDragging := rfl
  unfold sampleSession
  rw [run_cons_ok _ _ _ _ _ h1, run_cons_ok _ _ _ _ _ h2, run_cons_ok _ _ _ _ _ h3,
    run_cons_ok _ _ _ _ _ h4, run_cons_ok _ _ _ _ _ h5]
  rfl

/-- The sample drag released at (200, 340) on `sampleDragging`: tracker 11 is created while
tracker 1 is still held, then tracker 1 is destroyed. -/
theorem sampleDragging_release :
    ∃ s', lbuttonUp samplePlatform sampleSelOk (200, 340) sampleDragging = .ok s' ∧
      s'.trace = [Event.trackerCreated ⟨1⟩, Event.trackerCreated ⟨11⟩,
        Event.trackerDestroyed ⟨1⟩] := by
  have hr : ScreenToImageRect sampleDragging.g_frame sampleDragging.g_previewRect
      (selectionRect sampleDragging.g_mouseStart (200, 340)) = ⟨100, 100, 100, 200⟩ :=
    sample_selection
  obtain ⟨s', h1, _, _, _, h5⟩ := lbuttonUp_init_ok samplePlatform sampleSelOk (200, 340)
    sampleDragging ⟨11⟩ rfl (by decide) (by rw [hr]; norm_num) (by rw [hr]; norm_num) rfl rfl
  exact ⟨s', h1, h5⟩

/-- C22, as stated, fails. From program start: start the camera, switch auto mode on, handle the
tick `sampleTickContour` (tracker 1 is created, the session is Active), paint, press the button at
(100, 140) and release it at (200, 340) with a tracker implementation available. The release
creates tracker 11 while the session is Active, and after that creation two tracker instances
are alive (tracker 1 is destroyed only afterwards). -/
theorem C22_counterexample :
    ∃ s s', run samplePlatform sampleSession State.initial = .ok s ∧ s.Active ∧
      run samplePlatform (sampleSession ++ [Msg.lbuttonUp sampleSelOk (200, 340)])
        State.initial = .ok s' ∧
      s'.trace = s.trace ++ [Event.trackerCreated ⟨11⟩, Event.trackerDestroyed ⟨1⟩] ∧
      s.trace ++ [Event.trackerCreated ⟨11⟩] <+: s'.trace ∧
      liveCount (s.trace ++ [Event.trackerCreated ⟨11⟩]) = 2 := by
  obtain ⟨s', h1, h2⟩ := sampleDragging_release
  refine ⟨sampleDragging, s', sampleSession_run, ⟨rfl, rfl⟩, ?_, ?_, ?_, by decide⟩
  · have hw : WndProc samplePlatform (Msg.lbuttonUp sampleSelOk (200, 340)) sampleDragging =
        .ok s' := h1
    rw [run_append_ok samplePlatform _ _ _ _ sampleSession_run,
      run_cons_ok samplePlatform _ _ _ s' hw]
    rfl
  · rw [h2]; rfl
  · rw [h2]
    exact ⟨[Event.trackerDestroyed ⟨1⟩], rfl⟩

/-- C22, amended: over all sequences of start, stop, tick, selection and paint events from
program start, a tick creates a tracker only while the session is Idle, whereas a manual
selection may create one in either state, the new instance being created before the one held is
released; so after every event the tracker instances alive are exactly the one held (one when a
handle is held, none otherwise), and at no point of the event sequence are more than two alive.
Every tick returns normally; a manual selection that starts a session records the creation of
the new tracker first and the destruction of the one held, if any, after it. -/
theorem C22_sessions_and_instances (P : Platform) (msgs : List Msg) (s : State)
    (hrun : run P msgs State.initial = .ok s) :
    (∀ pre, pre <+: s.trace → liveCount pre ≤ 2) ∧
    liveCount s.trace = (if s.g_tracker.isSome then 1 else 0) ∧
    (∀ env : TickEnv, ∃ s', timerPreview P env s = .ok s' ∧
      (¬ s.Idle → createdCount s'.trace = createdCount s.trace)) ∧
    (∀ (env : SelEnv) (p : Int × Int) (t : Tracker),
      s.g_selecting = true → s.g_frame.empty = false →
      (ScreenToImageRect s.g_frame s.g_previewRect (selectionRect s.g_mouseStart p)).width > 5 →
      (ScreenToImageRect s.g_frame s.g_previewRect (selectionRect s.g_mouseStart p)).height > 5 →
      makeTracker P env.csrt env.kcf = some t → env.init = .ok () →
      ∃ s', lbuttonUp P env p s = .ok s' ∧
        s'.trace = s.trace ++ Event.trackerCreated t ::
          (match s.g_tracker with
           | some old => [Event.trackerDestroyed old]
           | none => [])) := by
  have hinv : s.SessionInv 2 :=
    run_sessionInv 2 (le_refl 2) P msgs State.initial s (initial_sessionInv 2 (by decide)) hrun
  refine ⟨hinv.2.2, hinv.2.1, ?_, ?_⟩
  · intro env
    obtain ⟨s', h1, _, h3⟩ := timerPreview_sessionInv 2 (by decide) P env s hinv
    refine ⟨s', h1, ?_⟩
    intro hni
    apply h3
    intro hnone
    rcases hinv.1 with hi | ha
    · exact hni hi
    · have := ha.2
      rw [hnone] at this
      cases this
  · intro env p t hsel hframe hwide htall hmk hinit
    obtain ⟨s', h1, _, _, _, h5⟩ :=
      lbuttonUp_init_ok P env p s t hsel hframe hwide htall hmk hinit
    exact ⟨s', h1, h5⟩

/-- C22, amended, on the sample session that ends in an Active state with a drag under way. -/
theorem C22_sessions_and_instances_witness :
    (∀ pre, pre <+: sampleDragging.trace → liveCount pre ≤ 2) ∧
    liveCount sampleDragging.trace = (if sampleDragging.g_tracker.isSome then 1 else 0) ∧
    (∀ env : TickEnv, ∃ s', timerPreview samplePlatform env sampleDragging = .ok s' ∧
      (¬ sampleDragging.Idle → createdCount s'.trace = createdCount sampleDragging.trace)) ∧
    (∀ (env : SelEnv) (p : Int × Int) (t : Tracker),
      sampleDragging.g_selecting = true → sampleDragging.g_frame.empty = false →
      (ScreenToImageRect sampleDragging.g_frame sampleDragging.g_previewRect
        (selectionRect sampleDragging.g_mouseStart p)).width > 5 →
      (ScreenToImageRect sampleDragging.g_frame sampleDragging.g_previewRect
        (selectionRect sampleDragging.g_mouseStart p)).height > 5 →
      makeTracker samplePlatform env.csrt env.kcf = some t → env.init = .ok () →
      ∃ s', lbuttonUp samplePlatform env p sampleDragging = .ok s' ∧
        s'.trace = sampleDragging.trace ++ Event.trackerCreated t ::
          (match sampleDragging.g_tracker with
           | some old => [Event.trackerDestroyed old]
           | none => [])) :=
  C22_sessions_and_instances samplePlatform sampleSession sampleDragging sampleSession_run

/-- In a state that is Idle or Active the flag is set exactly when a handle is held. -/
theorem flag_iff_handle_of_inv (s : State) (h : s.Idle ∨ s.Active) :
    s.g_tracking = true ↔ s.g_tracker.isSome = true := by
  rcases h with hi | ha
  · rw [hi.1, hi.2]
    simp
  · rw [ha.1, ha.2]

/-- C23: in every state reachable from program start by start, stop, checkbox, tick, paint and
selection messages, the tracking flag is set if and only if a tracker handle is held. The
tracker-lost assignments used by every loss and failure path clear the flag and the handle, the
stop operation ends with both clear, a successful auto-init sets both, and a manual selection
whose handler returns leaves the flag set exactly when a handle is held. -/
theorem C23_flag_iff_handle (P : Platform) (s : State) (hreach : Reachable P s) :
    (s.g_tracking = true ↔ s.g_tracker.isSome = true) ∧
    (s.lost.g_tracking = false ∧ s.lost.g_tracker = none) ∧
    ((StopCamera s).g_tracking = false ∧ (StopCamera s).g_tracker = none) ∧
    (∀ (env : TickEnv) (r2d : Rect2d) (t : Tracker), s.g_tracker = none →
      makeTracker P env.csrt env.kcf = some t → env.init = .ok () →
      (autoInitTracker P env r2d s).g_tracking = true ∧
      (autoInitTracker P env r2d s).g_tracker = some t) ∧
    (∀ (env : TickEnv), ∃ s', timerPreview P env s = .ok s' ∧
      (s'.g_tracking = true ↔ s'.g_tracker.isSome = true)) ∧
    (∀ (env : SelEnv) (p : Int × Int) (s' : State), lbuttonUp P env p s = .ok s' →
      (s'.g_tracking = true ↔ s'.g_tracker.isSome = true)) := by
  obtain ⟨msgs, hrun⟩ := hreach
  have hinv : s.SessionInv 2 :=
    run_sessionInv 2 (le_refl 2) P msgs State.initial s (initial_sessionInv 2 (by decide)) hrun
  have hstop : (StopCamera s).Idle := by
    by_cases hr : s.g_running = true
    · exact (StopCamera_running s hr).1
    · have hr2 : s.g_running = false := by simpa using hr
      have hinit : State.initial.StoppedInv := fun _ => ⟨rfl, rfl, rfl⟩
      have hs := stoppedInv_run P msgs State.initial s hinit hrun
      have : StopCamera s = s := by
        unfold StopCamera
        simp [hr]
      rw [this]
      exact (hs hr2).2
  refine ⟨flag_iff_handle_of_inv s hinv.1, ⟨lost_g_tracking s, lost_g_tracker s⟩, hstop, ?_, ?_, ?_⟩
  · intro env r2d t hnone hm hi
    rw [autoInitTracker_ok P env r2d s t hnone hm hi]
    exact ⟨rfl, rfl⟩
  · intro env
    obtain ⟨s', h1, h2, _⟩ := timerPreview_sessionInv 2 (by decide) P env s hinv
    exact ⟨s', h1, flag_iff_handle_of_inv s' h2.1⟩
  · intro env p s' hok
    exact flag_iff_handle_of_inv s' (lbuttonUp_sessionInv 2 (le_refl 2) P env p s s' hinv hok).1

/-- Witness of C23: the state reached by the sample session, Active with a drag under way. -/
theorem C23_flag_iff_handle_witness :
    (sampleDragging.g_tracking = true ↔ sampleDragging.g_tracker.isSome = true) ∧
    (sampleDragging.lost.g_tracking = false ∧ sampleDragging.lost.g_tracker = none) ∧
    ((StopCamera sampleDragging).g_tracking = false ∧
      (StopCamera sampleDragging).g_tracker = none) ∧
    (∀ (env : TickEnv) (r2d : Rect2d) (t : Tracker), sampleDragging.g_tracker = none →
      makeTracker samplePlatform env.csrt env.kcf = some t → env.init = .ok () →
      (autoInitTracker samplePlatform env r2d sampleDragging).g_tracking = true ∧
      (autoInitTracker samplePlatform env r2d sampleDragging).g_tracker = some t) ∧
    (∀ (env : TickEnv), ∃ s', timerPreview samplePlatform env sampleDragging = .ok s' ∧
      (s'.g_tracking = true ↔ s'.g_tracker.isSome = true)) ∧
    (∀ (env : SelEnv) (p : Int × Int) (s' : State),
      lbuttonUp samplePlatform env p sampleDragging = .ok s' →
      (s'.g_tracking = true ↔ s'.g_tracker.isSome = true)) :=
  C23_flag_iff_handle samplePlatform sampleDragging ⟨sampleSession, sampleSession_run⟩

/-- The function `StopCamera` on a running camera with an open capture device and a tracker
held: the events it adds, in program order. -/
theorem StopCamera_trace (s : State) (t : Tracker) (hrun : s.g_running = true)
    (hcap : s.g_capOpened = true) (ht : s.g_tracker = some t) :
    (StopCamera s).trace =
      s.trace ++ [Event.capReleased, Event.frameReleased, Event.trackerDestroyed t] := by
  unfold StopCamera
  rw [if_neg (by simp [hrun])]
  simp only [hcap, if_true]
  unfold State.lost State.releaseTracker
  simp [ht]

/-- The function `StopCamera` changes neither the bounding box nor the background model. -/
theorem StopCamera_keeps (s : State) :
    (StopCamera s).g_bbox = s.g_bbox ∧ (StopCamera s).g_backSub = s.g_backSub := by
  unfold StopCamera
  by_cases hrun : s.g_running = true
  · rw [if_neg (by simp [hrun])]
    constructor
    · rw [lost_g_bbox]
      dsimp only
      split <;> rfl
    · have hb : ∀ u : State, u.lost.g_backSub = u.g_backSub := by
        intro u
        unfold State.lost State.releaseTracker
        cases u.g_tracker <;> rfl
      rw [hb]
      dsimp only
      split <;> rfl
  · rw [if_pos (by simpa using hrun)]
    exact ⟨rfl, rfl⟩

/-- C24, as stated, fails. On `sampleTracked`, the state reached from program start by starting
the camera, switching auto mode on and one tick that made the session Active on tracker 1, the
stop operation releases the capture device first, then the published frame, and only then
destroys the tracker; the background model is still in place afterwards. -/
theorem C24_counterexample :
    (StopCamera sampleTracked).trace =
      [Event.trackerCreated ⟨1⟩, Event.capReleased, Event.frameReleased,
        Event.trackerDestroyed ⟨1⟩] ∧
    (StopCamera sampleTracked).g_backSub = true :=
  ⟨StopCamera_trace sampleTracked ⟨1⟩ rfl rfl rfl, (StopCamera_keeps sampleTracked).2⟩

/-- C24, amended: stopping a running session with an open capture device and a tracker held
clears the running flag, releases the frame source (capture device) first, then the published
frame, and after that tears down the tracker session (tracking state Idle, tracker released);
the background model of the foreground detector is not torn down by the stop (the next
successful start replaces it). -/
theorem C24_stop_order (s : State) (t : Tracker) (hrun : s.g_running = true)
    (hcap : s.g_capOpened = true) (ht : s.g_tracker = some t) :
    (StopCamera s).trace =
      s.trace ++ [Event.capReleased, Event.frameReleased, Event.trackerDestroyed t] ∧
    (StopCamera s).Idle ∧ (StopCamera s).g_running = false ∧
    (StopCamera s).g_frame.empty = true ∧
    (StopCamera s).g_backSub = s.g_backSub ∧
    (StartCamera true (StopCamera s)).g_backSub = true := by
  have h := StopCamera_running s hrun
  refine ⟨StopCamera_trace s t hrun hcap ht, h.1, h.2.1, h.2.2, (StopCamera_keeps s).2, ?_⟩
  unfold StartCamera
  rw [if_neg (by rw [h.2.1]; decide)]
  rfl

/-- C24, amended, on `sampleTracked`. -/
theorem C24_stop_order_witness :
    (StopCamera sampleTracked).trace =
      sampleTracked.trace ++
        [Event.capReleased, Event.frameReleased, Event.trackerDestroyed ⟨1⟩] ∧
    (StopCamera sampleTracked).Idle ∧ (StopCamera sampleTracked).g_running = false ∧
    (StopCamera sampleTracked).g_frame.empty = true ∧
    (StopCamera sampleTracked).g_backSub = sampleTracked.g_backSub ∧
    (StartCamera true (StopCamera sampleTracked)).g_backSub = true :=
  C24_stop_order sampleTracked ⟨1⟩ rfl rfl rfl

/-- A tick that starts Active skips the detection block and runs the update block on the frame
it read. -/
theorem tick_active_state (P : Platform) (env : TickEnv) (s : State) (frame : Frame)
    (hrun : s.g_running = true) (hread : env.read = some frame) (hne : frame.empty = false)
    (hact : s.Active) :
    timerPreview P env s = .ok (trackerUpdate env frame { s with g_frame := frame }) := by
  have hauto : ¬ ((s.g_autoMode && !s.g_tracking) = true) := by simp [hact.1]
  rw [timerPreview_run P env s frame hrun hread hne, if_neg hauto]

/-- C25, as stated, fails. On `sampleTracked`, an Active session holding the box
(0, 10, 100, 200), the tick `sampleTickThrow`, in which the tracker's `update` throws, ends Idle
with `g_bbox` still the box (0, 10, 100, 200), which is not empty; the stop operation likewise
ends Idle with that box still in `g_bbox`. -/
theorem C25_counterexample :
    (∃ s', timerPreview samplePlatform sampleTickThrow sampleTracked = .ok s' ∧ s'.Idle ∧
      s'.g_bbox = ⟨0, 10, 100, 200⟩ ∧ s'.g_bbox.empty = false) ∧
    ((StopCamera sampleTracked).Idle ∧ (StopCamera sampleTracked).g_bbox = ⟨0, 10, 100, 200⟩ ∧
      (StopCamera sampleTracked).g_bbox.empty = false) := by
  have he : (⟨0, 10, 100, 200⟩ : Rect2d).empty = false := by
    norm_num [Rect2d.empty]
  constructor
  · refine ⟨_, tick_active_state samplePlatform sampleTickThrow sampleTracked ⟨640, 480⟩ rfl rfl
      (by decide) ⟨rfl, rfl⟩, ?_⟩
    have hact : State.Active { sampleTracked with g_frame := ⟨640, 480⟩ } := ⟨rfl, rfl⟩
    rw [trackerUpdate_fail sampleTickThrow ⟨640, 480⟩ { sampleTracked with g_frame := ⟨640, 480⟩ }
      hact (Or.inl ⟨Exn.thrown, rfl⟩)]
    refine ⟨lost_idle _, ?_, ?_⟩
    · rw [lost_g_bbox]; rfl
    · rw [lost_g_bbox]; exact he
  · have hb : (StopCamera sampleTracked).g_bbox = ⟨0, 10, 100, 200⟩ :=
      (StopCamera_keeps sampleTracked).1
    refine ⟨(StopCamera_running sampleTracked rfl).1, hb, ?_⟩
    rw [hb]; exact he

/-- C25, amended: the bounding box is kept across ticks while the state is Active, each accepted
update replacing it by the clamped box of that update, and it is left as it is, not cleared, when
the state transitions to Idle, whether by tracker loss, invalid box, or stop. -/
theorem C25_box_kept_on_idle (P : Platform) (env : TickEnv) (s : State) (frame : Frame)
    (hrun : s.g_running = true) (hread : env.read = some frame) (hne : frame.empty = false)
    (hact : s.Active) :
    (∃ s', timerPreview P env s = .ok s' ∧
      ((s'.Active ∧ ∃ b, env.update = .ok (true, b) ∧
          bboxInvalid frame (clampUpdate frame b) = false ∧ s'.g_bbox = clampUpdate frame b) ∨
        (s'.Idle ∧ s'.g_bbox = s.g_bbox))) ∧
    ((StopCamera s).Idle ∧ (StopCamera s).g_bbox = s.g_bbox) := by
  have hact2 : State.Active { s with g_frame := frame } := ⟨hact.1, hact.2⟩
  refine ⟨⟨_, tick_active_state P env s frame hrun hread hne hact, ?_⟩,
    (StopCamera_running s hrun).1, (StopCamera_keeps s).1⟩
  cases hu : env.update with
  | error e =>
    rw [trackerUpdate_fail env frame { s with g_frame := frame } hact2 (Or.inl ⟨e, hu⟩)]
    exact Or.inr ⟨lost_idle _, lost_g_bbox _⟩
  | ok r =>
    obtain ⟨ok, b⟩ := r
    cases ok with
    | false =>
      rw [trackerUpdate_fail env frame { s with g_frame := frame } hact2 (Or.inr ⟨b, hu⟩)]
      exact Or.inr ⟨lost_idle _, lost_g_bbox _⟩
    | true =>
      rw [trackerUpdate_ok env frame { s with g_frame := frame } b hact2 hu]
      cases hv : bboxInvalid frame (clampUpdate frame b) with
      | true =>
        rw [if_pos rfl]
        exact Or.inr ⟨lost_idle _, lost_g_bbox _⟩
      | false =>
        rw [if_neg (by decide)]
        exact Or.inl ⟨⟨hact.1, hact.2⟩, b, rfl, hv, rfl⟩

/-- C25, amended, on `sampleTracked` and the tick `sampleTickThrow`. -/
theorem C25_box_kept_on_idle_witness :
    (∃ s', timerPreview samplePlatform sampleTickThrow sampleTracked = .ok s' ∧
      ((s'.Active ∧ ∃ b, sampleTickThrow.update = .ok (true, b) ∧
          bboxInvalid ⟨640, 480⟩ (clampUpdate ⟨640, 480⟩ b) = false ∧
          s'.g_bbox = clampUpdate ⟨640, 480⟩ b) ∨
        (s'.Idle ∧ s'.g_bbox = sampleTracked.g_bbox))) ∧
    ((StopCamera sampleTracked).Idle ∧
      (StopCamera sampleTracked).g_bbox = sampleTracked.g_bbox) :=
  C25_box_kept_on_idle samplePlatform sampleTickThrow sampleTracked ⟨640, 480⟩ rfl rfl
    (by decide) ⟨rfl, rfl⟩

/-! ## The claims on the manual selection, the score range and the clamps (C26 - C30) -/

/-- The truncation of a non-negative number does not exceed it. -/
theorem truncToInt_le (q : ℚ) (hq : 0 ≤ q) : ((truncToInt q : Int) : ℚ) ≤ q := by
  unfold truncToInt
  rw [if_pos hq]
  exact Int.floor_le q

/-- The image-space rectangle of a selection is `cv::Rect2d()` or lies inside the frame. -/
theorem ScreenToImageRect_inside (frame : Frame) (rc sel : RECT)
    (hc : 0 < frame.cols) (hr : 0 < frame.rows)
    (hpw : 0 < rc.right - rc.left) (hph : 0 < rc.bottom - rc.top) :
    ScreenToImageRect frame rc sel = Rect2d.zero ∨
    (0 ≤ (ScreenToImageRect frame rc sel).x ∧ 0 ≤ (ScreenToImageRect frame rc sel).y ∧
      0 < (ScreenToImageRect frame rc sel).width ∧ 0 < (ScreenToImageRect frame rc sel).height ∧
      (ScreenToImageRect frame rc sel).x + (ScreenToImageRect frame rc sel).width ≤
        (frame.cols : ℚ) ∧
      (ScreenToImageRect frame rc sel).y + (ScreenToImageRect frame rc sel).height ≤
        (frame.rows : ℚ)) := by
  have hne : ¬ (frame.empty = true) := by
    simp only [Frame.empty, Bool.or_eq_true, decide_eq_true_eq, not_or, not_le]
    exact ⟨hc, hr⟩
  have hp : ¬ (rc.right - rc.left ≤ 0 ∨ rc.bottom - rc.top ≤ 0) := by omega
  obtain ⟨L, hL⟩ : ∃ L, paintLayout frame rc = some L := by
    unfold paintLayout
    rw [if_neg hne]
    simp only [hp, if_false]
    exact ⟨_, rfl⟩
  obtain ⟨_, _, _, _, hf, _, hsw, hsh, _, _⟩ := paintLayout_some frame rc L hL
  have hcq : (0 : ℚ) < (frame.cols : ℚ) := by exact_mod_cast hc
  have hrq : (0 : ℚ) < (frame.rows : ℚ) := by exact_mod_cast hr
  have hswle : (L.sw : ℚ) ≤ (frame.cols : ℚ) * L.f := by
    rw [hsw]; exact truncToInt_le _ (mul_pos hcq hf).le
  have hshle : (L.sh : ℚ) ≤ (frame.rows : ℚ) * L.f := by
    rw [hsh]; exact truncToInt_le _ (mul_pos hrq hf).le
  rw [ScreenToImageRect_eq frame rc sel L hL]
  by_cases hsel : min sel.right (L.x + L.sw) ≤ max sel.left L.x ∨
      min sel.bottom (L.y + L.sh) ≤ max sel.top L.y
  · left; rw [if_pos hsel]
  · right
    rw [if_neg hsel]
    push_neg at hsel
    obtain ⟨h1, h2⟩ := hsel
    have hx0 : (0 : ℚ) ≤ ((max sel.left L.x - L.x : Int) : ℚ) := by
      have : 0 ≤ max sel.left L.x - L.x := sub_nonneg.mpr (le_max_right _ _)
      exact_mod_cast this
    have hy0 : (0 : ℚ) ≤ ((max sel.top L.y - L.y : Int) : ℚ) := by
      have : 0 ≤ max sel.top L.y - L.y := sub_nonneg.mpr (le_max_right _ _)
      exact_mod_cast this
    have hw0 : (0 : ℚ) < ((min sel.right (L.x + L.sw) - max sel.left L.x : Int) : ℚ) := by
      have : 0 < min sel.right (L.x + L.sw) - max sel.left L.x := sub_pos.mpr h1
      exact_mod_cast this
    have hh0 : (0 : ℚ) < ((min sel.bottom (L.y + L.sh) - max sel.top L.y : Int) : ℚ) := by
      have : 0 < min sel.bottom (L.y + L.sh) - max sel.top L.y := sub_pos.mpr h2
      exact_mod_cast this
    have hxw : ((max sel.left L.x - L.x : Int) : ℚ) +
        ((min sel.right (L.x + L.sw) - max sel.left L.x : Int) : ℚ) ≤ (L.sw : ℚ) := by
      have : (max sel.left L.x - L.x) + (min sel.right (L.x + L.sw) - max sel.left L.x) ≤
          L.sw := by
        have := min_le_right sel.right (L.x + L.sw)
        omega
      exact_mod_cast this
    have hyh : ((max sel.top L.y - L.y : Int) : ℚ) +
        ((min sel.bottom (L.y + L.sh) - max sel.top L.y : Int) : ℚ) ≤ (L.sh : ℚ) := by
      have : (max sel.top L.y - L.y) + (min sel.bottom (L.y + L.sh) - max sel.top L.y) ≤
          L.sh := by
        have := min_le_right sel.bottom (L.y + L.sh)
        omega
      exact_mod_cast this
    refine ⟨div_nonneg hx0 hf.le, div_nonneg hy0 hf.le, div_pos hw0 hf, div_pos hh0 hf, ?_, ?_⟩
    · show _ / L.f + _ / L.f ≤ _
      rw [← add_div, div_le_iff₀ hf]
      linarith
    · show _ / L.f + _ / L.f ≤ _
      rw [← add_div, div_le_iff₀ hf]
      linarith

/-- The init clamp leaves `cv::Rect2d()` as it is on a frame without negative size. -/
theorem clampInit_zero (frame : Frame) (hc : 0 ≤ frame.cols) (hr : 0 ≤ frame.rows) :
    clampInit frame Rect2d.zero = Rect2d.zero := by
  have hcq : (0 : ℚ) ≤ (frame.cols : ℚ) := by exact_mod_cast hc
  have hrq : (0 : ℚ) ≤ (frame.rows : ℚ) := by exact_mod_cast hr
  norm_num [clampInit, Rect2d.zero, hcq, hrq]

/-- The init clamp leaves a rectangle inside the frame as it is. -/
theorem clampInit_of_inside (frame : Frame) (r : Rect2d) (hx : 0 ≤ r.x) (hy : 0 ≤ r.y)
    (hw : r.x + r.width ≤ (frame.cols : ℚ)) (hh : r.y + r.height ≤ (frame.rows : ℚ)) :
    clampInit frame r = r := by
  have h1 : max 0.0 r.x = r.x := by
    rw [max_eq_right]; norm_num; exact hx
  have h2 : max 0.0 r.y = r.y := by
    rw [max_eq_right]; norm_num; exact hy
  unfold clampInit
  simp only [h1, h2]
  rw [min_eq_left (by linarith), min_eq_left (by linarith)]

/-- The clamp before the manual init leaves the image-space rectangle of a selection as it is. -/
theorem clampInit_ScreenToImageRect (frame : Frame) (rc sel : RECT)
    (hc : 0 < frame.cols) (hr : 0 < frame.rows)
    (hpw : 0 < rc.right - rc.left) (hph : 0 < rc.bottom - rc.top) :
    clampInit frame (ScreenToImageRect frame rc sel) = ScreenToImageRect frame rc sel := by
  rcases ScreenToImageRect_inside frame rc sel hc hr hpw hph with h0 | ⟨hx, hy, _, _, hw, hh⟩
  · rw [h0]; exact clampInit_zero frame hc.le hr.le
  · exact clampInit_of_inside frame _ hx hy hw hh

/-- C28: for every frame with `cols, rows > 0`, every preview rectangle with positive width and
height and every selection, the rectangle returned by `ScreenToImageRect`, computed in exact
arithmetic, is either `(0, 0, 0, 0)` or lies inside the frame, with `rx ≥ 0`, `ry ≥ 0`, `rw > 0`,
`rh > 0`, `rx + rw ≤ cols` and `ry + rh ≤ rows`; so the clamp applied to it before the manual
tracker init leaves it unchanged. -/
theorem C28_selection_inside_frame (frame : Frame) (rc sel : RECT)
    (hc : 0 < frame.cols) (hr : 0 < frame.rows)
    (hpw : 0 < rc.right - rc.left) (hph : 0 < rc.bottom - rc.top) :
    (ScreenToImageRect frame rc sel = ⟨0, 0, 0, 0⟩ ∨
      (0 ≤ (ScreenToImageRect frame rc sel).x ∧ 0 ≤ (ScreenToImageRect frame rc sel).y ∧
        0 < (ScreenToImageRect frame rc sel).width ∧
        0 < (ScreenToImageRect frame rc sel).height ∧
        (ScreenToImageRect frame rc sel).x + (ScreenToImageRect frame rc sel).width ≤
          (frame.cols : ℚ) ∧
        (ScreenToImageRect frame rc sel).y + (ScreenToImageRect frame rc sel).height ≤
          (frame.rows : ℚ))) ∧
    clampInit frame (ScreenToImageRect frame rc sel) = ScreenToImageRect frame rc sel :=
  ⟨ScreenToImageRect_inside frame rc sel hc hr hpw hph,
    clampInit_ScreenToImageRect frame rc sel hc hr hpw hph⟩

/-- Witness of C28: the sample drag on the sample preview of a 640x480 frame. -/
theorem C28_selection_inside_frame_witness :
    (ScreenToImageRect ⟨640, 480⟩ ⟨0, 40, 640, 520⟩ (selectionRect (100, 140) (200, 340)) =
        ⟨0, 0, 0, 0⟩ ∨
      (0 ≤ (ScreenToImageRect ⟨640, 480⟩ ⟨0, 40, 640, 520⟩
          (selectionRect (100, 140) (200, 340))).x ∧
        0 ≤ (ScreenToImageRect ⟨640, 480⟩ ⟨0, 40, 640, 520⟩
          (selectionRect (100, 140) (200, 340))).y ∧
        0 < (ScreenToImageRect ⟨640, 480⟩ ⟨0, 40, 640, 520⟩
          (selectionRect (100, 140) (200, 340))).width ∧
        0 < (ScreenToImageRect ⟨640, 480⟩ ⟨0, 40, 640, 520⟩
          (selectionRect (100, 140) (200, 340))).height ∧
        (ScreenToImageRect ⟨640, 480⟩ ⟨0, 40, 640, 520⟩
            (selectionRect (100, 140) (200, 340))).x +
          (ScreenToImageRect ⟨640, 480⟩ ⟨0, 40, 640, 520⟩
            (selectionRect (100, 140) (200, 340))).width ≤
          (((⟨640, 480⟩ : Frame).cols : Int) : ℚ) ∧
        (ScreenToImageRect ⟨640, 480⟩ ⟨0, 40, 640, 520⟩
            (selectionRect (100, 140) (200, 340))).y +
          (ScreenToImageRect ⟨640, 480⟩ ⟨0, 40, 640, 520⟩
            (selectionRect (100, 140) (200, 340))).height ≤
          (((⟨640, 480⟩ : Frame).rows : Int) : ℚ))) ∧
    clampInit ⟨640, 480⟩
        (ScreenToImageRect ⟨640, 480⟩ ⟨0, 40, 640, 520⟩
          (selectionRect (100, 140) (200, 340))) =
      ScreenToImageRect ⟨640, 480⟩ ⟨0, 40, 640, 520⟩ (selectionRect (100, 140) (200, 340)) :=
  C28_selection_inside_frame ⟨640, 480⟩ ⟨0, 40, 640, 520⟩ (selectionRect (100, 140) (200, 340))
    (by decide) (by decide) (by decide) (by decide)

/-- A frame that is not empty has positive width and height. -/
theorem frame_pos_of_not_empty (frame : Frame) (h : frame.empty = false) :
    0 < frame.cols ∧ 0 < frame.rows := by
  simp only [Frame.empty, Bool.or_eq_false_iff, decide_eq_false_iff_not, not_le] at h
  exact h

/-- An image-space rectangle wider than 5 only comes from a preview rectangle of positive
width and height. -/
theorem ScreenToImageRect_accept (frame : Frame) (rc sel : RECT)
    (hc : 0 < frame.cols) (hr : 0 < frame.rows)
    (hw : (ScreenToImageRect frame rc sel).width > 5) :
    0 < rc.right - rc.left ∧ 0 < rc.bottom - rc.top := by
  have hcq : (0 : ℚ) < (frame.cols : ℚ) := by exact_mod_cast hc
  have hrq : (0 : ℚ) < (frame.rows : ℚ) := by exact_mod_cast hr
  unfold ScreenToImageRect at hw
  simp only at hw
  split at hw
  · norm_num [Rect2d.zero] at hw
  · rename_i hcond
    push_neg at hcond
    simp only at hw
    have hnum : (0 : ℚ) < ((min sel.right (rc.left + Int.tdiv (rc.right - rc.left -
        truncToInt ((frame.cols : ℚ) * min (((rc.right - rc.left : Int) : ℚ) / (frame.cols : ℚ))
          (((rc.bottom - rc.top : Int) : ℚ) / (frame.rows : ℚ)))) 2 +
        truncToInt ((frame.cols : ℚ) * min (((rc.right - rc.left : Int) : ℚ) / (frame.cols : ℚ))
          (((rc.bottom - rc.top : Int) : ℚ) / (frame.rows : ℚ)))) -
        max sel.left (rc.left + Int.tdiv (rc.right - rc.left -
        truncToInt ((frame.cols : ℚ) * min (((rc.right - rc.left : Int) : ℚ) / (frame.cols : ℚ))
          (((rc.bottom - rc.top : Int) : ℚ) / (frame.rows : ℚ)))) 2) : Int) : ℚ) := by
      have := sub_pos.mpr hcond.1
      exact_mod_cast this
    have hf : 0 < min (((rc.right - rc.left : Int) : ℚ) / (frame.cols : ℚ))
        (((rc.bottom - rc.top : Int) : ℚ) / (frame.rows : ℚ)) := by
      by_contra hneg
      push_neg at hneg
      have := div_nonpos_of_nonneg_of_nonpos hnum.le hneg
      linarith
    obtain ⟨h1, h2⟩ := lt_min_iff.mp hf
    have h1' : (0 : ℚ) < ((rc.right - rc.left : Int) : ℚ) := by
      rcases (div_pos_iff.mp h1) with ⟨h, _⟩ | ⟨_, h⟩
      · exact h
      · linarith
    have h2' : (0 : ℚ) < ((rc.bottom - rc.top : Int) : ℚ) := by
      rcases (div_pos_iff.mp h2) with ⟨h, _⟩ | ⟨_, h⟩
      · exact h
      · linarith
    exact ⟨by exact_mod_cast h1', by exact_mod_cast h2'⟩

/-- The `WM_LBUTTONUP` handler on a committed selection whose image-space rectangle is at most 5
wide or at most 5 high: only the selecting flag changes. -/
theorem lbuttonUp_small (P : Platform) (env : SelEnv) (p : Int × Int) (s : State)
    (hsel : s.g_selecting = true)
    (hsmall : (ScreenToImageRect s.g_frame s.g_previewRect
        (selectionRect s.g_mouseStart p)).width ≤ 5 ∨
      (ScreenToImageRect s.g_frame s.g_previewRect
        (selectionRect s.g_mouseStart p)).height ≤ 5) :
    lbuttonUp P env p s = .ok { s with g_selecting := false } := by
  have hno : ¬ ((ScreenToImageRect s.g_frame s.g_previewRect
        (selectionRect s.g_mouseStart p)).width > 5 ∧
      (ScreenToImageRect s.g_frame s.g_previewRect
        (selectionRect s.g_mouseStart p)).height > 5) := by
    rintro ⟨h1, h2⟩
    rcases hsmall with h | h
    · exact absurd h1 (not_lt.mpr h)
    · exact absurd h2 (not_lt.mpr h)
  unfold lbuttonUp
  rw [if_pos hsel]
  by_cases hfe : s.g_frame.empty = true
  · simp only [hfe, if_true]
  · have hfe2 : s.g_frame.empty = false := by simpa using hfe
    simp only [hfe2, Bool.false_eq_true, if_false]
    rw [if_neg hno]

/-- A session started by the `WM_LBUTTONUP` handler holds the clamped image-space rectangle of
the selection, and both sides of it exceed 5. -/
theorem lbuttonUp_started (P : Platform) (env : SelEnv) (p : Int × Int) (s s' : State)
    (hok : lbuttonUp P env p s = .ok s') (hne : s'.trace ≠ s.trace) :
    s'.g_bbox = clampInit s.g_frame
      (ScreenToImageRect s.g_frame s.g_previewRect (selectionRect s.g_mouseStart p)) ∧
    5 < s'.g_bbox.width ∧ 5 < s'.g_bbox.height := by
  unfold lbuttonUp at hok
  by_cases hsel : s.g_selecting = true
  · rw [if_pos hsel] at hok
    by_cases hfe : s.g_frame.empty = true
    · simp only [hfe, if_true] at hok
      cases hok
      exact absurd rfl hne
    · have hfe2 : s.g_frame.empty = false := by simpa using hfe
      simp only [hfe2, Bool.false_eq_true, if_false] at hok
      split at hok
      · rename_i hacc
        cases hm : makeTracker P env.csrt env.kcf with
        | none =>
          rw [hm] at hok
          cases hok
          exact absurd rfl hne
        | some t =>
          rw [hm] at hok
          cases hi : env.init with
          | error e =>
            rw [hi] at hok
            cases hok
          | ok u =>
            rw [hi] at hok
            cases hok
            obtain ⟨hc, hr⟩ := frame_pos_of_not_empty s.g_frame hfe2
            obtain ⟨hpw, hph⟩ := ScreenToImageRect_accept s.g_frame s.g_previewRect
              (selectionRect s.g_mouseStart p) hc hr hacc.1
            have hid := clampInit_ScreenToImageRect s.g_frame s.g_previewRect
              (selectionRect s.g_mouseStart p) hc hr hpw hph
            refine ⟨rfl, ?_, ?_⟩
            · show 5 < (clampInit s.g_frame (ScreenToImageRect s.g_frame s.g_previewRect
                (selectionRect s.g_mouseStart p))).width
              rw [hid]
              exact hacc.1
            · show 5 < (clampInit s.g_frame (ScreenToImageRect s.g_frame s.g_previewRect
                (selectionRect s.g_mouseStart p))).height
              rw [hid]
              exact hacc.2
      · cases hok
        exact absurd rfl hne
  · rw [if_neg hsel] at hok
    cases hok
    exact absurd rfl hne

/-- A session started by the manual init of `MySecCamcppDEV.cpp` has a clamped selection with
both sides above 5. -/
theorem devManualInit_started (csrtAvailable : Bool) (env : SelEnv) (frame : Frame)
    (d d' : DevState) (hok : devManualInit csrtAvailable env frame d = .ok d')
    (h0 : d.tracking = false) (h1 : d'.tracking = true) :
    d'.selectionForTracker = clampInit frame d.selectionForTracker ∧
    5 < (clampInit frame d.selectionForTracker).width ∧
    5 < (clampInit frame d.selectionForTracker).height := by
  unfold devManualInit at hok
  by_cases hs : d.haveSelection = true
  · rw [if_pos hs] at hok
    simp only at hok
    split at hok
    · cases hok
      rw [h0] at h1
      cases h1
    · split at hok
      · rename_i hacc
        cases hi : env.init with
        | error e =>
          rw [hi] at hok
          cases hok
        | ok u =>
          rw [hi] at hok
          cases hok
          exact ⟨rfl, hacc.1, hacc.2.1⟩
      · cases hok
        rw [h0] at h1
        cases h1
  · rw [if_neg hs] at hok
    cases hok
    rw [h0] at h1
    cases h1

/-- The score of a contour that passes the filters is at most 0.94 when `sqrt` delivers no
negative number. -/
theorem contourScore_le (P : Platform) (frame : Frame) (g : ℚ) (pc : ℚ × ℚ) (c : Contour)
    (hsqrt : ∀ x, 0 ≤ P.sqrt x) (hacc : contourRejected frame g c = false) :
    contourScore P frame pc c ≤ 0.94 := by
  have hratio : c.area / ((frame.cols * frame.rows : Int) : ℚ) ≤ 0.9 := by
    by_contra hgt
    have h2 : c.area / ((frame.cols * frame.rows : Int) : ℚ) > maxAreaRatio := by
      unfold maxAreaRatio
      exact not_le.mp hgt
    by_cases h1 : c.area < minArea g
    · simp [contourRejected, h1] at hacc
    · simp [contourRejected, h1] at hacc
      have h3 := hacc.1
      push_cast at h2
      linarith
  have hd : (0 : ℚ) ≤ (if frameDiag P frame = 0 then (1.0 : ℚ)
      else min 1.0 (contourDist P pc c / frameDiag P frame)) := by
    split
    · norm_num
    · apply le_min
      · norm_num
      · exact div_nonneg (hsqrt _) (hsqrt _)
  unfold contourScore
  simp only
  linarith

/-- The overlap loop adds at most 0.3. -/
theorem hogBoost_le (bestRect : Rect) (hogDet : List Rect) (bestScore : ℚ) :
    hogBoost bestRect hogDet bestScore ≤ bestScore + 0.3 := by
  induction hogDet with
  | nil => simp only [hogBoost]; norm_num
  | cons hr rest ih =>
    unfold hogBoost
    split
    · exact le_refl _
    · exact ih

/-- The contour loop ends with `bestScore ≤ 0` exactly when no contour passed the filters, and
then it ends on its starting pair. -/
theorem contourLoop_nonpos_iff (P : Platform) (frame : Frame) (g : ℚ) (pc : ℚ × ℚ)
    (contours : List Contour) (hne : frame.empty = false) :
    ((contourLoop P frame g pc contours).bestScore ≤ 0 ↔
      contours.filter (fun c => !contourRejected frame g c) = []) ∧
    (contours.filter (fun c => !contourRejected frame g c) = [] →
      contourLoop P frame g pc contours = ⟨Rect.zero, 0.0⟩) := by
  have hpos : ∀ d ∈ contours.filter (fun c => !contourRejected frame g c),
      0 < contourScore P frame pc d := by
    intro d hd
    have hacc : contourRejected frame g d = false := by
      simpa using (List.mem_filter.mp hd).2
    have h500 := area_of_not_rejected frame g d hacc
    exact contourScore_pos P frame pc d hne (by linarith)
  unfold contourLoop
  rcases foldl_contourStep P frame g pc contours ⟨Rect.zero, 0.0⟩ with
    ⟨he, hall⟩ | ⟨pre, c, post, hsp, he, hlt, _, _⟩
  · have hnil : contours.filter (fun c => !contourRejected frame g c) = [] := by
      apply List.eq_nil_iff_forall_not_mem.mpr
      intro d hd
      have h1 := hall d hd
      have h2 := hpos d hd
      norm_num at h1
      linarith
    rw [he]
    refine ⟨⟨fun _ => hnil, fun _ => by norm_num⟩, fun _ => rfl⟩
  · have hnn : contours.filter (fun c => !contourRejected frame g c) ≠ [] := by
      rw [hsp]
      simp
    rw [he]
    have hc : 0 < contourScore P frame pc c := by
      apply hpos
      rw [hsp]
      simp
    refine ⟨⟨fun h => ?_, fun h => absurd h hnn⟩, fun h => absurd h hnn⟩
    exfalso
    have : contourScore P frame pc c ≤ 0 := h
    linarith

/-- When some contour passes the filters, the contour loop ends on one of them. -/
theorem contourLoop_of_survivors (P : Platform) (frame : Frame) (g : ℚ) (pc : ℚ × ℚ)
    (contours : List Contour) (hne : frame.empty = false)
    (hs : contours.filter (fun c => !contourRejected frame g c) ≠ []) :
    ∃ c ∈ contours, contourRejected frame g c = false ∧
      contourLoop P frame g pc contours = ⟨c.rect, contourScore P frame pc c⟩ := by
  have h := contourLoop_nonpos_iff P frame g pc contours hne
  unfold contourLoop at h ⊢
  rcases foldl_contourStep P frame g pc contours ⟨Rect.zero, 0.0⟩ with
    ⟨he, _⟩ | ⟨pre, c, post, hsp, he, _, _, _⟩
  · rw [he] at h
    exact absurd (h.1.mp (by norm_num)) hs
  · have hmem : c ∈ contours.filter (fun c => !contourRejected frame g c) := by
      rw [hsp]
      simp
    have hm := List.mem_filter.mp hmem
    exact ⟨c, hm.1, by simpa using hm.2, he⟩

/-- The HOG step on the starting pair of the contour loop: the detector-only fallback. It yields
a candidate exactly when some detection has positive area. -/
theorem hogStage_fallback (hogDet : List Rect) :
    ((∀ hr ∈ hogDet, hr.area ≤ 0) → hogStage hogDet ⟨Rect.zero, 0.0⟩ = ⟨Rect.zero, 0.0⟩) ∧
    ((∃ hr ∈ hogDet, 0 < hr.area) →
      (hogStage hogDet ⟨Rect.zero, 0.0⟩).bestScore = 0.5 ∧
      0 < (hogStage hogDet ⟨Rect.zero, 0.0⟩).bestRect.area) := by
  have h0 : ((⟨Rect.zero, 0.0⟩ : Best).bestScore ≤ 0.0) := by norm_num
  constructor
  · intro hall
    unfold hogStage
    rw [if_pos h0]
    split
    · rcases foldl_hogLargestStep hogDet (0.0, Rect.zero) with
        ⟨he, _⟩ | ⟨pre, hr, post, hsp, _, hlt, _, _⟩
      · simp only [he]
        norm_num
      · have hmem : hr ∈ hogDet := by rw [hsp]; simp
        have h1 := hall hr hmem
        have h2 : ((hr.area : Int) : ℚ) ≤ 0 := by exact_mod_cast h1
        norm_num at hlt
        linarith
    · rfl
  · rintro ⟨hr0, hmem0, hpos0⟩
    have hne : (!hogDet.isEmpty) = true := by
      cases hogDet with
      | nil => simp at hmem0
      | cons a t => rfl
    unfold hogStage
    rw [if_pos h0, if_pos hne]
    rcases foldl_hogLargestStep hogDet (0.0, Rect.zero) with
      ⟨_, hall⟩ | ⟨pre, hr, post, hsp, he, hlt, _, _⟩
    · have h1 := hall hr0 hmem0
      have h2 : (0 : ℚ) < ((hr0.area : Int) : ℚ) := by exact_mod_cast hpos0
      norm_num at h1
      linarith
    · have hp : (0 : ℚ) < ((hr.area : Int) : ℚ) := by
        norm_num at hlt
        exact_mod_cast hlt
      simp only [he]
      rw [if_pos hp]
      exact ⟨rfl, by exact_mod_cast hp⟩

/-- The stand-in for `sqrt` delivers no negative number. -/
theorem samplePlatform_nonneg : ∀ x, 0 ≤ samplePlatform.sqrt x := by
  intro x
  show (0 : ℚ) ≤ ((Nat.sqrt ⌊x⌋₊ : Nat) : ℚ)
  exact Nat.cast_nonneg _

/-- The update clamp is the clamp `clampBox` on the converted box. -/
theorem clampUpdate_eq_clampBox (frame : Frame) (b : Rect) :
    clampUpdate frame b = clampBox frame b.toRect2d := rfl

/-- One coordinate of the update clamp, applied twice. -/
theorem clamp_coord_idem (c x w : ℚ) :
    max 0 (min (max 0 (min w (c - max 0 x))) (c - max 0 (max 0 x))) =
      max 0 (min w (c - max 0 x)) := by
  have hx : max 0 (max 0 x) = max 0 x := max_eq_right (le_max_left 0 x)
  rw [hx]
  by_cases h : min w (c - max 0 x) ≤ 0
  · rw [max_eq_left h]
    apply max_eq_left
    exact min_le_left _ _
  · have h2 : 0 ≤ min w (c - max 0 x) := (not_le.mp h).le
    rw [max_eq_right h2, min_eq_left (min_le_right _ _), max_eq_right h2]

/-- The update clamp applied to its own result changes nothing. -/
theorem clampBox_idem (frame : Frame) (r : Rect2d) :
    clampBox frame (clampBox frame r) = clampBox frame r := by
  have h0 : (0.0 : ℚ) = 0 := by norm_num
  have hx : max (0 : ℚ) (max 0 r.x) = max 0 r.x := max_eq_right (le_max_left 0 r.x)
  have hy : max (0 : ℚ) (max 0 r.y) = max 0 r.y := max_eq_right (le_max_left 0 r.y)
  have hw := clamp_coord_idem (frame.cols : ℚ) r.x r.width
  have hh := clamp_coord_idem (frame.rows : ℚ) r.y r.height
  unfold clampBox
  simp only [h0, hx, hy]
  rw [hx] at hw
  rw [hy] at hh
  rw [hw, hh]

/-- The update clamp leaves a box inside the frame as it is. -/
theorem clampBox_of_inside (frame : Frame) (r : Rect2d) (hx : 0 ≤ r.x) (hy : 0 ≤ r.y)
    (hw0 : 0 ≤ r.width) (hh0 : 0 ≤ r.height)
    (hw : r.x + r.width ≤ (frame.cols : ℚ)) (hh : r.y + r.height ≤ (frame.rows : ℚ)) :
    clampBox frame r = r := by
  have h0 : (0.0 : ℚ) = 0 := by norm_num
  unfold clampBox
  simp only [h0]
  rw [max_eq_right hx, max_eq_right hy, min_eq_left (by linarith), min_eq_left (by linarith),
    max_eq_right hw0, max_eq_right hh0]

/-- The clamped box of the update step has integer fields. -/
theorem clampUpdate_int (frame : Frame) (b : Rect) :
    clampUpdate frame b =
      (Rect.mk (max 0 b.x) (max 0 b.y) (max 0 (min b.width (frame.cols - max 0 b.x)))
        (max 0 (min b.height (frame.rows - max 0 b.y)))).toRect2d := by
  have h0 : (0.0 : ℚ) = 0 := by norm_num
  unfold clampUpdate Rect.toRect2d
  simp only [h0]
  push_cast
  rfl

/-- Rounding an integer gives that integer. -/
theorem roundToInt_intCast (n : Int) : roundToInt (n : ℚ) = n := by
  unfold roundToInt
  split
  · rw [Int.floor_eq_iff]
    constructor <;> linarith
  · rw [Int.ceil_eq_iff]
    constructor <;> linarith

/-- The intersection of a rectangle with the frame rectangle lies inside the frame. -/
theorem inter_frame_inside (a : Rect) (frame : Frame) (hc : 0 ≤ frame.cols)
    (hr : 0 ≤ frame.rows) :
    0 ≤ (a.inter ⟨0, 0, frame.cols, frame.rows⟩).x ∧
    0 ≤ (a.inter ⟨0, 0, frame.cols, frame.rows⟩).y ∧
    0 ≤ (a.inter ⟨0, 0, frame.cols, frame.rows⟩).width ∧
    0 ≤ (a.inter ⟨0, 0, frame.cols, frame.rows⟩).height ∧
    (a.inter ⟨0, 0, frame.cols, frame.rows⟩).x + (a.inter ⟨0, 0, frame.cols, frame.rows⟩).width ≤
      frame.cols ∧
    (a.inter ⟨0, 0, frame.cols, frame.rows⟩).y +
      (a.inter ⟨0, 0, frame.cols, frame.rows⟩).height ≤ frame.rows := by
  unfold Rect.inter
  simp only
  split
  · simp only [Rect.zero]
    omega
  · rename_i h
    push_neg at h
    simp only
    omega

/-- A rectangle of positive size inside the frame is its own intersection with the frame
rectangle. -/
theorem inter_frame_of_inside (a : Rect) (frame : Frame) (hx : 0 ≤ a.x) (hy : 0 ≤ a.y)
    (hw : 0 < a.width) (hh : 0 < a.height)
    (hxw : a.x + a.width ≤ frame.cols) (hyh : a.y + a.height ≤ frame.rows) :
    a.inter ⟨0, 0, frame.cols, frame.rows⟩ = a := by
  have h1 : max a.x 0 = a.x := max_eq_left hx
  have h2 : max a.y 0 = a.y := max_eq_left hy
  have h3 : min (a.x + a.width) (0 + frame.cols) - a.x = a.width := by
    rw [min_eq_left (by omega)]
    omega
  have h4 : min (a.y + a.height) (0 + frame.rows) - a.y = a.height := by
    rw [min_eq_left (by omega)]
    omega
  unfold Rect.inter
  simp only [h1, h2, h3, h4]
  rw [if_neg (by omega)]

/-- The crop rectangle of an integer box of positive size inside the frame is that box. -/
theorem cropRect_of_int (frame : Frame) (a : Rect) (hx : 0 ≤ a.x) (hy : 0 ≤ a.y)
    (hw : 0 < a.width) (hh : 0 < a.height)
    (hxw : a.x + a.width ≤ frame.cols) (hyh : a.y + a.height ≤ frame.rows) :
    cropRect frame a.toRect2d = a := by
  unfold cropRect Rect.toRect2d
  simp only [roundToInt_intCast]
  exact inter_frame_of_inside a frame hx hy hw hh hxw hyh

/-- The crop rectangle of a box accepted by the update validation is that box. -/
theorem cropRect_of_valid (frame : Frame) (b : Rect)
    (hv : bboxInvalid frame (clampUpdate frame b) = false) :
    (cropRect frame (clampUpdate frame b)).toRect2d = clampUpdate frame b ∧
    0 < (cropRect frame (clampUpdate frame b)).width ∧
    0 < (cropRect frame (clampUpdate frame b)).height := by
  have hval := clampUpdate_valid frame b hv
  rw [clampUpdate_int frame b] at hval ⊢
  obtain ⟨hw, hh, _, _, hx, hy, hxw, hyh⟩ := hval
  simp only [Rect.toRect2d] at hw hh hx hy hxw hyh
  have hw' : 1 < max 0 (min b.width (frame.cols - max 0 b.x)) := by exact_mod_cast hw
  have hh' : 1 < max 0 (min b.height (frame.rows - max 0 b.y)) := by exact_mod_cast hh
  have hx' : 0 ≤ max 0 b.x := le_max_left _ _
  have hy' : 0 ≤ max 0 b.y := le_max_left _ _
  have hxw' : max 0 b.x + max 0 (min b.width (frame.cols - max 0 b.x)) ≤ frame.cols := by
    exact_mod_cast hxw
  have hyh' : max 0 b.y + max 0 (min b.height (frame.rows - max 0 b.y)) ≤ frame.rows := by
    exact_mod_cast hyh
  have hwpos : 0 < max 0 (min b.width (frame.cols - max 0 b.x)) := by omega
  have hhpos : 0 < max 0 (min b.height (frame.rows - max 0 b.y)) := by omega
  rw [cropRect_of_int frame _ hx' hy' hwpos hhpos hxw' hyh']
  exact ⟨rfl, hwpos, hhpos⟩

/-- The save step writes a crop only for a crop rectangle of positive width and height, taken
from the published frame and box while the flag is set. -/
theorem timerSave_some (s : State) (ir : Rect) (h : timerSave s = some ir) :
    ir = cropRect s.g_frame s.g_bbox ∧ 0 < ir.width ∧ 0 < ir.height ∧
    s.g_tracking = true ∧ s.g_bbox.empty = false ∧ s.g_frame.empty = false := by
  unfold timerSave at h
  split at h
  · split at h
    · cases h
    · rename_i hfe
      simp only at h
      split at h
      · rename_i htr
        split at h
        · rename_i hpos
          cases h
          simp only [Bool.and_eq_true, Bool.not_eq_true'] at htr
          exact ⟨rfl, hpos.1, hpos.2, htr.1, htr.2, by simpa using hfe⟩
        · cases h
      · cases h
  · cases h

/-- C29: in the save step the crop rectangle, the bounding box rounded to integers and intersected
with the frame rectangle, always lies inside the (non-empty) frame; a crop is written only when
that rectangle has positive width and height; and for every box accepted by the update validation
against a frame of the same size the crop rectangle is non-empty and equal to the box, so the
save step of a running camera with saving enabled writes exactly that crop. -/
theorem C29_crop_inside_frame (frame : Frame) (bbox : Rect2d) (hne : frame.empty = false) :
    (0 ≤ (cropRect frame bbox).x ∧ 0 ≤ (cropRect frame bbox).y ∧
      0 ≤ (cropRect frame bbox).width ∧ 0 ≤ (cropRect frame bbox).height ∧
      (cropRect frame bbox).x + (cropRect frame bbox).width ≤ frame.cols ∧
      (cropRect frame bbox).y + (cropRect frame bbox).height ≤ frame.rows) ∧
    (∀ (s : State) (ir : Rect), timerSave s = some ir →
      ir = cropRect s.g_frame s.g_bbox ∧ 0 < ir.width ∧ 0 < ir.height ∧
      0 ≤ ir.x ∧ 0 ≤ ir.y ∧ ir.x + ir.width ≤ s.g_frame.cols ∧
      ir.y + ir.height ≤ s.g_frame.rows) ∧
    (∀ b : Rect, bboxInvalid frame (clampUpdate frame b) = false →
      (cropRect frame (clampUpdate frame b)).toRect2d = clampUpdate frame b ∧
      0 < (cropRect frame (clampUpdate frame b)).width ∧
      0 < (cropRect frame (clampUpdate frame b)).height ∧
      ∀ s : State, s.g_running = true → s.g_saveEnabled = true → s.g_frame = frame →
        s.g_tracking = true → s.g_bbox = clampUpdate frame b →
        timerSave s = some (cropRect frame (clampUpdate frame b))) := by
  obtain ⟨hc, hr⟩ := frame_pos_of_not_empty frame hne
  refine ⟨inter_frame_inside _ frame hc.le hr.le, ?_, ?_⟩
  · intro s ir h
    obtain ⟨h1, h2, h3, _, _, h6⟩ := timerSave_some s ir h
    obtain ⟨hc2, hr2⟩ := frame_pos_of_not_empty s.g_frame h6
    have hin := inter_frame_inside (Rect.mk (roundToInt s.g_bbox.x) (roundToInt s.g_bbox.y)
      (roundToInt s.g_bbox.width) (roundToInt s.g_bbox.height)) s.g_frame hc2.le hr2.le
    refine ⟨h1, h2, h3, ?_⟩
    rw [h1]
    exact ⟨hin.1, hin.2.1, hin.2.2.2.2.1, hin.2.2.2.2.2⟩
  · intro b hv
    obtain ⟨h1, h2, h3⟩ := cropRect_of_valid frame b hv
    refine ⟨h1, h2, h3, ?_⟩
    intro s hrun hsave hf htr hb
    have hval := clampUpdate_valid frame b hv
    have hbe : (clampUpdate frame b).empty = false := by
      have hw : ¬ ((clampUpdate frame b).width ≤ 0) := by
        have := hval.1
        intro h
        linarith
      have hh : ¬ ((clampUpdate frame b).height ≤ 0) := by
        have := hval.2.1
        intro h
        linarith
      simp [Rect2d.empty, hw, hh]
    unfold timerSave
    simp only [hrun, hsave, Bool.and_self, if_true, hf, hne, Bool.false_eq_true, if_false, htr,
      hbe, Bool.not_false, hb, Bool.and_self]
    have hpos : (cropRect frame (clampUpdate frame b)).width > 0 ∧
        (cropRect frame (clampUpdate frame b)).height > 0 := ⟨h2, h3⟩
    exact if_pos hpos

/-- Witness of C29: the box (0, 10, 100, 200), the clamped tracker box (-5, 10, 100, 200), on a
640x480 frame; the crop rectangle is that box. -/
theorem C29_crop_inside_frame_witness :
    (cropRect ⟨640, 480⟩ (clampUpdate ⟨640, 480⟩ ⟨-5, 10, 100, 200⟩)).toRect2d =
      clampUpdate ⟨640, 480⟩ ⟨-5, 10, 100, 200⟩ ∧
    0 < (cropRect ⟨640, 480⟩ (clampUpdate ⟨640, 480⟩ ⟨-5, 10, 100, 200⟩)).width ∧
    0 < (cropRect ⟨640, 480⟩ (clampUpdate ⟨640, 480⟩ ⟨-5, 10, 100, 200⟩)).height :=
  ⟨((C29_crop_inside_frame ⟨640, 480⟩ ⟨0, 10, 100, 200⟩ (by decide)).2.2 ⟨-5, 10, 100, 200⟩
      sample_box_valid).1,
    ((C29_crop_inside_frame ⟨640, 480⟩ ⟨0, 10, 100, 200⟩ (by decide)).2.2 ⟨-5, 10, 100, 200⟩
      sample_box_valid).2.1,
    ((C29_crop_inside_frame ⟨640, 480⟩ ⟨0, 10, 100, 200⟩ (by decide)).2.2 ⟨-5, 10, 100, 200⟩
      sample_box_valid).2.2.1⟩

/-- C30: the update-time clamp is idempotent and never yields a negative width or height. For
every frame size and every tracker box, clamping the clamped box again returns it unchanged; a
box already inside the frame is returned unchanged; the clamped box has integer fields, so the
tracker can return it, and when it does on a frame of the same size, the clamp returns it
unchanged and the validation accepts it again if it accepted it before. -/
theorem C30_update_clamp_idempotent (frame : Frame) (b : Rect) :
    clampBox frame (clampUpdate frame b) = clampUpdate frame b ∧
    (∀ r : Rect2d, clampBox frame (clampBox frame r) = clampBox frame r) ∧
    (0 ≤ (clampUpdate frame b).width ∧ 0 ≤ (clampUpdate frame b).height) ∧
    ((0 ≤ b.x ∧ 0 ≤ b.y ∧ 0 ≤ b.width ∧ 0 ≤ b.height ∧
        b.x + b.width ≤ frame.cols ∧ b.y + b.height ≤ frame.rows) →
      clampUpdate frame b = b.toRect2d) ∧
    (∃ b2 : Rect, b2.toRect2d = clampUpdate frame b) ∧
    (∀ b2 : Rect, b2.toRect2d = clampUpdate frame b →
      clampUpdate frame b2 = clampUpdate frame b ∧
      (bboxInvalid frame (clampUpdate frame b) = false →
        bboxInvalid frame (clampUpdate frame b2) = false ∧
        ∀ (env : TickEnv) (s : State), s.Active → env.update = .ok (true, b2) →
          trackerUpdate env frame s = { s with g_bbox := clampUpdate frame b })) := by
  have hidem : clampBox frame (clampUpdate frame b) = clampUpdate frame b := by
    rw [clampUpdate_eq_clampBox]
    exact clampBox_idem frame _
  refine ⟨hidem, clampBox_idem frame, ⟨le_max_of_le_left (by norm_num),
    le_max_of_le_left (by norm_num)⟩, ?_, ⟨_, (clampUpdate_int frame b).symm⟩, ?_⟩
  · rintro ⟨hx, hy, hw0, hh0, hw, hh⟩
    rw [clampUpdate_eq_clampBox]
    apply clampBox_of_inside
    · show (0 : ℚ) ≤ ((b.x : Int) : ℚ)
      exact_mod_cast hx
    · show (0 : ℚ) ≤ ((b.y : Int) : ℚ)
      exact_mod_cast hy
    · show (0 : ℚ) ≤ ((b.width : Int) : ℚ)
      exact_mod_cast hw0
    · show (0 : ℚ) ≤ ((b.height : Int) : ℚ)
      exact_mod_cast hh0
    · show ((b.x : Int) : ℚ) + ((b.width : Int) : ℚ) ≤ _
      exact_mod_cast hw
    · show ((b.y : Int) : ℚ) + ((b.height : Int) : ℚ) ≤ _
      exact_mod_cast hh
  · intro b2 hb2
    have h2 : clampUpdate frame b2 = clampUpdate frame b := by
      rw [clampUpdate_eq_clampBox frame b2, hb2]
      exact hidem
    refine ⟨h2, fun hv => ⟨by rw [h2]; exact hv, ?_⟩⟩
    intro env s hact hu
    rw [trackerUpdate_ok env frame s b2 hact hu, h2, hv]
    rfl

/-! ## Facts about rounding to double -/

/-- The rounded integer is within a half of the number. -/
theorem roundHalfEven_near (x : ℚ) :
    x - 1 / 2 ≤ (roundHalfEven x : ℚ) ∧ (roundHalfEven x : ℚ) ≤ x + 1 / 2 := by
  have h1 := Int.floor_le x
  have h2 := Int.lt_floor_add_one x
  unfold roundHalfEven
  simp only
  split
  · constructor <;> linarith
  · split
    · push_cast
      constructor <;> linarith
    · split
      · constructor <;> linarith
      · push_cast
        constructor <;> linarith

/-- Rounding an integer gives that integer. -/
theorem roundHalfEven_intCast (n : Int) : roundHalfEven (n : ℚ) = n := by
  unfold roundHalfEven
  simp

/-- Rounding to the nearest integer is monotone. -/
theorem roundHalfEven_mono (x y : ℚ) (h : x ≤ y) : roundHalfEven x ≤ roundHalfEven y := by
  by_contra hlt
  push_neg at hlt
  have hx := roundHalfEven_near x
  have hy := roundHalfEven_near y
  have h1 : (roundHalfEven y : ℚ) + 1 ≤ (roundHalfEven x : ℚ) := by exact_mod_cast hlt
  have hxy : x = y := by linarith [hx.2, hy.1]
  rw [hxy] at hlt
  exact lt_irrefl _ hlt

/-- Zero is a double. -/
theorem toDouble_zero : toDouble 0 = 0 := by
  unfold toDouble
  simp

/-- The scaled significand of a positive number lies between `2^52` and `2^53`. -/
theorem significand_bounds (q : ℚ) (hq : 0 < q) :
    (2 : ℚ) ^ (52 : ℕ) ≤ q / (2 : ℚ) ^ (Int.log 2 |q| - 52) ∧
    q / (2 : ℚ) ^ (Int.log 2 |q| - 52) < (2 : ℚ) ^ (53 : ℕ) := by
  have habs : |q| = q := abs_of_pos hq
  have h1 : ((2 : ℕ) : ℚ) ^ Int.log 2 q ≤ q := Int.zpow_log_le_self (by norm_num) hq
  have h2 : q < ((2 : ℕ) : ℚ) ^ (Int.log 2 q + 1) := Int.lt_zpow_succ_log_self (by norm_num) q
  have hu : (0 : ℚ) < (2 : ℚ) ^ (Int.log 2 q - 52) := by positivity
  rw [habs]
  have e1 : (2 : ℚ) ^ (52 : ℕ) * (2 : ℚ) ^ (Int.log 2 q - 52) = (2 : ℚ) ^ Int.log 2 q := by
    rw [← zpow_natCast, ← zpow_add₀ (by norm_num : (2 : ℚ) ≠ 0)]
    congr 1
    push_cast
    ring
  have e2 : (2 : ℚ) ^ (53 : ℕ) * (2 : ℚ) ^ (Int.log 2 q - 52) =
      (2 : ℚ) ^ (Int.log 2 q + 1) := by
    rw [← zpow_natCast, ← zpow_add₀ (by norm_num : (2 : ℚ) ≠ 0)]
    congr 1
    push_cast
    ring
  constructor
  · rw [le_div_iff₀ hu, e1]
    exact_mod_cast h1
  · rw [div_lt_iff₀ hu, e2]
    exact_mod_cast h2

/-- The double nearest to a positive number lies in the closed binade of the number. -/
theorem toDouble_binade (q : ℚ) (hq : 0 < q) :
    (2 : ℚ) ^ Int.log 2 |q| ≤ toDouble q ∧ toDouble q ≤ (2 : ℚ) ^ (Int.log 2 |q| + 1) := by
  obtain ⟨h1, h2⟩ := significand_bounds q hq
  have hu : (0 : ℚ) < (2 : ℚ) ^ (Int.log 2 |q| - 52) := by positivity
  have hr1 : ((2 : Int) ^ (52 : ℕ) : Int) ≤
      roundHalfEven (q / (2 : ℚ) ^ (Int.log 2 |q| - 52)) := by
    have := roundHalfEven_mono _ _ (show (((2 : Int) ^ (52 : ℕ) : Int) : ℚ) ≤ _ by
      push_cast; exact h1)
    rwa [roundHalfEven_intCast] at this
  have hr2 : roundHalfEven (q / (2 : ℚ) ^ (Int.log 2 |q| - 52)) ≤
      ((2 : Int) ^ (53 : ℕ) : Int) := by
    have := roundHalfEven_mono _ _ (show _ ≤ (((2 : Int) ^ (53 : ℕ) : Int) : ℚ) by
      push_cast; exact h2.le)
    rwa [roundHalfEven_intCast] at this
  have hr1q : (2 : ℚ) ^ (52 : ℕ) ≤
      (roundHalfEven (q / (2 : ℚ) ^ (Int.log 2 |q| - 52)) : ℚ) := by exact_mod_cast hr1
  have hr2q : (roundHalfEven (q / (2 : ℚ) ^ (Int.log 2 |q| - 52)) : ℚ) ≤
      (2 : ℚ) ^ (53 : ℕ) := by exact_mod_cast hr2
  have e1 : (2 : ℚ) ^ (52 : ℕ) * (2 : ℚ) ^ (Int.log 2 |q| - 52) = (2 : ℚ) ^ Int.log 2 |q| := by
    rw [← zpow_natCast, ← zpow_add₀ (by norm_num : (2 : ℚ) ≠ 0)]
    congr 1
    push_cast
    ring
  have e2 : (2 : ℚ) ^ (53 : ℕ) * (2 : ℚ) ^ (Int.log 2 |q| - 52) =
      (2 : ℚ) ^ (Int.log 2 |q| + 1) := by
    rw [← zpow_natCast, ← zpow_add₀ (by norm_num : (2 : ℚ) ≠ 0)]
    congr 1
    push_cast
    ring
  unfold toDouble
  rw [if_neg hq.ne']
  simp only
  constructor
  · rw [← e1]
    exact mul_le_mul_of_nonneg_right hr1q hu.le
  · rw [← e2]
    exact mul_le_mul_of_nonneg_right hr2q hu.le

/-- The double nearest to a positive number is positive. -/
theorem toDouble_pos (q : ℚ) (hq : 0 < q) : 0 < toDouble q :=
  lt_of_lt_of_le (by positivity) (toDouble_binade q hq).1

/-- The double nearest to a number that is not negative is not negative. -/
theorem toDouble_nonneg (q : ℚ) (hq : 0 ≤ q) : 0 ≤ toDouble q := by
  rcases hq.eq_or_lt with h | h
  · rw [← h, toDouble_zero]
  · exact (toDouble_pos q h).le

/-- Rounding to double is monotone on the numbers that are not negative. -/
theorem toDouble_mono (x y : ℚ) (hx : 0 ≤ x) (h : x ≤ y) : toDouble x ≤ toDouble y := by
  rcases hx.eq_or_lt with h0 | hxpos
  · rw [← h0, toDouble_zero]
    exact toDouble_nonneg y (le_trans hx h)
  · have hypos : 0 < y := lt_of_lt_of_le hxpos h
    have hlog : Int.log 2 |x| ≤ Int.log 2 |y| := by
      rw [abs_of_pos hxpos, abs_of_pos hypos]
      exact Int.log_mono_right hxpos h
    rcases hlog.eq_or_lt with heq | hlt
    · have hu : (0 : ℚ) < (2 : ℚ) ^ (Int.log 2 |y| - 52) := by positivity
      unfold toDouble
      rw [if_neg hxpos.ne', if_neg hypos.ne']
      simp only
      rw [heq]
      apply mul_le_mul_of_nonneg_right _ hu.le
      have := roundHalfEven_mono (x / (2 : ℚ) ^ (Int.log 2 |y| - 52))
        (y / (2 : ℚ) ^ (Int.log 2 |y| - 52)) (div_le_div_of_nonneg_right h hu.le)
      exact_mod_cast this
    · have h1 := (toDouble_binade x hxpos).2
      have h2 := (toDouble_binade y hypos).1
      have h3 : (2 : ℚ) ^ (Int.log 2 |x| + 1) ≤ (2 : ℚ) ^ Int.log 2 |y| :=
        zpow_le_zpow_right₀ (by norm_num) (by omega)
      linarith

/-- Rounding to double changes a number by at most the fraction `2^-53` of its size. -/
theorem toDouble_relerr (q : ℚ) : |toDouble q - q| ≤ |q| / 2 ^ (53 : ℕ) := by
  by_cases hq : q = 0
  · rw [hq, toDouble_zero]
    simp
  · have habs : 0 < |q| := abs_pos.mpr hq
    have hu : (0 : ℚ) < (2 : ℚ) ^ (Int.log 2 |q| - 52) := by positivity
    have hn := roundHalfEven_near (q / (2 : ℚ) ^ (Int.log 2 |q| - 52))
    have h1 : ((2 : ℕ) : ℚ) ^ Int.log 2 |q| ≤ |q| := Int.zpow_log_le_self (by norm_num) habs
    have e1 : (2 : ℚ) ^ (52 : ℕ) * (2 : ℚ) ^ (Int.log 2 |q| - 52) = (2 : ℚ) ^ Int.log 2 |q| := by
      rw [← zpow_natCast, ← zpow_add₀ (by norm_num : (2 : ℚ) ≠ 0)]
      congr 1
      push_cast
      ring
    have hule : (2 : ℚ) ^ (Int.log 2 |q| - 52) ≤ |q| / 2 ^ (52 : ℕ) := by
      rw [le_div_iff₀ (by positivity), mul_comm, e1]
      exact_mod_cast h1
    have hdiff : toDouble q - q =
        ((roundHalfEven (q / (2 : ℚ) ^ (Int.log 2 |q| - 52)) : ℚ) -
          q / (2 : ℚ) ^ (Int.log 2 |q| - 52)) * (2 : ℚ) ^ (Int.log 2 |q| - 52) := by
      unfold toDouble
      rw [if_neg hq]
      simp only
      field_simp
    rw [hdiff, abs_mul, abs_of_pos hu]
    have hhalf : |(roundHalfEven (q / (2 : ℚ) ^ (Int.log 2 |q| - 52)) : ℚ) -
        q / (2 : ℚ) ^ (Int.log 2 |q| - 52)| ≤ 1 / 2 := by
      rw [abs_le]
      constructor <;> linarith [hn.1, hn.2]
    calc _ ≤ 1 / 2 * (2 : ℚ) ^ (Int.log 2 |q| - 52) :=
          mul_le_mul_of_nonneg_right hhalf hu.le
      _ ≤ 1 / 2 * (|q| / 2 ^ (52 : ℕ)) := by
          apply mul_le_mul_of_nonneg_left hule (by norm_num)
      _ = |q| / 2 ^ (53 : ℕ) := by ring

/-- A number less than a half away from an integer rounds to it. -/
theorem roundHalfEven_of_near (x : ℚ) (m : Int) (h1 : (m : ℚ) - 1 / 2 < x)
    (h2 : x < (m : ℚ) + 1 / 2) : roundHalfEven x = m := by
  unfold roundHalfEven
  simp only
  by_cases hle : (m : ℚ) ≤ x
  · have hf : ⌊x⌋ = m := by
      rw [Int.floor_eq_iff]
      constructor
      · exact hle
      · linarith
    rw [hf, if_pos (by linarith)]
  · have hlt : x < m := not_le.mp hle
    have hf : ⌊x⌋ = m - 1 := by
      rw [Int.floor_eq_iff]
      push_cast
      constructor <;> linarith
    rw [hf]
    push_cast
    rw [if_neg (by linarith), if_pos (by linarith)]
    ring

/-- The binary exponent of a number between two consecutive powers of two. -/
theorem log_two_eq (q : ℚ) (e : Int) (h1 : (2 : ℚ) ^ e ≤ |q|) (h2 : |q| < (2 : ℚ) ^ (e + 1)) :
    Int.log 2 |q| = e := by
  have hpos : 0 < |q| := lt_of_lt_of_le (by positivity) h1
  have ha : e ≤ Int.log 2 |q| := by
    rw [← Int.zpow_le_iff_le_log (by norm_num) hpos]
    exact_mod_cast h1
  have hb : Int.log 2 |q| < e + 1 := by
    rw [← Int.lt_zpow_iff_log_lt (by norm_num) hpos]
    exact_mod_cast h2
  omega

/-- The double nearest to a positive number, from its binade `2^e ≤ q < 2^(e+1)`, the spacing
`ulp = 2^(e-52)` of the doubles there and the integer `m` nearest to `q / ulp`. -/
theorem toDouble_eval (q ulp : ℚ) (e m : Int) (h1 : (2 : ℚ) ^ e ≤ q)
    (h2 : q < (2 : ℚ) ^ (e + 1)) (hu : ulp = (2 : ℚ) ^ (e - 52))
    (h3 : (m : ℚ) - 1 / 2 < q / ulp) (h4 : q / ulp < (m : ℚ) + 1 / 2) :
    toDouble q = (m : ℚ) * ulp := by
  have hpos : 0 < q := lt_of_lt_of_le (by positivity) h1
  have habs : |q| = q := abs_of_pos hpos
  unfold toDouble
  rw [if_neg hpos.ne']
  simp only
  rw [log_two_eq q e (by rw [habs]; exact h1) (by rw [habs]; exact h2), ← hu,
    roundHalfEven_of_near _ m h3 h4]

/-- A natural number below `2^53` is a double. -/
theorem toDouble_natCast (n : ℕ) (h : n < 2 ^ 53) : toDouble (n : ℚ) = n := by
  rcases Nat.eq_zero_or_pos n with h0 | hpos
  · rw [h0]
    simpa using toDouble_zero
  · have hk : Nat.log 2 n < 53 := Nat.log_lt_of_lt_pow hpos.ne' h
    have hq : (n : ℚ) ≠ 0 := by exact_mod_cast hpos.ne'
    have hlog : Int.log 2 |(n : ℚ)| = (Nat.log 2 n : ℤ) := by
      rw [abs_of_nonneg (by positivity)]
      exact Int.log_natCast 2 n
    have hexp : ((Nat.log 2 n : ℤ) - 52) = -((52 - Nat.log 2 n : ℕ) : ℤ) := by omega
    have hulp : (2 : ℚ) ^ ((Nat.log 2 n : ℤ) - 52) = ((2 : ℚ) ^ (52 - Nat.log 2 n))⁻¹ := by
      rw [hexp, zpow_neg, zpow_natCast]
    have hx : (n : ℚ) / ((2 : ℚ) ^ (52 - Nat.log 2 n))⁻¹ =
        (((n * 2 ^ (52 - Nat.log 2 n) : ℕ) : Int) : ℚ) := by
      push_cast
      rw [div_inv_eq_mul]
    unfold toDouble
    rw [if_neg hq]
    simp only
    rw [hlog, hulp, hx, roundHalfEven_intCast]
    push_cast
    field_simp

/-- With no rounding the rounded score is the exact score. -/
theorem rounded_contourScore_id (P : Platform) (frame : Frame) (pc : ℚ × ℚ) (c : Contour) :
    Rounded.contourScore id P frame pc c = contourScore P frame pc c := rfl

/-- With no rounding the rounded contour loop is the exact contour loop. -/
theorem rounded_contourLoop_id (P : Platform) (frame : Frame) (g : ℚ) (pc : ℚ × ℚ)
    (contours : List Contour) :
    Rounded.contourLoop id P frame g pc contours = contourLoop P frame g pc contours := rfl

/-- The rounded score of a contour of positive area in a non-empty frame is positive, for every
rounding that keeps zero and the sign of positive numbers. -/
theorem rounded_contourScore_pos (rnd : ℚ → ℚ) (P : Platform) (frame : Frame) (pc : ℚ × ℚ)
    (c : Contour) (h0 : rnd 0 = 0) (hpos : ∀ x, 0 < x → 0 < rnd x)
    (hne : frame.empty = false) (harea : 0 < c.area) :
    0 < Rounded.contourScore rnd P frame pc c := by
  have hnn : ∀ x, 0 ≤ x → 0 ≤ rnd x := by
    intro x hx
    rcases hx.eq_or_lt with h | h
    · rw [← h, h0]
    · exact (hpos x h).le
  have hA := frame_area_pos frame hne
  have h1 : 0 < rnd (c.area / ((frame.cols * frame.rows : Int) : ℚ)) :=
    hpos _ (div_pos harea hA)
  have h6 : 0 < rnd 0.6 := hpos _ (by norm_num)
  have h4 : 0 < rnd 0.4 := hpos _ (by norm_num)
  have h2 : (0 : ℚ) ≤ 1.0 - (if frameDiag P frame = 0 then (1.0 : ℚ)
      else min 1.0 (rnd (Rounded.contourDist rnd P pc c / frameDiag P frame))) := by
    split
    · norm_num
    · have := min_le_left (1.0 : ℚ) (rnd (Rounded.contourDist rnd P pc c / frameDiag P frame))
      linarith
  have h3 := hnn _ h2
  unfold Rounded.contourScore
  simp only
  apply hpos
  have ha := hpos _ (mul_pos h6 h1)
  have hb := hnn _ (mul_nonneg h4.le h3)
  linarith

/-- With no rounding the rounded filters are the exact filters. -/
theorem rounded_contourRejected_id (frame : Frame) (g : ℚ) (c : Contour) :
    Rounded.contourRejected id frame g c = contourRejected frame g c := rfl

/-- A contour that passes the rounded filters has area at least 500. -/
theorem rounded_area_of_not_rejected (rnd : ℚ → ℚ) (frame : Frame) (g : ℚ) (c : Contour)
    (h : Rounded.contourRejected rnd frame g c = false) : 500 ≤ c.area := by
  by_contra hlt
  have h1 : c.area < minArea g := lt_of_lt_of_le (not_le.mp hlt) (minArea_ge g)
  simp [Rounded.contourRejected, h1] at h

/-- The four tests a contour has passed when the rounded filters let it through. -/
theorem rounded_not_rejected (rnd : ℚ → ℚ) (frame : Frame) (g : ℚ) (c : Contour)
    (h : Rounded.contourRejected rnd frame g c = false) :
    ¬ c.area < minArea g ∧
    rnd (c.area / ((frame.cols * frame.rows : Int) : ℚ)) ≤ rnd maxAreaRatio ∧
    Rounded.aspectOutside rnd c.rect = false ∧
    rnd minSolidity ≤ Rounded.solidity rnd c := by
  unfold Rounded.contourRejected at h
  simp only at h
  by_cases h1 : c.area < minArea g
  · rw [if_pos h1] at h
    cases h
  · rw [if_neg h1] at h
    by_cases h2 : rnd (c.area / ((frame.cols * frame.rows : Int) : ℚ)) > rnd maxAreaRatio
    · rw [if_pos h2] at h
      cases h
    · rw [if_neg h2] at h
      cases h3 : Rounded.aspectOutside rnd c.rect with
      | true =>
        rw [h3] at h
        simp at h
      | false =>
        by_cases h4 : Rounded.solidity rnd c < rnd minSolidity
        · rw [h3] at h
          simp [h4] at h
        · exact ⟨h1, not_lt.mp h2, rfl, not_lt.mp h4⟩

/-- A contour that passes the four rounded tests is let through by the rounded filters. -/
theorem rounded_accepts_of (rnd : ℚ → ℚ) (frame : Frame) (g : ℚ) (c : Contour)
    (h1 : ¬ c.area < minArea g)
    (h2 : rnd (c.area / ((frame.cols * frame.rows : Int) : ℚ)) ≤ rnd maxAreaRatio)
    (h3 : Rounded.aspectOutside rnd c.rect = false)
    (h4 : rnd minSolidity ≤ Rounded.solidity rnd c) :
    Rounded.contourRejected rnd frame g c = false := by
  unfold Rounded.contourRejected
  simp only
  rw [if_neg h1, if_neg (not_lt.mpr h2), h3]
  simpa using h4

/-- The four tests a contour has passed when the exact filters let it through. -/
theorem not_rejected_tests (frame : Frame) (g : ℚ) (c : Contour)
    (h : contourRejected frame g c = false) :
    ¬ c.area < minArea g ∧
    c.area / ((frame.cols * frame.rows : Int) : ℚ) ≤ 9 / 10 ∧
    0 < c.rect.width ∧ 0 < c.rect.height ∧
    1 ≤ (c.rect.height : ℚ) / (c.rect.width : ℚ) ∧
    (c.rect.height : ℚ) / (c.rect.width : ℚ) ≤ 5 ∧
    1 / 1000000 < c.hullArea ∧ 2 / 5 ≤ c.area / c.hullArea := by
  unfold contourRejected at h
  simp only at h
  by_cases h1 : c.area < minArea g
  · rw [if_pos h1] at h
    cases h
  · rw [if_neg h1] at h
    by_cases h2 : c.area / ((frame.cols * frame.rows : Int) : ℚ) > maxAreaRatio
    · rw [if_pos h2] at h
      cases h
    · rw [if_neg h2] at h
      cases h3 : aspectOutside c.rect with
      | true =>
        rw [h3] at h
        simp at h
      | false =>
        by_cases h4 : solidity c < minSolidity
        · rw [h3] at h
          simp [h4] at h
        · obtain ⟨hw, hh⟩ := aspect_inside_pos c.rect h3
          have ha := h3
          unfold aspectOutside at ha
          simp only [gt_iff_lt, hh, if_true, hw.ne', if_false, minAspect, maxAspect,
            Bool.or_eq_false_iff, decide_eq_false_iff_not, not_lt] at ha
          unfold maxAreaRatio at h2
          unfold solidity minSolidity at h4
          by_cases h5 : c.hullArea > 1e-6
          · rw [if_pos h5] at h4
            have h2' := not_lt.mp h2
            have h4' := not_lt.mp h4
            refine ⟨h1, ?_, hw, hh, ?_, ?_, ?_, ?_⟩
            · norm_num at h2' ⊢
              exact h2'
            · have := ha.1
              norm_num at this ⊢
              exact this
            · have := ha.2
              norm_num at this ⊢
              exact this
            · norm_num at h5 ⊢
              exact h5
            · norm_num at h4' ⊢
              exact h4'
          · rw [if_neg h5] at h4
            norm_num at h4

/-- The rounded contour loop from any starting pair: either nothing beats the start, or the
result is the first survivor of maximal rounded score. -/
theorem foldl_rounded_contourStep (rnd : ℚ → ℚ) (P : Platform) (frame : Frame) (g : ℚ)
    (pc : ℚ × ℚ) (contours : List Contour) (b : Best) :
    (contours.foldl (Rounded.contourStep rnd P frame g pc) b = b ∧
      ∀ d ∈ contours.filter (fun c => !Rounded.contourRejected rnd frame g c),
        Rounded.contourScore rnd P frame pc d ≤ b.bestScore) ∨
    (∃ pre c post,
      contours.filter (fun c => !Rounded.contourRejected rnd frame g c) = pre ++ c :: post ∧
      contours.foldl (Rounded.contourStep rnd P frame g pc) b =
        ⟨c.rect, Rounded.contourScore rnd P frame pc c⟩ ∧
      b.bestScore < Rounded.contourScore rnd P frame pc c ∧
      (∀ d ∈ pre, Rounded.contourScore rnd P frame pc d <
        Rounded.contourScore rnd P frame pc c) ∧
      (∀ d ∈ post, Rounded.contourScore rnd P frame pc d ≤
        Rounded.contourScore rnd P frame pc c)) := by
  induction contours generalizing b with
  | nil => left; simp
  | cons a t ih =>
    simp only [List.foldl_cons]
    cases hr : Rounded.contourRejected rnd frame g a with
    | true =>
      have hstep : Rounded.contourStep rnd P frame g pc b a = b := by
        simp [Rounded.contourStep, hr]
      have hfil : (a :: t).filter (fun c => !Rounded.contourRejected rnd frame g c) =
          t.filter (fun c => !Rounded.contourRejected rnd frame g c) := by simp [List.filter_cons, hr]
      rw [hstep, hfil]
      exact ih b
    | false =>
      have hfil : (a :: t).filter (fun c => !Rounded.contourRejected rnd frame g c) =
          a :: t.filter (fun c => !Rounded.contourRejected rnd frame g c) := by simp [List.filter_cons, hr]
      rw [hfil]
      by_cases hs : Rounded.contourScore rnd P frame pc a > b.bestScore
      · have hstep : Rounded.contourStep rnd P frame g pc b a =
            ⟨a.rect, Rounded.contourScore rnd P frame pc a⟩ := by
          simp [Rounded.contourStep, hr, hs]
        rw [hstep]
        right
        rcases ih ⟨a.rect, Rounded.contourScore rnd P frame pc a⟩ with
          ⟨he, hall⟩ | ⟨pre, c, post, hsp, he, hlt, hpre, hpost⟩
        · exact ⟨[], a, _, rfl, he, hs, by simp, hall⟩
        · refine ⟨a :: pre, c, post, by simp [hsp], he, lt_trans hs hlt, ?_, hpost⟩
          intro d hd
          rcases List.mem_cons.mp hd with rfl | hd
          · exact hlt
          · exact hpre d hd
      · have hstep : Rounded.contourStep rnd P frame g pc b a = b := by
          simp [Rounded.contourStep, hr, hs]
        rw [hstep]
        rcases ih b with ⟨he, hall⟩ | ⟨pre, c, post, hsp, he, hlt, hpre, hpost⟩
        · left
          refine ⟨he, ?_⟩
          intro d hd
          rcases List.mem_cons.mp hd with rfl | hd
          · exact not_lt.mp hs
          · exact hall d hd
        · right
          refine ⟨a :: pre, c, post, by simp [hsp], he, hlt, ?_, hpost⟩
          intro d hd
          rcases List.mem_cons.mp hd with rfl | hd
          · exact lt_of_le_of_lt (not_lt.mp hs) hlt
          · exact hpre d hd

/-- The double nearest to 0.6. -/
theorem toDouble_c6 : toDouble (3 / 5) = 5404319552844595 / 9007199254740992 := by
  rw [toDouble_eval (3 / 5) (1 / 9007199254740992) (-1) 5404319552844595
    (by norm_num) (by norm_num) (by norm_num) (by norm_num) (by norm_num)]
  norm_num

/-- The double nearest to 0.4. -/
theorem toDouble_c4 : toDouble (2 / 5) = 3602879701896397 / 9007199254740992 := by
  rw [toDouble_eval (2 / 5) (1 / 18014398509481984) (-2) 7205759403792794
    (by norm_num) (by norm_num) (by norm_num) (by norm_num) (by norm_num)]
  norm_num

/-- The double nearest to 0.3. -/
theorem toDouble_c3 : toDouble (3 / 10) = 5404319552844595 / 18014398509481984 := by
  rw [toDouble_eval (3 / 10) (1 / 18014398509481984) (-2) 5404319552844595
    (by norm_num) (by norm_num) (by norm_num) (by norm_num) (by norm_num)]
  norm_num

/-- The double nearest to 0.9. -/
theorem toDouble_c9 : toDouble (9 / 10) = 8106479329266893 / 9007199254740992 := by
  rw [toDouble_eval (9 / 10) (1 / 9007199254740992) (-1) 8106479329266893
    (by norm_num) (by norm_num) (by norm_num) (by norm_num) (by norm_num)]
  norm_num

/-- The area ratio 503/307200, rounded. -/
theorem toDouble_ratioA : toDouble (503 / 307200) = 1887758843806133 / 1152921504606846976 := by
  rw [toDouble_eval (503 / 307200) (1 / 4611686018427387904) (-10) 7551035375224532
    (by norm_num) (by norm_num) (by norm_num) (by norm_num) (by norm_num)]
  norm_num

/-- The area term of the score of `sampleContourA`, rounded. -/
theorem toDouble_areaTermA : toDouble (10202052030636790350096856901135 / 10384593717069655257060992658440192) = 4530621225134719 / 4611686018427387904 := by
  rw [toDouble_eval (10202052030636790350096856901135 / 10384593717069655257060992658440192) (1 / 4611686018427387904) (-10) 4530621225134719
    (by norm_num) (by norm_num) (by norm_num) (by norm_num) (by norm_num)]
  norm_num

/-- The double nearest to 0.4 is a double. -/
theorem toDouble_distTermA : toDouble (3602879701896397 / 9007199254740992) = 3602879701896397 / 9007199254740992 := by
  rw [toDouble_eval (3602879701896397 / 9007199254740992) (1 / 18014398509481984) (-2) 7205759403792794
    (by norm_num) (by norm_num) (by norm_num) (by norm_num) (by norm_num)]
  norm_num

/-- The sum of the two terms of the score of `sampleContourA`, rounded. -/
theorem toDouble_scoreA : toDouble (1849205028596089983 / 4611686018427387904) = 1805864285738369 / 4503599627370496 := by
  rw [toDouble_eval (1849205028596089983 / 4611686018427387904) (1 / 18014398509481984) (-2) 7223457142953476
    (by norm_num) (by norm_num) (by norm_num) (by norm_num) (by norm_num)]
  norm_num

/-- The area ratio 26103/307200, rounded. -/
theorem toDouble_ratioB : toDouble (8701 / 102400) = 6122784430898545 / 72057594037927936 := by
  rw [toDouble_eval (8701 / 102400) (1 / 72057594037927936) (-4) 6122784430898545
    (by norm_num) (by norm_num) (by norm_num) (by norm_num) (by norm_num)]
  norm_num

/-- The area term of the score of `sampleContourB`, rounded. -/
theorem toDouble_areaTermB : toDouble (33089483617757472788266596614275 / 649037107316853453566312041152512) = 3673670658539127 / 72057594037927936 := by
  rw [toDouble_eval (33089483617757472788266596614275 / 649037107316853453566312041152512) (1 / 144115188075855872) (-5) 7347341317078254
    (by norm_num) (by norm_num) (by norm_num) (by norm_num) (by norm_num)]
  norm_num

/-- One eighth is a double. -/
theorem toDouble_eighth : toDouble (1 / 8) = 1 / 8 := by
  rw [toDouble_eval (1 / 8) (1 / 36028797018963968) (-3) 4503599627370496
    (by norm_num) (by norm_num) (by norm_num) (by norm_num) (by norm_num)]
  norm_num

/-- Seven eighths is a double. -/
theorem toDouble_seven_eighths : toDouble (7 / 8) = 7 / 8 := by
  rw [toDouble_eval (7 / 8) (1 / 9007199254740992) (-1) 7881299347898368
    (by norm_num) (by norm_num) (by norm_num) (by norm_num) (by norm_num)]
  norm_num

/-- The distance term of the score of `sampleContourB`, rounded. -/
theorem toDouble_distTermB : toDouble (25220157913274779 / 72057594037927936) = 6305039478318695 / 18014398509481984 := by
  rw [toDouble_eval (25220157913274779 / 72057594037927936) (1 / 18014398509481984) (-2) 6305039478318695
    (by norm_num) (by norm_num) (by norm_num) (by norm_num) (by norm_num)]
  norm_num

/-- The sum of the two terms of the score of `sampleContourB`, rounded. -/
theorem toDouble_scoreB : toDouble (28893828571813907 / 72057594037927936) = 7223457142953477 / 18014398509481984 := by
  rw [toDouble_eval (28893828571813907 / 72057594037927936) (1 / 18014398509481984) (-2) 7223457142953477
    (by norm_num) (by norm_num) (by norm_num) (by norm_num) (by norm_num)]
  norm_num

/-- The preferred centre of the auto-init block on a 640x480 frame, as the machine computes
it. -/
theorem rounded_prefCenter_sample (b : Rect2d) :
    Rounded.prefCenter toDouble ⟨640, 480⟩ false b = (320, 240) := by
  have h320 : toDouble 320 = 320 := by simpa using toDouble_natCast 320 (by norm_num)
  have h240 : toDouble 240 = 240 := by simpa using toDouble_natCast 240 (by norm_num)
  norm_num [Rounded.prefCenter, h320, h240]

/-- The distance of `sampleContourA` from the centre of a 640x480 frame, as the machine computes
it. -/
theorem rounded_dist_A :
    Rounded.contourDist toDouble samplePlatform (320, 240) sampleContourA = 0 := by
  have h20 : toDouble 20 = 20 := by simpa using toDouble_natCast 20 (by norm_num)
  have h40 : toDouble 40 = 40 := by simpa using toDouble_natCast 40 (by norm_num)
  have h320 : toDouble 320 = 320 := by simpa using toDouble_natCast 320 (by norm_num)
  have h240 : toDouble 240 = 240 := by simpa using toDouble_natCast 240 (by norm_num)
  have hs : samplePlatform.sqrt 0 = 0 := by
    simpa using samplePlatform_sqrt 0 0 0 (by norm_num) (by norm_num) (by norm_num)
  norm_num [Rounded.contourDist, Rounded.norm, sampleContourA, h20, h40, h320, h240,
    toDouble_zero, hs]

/-- The distance of `sampleContourB` from the centre of a 640x480 frame, as the machine computes
it. -/
theorem rounded_dist_B :
    Rounded.contourDist toDouble samplePlatform (320, 240) sampleContourB = 100 := by
  have h80 : toDouble 80 = 80 := by simpa using toDouble_natCast 80 (by norm_num)
  have h100 : toDouble 100 = 100 := by simpa using toDouble_natCast 100 (by norm_num)
  have h240 : toDouble 240 = 240 := by simpa using toDouble_natCast 240 (by norm_num)
  have h420 : toDouble 420 = 420 := by simpa using toDouble_natCast 420 (by norm_num)
  have h10000 : toDouble 10000 = 10000 := by
    simpa using toDouble_natCast 10000 (by norm_num)
  have hs : samplePlatform.sqrt 10000 = 100 := by
    simpa using samplePlatform_sqrt 10000 10000 100 (by norm_num) (by norm_num) (by norm_num)
  norm_num [Rounded.contourDist, Rounded.norm, sampleContourB, h80, h100, h240, h420, h10000,
    toDouble_zero, hs]

/-- The score of `sampleContourA` on a 640x480 frame, as the machine computes it:
0.400982421875. -/
theorem rounded_score_A :
    Rounded.contourScore toDouble samplePlatform ⟨640, 480⟩ (320, 240) sampleContourA =
      1805864285738369 / 4503599627370496 := by
  have hmin : min (1 : ℚ) 0 = 0 := min_eq_right (by norm_num)
  have h1 : toDouble 1 = 1 := by simpa using toDouble_natCast 1 (by norm_num)
  unfold Rounded.contourScore
  rw [rounded_dist_A, sample_frameDiag]
  norm_num [sampleContourA, toDouble_zero, hmin, h1, toDouble_c6, toDouble_c4,
    toDouble_ratioA, toDouble_areaTermA, toDouble_distTermA, toDouble_scoreA]

/-- The score of `sampleContourB` on a 640x480 frame, as the machine computes it:
0.40098242187500005. -/
theorem rounded_score_B :
    Rounded.contourScore toDouble samplePlatform ⟨640, 480⟩ (320, 240) sampleContourB =
      7223457142953477 / 18014398509481984 := by
  have hmin : min (1 : ℚ) (1 / 8) = 1 / 8 := min_eq_right (by norm_num)
  unfold Rounded.contourScore
  rw [rounded_dist_B, sample_frameDiag]
  norm_num [sampleContourB, hmin, toDouble_c6, toDouble_c4, toDouble_eighth,
    toDouble_seven_eighths, toDouble_ratioB, toDouble_areaTermB, toDouble_distTermB,
    toDouble_scoreB]

/-- The contour `sampleContourA` passes the filters. -/
theorem sampleContourA_accepted : contourRejected ⟨640, 480⟩ 500 sampleContourA = false := by
  norm_num [contourRejected, sampleContourA, minArea, maxAreaRatio, aspectOutside, minAspect,
    maxAspect, solidity, minSolidity]

/-- The contour `sampleContourB` passes the filters. -/
theorem sampleContourB_accepted : contourRejected ⟨640, 480⟩ 500 sampleContourB = false := by
  norm_num [contourRejected, sampleContourB, minArea, maxAreaRatio, aspectOutside, minAspect,
    maxAspect, solidity, minSolidity]

/-- The double nearest to a number that is not positive is not positive. -/
theorem toDouble_nonpos (q : ℚ) (hq : q ≤ 0) : toDouble q ≤ 0 := by
  unfold toDouble
  split
  · exact le_refl _
  · simp only
    have hu : (0 : ℚ) < (2 : ℚ) ^ (Int.log 2 |q| - 52) := by positivity
    have hx : q / (2 : ℚ) ^ (Int.log 2 |q| - 52) ≤ ((0 : Int) : ℚ) := by
      rw [Int.cast_zero]
      exact div_nonpos_iff.mpr (Or.inr ⟨hq, hu.le⟩)
    have hr := roundHalfEven_mono _ _ hx
    rw [roundHalfEven_intCast] at hr
    have hrq : ((roundHalfEven (q / (2 : ℚ) ^ (Int.log 2 |q| - 52)) : Int) : ℚ) ≤ 0 := by
      exact_mod_cast hr
    exact mul_nonpos_iff.mpr (Or.inr ⟨hrq, hu.le⟩)

/-- The double nearest to `1e-6`; it lies below `1e-6`. -/
theorem toDouble_micro : toDouble (1 / 1000000) = 4722366482869645 / 4722366482869645213696 := by
  rw [toDouble_eval (1 / 1000000) (1 / 4722366482869645213696) (-20) 4722366482869645
    (by norm_num) (by norm_num) (by norm_num) (by norm_num) (by norm_num)]
  norm_num

/-- A contour that passes the exact filters on a non-empty frame passes the filters of the
machine. -/
theorem toDouble_accepts (frame : Frame) (g : ℚ) (c : Contour) (hne : frame.empty = false)
    (h : contourRejected frame g c = false) :
    Rounded.contourRejected toDouble frame g c = false := by
  obtain ⟨h1, h2, hw, hh, ha1, ha5, hhull, hsol⟩ := not_rejected_tests frame g c h
  have h500 := area_of_not_rejected frame g c h
  have hA := frame_area_pos frame hne
  have e1 : toDouble 1 = 1 := by simpa using toDouble_natCast 1 (by norm_num)
  have e5 : toDouble 5 = 5 := by simpa using toDouble_natCast 5 (by norm_num)
  apply rounded_accepts_of
  · exact h1
  · unfold maxAreaRatio
    rw [show (0.9 : ℚ) = 9 / 10 by norm_num]
    exact toDouble_mono _ _ (div_nonneg (by linarith) hA.le) h2
  · unfold Rounded.aspectOutside
    have m1 := toDouble_mono 1 _ (by norm_num) ha1
    have m5 := toDouble_mono _ 5 (le_trans (by norm_num) ha1) ha5
    rw [e1] at m1
    rw [e5] at m5
    simp only [gt_iff_lt, hh, if_true, hw.ne', if_false, minAspect, maxAspect,
      Bool.or_eq_false_iff, decide_eq_false_iff_not, not_lt]
    constructor
    · norm_num
      exact m1
    · norm_num
      exact m5
  · unfold Rounded.solidity minSolidity
    have hm : toDouble 1e-6 < c.hullArea := by
      rw [show (1e-6 : ℚ) = 1 / 1000000 by norm_num, toDouble_micro]
      refine lt_trans ?_ hhull
      norm_num
    rw [if_pos hm, show (0.4 : ℚ) = 2 / 5 by norm_num]
    exact toDouble_mono _ _ (by norm_num) hsol

/-- A contour that passes the filters of the machine has a bounding rectangle of positive width
and height. -/
theorem rounded_rect_of_not_rejected (frame : Frame) (g : ℚ) (c : Contour)
    (h : Rounded.contourRejected toDouble frame g c = false) :
    0 < c.rect.width ∧ 0 < c.rect.height := by
  have h3 := (rounded_not_rejected toDouble frame g c h).2.2.1
  unfold Rounded.aspectOutside at h3
  by_cases hh : c.rect.height > 0
  · by_cases hw0 : c.rect.width = 0
    · simp [hh, hw0] at h3
    · simp only [hh, if_true, hw0, if_false, minAspect, maxAspect, Bool.or_eq_false_iff,
        decide_eq_false_iff_not, not_lt] at h3
      refine ⟨?_, hh⟩
      by_contra hneg
      have hwneg : (c.rect.width : ℚ) < 0 := by
        have : c.rect.width < 0 := lt_of_le_of_ne (not_lt.mp hneg) hw0
        exact_mod_cast this
      have hhq : (0 : ℚ) < (c.rect.height : ℚ) := by exact_mod_cast hh
      have hq : (c.rect.height : ℚ) / (c.rect.width : ℚ) < 0 := div_neg_of_pos_of_neg hhq hwneg
      have hn := toDouble_nonpos _ hq.le
      have h1 := h3.1
      norm_num at h1
      linarith
  · simp only [hh, if_false, minAspect, maxAspect] at h3
    norm_num at h3

/-- The contour `sampleContourA` passes the filters of the machine. -/
theorem rounded_sampleContourA_accepted :
    Rounded.contourRejected toDouble ⟨640, 480⟩ 500 sampleContourA = false :=
  toDouble_accepts _ _ _ (by decide) sampleContourA_accepted

/-- The contour `sampleContourB` passes the filters of the machine. -/
theorem rounded_sampleContourB_accepted :
    Rounded.contourRejected toDouble ⟨640, 480⟩ 500 sampleContourB = false :=
  toDouble_accepts _ _ _ (by decide) sampleContourB_accepted

/-! ## The score and the preview layout in double arithmetic (C9, C27, C20) -/

/-- The loop of the machine on the two tied contours ends on the second one. -/
theorem rounded_loop_AB :
    Rounded.contourLoop toDouble samplePlatform ⟨640, 480⟩ 500 (320, 240)
        [sampleContourA, sampleContourB] =
      ⟨sampleContourB.rect, 7223457142953477 / 18014398509481984⟩ := by
  have h1 : Rounded.contourStep toDouble samplePlatform ⟨640, 480⟩ 500 (320, 240)
      ⟨Rect.zero, 0.0⟩ sampleContourA =
      ⟨sampleContourA.rect, 1805864285738369 / 4503599627370496⟩ := by
    unfold Rounded.contourStep
    rw [rounded_sampleContourA_accepted, rounded_score_A]
    norm_num
  have h2 : Rounded.contourStep toDouble samplePlatform ⟨640, 480⟩ 500 (320, 240)
      ⟨sampleContourA.rect, 1805864285738369 / 4503599627370496⟩ sampleContourB =
      ⟨sampleContourB.rect, 7223457142953477 / 18014398509481984⟩ := by
    unfold Rounded.contourStep
    rw [rounded_sampleContourB_accepted, rounded_score_B]
    norm_num
  unfold Rounded.contourLoop
  rw [List.foldl_cons, List.foldl_cons, List.foldl_nil, h1, h2]

/-- C9, as stated, fails. On a 640x480 frame the contours `sampleContourA` (area 503, centred in
the frame) and `sampleContourB` (area 26103, centre 100 pixels from the frame centre), in this
order, both survive the filters, exact and rounded, and have the same value 205303/512000 of
`0.6*(area/(cols*rows)) + 0.4*(1 - min(1, dist/diag))`, so the first should be kept. In the
machine's double arithmetic the second scores 0.40098242187500005 against 0.400982421875, and
the loop ends on the rectangle of the second. -/
theorem C9_counterexample :
    contourRejected ⟨640, 480⟩ 500 sampleContourA = false ∧
    contourRejected ⟨640, 480⟩ 500 sampleContourB = false ∧
    Rounded.contourRejected toDouble ⟨640, 480⟩ 500 sampleContourA = false ∧
    Rounded.contourRejected toDouble ⟨640, 480⟩ 500 sampleContourB = false ∧
    specScore samplePlatform ⟨640, 480⟩ (320, 240) sampleContourA = 205303 / 512000 ∧
    specScore samplePlatform ⟨640, 480⟩ (320, 240) sampleContourB = 205303 / 512000 ∧
    Rounded.prefCenter toDouble ⟨640, 480⟩ false Rect2d.zero = (320, 240) ∧
    Rounded.contourLoop toDouble samplePlatform ⟨640, 480⟩ 500 (320, 240)
        [sampleContourA, sampleContourB] =
      ⟨sampleContourB.rect, 7223457142953477 / 18014398509481984⟩ ∧
    sampleContourB.rect ≠ sampleContourA.rect := by
  have hdiag : samplePlatform.sqrt (((640 : Int) : ℚ) ^ 2 + ((480 : Int) : ℚ) ^ 2) = 800 :=
    samplePlatform_sqrt _ 640000 800 (by norm_num) (by norm_num) (by norm_num)
  refine ⟨sampleContourA_accepted, sampleContourB_accepted, rounded_sampleContourA_accepted,
    rounded_sampleContourB_accepted, ?_, ?_, rounded_prefCenter_sample _, rounded_loop_AB,
    by decide⟩
  · unfold specScore
    simp only
    rw [hdiag, samplePlatform_sqrt _ 0 0 (by norm_num [sampleContourA]) (by norm_num)
      (by norm_num)]
    norm_num [sampleContourA]
  · unfold specScore
    simp only
    rw [hdiag, samplePlatform_sqrt _ 10000 100 (by norm_num [sampleContourB]) (by norm_num)
      (by norm_num)]
    norm_num [sampleContourB]

/-- C9, amended: among the contours that survive the filters, the provisional best candidate is
one that maximizes the score as the machine computes it (as it computes the filters), that is
`0.6*(area/(cols*rows)) + 0.4*(1 - min(1, dist/diag))` with the result of every operation rounded
to double; when several contours reach the maximum of the computed score, the first in contour
order is kept: every survivor before the chosen one scores strictly less, every survivor after it
at most as much. With no survivor the loop ends on the empty rectangle with score 0. This holds
for every rounding that keeps zero and the sign of positive numbers, rounding to double among
them; without rounding and with a diagonal that is not zero the computed score is the stated
formula. -/
theorem C9_best_is_first_maximum (rnd : ℚ → ℚ) (P : Platform) (frame : Frame) (g : ℚ)
    (pc : ℚ × ℚ) (contours : List Contour) (hne : frame.empty = false)
    (h0 : rnd 0 = 0) (hpos : ∀ x, 0 < x → 0 < rnd x) :
    (contours.filter (fun c => !Rounded.contourRejected rnd frame g c) = [] →
      Rounded.contourLoop rnd P frame g pc contours = ⟨Rect.zero, 0⟩) ∧
    (contours.filter (fun c => !Rounded.contourRejected rnd frame g c) ≠ [] →
      ∃ pre c post,
        contours.filter (fun c => !Rounded.contourRejected rnd frame g c) = pre ++ c :: post ∧
        Rounded.contourLoop rnd P frame g pc contours =
          ⟨c.rect, Rounded.contourScore rnd P frame pc c⟩ ∧
        (∀ d ∈ pre, Rounded.contourScore rnd P frame pc d <
          Rounded.contourScore rnd P frame pc c) ∧
        (∀ d ∈ post, Rounded.contourScore rnd P frame pc d ≤
          Rounded.contourScore rnd P frame pc c)) ∧
    (P.sqrt ((frame.cols : ℚ) ^ 2 + (frame.rows : ℚ) ^ 2) ≠ 0 →
      ∀ c, Rounded.contourScore id P frame pc c = specScore P frame pc c) := by
  have hsurv : ∀ d ∈ contours.filter (fun c => !Rounded.contourRejected rnd frame g c),
      0 < Rounded.contourScore rnd P frame pc d := by
    intro d hd
    have hacc : Rounded.contourRejected rnd frame g d = false := by
      simpa using (List.mem_filter.mp hd).2
    have h500 := rounded_area_of_not_rejected rnd frame g d hacc
    exact rounded_contourScore_pos rnd P frame pc d h0 hpos hne (by linarith)
  refine ⟨?_, ?_, ?_⟩
  · intro hnil
    unfold Rounded.contourLoop
    rcases foldl_rounded_contourStep rnd P frame g pc contours ⟨Rect.zero, 0.0⟩ with
      ⟨he, _⟩ | ⟨pre, c, post, hsp, _, _, _, _⟩
    · rw [he]
      norm_num
    · rw [hsp] at hnil
      simp at hnil
  · intro hs
    unfold Rounded.contourLoop
    rcases foldl_rounded_contourStep rnd P frame g pc contours ⟨Rect.zero, 0.0⟩ with
      ⟨_, hall⟩ | ⟨pre, c, post, hsp, he, _, hpre, hpost⟩
    · exfalso
      obtain ⟨d, hd⟩ := List.exists_mem_of_ne_nil _ hs
      have h1 := hall d hd
      have h2 := hsurv d hd
      norm_num at h1
      linarith
    · exact ⟨pre, c, post, hsp, he, hpre, hpost⟩
  · intro hdiag c
    rw [rounded_contourScore_id]
    exact contourScore_eq_specScore P frame pc c hdiag

/-- C9, amended, on the two tied contours in double arithmetic. -/
theorem C9_best_is_first_maximum_witness :
    ([sampleContourA, sampleContourB].filter
        (fun c => !Rounded.contourRejected toDouble ⟨640, 480⟩ 500 c) = [] →
      Rounded.contourLoop toDouble samplePlatform ⟨640, 480⟩ 500 (320, 240)
        [sampleContourA, sampleContourB] = ⟨Rect.zero, 0⟩) ∧
    ([sampleContourA, sampleContourB].filter
        (fun c => !Rounded.contourRejected toDouble ⟨640, 480⟩ 500 c) ≠ [] →
      ∃ pre c post,
        [sampleContourA, sampleContourB].filter
          (fun c => !Rounded.contourRejected toDouble ⟨640, 480⟩ 500 c) = pre ++ c :: post ∧
        Rounded.contourLoop toDouble samplePlatform ⟨640, 480⟩ 500 (320, 240)
          [sampleContourA, sampleContourB] =
          ⟨c.rect, Rounded.contourScore toDouble samplePlatform ⟨640, 480⟩ (320, 240) c⟩ ∧
        (∀ d ∈ pre, Rounded.contourScore toDouble samplePlatform ⟨640, 480⟩ (320, 240) d <
          Rounded.contourScore toDouble samplePlatform ⟨640, 480⟩ (320, 240) c) ∧
        (∀ d ∈ post, Rounded.contourScore toDouble samplePlatform ⟨640, 480⟩ (320, 240) d ≤
          Rounded.contourScore toDouble samplePlatform ⟨640, 480⟩ (320, 240) c)) ∧
    (samplePlatform.sqrt ((((⟨640, 480⟩ : Frame).cols : Int) : ℚ) ^ 2 +
        (((⟨640, 480⟩ : Frame).rows : Int) : ℚ) ^ 2) ≠ 0 →
      ∀ c, Rounded.contourScore id samplePlatform ⟨640, 480⟩ (320, 240) c =
        specScore samplePlatform ⟨640, 480⟩ (320, 240) c) :=
  C9_best_is_first_maximum toDouble samplePlatform ⟨640, 480⟩ 500 (320, 240)
    [sampleContourA, sampleContourB] (by decide) toDouble_zero toDouble_pos

/-- The largest area term of a score: the product of the doubles nearest to 0.6 and 0.9, rounded. -/
theorem toDouble_areaTermMax : toDouble (43810004743887607575294107493335 / 81129638414606681695789005144064) = 607985949695017 / 1125899906842624 := by
  rw [toDouble_eval (43810004743887607575294107493335 / 81129638414606681695789005144064) (1 / 9007199254740992) (-1) 4863887597560136
    (by norm_num) (by norm_num) (by norm_num) (by norm_num) (by norm_num)]
  norm_num

/-- The largest score: the largest area term plus the double nearest to 0.4, rounded. -/
theorem toDouble_scoreMax : toDouble (8466767299456533 / 9007199254740992) = 8466767299456533 / 9007199254740992 := by
  rw [toDouble_eval (8466767299456533 / 9007199254740992) (1 / 9007199254740992) (-1) 8466767299456533
    (by norm_num) (by norm_num) (by norm_num) (by norm_num) (by norm_num)]
  norm_num

/-- The largest boosted score: the largest score plus the double nearest to 0.3, rounded. -/
theorem toDouble_boostMax : toDouble (22337854151757661 / 18014398509481984) = 5584463537939415 / 4503599627370496 := by
  rw [toDouble_eval (22337854151757661 / 18014398509481984) (1 / 4503599627370496) 0 5584463537939415
    (by norm_num) (by norm_num) (by norm_num) (by norm_num) (by norm_num)]
  norm_num

/-- The score of a contour that passes the filters of the machine, as the machine computes it,
is at most 0.9400000000000001 when `sqrt` delivers no negative number. -/
theorem rounded_contourScore_le (P : Platform) (frame : Frame) (g : ℚ) (pc : ℚ × ℚ)
    (c : Contour) (hsqrt : ∀ x, 0 ≤ P.sqrt x) (hne : frame.empty = false)
    (hacc : Rounded.contourRejected toDouble frame g c = false) :
    Rounded.contourScore toDouble P frame pc c ≤ 8466767299456533 / 9007199254740992 := by
  have hA := frame_area_pos frame hne
  have h500 := rounded_area_of_not_rejected toDouble frame g c hacc
  have hr0 : 0 ≤ c.area / ((frame.cols * frame.rows : Int) : ℚ) :=
    div_nonneg (by linarith) hA.le
  have e6 : toDouble 0.6 = 5404319552844595 / 9007199254740992 := by
    rw [show (0.6 : ℚ) = 3 / 5 by norm_num]
    exact toDouble_c6
  have e4 : toDouble 0.4 = 3602879701896397 / 9007199254740992 := by
    rw [show (0.4 : ℚ) = 2 / 5 by norm_num]
    exact toDouble_c4
  have e1 : toDouble 1 = 1 := by simpa using toDouble_natCast 1 (by norm_num)
  -- the area term
  have hr1 := (rounded_not_rejected toDouble frame g c hacc).2.1
  unfold maxAreaRatio at hr1
  rw [show (0.9 : ℚ) = 9 / 10 by norm_num, toDouble_c9] at hr1
  have hr1nn := toDouble_nonneg _ hr0
  have hp1 : toDouble (toDouble 0.6 * toDouble (c.area / ((frame.cols * frame.rows : Int) : ℚ)))
      ≤ 607985949695017 / 1125899906842624 := by
    rw [← toDouble_areaTermMax, e6]
    apply toDouble_mono
    · positivity
    · have : (5404319552844595 : ℚ) / 9007199254740992 *
          toDouble (c.area / ((frame.cols * frame.rows : Int) : ℚ)) ≤
          5404319552844595 / 9007199254740992 *
            (8106479329266893 / 9007199254740992) :=
        mul_le_mul_of_nonneg_left hr1 (by norm_num)
      calc _ ≤ _ := this
        _ = _ := by norm_num
  -- the distance term
  have hX : (0 : ℚ) ≤ (if frameDiag P frame = 0 then (1.0 : ℚ)
      else min 1.0 (toDouble (Rounded.contourDist toDouble P pc c / frameDiag P frame))) := by
    split
    · norm_num
    · apply le_min
      · norm_num
      · apply toDouble_nonneg
        exact div_nonneg (hsqrt _) (hsqrt _)
  have hX1 : (if frameDiag P frame = 0 then (1.0 : ℚ)
      else min 1.0 (toDouble (Rounded.contourDist toDouble P pc c / frameDiag P frame))) ≤ 1 := by
    split
    · norm_num
    · exact le_trans (min_le_left _ _) (by norm_num)
  have hds : toDouble (1.0 - (if frameDiag P frame = 0 then (1.0 : ℚ)
      else min 1.0 (toDouble (Rounded.contourDist toDouble P pc c / frameDiag P frame)))) ≤ 1 := by
    rw [← e1]
    apply toDouble_mono
    · norm_num
      linarith
    · norm_num
      linarith
  have hds0 : 0 ≤ toDouble (1.0 - (if frameDiag P frame = 0 then (1.0 : ℚ)
      else min 1.0 (toDouble (Rounded.contourDist toDouble P pc c / frameDiag P frame)))) := by
    apply toDouble_nonneg
    norm_num
    linarith
  have hp2 : toDouble (toDouble 0.4 * toDouble (1.0 - (if frameDiag P frame = 0 then (1.0 : ℚ)
      else min 1.0 (toDouble (Rounded.contourDist toDouble P pc c / frameDiag P frame))))) ≤
      3602879701896397 / 9007199254740992 := by
    rw [← toDouble_distTermA, e4]
    apply toDouble_mono
    · exact mul_nonneg (by norm_num) hds0
    · have := mul_le_mul_of_nonneg_left hds
        (show (0 : ℚ) ≤ 3602879701896397 / 9007199254740992 by norm_num)
      linarith
  have hp1nn : 0 ≤ toDouble (toDouble 0.6 *
      toDouble (c.area / ((frame.cols * frame.rows : Int) : ℚ))) := by
    apply toDouble_nonneg
    rw [e6]
    exact mul_nonneg (by norm_num) hr1nn
  have hp2nn : 0 ≤ toDouble (toDouble 0.4 * toDouble (1.0 -
      (if frameDiag P frame = 0 then (1.0 : ℚ)
      else min 1.0 (toDouble (Rounded.contourDist toDouble P pc c / frameDiag P frame))))) := by
    apply toDouble_nonneg
    rw [e4]
    exact mul_nonneg (by norm_num) hds0
  unfold Rounded.contourScore
  simp only
  rw [← toDouble_scoreMax]
  apply toDouble_mono
  · linarith
  · calc _ ≤ (607985949695017 : ℚ) / 1125899906842624 +
          3602879701896397 / 9007199254740992 := add_le_add hp1 hp2
      _ = _ := by norm_num

/-- The overlap loop of the machine returns the score it got or the rounded sum of that score
and the double nearest to 0.3. -/
theorem rounded_hogBoost_cases (rnd : ℚ → ℚ) (bestRect : Rect) (hogDet : List Rect)
    (bestScore : ℚ) :
    Rounded.hogBoost rnd bestRect hogDet bestScore = bestScore ∨
    Rounded.hogBoost rnd bestRect hogDet bestScore = rnd (bestScore + rnd 0.3) := by
  induction hogDet with
  | nil => left; rfl
  | cons hr rest ih =>
    unfold Rounded.hogBoost
    split
    · right; rfl
    · exact ih

/-- The boosted score of the machine is positive and at most 1.24 for a positive score of at
most 0.9400000000000001. -/
theorem rounded_hogBoost_bounds (bestRect : Rect) (hogDet : List Rect) (bestScore : ℚ)
    (hpos : 0 < bestScore) (hle : bestScore ≤ 8466767299456533 / 9007199254740992) :
    0 < Rounded.hogBoost toDouble bestRect hogDet bestScore ∧
    Rounded.hogBoost toDouble bestRect hogDet bestScore ≤ 1.24 := by
  have e3 : toDouble 0.3 = 5404319552844595 / 18014398509481984 := by
    rw [show (0.3 : ℚ) = 3 / 10 by norm_num]
    exact toDouble_c3
  rcases rounded_hogBoost_cases toDouble bestRect hogDet bestScore with h | h
  · rw [h]
    refine ⟨hpos, le_trans hle ?_⟩
    norm_num
  · rw [h, e3]
    constructor
    · apply toDouble_pos
      linarith [show (0 : ℚ) < 5404319552844595 / 18014398509481984 by norm_num]
    · have hm := toDouble_mono (bestScore + 5404319552844595 / 18014398509481984)
        (8466767299456533 / 9007199254740992 + 5404319552844595 / 18014398509481984)
        (by linarith [show (0 : ℚ) < 5404319552844595 / 18014398509481984 by norm_num])
        (by linarith)
      have hv : toDouble (8466767299456533 / 9007199254740992 +
          5404319552844595 / 18014398509481984) = 5584463537939415 / 4503599627370496 := by
        rw [show (8466767299456533 : ℚ) / 9007199254740992 +
          5404319552844595 / 18014398509481984 = 22337854151757661 / 18014398509481984 by
          norm_num]
        exact toDouble_boostMax
      rw [hv] at hm
      refine le_trans hm ?_
      norm_num

/-- The contour loop of the machine ends with `bestScore ≤ 0` exactly when no contour passed the
filters, and then on its starting pair; otherwise it ends on a contour that passed them. -/
theorem rounded_contourLoop_cases (rnd : ℚ → ℚ) (P : Platform) (frame : Frame) (g : ℚ)
    (pc : ℚ × ℚ) (contours : List Contour) (hne : frame.empty = false)
    (h0 : rnd 0 = 0) (hpos : ∀ x, 0 < x → 0 < rnd x) :
    ((Rounded.contourLoop rnd P frame g pc contours).bestScore ≤ 0 ↔
      contours.filter (fun c => !Rounded.contourRejected rnd frame g c) = []) ∧
    (contours.filter (fun c => !Rounded.contourRejected rnd frame g c) = [] →
      Rounded.contourLoop rnd P frame g pc contours = ⟨Rect.zero, 0.0⟩) ∧
    (contours.filter (fun c => !Rounded.contourRejected rnd frame g c) ≠ [] →
      ∃ c ∈ contours, Rounded.contourRejected rnd frame g c = false ∧
        Rounded.contourLoop rnd P frame g pc contours =
          ⟨c.rect, Rounded.contourScore rnd P frame pc c⟩) := by
  have hsurv : ∀ d ∈ contours.filter (fun c => !Rounded.contourRejected rnd frame g c),
      0 < Rounded.contourScore rnd P frame pc d := by
    intro d hd
    have hacc : Rounded.contourRejected rnd frame g d = false := by
      simpa using (List.mem_filter.mp hd).2
    have h500 := rounded_area_of_not_rejected rnd frame g d hacc
    exact rounded_contourScore_pos rnd P frame pc d h0 hpos hne (by linarith)
  unfold Rounded.contourLoop
  rcases foldl_rounded_contourStep rnd P frame g pc contours ⟨Rect.zero, 0.0⟩ with
    ⟨he, hall⟩ | ⟨pre, c, post, hsp, he, _, _, _⟩
  · have hnil : contours.filter (fun c => !Rounded.contourRejected rnd frame g c) = [] := by
      apply List.eq_nil_iff_forall_not_mem.mpr
      intro d hd
      have h1 := hall d hd
      have h2 := hsurv d hd
      norm_num at h1
      linarith
    rw [he]
    exact ⟨⟨fun _ => hnil, fun _ => by norm_num⟩, fun _ => rfl, fun h => absurd hnil h⟩
  · have hmem : c ∈ contours.filter (fun c => !Rounded.contourRejected rnd frame g c) := by
      rw [hsp]
      simp
    have hnn : contours.filter (fun c => !Rounded.contourRejected rnd frame g c) ≠ [] := by
      rw [hsp]
      simp
    have hm := List.mem_filter.mp hmem
    have hc := hsurv c hmem
    rw [he]
    refine ⟨⟨fun h => ?_, fun h => absurd h hnn⟩, fun h => absurd h hnn,
      fun _ => ⟨c, hm.1, by simpa using hm.2, rfl⟩⟩
    exfalso
    have : Rounded.contourScore rnd P frame pc c ≤ 0 := h
    linarith

/-- On the starting pair of the contour loop the HOG step of the machine is the detector-only
fallback, in which nothing is rounded. -/
theorem rounded_hogStage_start (rnd : ℚ → ℚ) (hogDet : List Rect) :
    Rounded.hogStage rnd hogDet ⟨Rect.zero, 0.0⟩ = hogStage hogDet ⟨Rect.zero, 0.0⟩ := by
  have h0 : ((⟨Rect.zero, 0.0⟩ : Best).bestScore ≤ 0.0) := by norm_num
  unfold Rounded.hogStage hogStage
  rw [if_pos h0, if_pos h0]

/-- The contour `sampleContourWide` passes the filters on a 480x640 frame. -/
theorem sampleContourWide_accepted :
    contourRejected ⟨480, 640⟩ 500 sampleContourWide = false := by
  norm_num [contourRejected, sampleContourWide, minArea, maxAreaRatio, aspectOutside, minAspect,
    maxAspect, solidity, minSolidity]

/-- The contour `sampleContourWide` passes the filters of the machine on a 480x640 frame. -/
theorem rounded_sampleContourWide_accepted :
    Rounded.contourRejected toDouble ⟨480, 640⟩ 500 sampleContourWide = false :=
  toDouble_accepts _ _ _ (by decide) sampleContourWide_accepted

/-- The score of `sampleContourWide` on a 480x640 frame, as the machine computes it:
0.9400000000000001. -/
theorem rounded_score_wide :
    Rounded.contourScore toDouble samplePlatform ⟨480, 640⟩ (240, 320) sampleContourWide =
      8466767299456533 / 9007199254740992 := by
  have h240 : toDouble 240 = 240 := by simpa using toDouble_natCast 240 (by norm_num)
  have h320 : toDouble 320 = 320 := by simpa using toDouble_natCast 320 (by norm_num)
  have h1 : toDouble 1 = 1 := by simpa using toDouble_natCast 1 (by norm_num)
  have hs : samplePlatform.sqrt 0 = 0 := by
    simpa using samplePlatform_sqrt 0 0 0 (by norm_num) (by norm_num) (by norm_num)
  have hdist : Rounded.contourDist toDouble samplePlatform (240, 320) sampleContourWide = 0 := by
    norm_num [Rounded.contourDist, Rounded.norm, sampleContourWide, h240, h320, toDouble_zero,
      hs]
  have hdiag : frameDiag samplePlatform ⟨480, 640⟩ = 800 := by
    unfold frameDiag
    rw [samplePlatform_sqrt _ 640000 800 (by norm_num) (by norm_num) (by norm_num)]
    norm_num
  have hmin : min (1 : ℚ) 0 = 0 := min_eq_right (by norm_num)
  unfold Rounded.contourScore
  rw [hdist, hdiag]
  norm_num [sampleContourWide, toDouble_zero, hmin, h1, toDouble_c6, toDouble_c4, toDouble_c9,
    toDouble_areaTermMax, toDouble_distTermA, toDouble_scoreMax]

/-- C27, as stated, fails. On a 480x640 frame the contour `sampleContourWide`, of area 276480
(nine tenths of the frame) and centred in the frame, survives the filters, exact and rounded;
its score is 0.94 in
exact arithmetic, but the machine's double arithmetic gives 0.9400000000000001, which exceeds
0.94. -/
theorem C27_counterexample :
    contourRejected ⟨480, 640⟩ 500 sampleContourWide = false ∧
    Rounded.contourRejected toDouble ⟨480, 640⟩ 500 sampleContourWide = false ∧
    Rounded.prefCenter toDouble ⟨480, 640⟩ false Rect2d.zero = (240, 320) ∧
    Rounded.contourScore toDouble samplePlatform ⟨480, 640⟩ (240, 320) sampleContourWide =
      8466767299456533 / 9007199254740992 ∧
    (0.94 : ℚ) < 8466767299456533 / 9007199254740992 := by
  have h240 : toDouble 240 = 240 := by simpa using toDouble_natCast 240 (by norm_num)
  have h320 : toDouble 320 = 320 := by simpa using toDouble_natCast 320 (by norm_num)
  refine ⟨sampleContourWide_accepted, rounded_sampleContourWide_accepted, ?_,
    rounded_score_wide, by norm_num⟩
  norm_num [Rounded.prefCenter, h240, h320]

/-- C27, amended: on a non-empty frame, with a `sqrt` that delivers no negative number, every
contour that survives the filters has a score, as the machine computes it, strictly above 0 and
at most 0.9400000000000001, the double one unit in the last place above 0.94 (in exact
arithmetic above 0 and at most 0.94), and at most 1.24 after the detector boost. Hence after the contour
loop `bestScore ≤ 0` holds exactly when no contour survived; in that case, and only then, the
HOG step is the detector-only fallback on the starting pair, while with a survivor the candidate
keeps the rectangle of the contour loop with a score above 0 and at most 1.24; and
auto-detection yields no candidate exactly when no contour survives and the detector reports no
box of positive area. -/
theorem C27_score_range (P : Platform) (env : TickEnv) (frame : Frame) (s : State)
    (hne : frame.empty = false) (hsqrt : ∀ x, 0 ≤ P.sqrt x) :
    (∀ c ∈ env.contours, Rounded.contourRejected toDouble frame s.g_minContourArea c = false →
      0 < Rounded.contourScore toDouble P frame
        (Rounded.prefCenter toDouble frame s.g_tracking s.g_bbox) c ∧
      Rounded.contourScore toDouble P frame
        (Rounded.prefCenter toDouble frame s.g_tracking s.g_bbox) c ≤
        8466767299456533 / 9007199254740992 ∧
      Rounded.hogBoost toDouble c.rect env.hogDet
        (Rounded.contourScore toDouble P frame
          (Rounded.prefCenter toDouble frame s.g_tracking s.g_bbox) c) ≤ 1.24) ∧
    (∀ c ∈ env.contours, contourRejected frame s.g_minContourArea c = false →
      0 < contourScore P frame (prefCenter frame s.g_tracking s.g_bbox) c ∧
      contourScore P frame (prefCenter frame s.g_tracking s.g_bbox) c ≤ 0.94) ∧
    ((Rounded.contourLoop toDouble P frame s.g_minContourArea
        (Rounded.prefCenter toDouble frame s.g_tracking s.g_bbox) env.contours).bestScore ≤ 0 ↔
      env.contours.filter (fun c => !Rounded.contourRejected toDouble frame s.g_minContourArea c) = []) ∧
    (env.contours.filter (fun c => !Rounded.contourRejected toDouble frame s.g_minContourArea c) = [] →
      Rounded.selectCandidate toDouble P env frame s = hogStage env.hogDet ⟨Rect.zero, 0.0⟩ ∧
      ((∀ hr ∈ env.hogDet, hr.area ≤ 0) →
        Rounded.selectCandidate toDouble P env frame s = ⟨Rect.zero, 0.0⟩) ∧
      ((∃ hr ∈ env.hogDet, 0 < hr.area) →
        (Rounded.selectCandidate toDouble P env frame s).bestScore = 0.5)) ∧
    (env.contours.filter (fun c => !Rounded.contourRejected toDouble frame s.g_minContourArea c) ≠ [] →
      (Rounded.selectCandidate toDouble P env frame s).bestRect =
        (Rounded.contourLoop toDouble P frame s.g_minContourArea
          (Rounded.prefCenter toDouble frame s.g_tracking s.g_bbox) env.contours).bestRect ∧
      0 < (Rounded.selectCandidate toDouble P env frame s).bestScore ∧
      (Rounded.selectCandidate toDouble P env frame s).bestScore ≤ 1.24) ∧
    (Rounded.candidateFound toDouble P env frame s = false ↔
      env.contours.filter (fun c => !Rounded.contourRejected toDouble frame s.g_minContourArea c) = [] ∧
      ∀ hr ∈ env.hogDet, hr.area ≤ 0) := by
  have hloop := rounded_contourLoop_cases toDouble P frame s.g_minContourArea
    (Rounded.prefCenter toDouble frame s.g_tracking s.g_bbox) env.contours hne toDouble_zero
    toDouble_pos
  have hfb := hogStage_fallback env.hogDet
  have hselnil : env.contours.filter (fun c => !Rounded.contourRejected toDouble frame s.g_minContourArea c) = [] →
      Rounded.selectCandidate toDouble P env frame s = hogStage env.hogDet ⟨Rect.zero, 0.0⟩ := by
    intro hnil
    unfold Rounded.selectCandidate
    rw [hloop.2.1 hnil, rounded_hogStage_start]
  have hfound : Rounded.candidateFound toDouble P env frame s = true ↔
      (Rounded.selectCandidate toDouble P env frame s).bestScore > 0.0 ∧
      (Rounded.selectCandidate toDouble P env frame s).bestRect.area > 0 := by
    simp [Rounded.candidateFound]
  have hsurv : env.contours.filter (fun c => !Rounded.contourRejected toDouble frame s.g_minContourArea c) ≠ [] →
      (Rounded.selectCandidate toDouble P env frame s).bestRect =
        (Rounded.contourLoop toDouble P frame s.g_minContourArea
          (Rounded.prefCenter toDouble frame s.g_tracking s.g_bbox) env.contours).bestRect ∧
      0 < (Rounded.selectCandidate toDouble P env frame s).bestScore ∧
      (Rounded.selectCandidate toDouble P env frame s).bestScore ≤ 1.24 ∧
      0 < (Rounded.selectCandidate toDouble P env frame s).bestRect.area := by
    intro hs
    obtain ⟨c, _, hacc, hc⟩ := hloop.2.2 hs
    have h500 := rounded_area_of_not_rejected toDouble frame s.g_minContourArea c hacc
    have hpos : 0 < Rounded.contourScore toDouble P frame
        (Rounded.prefCenter toDouble frame s.g_tracking s.g_bbox) c :=
      rounded_contourScore_pos toDouble P frame _ c toDouble_zero toDouble_pos hne (by linarith)
    have hle := rounded_contourScore_le P frame s.g_minContourArea
      (Rounded.prefCenter toDouble frame s.g_tracking s.g_bbox) c hsqrt hne hacc
    have hrect := rounded_rect_of_not_rejected frame s.g_minContourArea c hacc
    have hn : ¬ ((⟨c.rect, Rounded.contourScore toDouble P frame
        (Rounded.prefCenter toDouble frame s.g_tracking s.g_bbox) c⟩ : Best).bestScore ≤ 0.0) := by
      norm_num
      exact hpos
    have hsel : Rounded.selectCandidate toDouble P env frame s =
        ⟨c.rect, Rounded.hogBoost toDouble c.rect env.hogDet
          (Rounded.contourScore toDouble P frame
            (Rounded.prefCenter toDouble frame s.g_tracking s.g_bbox) c)⟩ := by
      unfold Rounded.selectCandidate
      rw [hc]
      unfold Rounded.hogStage
      rw [if_neg hn]
    have hb := rounded_hogBoost_bounds c.rect env.hogDet _ hpos hle
    rw [hsel, hc]
    exact ⟨rfl, hb.1, hb.2, mul_pos hrect.1 hrect.2⟩
  refine ⟨?_, ?_, hloop.1, ?_, ?_, ?_⟩
  · intro c _ hacc
    have h500 := rounded_area_of_not_rejected toDouble frame s.g_minContourArea c hacc
    have hpos : 0 < Rounded.contourScore toDouble P frame
        (Rounded.prefCenter toDouble frame s.g_tracking s.g_bbox) c :=
      rounded_contourScore_pos toDouble P frame _ c toDouble_zero toDouble_pos hne (by linarith)
    have hle := rounded_contourScore_le P frame s.g_minContourArea
      (Rounded.prefCenter toDouble frame s.g_tracking s.g_bbox) c hsqrt hne hacc
    exact ⟨hpos, hle, (rounded_hogBoost_bounds c.rect env.hogDet _ hpos hle).2⟩
  · intro c _ hacc
    have h500 := area_of_not_rejected frame s.g_minContourArea c hacc
    exact ⟨contourScore_pos P frame _ c hne (by linarith),
      contourScore_le P frame s.g_minContourArea (prefCenter frame s.g_tracking s.g_bbox) c
        hsqrt hacc⟩
  · intro hnil
    refine ⟨hselnil hnil, ?_, ?_⟩
    · intro hall
      rw [hselnil hnil]
      exact hfb.1 hall
    · intro hex
      rw [hselnil hnil]
      exact (hfb.2 hex).1
  · intro hs
    obtain ⟨h1, h2, h3, _⟩ := hsurv hs
    exact ⟨h1, h2, h3⟩
  · constructor
    · intro hnf
      have hnot : ¬ ((Rounded.selectCandidate toDouble P env frame s).bestScore > 0.0 ∧
          (Rounded.selectCandidate toDouble P env frame s).bestRect.area > 0) := by
        intro h
        rw [hfound.mpr h] at hnf
        cases hnf
      by_cases hs : env.contours.filter
          (fun c => !Rounded.contourRejected toDouble frame s.g_minContourArea c) = []
      · refine ⟨hs, ?_⟩
        by_contra hex
        push_neg at hex
        obtain ⟨hr, hmem, hpos⟩ := hex
        apply hnot
        rw [hselnil hs]
        have h := hfb.2 ⟨hr, hmem, hpos⟩
        refine ⟨?_, h.2⟩
        rw [h.1]
        norm_num
      · obtain ⟨_, h2, _, h4⟩ := hsurv hs
        exact absurd ⟨by norm_num; exact h2, h4⟩ hnot
    · rintro ⟨hnil, hall⟩
      cases hcf : Rounded.candidateFound toDouble P env frame s with
      | false => rfl
      | true =>
        have h := hfound.mp hcf
        rw [hselnil hnil, hfb.1 hall] at h
        have := h.1
        norm_num at this

/-- C27, amended, at the contour that attains the bound: `sampleContourWide` on a 480x640
frame. -/
theorem C27_score_range_witness :
    0 < Rounded.contourScore toDouble samplePlatform ⟨480, 640⟩
        (Rounded.prefCenter toDouble ⟨480, 640⟩ sampleIdle.g_tracking sampleIdle.g_bbox)
        sampleContourWide ∧
    Rounded.contourScore toDouble samplePlatform ⟨480, 640⟩
        (Rounded.prefCenter toDouble ⟨480, 640⟩ sampleIdle.g_tracking sampleIdle.g_bbox)
        sampleContourWide ≤ 8466767299456533 / 9007199254740992 ∧
    Rounded.hogBoost toDouble sampleContourWide.rect
        ({ sampleTickOk with contours := [sampleContourWide] } : TickEnv).hogDet
        (Rounded.contourScore toDouble samplePlatform ⟨480, 640⟩
          (Rounded.prefCenter toDouble ⟨480, 640⟩ sampleIdle.g_tracking sampleIdle.g_bbox)
          sampleContourWide) ≤ 1.24 :=
  (C27_score_range samplePlatform { sampleTickOk with contours := [sampleContourWide] }
    ⟨480, 640⟩ sampleIdle (by decide) samplePlatform_nonneg).1 sampleContourWide
    (List.mem_singleton.mpr rfl)
    (by rw [sampleIdle_minContourArea]; exact rounded_sampleContourWide_accepted)

/-- A rounded layout is only computed for a non-empty frame and a preview rectangle of positive
size, from the rounded scale factors. -/
theorem rounded_paintLayout_some (rnd : ℚ → ℚ) (frame : Frame) (rc : RECT) (L : Layout)
    (hL : Rounded.paintLayout rnd frame rc = some L) :
    0 < frame.cols ∧ 0 < frame.rows ∧ 0 < rc.right - rc.left ∧ 0 < rc.bottom - rc.top ∧
    L.f = min (rnd (((rc.right - rc.left : Int) : ℚ) / (frame.cols : ℚ)))
      (rnd (((rc.bottom - rc.top : Int) : ℚ) / (frame.rows : ℚ))) ∧
    L.sw = truncToInt (rnd ((frame.cols : ℚ) * L.f)) ∧
    L.sh = truncToInt (rnd ((frame.rows : ℚ) * L.f)) ∧
    L.x = rc.left + Int.tdiv (rc.right - rc.left - L.sw) 2 ∧
    L.y = rc.top + Int.tdiv (rc.bottom - rc.top - L.sh) 2 := by
  unfold Rounded.paintLayout at hL
  by_cases he : frame.empty = true
  · rw [if_pos he] at hL; cases hL
  · rw [if_neg he] at hL
    by_cases hp : rc.right - rc.left ≤ 0 ∨ rc.bottom - rc.top ≤ 0
    · simp only [hp, if_true] at hL; cases hL
    · simp only [hp, if_false, Option.some.injEq] at hL
      simp only [Frame.empty, Bool.or_eq_true, decide_eq_true_eq, not_or, not_le] at he
      push_neg at hp
      subst hL
      exact ⟨he.1, he.2, hp.1, hp.2, rfl, rfl, rfl, rfl, rfl⟩

/-- The rounded function `ScreenToImageRect` in terms of the layout used when painting. -/
theorem rounded_ScreenToImageRect_eq (rnd : ℚ → ℚ) (frame : Frame) (rc sel : RECT) (L : Layout)
    (hL : Rounded.paintLayout rnd frame rc = some L) :
    Rounded.ScreenToImageRect rnd frame rc sel =
      if min sel.right (L.x + L.sw) ≤ max sel.left L.x ∨
          min sel.bottom (L.y + L.sh) ≤ max sel.top L.y then Rect2d.zero
      else
        ⟨rnd (((max sel.left L.x - L.x : Int) : ℚ) / L.f),
         rnd (((max sel.top L.y - L.y : Int) : ℚ) / L.f),
         rnd (((min sel.right (L.x + L.sw) - max sel.left L.x : Int) : ℚ) / L.f),
         rnd (((min sel.bottom (L.y + L.sh) - max sel.top L.y : Int) : ℚ) / L.f)⟩ := by
  unfold Rounded.paintLayout at hL
  by_cases he : frame.empty = true
  · rw [if_pos he] at hL; cases hL
  · rw [if_neg he] at hL
    by_cases hp : rc.right - rc.left ≤ 0 ∨ rc.bottom - rc.top ≤ 0
    · simp only [hp, if_true] at hL; cases hL
    · simp only [hp, if_false, Option.some.injEq] at hL
      subst hL
      rfl

/-- With no rounding the rounded layout and transform are the exact ones. -/
theorem rounded_transform_id (frame : Frame) (rc sel : RECT) :
    Rounded.paintLayout id frame rc = paintLayout frame rc ∧
    Rounded.ScreenToImageRect id frame rc sel = ScreenToImageRect frame rc sel :=
  ⟨rfl, rfl⟩

/-- A rounding with relative error below one keeps the sign of positive numbers. -/
theorem pos_of_relerr (rnd : ℚ → ℚ) (u : ℚ) (hu1 : u < 1)
    (herr : ∀ x, |rnd x - x| ≤ u * |x|) (x : ℚ) (hx : 0 < x) : 0 < rnd x := by
  have h := herr x
  rw [abs_of_pos hx] at h
  have h2 := (abs_le.mp h).1
  have : 0 < (1 - u) * x := mul_pos (by linarith) hx
  nlinarith

/-- Dividing by the scale, rounding, and multiplying by the scale again returns a number up to
the relative error of the rounding. -/
theorem round_trip_error (rnd : ℚ → ℚ) (u : ℚ) (herr : ∀ x, |rnd x - x| ≤ u * |x|)
    (a f : ℚ) (ha : 0 ≤ a) (hf : 0 < f) : |rnd (a / f) * f - a| ≤ u * a := by
  have h := herr (a / f)
  rw [abs_of_nonneg (div_nonneg ha hf.le)] at h
  have e : rnd (a / f) * f - a = (rnd (a / f) - a / f) * f := by
    field_simp
  rw [e, abs_mul, abs_of_pos hf]
  calc |rnd (a / f) - a / f| * f ≤ u * (a / f) * f := mul_le_mul_of_nonneg_right h hf.le
    _ = u * a := by field_simp

/-- The horizontal scale 1000/640 is a double. -/
theorem toDouble_fx : toDouble (25 / 16) = 25 / 16 := by
  rw [toDouble_eval (25 / 16) (1 / 4503599627370496) 0 7036874417766400
    (by norm_num) (by norm_num) (by norm_num) (by norm_num) (by norm_num)]
  norm_num

/-- The vertical scale 490/480, rounded. -/
theorem toDouble_fy : toDouble (49 / 48) = 4597424619607381 / 4503599627370496 := by
  rw [toDouble_eval (49 / 48) (1 / 4503599627370496) 0 4597424619607381
    (by norm_num) (by norm_num) (by norm_num) (by norm_num) (by norm_num)]
  norm_num

/-- The product of 640 and the rounded scale, rounded. -/
theorem toDouble_swLetterbox : toDouble (22987123098036905 / 35184372088832) = 2873390387254613 / 4398046511104 := by
  rw [toDouble_eval (22987123098036905 / 35184372088832) (1 / 8796093022208) 9 5746780774509226
    (by norm_num) (by norm_num) (by norm_num) (by norm_num) (by norm_num)]
  norm_num

/-- The product of 480 and the rounded scale, rounded. -/
theorem toDouble_shLetterbox : toDouble (68961369294110715 / 140737488355328) = 8620171161763839 / 17592186044416 := by
  rw [toDouble_eval (68961369294110715 / 140737488355328) (1 / 17592186044416) 8 8620171161763839
    (by norm_num) (by norm_num) (by norm_num) (by norm_num) (by norm_num)]
  norm_num

/-- The quotient of 27 and the rounded scale, rounded. -/
theorem toDouble_rxLetterbox : toDouble (121597189939003392 / 4597424619607381) = 7444725914632861 / 281474976710656 := by
  rw [toDouble_eval (121597189939003392 / 4597424619607381) (1 / 281474976710656) 4 7444725914632861
    (by norm_num) (by norm_num) (by norm_num) (by norm_num) (by norm_num)]
  norm_num

/-- The quotient of 484 and the rounded scale, rounded. -/
theorem toDouble_ryLetterbox : toDouble (2179742219647320064 / 4597424619607381) = 8340850330283113 / 17592186044416 := by
  rw [toDouble_eval (2179742219647320064 / 4597424619607381) (1 / 17592186044416) 8 8340850330283113
    (by norm_num) (by norm_num) (by norm_num) (by norm_num) (by norm_num)]
  norm_num

/-- The quotient of 200 and the rounded scale, rounded. -/
theorem toDouble_rwLetterbox : toDouble (900719925474099200 / 4597424619607381) = 215414522992849 / 1099511627776 := by
  rw [toDouble_eval (900719925474099200 / 4597424619607381) (1 / 35184372088832) 7 6893264735771168
    (by norm_num) (by norm_num) (by norm_num) (by norm_num) (by norm_num)]
  norm_num

/-- The quotient of 5 and the rounded scale, rounded. -/
theorem toDouble_rhLetterbox : toDouble (22517998136852480 / 4597424619607381) = 2757305894308467 / 562949953421312 := by
  rw [toDouble_eval (22517998136852480 / 4597424619607381) (1 / 1125899906842624) 2 5514611788616934
    (by norm_num) (by norm_num) (by norm_num) (by norm_num) (by norm_num)]
  norm_num

/-- The layout the machine computes for a 640x480 frame in the preview rectangle
(0, 40)-(1000, 530): the image is drawn 653 by 489 pixels at (173, 40). -/
theorem rounded_layout_letterbox :
    Rounded.paintLayout toDouble ⟨640, 480⟩ ⟨0, 40, 1000, 530⟩ =
      some ⟨4597424619607381 / 4503599627370496, 653, 489, 173, 40⟩ := by
  have hmin : min (25 / 16 : ℚ) (4597424619607381 / 4503599627370496) =
      4597424619607381 / 4503599627370496 := min_eq_right (by norm_num)
  have hfx : toDouble ((((1000 : Int) - 0 : Int) : ℚ) / ((640 : Int) : ℚ)) = 25 / 16 := by
    rw [show ((((1000 : Int) - 0 : Int) : ℚ) / ((640 : Int) : ℚ)) = 25 / 16 by norm_num]
    exact toDouble_fx
  have hfy : toDouble ((((530 : Int) - 40 : Int) : ℚ) / ((480 : Int) : ℚ)) =
      4597424619607381 / 4503599627370496 := by
    rw [show ((((530 : Int) - 40 : Int) : ℚ) / ((480 : Int) : ℚ)) = 49 / 48 by norm_num]
    exact toDouble_fy
  have hsw : toDouble (((640 : Int) : ℚ) * (4597424619607381 / 4503599627370496)) =
      2873390387254613 / 4398046511104 := by
    rw [show (((640 : Int) : ℚ) * (4597424619607381 / 4503599627370496)) =
      22987123098036905 / 35184372088832 by norm_num]
    exact toDouble_swLetterbox
  have hsh : toDouble (((480 : Int) : ℚ) * (4597424619607381 / 4503599627370496)) =
      8620171161763839 / 17592186044416 := by
    rw [show (((480 : Int) : ℚ) * (4597424619607381 / 4503599627370496)) =
      68961369294110715 / 140737488355328 by norm_num]
    exact toDouble_shLetterbox
  have ht1 : truncToInt (2873390387254613 / 4398046511104) = 653 := by
    unfold truncToInt
    rw [if_pos (by norm_num), Int.floor_eq_iff]
    constructor <;> norm_num
  have ht2 : truncToInt (8620171161763839 / 17592186044416) = 489 := by
    unfold truncToInt
    rw [if_pos (by norm_num), Int.floor_eq_iff]
    constructor <;> norm_num
  unfold Rounded.paintLayout
  rw [if_neg (by decide), if_neg (by decide)]
  simp only [hfx, hfy, hmin, hsw, hsh, ht1, ht2]
  rfl

/-- The image-space rectangle the machine computes for the drag from (200, 524) to (400, 535)
on that layout: its height is 4.8979591836734695. -/
theorem rounded_selection_letterbox :
    Rounded.ScreenToImageRect toDouble ⟨640, 480⟩ ⟨0, 40, 1000, 530⟩
        (selectionRect (200, 524) (400, 535)) =
      ⟨7444725914632861 / 281474976710656, 8340850330283113 / 17592186044416,
        215414522992849 / 1099511627776, 2757305894308467 / 562949953421312⟩ := by
  rw [rounded_ScreenToImageRect_eq _ _ _ _ _ rounded_layout_letterbox, if_neg (by decide)]
  have h1 : toDouble ((((max (selectionRect (200, 524) (400, 535)).left 173 - 173 : Int)) : ℚ) /
      (4597424619607381 / 4503599627370496)) = 7444725914632861 / 281474976710656 := by
    rw [show ((((max (selectionRect (200, 524) (400, 535)).left 173 - 173 : Int)) : ℚ) /
      (4597424619607381 / 4503599627370496)) =
      121597189939003392 / 4597424619607381 by norm_num [selectionRect]]
    exact toDouble_rxLetterbox
  have h2 : toDouble ((((max (selectionRect (200, 524) (400, 535)).top 40 - 40 : Int)) : ℚ) /
      (4597424619607381 / 4503599627370496)) = 8340850330283113 / 17592186044416 := by
    rw [show ((((max (selectionRect (200, 524) (400, 535)).top 40 - 40 : Int)) : ℚ) /
      (4597424619607381 / 4503599627370496)) =
      2179742219647320064 / 4597424619607381 by norm_num [selectionRect]]
    exact toDouble_ryLetterbox
  have h3 : toDouble ((((min (selectionRect (200, 524) (400, 535)).right (173 + 653) -
      max (selectionRect (200, 524) (400, 535)).left 173 : Int)) : ℚ) /
      (4597424619607381 / 4503599627370496)) = 215414522992849 / 1099511627776 := by
    rw [show ((((min (selectionRect (200, 524) (400, 535)).right (173 + 653) -
      max (selectionRect (200, 524) (400, 535)).left 173 : Int)) : ℚ) /
      (4597424619607381 / 4503599627370496)) =
      900719925474099200 / 4597424619607381 by norm_num [selectionRect]]
    exact toDouble_rwLetterbox
  have h4 : toDouble ((((min (selectionRect (200, 524) (400, 535)).bottom (40 + 489) -
      max (selectionRect (200, 524) (400, 535)).top 40 : Int)) : ℚ) /
      (4597424619607381 / 4503599627370496)) = 2757305894308467 / 562949953421312 := by
    rw [show ((((min (selectionRect (200, 524) (400, 535)).bottom (40 + 489) -
      max (selectionRect (200, 524) (400, 535)).top 40 : Int)) : ℚ) /
      (4597424619607381 / 4503599627370496)) =
      22517998136852480 / 4597424619607381 by norm_num [selectionRect]]
    exact toDouble_rhLetterbox
  simp only [h1, h2, h3, h4]

/-- The quotient of 35 and the rounded scale, rounded. -/
theorem toDouble_rwNarrow : toDouble (157625986957967360 / 4597424619607381) = 4825285315039817 / 140737488355328 := by
  rw [toDouble_eval (157625986957967360 / 4597424619607381) (1 / 140737488355328) 5 4825285315039817
    (by norm_num) (by norm_num) (by norm_num) (by norm_num) (by norm_num)]
  norm_num

/-- The product of the rounded quotient of 35 and the rounded scale with the rounded scale, rounded. -/
theorem toDouble_backNarrow : toDouble (22183885503994012260988922089277 / 633825300114114700748351602688) = 4925812092436479 / 140737488355328 := by
  rw [toDouble_eval (22183885503994012260988922089277 / 633825300114114700748351602688) (1 / 140737488355328) 5 4925812092436479
    (by norm_num) (by norm_num) (by norm_num) (by norm_num) (by norm_num)]
  norm_num

/-- The image-space rectangle the machine computes for the drag from (200, 524) to (235, 535)
on the letterboxed layout: 34.285714285714285 wide and 4.8979591836734695 high. -/
theorem rounded_selection_narrow :
    Rounded.ScreenToImageRect toDouble ⟨640, 480⟩ ⟨0, 40, 1000, 530⟩
        (selectionRect (200, 524) (235, 535)) =
      ⟨7444725914632861 / 281474976710656, 8340850330283113 / 17592186044416,
        4825285315039817 / 140737488355328, 2757305894308467 / 562949953421312⟩ := by
  rw [rounded_ScreenToImageRect_eq _ _ _ _ _ rounded_layout_letterbox, if_neg (by decide)]
  have h1 : toDouble ((((max (selectionRect (200, 524) (235, 535)).left 173 - 173 : Int)) : ℚ) /
      (4597424619607381 / 4503599627370496)) = 7444725914632861 / 281474976710656 := by
    rw [show ((((max (selectionRect (200, 524) (235, 535)).left 173 - 173 : Int)) : ℚ) /
      (4597424619607381 / 4503599627370496)) =
      121597189939003392 / 4597424619607381 by norm_num [selectionRect]]
    exact toDouble_rxLetterbox
  have h2 : toDouble ((((max (selectionRect (200, 524) (235, 535)).top 40 - 40 : Int)) : ℚ) /
      (4597424619607381 / 4503599627370496)) = 8340850330283113 / 17592186044416 := by
    rw [show ((((max (selectionRect (200, 524) (235, 535)).top 40 - 40 : Int)) : ℚ) /
      (4597424619607381 / 4503599627370496)) =
      2179742219647320064 / 4597424619607381 by norm_num [selectionRect]]
    exact toDouble_ryLetterbox
  have h3 : toDouble ((((min (selectionRect (200, 524) (235, 535)).right (173 + 653) -
      max (selectionRect (200, 524) (235, 535)).left 173 : Int)) : ℚ) /
      (4597424619607381 / 4503599627370496)) = 4825285315039817 / 140737488355328 := by
    rw [show ((((min (selectionRect (200, 524) (235, 535)).right (173 + 653) -
      max (selectionRect (200, 524) (235, 535)).left 173 : Int)) : ℚ) /
      (4597424619607381 / 4503599627370496)) =
      157625986957967360 / 4597424619607381 by norm_num [selectionRect]]
    exact toDouble_rwNarrow
  have h4 : toDouble ((((min (selectionRect (200, 524) (235, 535)).bottom (40 + 489) -
      max (selectionRect (200, 524) (235, 535)).top 40 : Int)) : ℚ) /
      (4597424619607381 / 4503599627370496)) = 2757305894308467 / 562949953421312 := by
    rw [show ((((min (selectionRect (200, 524) (235, 535)).bottom (40 + 489) -
      max (selectionRect (200, 524) (235, 535)).top 40 : Int)) : ℚ) /
      (4597424619607381 / 4503599627370496)) =
      22517998136852480 / 4597424619607381 by norm_num [selectionRect]]
    exact toDouble_rhLetterbox
  simp only [h1, h2, h3, h4]

/-- C20, as stated, fails. For a 640x480 frame in the preview rectangle (0, 40)-(1000, 530) the
scale is `f = min(1000/640, 490/480) = 490/480` and `floor(rows*f) = 490`, but the machine
computes `490/480.0 = 1.0208333333333333` and `480 * f = 489.99999999999994`, so the image is
painted, and the selection inverted, with `sh = 489`. The drag from (200, 524) to (235, 535) is
clipped to 35 by 5 pixels, and the transform returns the width 34.285714285714285 and the height
4.8979591836734695. The product of this height with 490/480 is not the height 6 of the
selection clipped to an image 490 pixels high; and the product of this width with the scale the
machine uses is not the clipped width 35, neither exactly nor as the machine multiplies, which
gives 34.99999999999999. -/
theorem C20_counterexample :
    Rounded.paintLayout toDouble ⟨640, 480⟩ ⟨0, 40, 1000, 530⟩ =
      some ⟨4597424619607381 / 4503599627370496, 653, 489, 173, 40⟩ ∧
    ⌊((480 : Int) : ℚ) * min ((((1000 : Int) - 0 : Int) : ℚ) / ((640 : Int) : ℚ))
      ((((530 : Int) - 40 : Int) : ℚ) / ((480 : Int) : ℚ))⌋ = 490 ∧
    Rounded.ScreenToImageRect toDouble ⟨640, 480⟩ ⟨0, 40, 1000, 530⟩
        (selectionRect (200, 524) (235, 535)) =
      ⟨7444725914632861 / 281474976710656, 8340850330283113 / 17592186044416,
        4825285315039817 / 140737488355328, 2757305894308467 / 562949953421312⟩ ∧
    min (selectionRect (200, 524) (235, 535)).right (173 + 653) -
      max (selectionRect (200, 524) (235, 535)).left 173 = 35 ∧
    (4825285315039817 / 140737488355328 : ℚ) * (4597424619607381 / 4503599627370496) ≠ 35 ∧
    toDouble ((4825285315039817 / 140737488355328 : ℚ) *
      (4597424619607381 / 4503599627370496)) = 4925812092436479 / 140737488355328 ∧
    (4925812092436479 / 140737488355328 : ℚ) ≠ 35 ∧
    (2757305894308467 / 562949953421312 : ℚ) * (490 / 480) ≠
      ((min (535 : Int) (40 + 490) - max (524 : Int) 40 : Int) : ℚ) := by
  refine ⟨rounded_layout_letterbox, ?_, rounded_selection_narrow, by decide, by norm_num, ?_,
    by norm_num, by norm_num⟩
  · have hmin : min ((((1000 : Int) - 0 : Int) : ℚ) / ((640 : Int) : ℚ))
        ((((530 : Int) - 40 : Int) : ℚ) / ((480 : Int) : ℚ)) = 49 / 48 := by
      rw [min_eq_right (by norm_num)]
      norm_num
    rw [hmin, Int.floor_eq_iff]
    constructor <;> norm_num
  · rw [show (4825285315039817 / 140737488355328 : ℚ) *
        (4597424619607381 / 4503599627370496) =
        22183885503994012260988922089277 / 633825300114114700748351602688 by norm_num]
    exact toDouble_backNarrow

/-- C20, amended: the screen-to-frame transform inverts the preview's letterboxed,
aspect-preserving layout up to the rounding of the machine's arithmetic. With
`f = min(pw/cols, ph/rows)`, `sw = floor(cols*f)`, `sh = floor(rows*f)`, every quotient and
product rounded, and offsets `x = left + (pw - sw)/2`, `y = top + (ph - sh)/2` as used when
painting, for every selection that overlaps the displayed image `ScreenToImageRect` returns the
rectangle `(rx, ry, rw, rh)` whose fields are the left and top of the clipped selection relative
to `(x, y)` and its width and height, each divided by `f` and rounded; so `x + rx*f`, `y + ry*f`,
`rw*f` and `rh*f` differ from the left, top, width and height of the selection clipped to the
displayed image by at most the relative error `u` of the rounding, `2^-53` for doubles and 0 in
exact arithmetic. -/
theorem C20_screen_to_image_inverts_layout (rnd : ℚ → ℚ) (u : ℚ) (frame : Frame)
    (rc sel : RECT) (L : Layout)
    (hu1 : u < 1) (herr : ∀ x, |rnd x - x| ≤ u * |x|)
    (hL : Rounded.paintLayout rnd frame rc = some L)
    (hx : max sel.left L.x < min sel.right (L.x + L.sw))
    (hy : max sel.top L.y < min sel.bottom (L.y + L.sh)) :
    (L.f = min (rnd (((rc.right - rc.left : Int) : ℚ) / (frame.cols : ℚ)))
        (rnd (((rc.bottom - rc.top : Int) : ℚ) / (frame.rows : ℚ))) ∧
      0 < L.f ∧
      L.sw = ⌊rnd ((frame.cols : ℚ) * L.f)⌋ ∧ L.sh = ⌊rnd ((frame.rows : ℚ) * L.f)⌋ ∧
      L.x = rc.left + Int.tdiv (rc.right - rc.left - L.sw) 2 ∧
      L.y = rc.top + Int.tdiv (rc.bottom - rc.top - L.sh) 2) ∧
    Rounded.ScreenToImageRect rnd frame rc sel =
      ⟨rnd (((max sel.left L.x - L.x : Int) : ℚ) / L.f),
       rnd (((max sel.top L.y - L.y : Int) : ℚ) / L.f),
       rnd (((min sel.right (L.x + L.sw) - max sel.left L.x : Int) : ℚ) / L.f),
       rnd (((min sel.bottom (L.y + L.sh) - max sel.top L.y : Int) : ℚ) / L.f)⟩ ∧
    |(L.x : ℚ) + (Rounded.ScreenToImageRect rnd frame rc sel).x * L.f -
        ((max sel.left L.x : Int) : ℚ)| ≤ u * ((max sel.left L.x - L.x : Int) : ℚ) ∧
    |(L.y : ℚ) + (Rounded.ScreenToImageRect rnd frame rc sel).y * L.f -
        ((max sel.top L.y : Int) : ℚ)| ≤ u * ((max sel.top L.y - L.y : Int) : ℚ) ∧
    |(Rounded.ScreenToImageRect rnd frame rc sel).width * L.f -
        ((min sel.right (L.x + L.sw) - max sel.left L.x : Int) : ℚ)| ≤
      u * ((min sel.right (L.x + L.sw) - max sel.left L.x : Int) : ℚ) ∧
    |(Rounded.ScreenToImageRect rnd frame rc sel).height * L.f -
        ((min sel.bottom (L.y + L.sh) - max sel.top L.y : Int) : ℚ)| ≤
      u * ((min sel.bottom (L.y + L.sh) - max sel.top L.y : Int) : ℚ) := by
  obtain ⟨hc, hr, hpw, hph, hf, hsw, hsh, hLx, hLy⟩ := rounded_paintLayout_some rnd frame rc L hL
  have hpos := pos_of_relerr rnd u hu1 herr
  have hcq : (0 : ℚ) < (frame.cols : ℚ) := by exact_mod_cast hc
  have hrq : (0 : ℚ) < (frame.rows : ℚ) := by exact_mod_cast hr
  have hpwq : (0 : ℚ) < ((rc.right - rc.left : Int) : ℚ) := by exact_mod_cast hpw
  have hphq : (0 : ℚ) < ((rc.bottom - rc.top : Int) : ℚ) := by exact_mod_cast hph
  have hfpos : 0 < L.f := by
    rw [hf]
    exact lt_min (hpos _ (div_pos hpwq hcq)) (hpos _ (div_pos hphq hrq))
  have hswf : L.sw = ⌊rnd ((frame.cols : ℚ) * L.f)⌋ := by
    rw [hsw]
    unfold truncToInt
    rw [if_pos (hpos _ (mul_pos hcq hfpos)).le]
  have hshf : L.sh = ⌊rnd ((frame.rows : ℚ) * L.f)⌋ := by
    rw [hsh]
    unfold truncToInt
    rw [if_pos (hpos _ (mul_pos hrq hfpos)).le]
  have hR : Rounded.ScreenToImageRect rnd frame rc sel =
      ⟨rnd (((max sel.left L.x - L.x : Int) : ℚ) / L.f),
       rnd (((max sel.top L.y - L.y : Int) : ℚ) / L.f),
       rnd (((min sel.right (L.x + L.sw) - max sel.left L.x : Int) : ℚ) / L.f),
       rnd (((min sel.bottom (L.y + L.sh) - max sel.top L.y : Int) : ℚ) / L.f)⟩ := by
    rw [rounded_ScreenToImageRect_eq rnd frame rc sel L hL]
    have hne : ¬ (min sel.right (L.x + L.sw) ≤ max sel.left L.x ∨
        min sel.bottom (L.y + L.sh) ≤ max sel.top L.y) := by
      push_neg
      exact ⟨hx, hy⟩
    rw [if_neg hne]
  have ha1 : (0 : ℚ) ≤ ((max sel.left L.x - L.x : Int) : ℚ) := by
    have : 0 ≤ max sel.left L.x - L.x := sub_nonneg.mpr (le_max_right _ _)
    exact_mod_cast this
  have ha2 : (0 : ℚ) ≤ ((max sel.top L.y - L.y : Int) : ℚ) := by
    have : 0 ≤ max sel.top L.y - L.y := sub_nonneg.mpr (le_max_right _ _)
    exact_mod_cast this
  have ha3 : (0 : ℚ) ≤ ((min sel.right (L.x + L.sw) - max sel.left L.x : Int) : ℚ) := by
    have : 0 ≤ min sel.right (L.x + L.sw) - max sel.left L.x := (sub_pos.mpr hx).le
    exact_mod_cast this
  have ha4 : (0 : ℚ) ≤ ((min sel.bottom (L.y + L.sh) - max sel.top L.y : Int) : ℚ) := by
    have : 0 ≤ min sel.bottom (L.y + L.sh) - max sel.top L.y := (sub_pos.mpr hy).le
    exact_mod_cast this
  have e1 := round_trip_error rnd u herr _ L.f ha1 hfpos
  have e2 := round_trip_error rnd u herr _ L.f ha2 hfpos
  have e3 := round_trip_error rnd u herr _ L.f ha3 hfpos
  have e4 := round_trip_error rnd u herr _ L.f ha4 hfpos
  refine ⟨⟨hf, hfpos, hswf, hshf, hLx, hLy⟩, hR, ?_, ?_, ?_, ?_⟩
  · rw [hR]
    have : (L.x : ℚ) + rnd (((max sel.left L.x - L.x : Int) : ℚ) / L.f) * L.f -
        ((max sel.left L.x : Int) : ℚ) =
        rnd (((max sel.left L.x - L.x : Int) : ℚ) / L.f) * L.f -
          ((max sel.left L.x - L.x : Int) : ℚ) := by
      push_cast
      ring
    rw [this]
    exact e1
  · rw [hR]
    have : (L.y : ℚ) + rnd (((max sel.top L.y - L.y : Int) : ℚ) / L.f) * L.f -
        ((max sel.top L.y : Int) : ℚ) =
        rnd (((max sel.top L.y - L.y : Int) : ℚ) / L.f) * L.f -
          ((max sel.top L.y - L.y : Int) : ℚ) := by
      push_cast
      ring
    rw [this]
    exact e2
  · rw [hR]
    exact e3
  · rw [hR]
    exact e4

/-- Rounding to double has relative error at most `2^-53`. -/
theorem toDouble_relerr_mul (x : ℚ) : |toDouble x - x| ≤ 1 / 2 ^ (53 : ℕ) * |x| := by
  have h := toDouble_relerr x
  calc |toDouble x - x| ≤ |x| / 2 ^ (53 : ℕ) := h
    _ = 1 / 2 ^ (53 : ℕ) * |x| := by ring

/-- C20, amended, on the machine: for the 640x480 frame letterboxed in the preview rectangle
(0, 40)-(1000, 530) the layout is 653 by 489 pixels at (173, 40), and for the drag from
(200, 524) to (400, 535), clipped to a strip 5 pixels high, the returned height times the scale
is within `5 * 2^-53` of 5. -/
theorem C20_screen_to_image_inverts_layout_witness :
    Rounded.paintLayout toDouble ⟨640, 480⟩ ⟨0, 40, 1000, 530⟩ =
      some ⟨4597424619607381 / 4503599627370496, 653, 489, 173, 40⟩ ∧
    (489 : Int) = ⌊toDouble (((480 : Int) : ℚ) * (4597424619607381 / 4503599627370496))⌋ ∧
    |(Rounded.ScreenToImageRect toDouble ⟨640, 480⟩ ⟨0, 40, 1000, 530⟩
        (selectionRect (200, 524) (400, 535))).height * (4597424619607381 / 4503599627370496) -
      5| ≤ 1 / 2 ^ (53 : ℕ) * 5 := by
  have h := C20_screen_to_image_inverts_layout toDouble (1 / 2 ^ (53 : ℕ)) ⟨640, 480⟩
    ⟨0, 40, 1000, 530⟩ (selectionRect (200, 524) (400, 535))
    ⟨4597424619607381 / 4503599627370496, 653, 489, 173, 40⟩ (by norm_num) toDouble_relerr_mul
    rounded_layout_letterbox (by decide) (by decide)
  refine ⟨rounded_layout_letterbox, h.1.2.2.2.1, ?_⟩
  have h5 := h.2.2.2.2.2
  have hv : (((min (selectionRect (200, 524) (400, 535)).bottom ((40 : Int) + 489) -
      max (selectionRect (200, 524) (400, 535)).top 40 : Int)) : ℚ) = 5 := by
    norm_num [selectionRect]
  rw [hv] at h5
  exact h5

/-! ## Manual selection in rounded arithmetic (C17) -/

/-- The quotient of 260 and the rounded scale, rounded. -/
theorem toDouble_ryAccept : toDouble (1170935903116328960 / 4597424619607381) = 4480622078251259 / 17592186044416 := by
  rw [toDouble_eval (1170935903116328960 / 4597424619607381) (1 / 35184372088832) 7 8961244156502518
    (by norm_num) (by norm_num) (by norm_num) (by norm_num) (by norm_num)]
  norm_num

/-- The quotient of 224 and the rounded scale, rounded. -/
theorem toDouble_rhAccept : toDouble (1008806316530991104 / 4597424619607381) = 1930114126015927 / 8796093022208 := by
  rw [toDouble_eval (1008806316530991104 / 4597424619607381) (1 / 35184372088832) 7 7720456504063708
    (by norm_num) (by norm_num) (by norm_num) (by norm_num) (by norm_num)]
  norm_num


/-- The image-space rectangle the machine computes for the drag from (200, 524) to (400, 300)
on the letterboxed layout: 195.9 wide and 219.4 high. -/
theorem rounded_selection_accept :
    Rounded.ScreenToImageRect toDouble ⟨640, 480⟩ ⟨0, 40, 1000, 530⟩
        (selectionRect (200, 524) (400, 300)) =
      ⟨7444725914632861 / 281474976710656, 4480622078251259 / 17592186044416,
        215414522992849 / 1099511627776, 1930114126015927 / 8796093022208⟩ := by
  rw [rounded_ScreenToImageRect_eq _ _ _ _ _ rounded_layout_letterbox, if_neg (by decide)]
  have h1 : toDouble ((((max (selectionRect (200, 524) (400, 300)).left 173 - 173 : Int)) : ℚ) /
      (4597424619607381 / 4503599627370496)) = 7444725914632861 / 281474976710656 := by
    rw [show ((((max (selectionRect (200, 524) (400, 300)).left 173 - 173 : Int)) : ℚ) /
      (4597424619607381 / 4503599627370496)) =
      121597189939003392 / 4597424619607381 by norm_num [selectionRect]]
    exact toDouble_rxLetterbox
  have h2 : toDouble ((((max (selectionRect (200, 524) (400, 300)).top 40 - 40 : Int)) : ℚ) /
      (4597424619607381 / 4503599627370496)) = 4480622078251259 / 17592186044416 := by
    rw [show ((((max (selectionRect (200, 524) (400, 300)).top 40 - 40 : Int)) : ℚ) /
      (4597424619607381 / 4503599627370496)) =
      1170935903116328960 / 4597424619607381 by norm_num [selectionRect]]
    exact toDouble_ryAccept
  have h3 : toDouble ((((min (selectionRect (200, 524) (400, 300)).right (173 + 653) -
      max (selectionRect (200, 524) (400, 300)).left 173 : Int)) : ℚ) /
      (4597424619607381 / 4503599627370496)) = 215414522992849 / 1099511627776 := by
    rw [show ((((min (selectionRect (200, 524) (400, 300)).right (173 + 653) -
      max (selectionRect (200, 524) (400, 300)).left 173 : Int)) : ℚ) /
      (4597424619607381 / 4503599627370496)) =
      900719925474099200 / 4597424619607381 by norm_num [selectionRect]]
    exact toDouble_rwLetterbox
  have h4 : toDouble ((((min (selectionRect (200, 524) (400, 300)).bottom (40 + 489) -
      max (selectionRect (200, 524) (400, 300)).top 40 : Int)) : ℚ) /
      (4597424619607381 / 4503599627370496)) = 1930114126015927 / 8796093022208 := by
    rw [show ((((min (selectionRect (200, 524) (400, 300)).bottom (40 + 489) -
      max (selectionRect (200, 524) (400, 300)).top 40 : Int)) : ℚ) /
      (4597424619607381 / 4503599627370496)) =
      1008806316530991104 / 4597424619607381 by norm_num [selectionRect]]
    exact toDouble_rhAccept
  simp only [h1, h2, h3, h4]

/-- With no rounding the rounded clamp and the rounded handler of `WM_LBUTTONUP` are the exact
ones. -/
theorem rounded_lbuttonUp_id (P : Platform) (env : SelEnv) (p : Int × Int) (s : State)
    (frame : Frame) (r : Rect2d) :
    Rounded.clampInit id frame r = clampInit frame r ∧
    Rounded.lbuttonUp id P env p s = lbuttonUp P env p s :=
  ⟨rfl, rfl⟩

/-- The rounded `WM_LBUTTONUP` handler on a committed selection of more than 5 by 5 image pixels
with a frame and a tracker available, when `init` throws: the exception leaves the handler. -/
theorem rounded_lbuttonUp_init_throws (rnd : ℚ → ℚ) (P : Platform) (env : SelEnv)
    (p : Int × Int) (s : State) (t : Tracker) (e : Exn)
    (hsel : s.g_selecting = true) (hframe : s.g_frame.empty = false)
    (hwide : (Rounded.ScreenToImageRect rnd s.g_frame s.g_previewRect
      (selectionRect s.g_mouseStart p)).width > 5)
    (htall : (Rounded.ScreenToImageRect rnd s.g_frame s.g_previewRect
      (selectionRect s.g_mouseStart p)).height > 5)
    (hmk : makeTracker P env.csrt env.kcf = some t) (hinit : env.init = .error e) :
    Rounded.lbuttonUp rnd P env p s = .error e := by
  unfold Rounded.lbuttonUp
  simp only [hsel, if_true, hframe, Bool.false_eq_true, if_false, hwide, htall, and_self, hmk,
    hinit]

/-- The rounded `WM_LBUTTONUP` handler on a committed selection of more than 5 by 5 image pixels
with a frame and a tracker available, when `init` returns: the new tracker, the clamped region
and the flag are stored, and the tracker held before is destroyed. -/
theorem rounded_lbuttonUp_init_ok (rnd : ℚ → ℚ) (P : Platform) (env : SelEnv)
    (p : Int × Int) (s : State) (t : Tracker)
    (hsel : s.g_selecting = true) (hframe : s.g_frame.empty = false)
    (hwide : (Rounded.ScreenToImageRect rnd s.g_frame s.g_previewRect
      (selectionRect s.g_mouseStart p)).width > 5)
    (htall : (Rounded.ScreenToImageRect rnd s.g_frame s.g_previewRect
      (selectionRect s.g_mouseStart p)).height > 5)
    (hmk : makeTracker P env.csrt env.kcf = some t) (hinit : env.init = .ok ()) :
    ∃ s', Rounded.lbuttonUp rnd P env p s = .ok s' ∧ s'.g_tracking = true ∧
      s'.g_tracker = some t ∧
      s'.g_bbox = Rounded.clampInit rnd s.g_frame
        (Rounded.ScreenToImageRect rnd s.g_frame s.g_previewRect
          (selectionRect s.g_mouseStart p)) ∧
      s'.g_selecting = false ∧
      s'.trace = s.trace ++ Event.trackerCreated t ::
        (match s.g_tracker with
         | some old => [Event.trackerDestroyed old]
         | none => []) := by
  unfold Rounded.lbuttonUp
  simp only [hsel, if_true, hframe, Bool.false_eq_true, if_false, hwide, htall, and_self, hmk,
    hinit]
  refine ⟨_, rfl, rfl, ?_, rfl, ?_, ?_⟩
  · unfold State.storeTracker
    cases s.g_tracker <;> rfl
  · unfold State.storeTracker
    cases s.g_tracker <;> rfl
  · unfold State.storeTracker
    cases s.g_tracker <;> simp

/-- The rounded `WM_LBUTTONUP` handler on a committed selection whose image-space rectangle is
at most 5 wide or at most 5 high: only the selecting flag changes. -/
theorem rounded_lbuttonUp_small (rnd : ℚ → ℚ) (P : Platform) (env : SelEnv) (p : Int × Int)
    (s : State) (hsel : s.g_selecting = true)
    (hsmall : (Rounded.ScreenToImageRect rnd s.g_frame s.g_previewRect
        (selectionRect s.g_mouseStart p)).width ≤ 5 ∨
      (Rounded.ScreenToImageRect rnd s.g_frame s.g_previewRect
        (selectionRect s.g_mouseStart p)).height ≤ 5) :
    Rounded.lbuttonUp rnd P env p s = .ok { s with g_selecting := false } := by
  have hno : ¬ ((Rounded.ScreenToImageRect rnd s.g_frame s.g_previewRect
        (selectionRect s.g_mouseStart p)).width > 5 ∧
      (Rounded.ScreenToImageRect rnd s.g_frame s.g_previewRect
        (selectionRect s.g_mouseStart p)).height > 5) := by
    rintro ⟨h1, h2⟩
    rcases hsmall with h | h
    · exact absurd h1 (not_lt.mpr h)
    · exact absurd h2 (not_lt.mpr h)
  unfold Rounded.lbuttonUp
  rw [if_pos hsel]
  by_cases hfe : s.g_frame.empty = true
  · simp only [hfe, if_true]
  · have hfe2 : s.g_frame.empty = false := by simpa using hfe
    simp only [hfe2, Bool.false_eq_true, if_false]
    rw [if_neg hno]

/-- A session started by the rounded `WM_LBUTTONUP` handler comes from a selection whose
image-space rectangle, before the clamp, is more than 5 wide and more than 5 high, and holds the
clamped rectangle. -/
theorem rounded_lbuttonUp_started (rnd : ℚ → ℚ) (P : Platform) (env : SelEnv) (p : Int × Int)
    (s s' : State)
    (hok : Rounded.lbuttonUp rnd P env p s = .ok s') (hne : s'.trace ≠ s.trace) :
    5 < (Rounded.ScreenToImageRect rnd s.g_frame s.g_previewRect
      (selectionRect s.g_mouseStart p)).width ∧
    5 < (Rounded.ScreenToImageRect rnd s.g_frame s.g_previewRect
      (selectionRect s.g_mouseStart p)).height ∧
    s'.g_bbox = Rounded.clampInit rnd s.g_frame
      (Rounded.ScreenToImageRect rnd s.g_frame s.g_previewRect
        (selectionRect s.g_mouseStart p)) ∧
    s'.g_tracking = true := by
  unfold Rounded.lbuttonUp at hok
  by_cases hsel : s.g_selecting = true
  · rw [if_pos hsel] at hok
    by_cases hfe : s.g_frame.empty = true
    · simp only [hfe, if_true] at hok
      cases hok
      exact absurd rfl hne
    · have hfe2 : s.g_frame.empty = false := by simpa using hfe
      simp only [hfe2, Bool.false_eq_true, if_false] at hok
      split at hok
      · rename_i hacc
        cases hm : makeTracker P env.csrt env.kcf with
        | none =>
          rw [hm] at hok
          cases hok
          exact absurd rfl hne
        | some t =>
          rw [hm] at hok
          cases hi : env.init with
          | error e =>
            rw [hi] at hok
            cases hok
          | ok u =>
            rw [hi] at hok
            cases hok
            refine ⟨hacc.1, hacc.2, ?_, rfl⟩
            unfold State.storeTracker
            cases s.g_tracker <;> rfl
      · cases hok
        exact absurd rfl hne
  · rw [if_neg hsel] at hok
    cases hok
    exact absurd rfl hne

/-- C17, as stated, fails: an Active session with a frame letterboxed in the preview, a committed
selection of 195.9 by 219.4 image pixels and a tracker implementation available, but `init`
throws; the exception leaves the handler, which therefore does not end with the new session
Active. -/
theorem C17_counterexample :
    sampleLetterbox.Active ∧ sampleLetterbox.g_selecting = true ∧
    sampleLetterbox.g_frame.empty = false ∧
    Rounded.ScreenToImageRect toDouble sampleLetterbox.g_frame sampleLetterbox.g_previewRect
        (selectionRect sampleLetterbox.g_mouseStart (400, 300)) =
      ⟨7444725914632861 / 281474976710656, 4480622078251259 / 17592186044416,
        215414522992849 / 1099511627776, 1930114126015927 / 8796093022208⟩ ∧
    (5 : ℚ) < 215414522992849 / 1099511627776 ∧ (5 : ℚ) < 1930114126015927 / 8796093022208 ∧
    makeTracker samplePlatform sampleSelThrow.csrt sampleSelThrow.kcf = some ⟨11⟩ ∧
    Rounded.lbuttonUp toDouble samplePlatform sampleSelThrow (400, 300) sampleLetterbox =
      .error Exn.thrown := by
  have hr : Rounded.ScreenToImageRect toDouble sampleLetterbox.g_frame
      sampleLetterbox.g_previewRect (selectionRect sampleLetterbox.g_mouseStart (400, 300)) =
      ⟨7444725914632861 / 281474976710656, 4480622078251259 / 17592186044416,
        215414522992849 / 1099511627776, 1930114126015927 / 8796093022208⟩ :=
    rounded_selection_accept
  refine ⟨⟨rfl, by decide⟩, rfl, by decide, hr, by norm_num, by norm_num, rfl, ?_⟩
  exact rounded_lbuttonUp_init_throws toDouble samplePlatform sampleSelThrow (400, 300)
    sampleLetterbox ⟨11⟩ Exn.thrown rfl (by decide) (by rw [hr]; norm_num)
    (by rw [hr]; norm_num) rfl rfl

/-- C17, amended: a committed manual selection whose image-space rectangle, as the handler
computes it in rounded arithmetic, is wider and taller than 5 px, made in any tracking state
while a frame and a tracker implementation are available and the tracker's `init` returns without
throwing, ends with the flag set, the newly created tracker held (the one held before destroyed)
and `g_bbox` equal to the clamped selected region. -/
theorem C17_manual_selection_last_writer_wins (rnd : ℚ → ℚ) (P : Platform) (env : SelEnv)
    (p : Int × Int) (s : State) (t : Tracker)
    (hsel : s.g_selecting = true) (hframe : s.g_frame.empty = false)
    (hwide : (Rounded.ScreenToImageRect rnd s.g_frame s.g_previewRect
      (selectionRect s.g_mouseStart p)).width > 5)
    (htall : (Rounded.ScreenToImageRect rnd s.g_frame s.g_previewRect
      (selectionRect s.g_mouseStart p)).height > 5)
    (hmk : makeTracker P env.csrt env.kcf = some t) (hinit : env.init = .ok ()) :
    ∃ s', Rounded.lbuttonUp rnd P env p s = .ok s' ∧ s'.Active ∧ s'.g_tracker = some t ∧
      s'.g_bbox = Rounded.clampInit rnd s.g_frame
        (Rounded.ScreenToImageRect rnd s.g_frame s.g_previewRect
          (selectionRect s.g_mouseStart p)) ∧
      s'.trace = s.trace ++ Event.trackerCreated t ::
        (match s.g_tracker with
         | some old => [Event.trackerDestroyed old]
         | none => []) := by
  obtain ⟨s', h1, h2, h3, h4, _, h5⟩ :=
    rounded_lbuttonUp_init_ok rnd P env p s t hsel hframe hwide htall hmk hinit
  exact ⟨s', h1, ⟨h2, by simp [h3]⟩, h3, h4, h5⟩

/-- C17, amended, on the machine: the drag from (200, 524) to (400, 300) on the Active session
`sampleLetterbox`; the tracker 1 held before is replaced by the new tracker 11, and the box
becomes the clamped region of 195.9 by 219.4 image pixels. -/
theorem C17_manual_selection_last_writer_wins_witness :
    sampleLetterbox.Active ∧ sampleLetterbox.g_tracker = some ⟨1⟩ ∧
    ∃ s', Rounded.lbuttonUp toDouble samplePlatform sampleSelOk (400, 300) sampleLetterbox =
        .ok s' ∧ s'.Active ∧ s'.g_tracker = some ⟨11⟩ ∧
      s'.g_bbox = Rounded.clampInit toDouble sampleLetterbox.g_frame
        (Rounded.ScreenToImageRect toDouble sampleLetterbox.g_frame
          sampleLetterbox.g_previewRect
          (selectionRect sampleLetterbox.g_mouseStart (400, 300))) ∧
      s'.trace = sampleLetterbox.trace ++ Event.trackerCreated ⟨11⟩ ::
        (match sampleLetterbox.g_tracker with
         | some old => [Event.trackerDestroyed old]
         | none => []) :=
  ⟨⟨rfl, by decide⟩, rfl,
    C17_manual_selection_last_writer_wins toDouble samplePlatform sampleSelOk (400, 300)
      sampleLetterbox ⟨11⟩ rfl (by decide)
      (by
        have hr : Rounded.ScreenToImageRect toDouble sampleLetterbox.g_frame
            sampleLetterbox.g_previewRect
            (selectionRect sampleLetterbox.g_mouseStart (400, 300)) =
            ⟨7444725914632861 / 281474976710656, 4480622078251259 / 17592186044416,
              215414522992849 / 1099511627776, 1930114126015927 / 8796093022208⟩ :=
          rounded_selection_accept
        rw [hr]; norm_num)
      (by
        have hr : Rounded.ScreenToImageRect toDouble sampleLetterbox.g_frame
            sampleLetterbox.g_previewRect
            (selectionRect sampleLetterbox.g_mouseStart (400, 300)) =
            ⟨7444725914632861 / 281474976710656, 4480622078251259 / 17592186044416,
              215414522992849 / 1099511627776, 1930114126015927 / 8796093022208⟩ :=
          rounded_selection_accept
        rw [hr]; norm_num)
      rfl rfl⟩

/-! ## The size of the region a session starts from (C26) -/

/-- The candidate of the tick `sampleTickEdgeBox` is the detector box, whatever the state. -/
theorem sampleTickEdgeBox_candidate (s : State) :
    selectCandidate samplePlatform sampleTickEdgeBox ⟨640, 480⟩ s =
      ⟨⟨636, 100, 64, 128⟩, 0.5⟩ := by
  have hc : sampleTickEdgeBox.contours = [] := rfl
  have hd : sampleTickEdgeBox.hogDet = [⟨636, 100, 64, 128⟩] := rfl
  unfold selectCandidate contourLoop
  rw [hc, hd, List.foldl_nil]
  norm_num [hogStage, hogLargestStep, Rect.area]

/-- The detector box of `sampleTickEdgeBox` is a viable candidate. -/
theorem sampleTickEdgeBox_found (s : State) :
    candidateFound samplePlatform sampleTickEdgeBox ⟨640, 480⟩ s = true := by
  rw [candidateFound_iff, sampleTickEdgeBox_candidate]
  exact ⟨by norm_num, by decide⟩

/-- The clamp cuts the detector box of `sampleTickEdgeBox` to a width of 4. -/
theorem sampleTickEdgeBox_region :
    clampInit ⟨640, 480⟩ (⟨636, 100, 64, 128⟩ : Rect).toRect2d = ⟨636, 100, 4, 128⟩ := by
  norm_num [clampInit, Rect.toRect2d]

/-- The tick `sampleTickEdgeBox` takes the started camera in auto mode to `sampleTracked`. -/
theorem sampleTickEdgeBox_tick :
    timerPreview samplePlatform sampleTickEdgeBox sampleIdle = .ok sampleTracked := by
  rw [tick_idle_init_state samplePlatform sampleTickEdgeBox sampleIdle ⟨640, 480⟩ ⟨1⟩ rfl rfl
    ⟨rfl, rfl⟩ rfl (by decide) (sampleTickEdgeBox_found _) rfl rfl,
    trackerUpdate_ok sampleTickEdgeBox ⟨640, 480⟩
      { sampleIdle with
        g_frame := ⟨640, 480⟩, g_tracker := some ⟨1⟩,
        g_bbox := clampInit ⟨640, 480⟩
          (selectCandidate samplePlatform sampleTickEdgeBox ⟨640, 480⟩
            sampleIdle).bestRect.toRect2d,
        g_tracking := true, trace := sampleIdle.trace ++ [Event.trackerCreated ⟨1⟩] }
      ⟨-5, 10, 100, 200⟩ ⟨rfl, rfl⟩ rfl,
    sample_box_valid]
  have hb : clampUpdate ⟨640, 480⟩ ⟨-5, 10, 100, 200⟩ = ⟨0, 10, 100, 200⟩ := by
    norm_num [clampUpdate]
  rw [hb]
  rfl

/-- C26, as stated, fails in its last clause. On the started camera in auto mode with no session
and no contour, the detector reports the box (636, 100, 64, 128), which reaches beyond the right
edge of the 640x480 frame. The auto-init block, which has no size test, clamps it to
(636, 100, 4, 128), creates tracker 1 and calls `init` with this region of width 4; the session
is Active at the end of the tick. -/
theorem C26_counterexample :
    sampleIdle.Idle ∧ sampleIdle.g_autoMode = true ∧
    selectCandidate samplePlatform sampleTickEdgeBox ⟨640, 480⟩
        { sampleIdle with g_frame := ⟨640, 480⟩ } = ⟨⟨636, 100, 64, 128⟩, 0.5⟩ ∧
    autoInit samplePlatform sampleTickEdgeBox ⟨640, 480⟩
        { sampleIdle with g_frame := ⟨640, 480⟩ } =
      { sampleIdle with
        g_frame := ⟨640, 480⟩, g_tracker := some ⟨1⟩, g_bbox := ⟨636, 100, 4, 128⟩,
        g_tracking := true, trace := sampleIdle.trace ++ [Event.trackerCreated ⟨1⟩] } ∧
    (⟨636, 100, 4, 128⟩ : Rect2d).width ≤ 5 ∧
    timerPreview samplePlatform sampleTickEdgeBox sampleIdle = .ok sampleTracked ∧
    sampleTracked.Active := by
  refine ⟨⟨rfl, rfl⟩, rfl, sampleTickEdgeBox_candidate _, ?_, by norm_num,
    sampleTickEdgeBox_tick, ⟨rfl, by decide⟩⟩
  rw [autoInit_eq, if_pos (sampleTickEdgeBox_found _),
    autoInitTracker_ok samplePlatform sampleTickEdgeBox _ _ ⟨1⟩ rfl rfl rfl,
    sampleTickEdgeBox_candidate, sampleTickEdgeBox_region]

/-- C26, amended: a committed manual selection whose image-space region, as the handler computes
it, is at most 5 wide or at most 5 high is rejected: the handler returns with only the selecting
flag cleared, so no tracker is created and tracking flag, tracker handle and bounding box are as
before. A selection that misses the displayed image entirely has the image-space region
`(0, 0, 0, 0)` and is rejected in this way. No manual selection starts a session from a region
whose width or height is at most 5: a session the handler of `SecurityWebCam.cpp` starts comes
from a region that is more than 5 wide and more than 5 high before the clamp and holds the
clamped region, which in exact arithmetic is the same region; the manual init of
`MySecCamcppDEV.cpp` tests the size after the clamp. Auto-detection has no size test: it starts
the session from the clamped rectangle of the candidate, whatever its size. The first three
parts hold for every rounding `rnd`, rounding to double among them. -/
theorem C26_small_selection_rejected (rnd : ℚ → ℚ) (P : Platform) (env : SelEnv)
    (p : Int × Int) (s : State) (hsel : s.g_selecting = true) :
    (((Rounded.ScreenToImageRect rnd s.g_frame s.g_previewRect
          (selectionRect s.g_mouseStart p)).width ≤ 5 ∨
        (Rounded.ScreenToImageRect rnd s.g_frame s.g_previewRect
          (selectionRect s.g_mouseStart p)).height ≤ 5) →
      Rounded.lbuttonUp rnd P env p s = .ok { s with g_selecting := false }) ∧
    (∀ L : Layout, Rounded.paintLayout rnd s.g_frame s.g_previewRect = some L →
      ((selectionRect s.g_mouseStart p).right ≤ L.x ∨
        L.x + L.sw ≤ (selectionRect s.g_mouseStart p).left ∨
        (selectionRect s.g_mouseStart p).bottom ≤ L.y ∨
        L.y + L.sh ≤ (selectionRect s.g_mouseStart p).top) →
      Rounded.ScreenToImageRect rnd s.g_frame s.g_previewRect
          (selectionRect s.g_mouseStart p) = ⟨0, 0, 0, 0⟩ ∧
      Rounded.lbuttonUp rnd P env p s = .ok { s with g_selecting := false }) ∧
    (∀ s' : State, Rounded.lbuttonUp rnd P env p s = .ok s' → s'.trace ≠ s.trace →
      5 < (Rounded.ScreenToImageRect rnd s.g_frame s.g_previewRect
        (selectionRect s.g_mouseStart p)).width ∧
      5 < (Rounded.ScreenToImageRect rnd s.g_frame s.g_previewRect
        (selectionRect s.g_mouseStart p)).height ∧
      s'.g_bbox = Rounded.clampInit rnd s.g_frame
        (Rounded.ScreenToImageRect rnd s.g_frame s.g_previewRect
          (selectionRect s.g_mouseStart p)) ∧
      s'.g_tracking = true) ∧
    (∀ s' : State, lbuttonUp P env p s = .ok s' → s'.trace ≠ s.trace →
      s'.g_bbox = clampInit s.g_frame
        (ScreenToImageRect s.g_frame s.g_previewRect (selectionRect s.g_mouseStart p)) ∧
      s'.g_bbox = ScreenToImageRect s.g_frame s.g_previewRect
        (selectionRect s.g_mouseStart p) ∧
      5 < s'.g_bbox.width ∧ 5 < s'.g_bbox.height) ∧
    (∀ (csrtAvailable : Bool) (envd : SelEnv) (frame : Frame) (d d' : DevState),
      devManualInit csrtAvailable envd frame d = .ok d' → d.tracking = false →
      d'.tracking = true →
      d'.selectionForTracker = clampInit frame d.selectionForTracker ∧
      5 < (clampInit frame d.selectionForTracker).width ∧
      5 < (clampInit frame d.selectionForTracker).height) ∧
    (∀ (tenv : TickEnv) (frame : Frame) (t : Tracker) (a : State), a.g_tracker = none →
      candidateFound P tenv frame a = true → makeTracker P tenv.csrt tenv.kcf = some t →
      tenv.init = .ok () →
      autoInit P tenv frame a =
        { a with
          g_tracker := some t,
          g_bbox := clampInit frame (selectCandidate P tenv frame a).bestRect.toRect2d,
          g_tracking := true, trace := a.trace ++ [Event.trackerCreated t] }) := by
  refine ⟨rounded_lbuttonUp_small rnd P env p s hsel, ?_, rounded_lbuttonUp_started rnd P env p s,
    ?_, ?_, ?_⟩
  · intro L hL hmiss
    have hz : Rounded.ScreenToImageRect rnd s.g_frame s.g_previewRect
        (selectionRect s.g_mouseStart p) = Rect2d.zero := by
      rw [rounded_ScreenToImageRect_eq _ _ _ _ L hL]
      apply if_pos
      rcases hmiss with h | h | h | h
      · left; omega
      · left; omega
      · right; omega
      · right; omega
    refine ⟨hz, rounded_lbuttonUp_small rnd P env p s hsel (Or.inl ?_)⟩
    rw [hz]
    norm_num [Rect2d.zero]
  · intro s' hok hne
    obtain ⟨h1, h2, h3⟩ := lbuttonUp_started P env p s s' hok hne
    refine ⟨h1, ?_, h2, h3⟩
    rw [h1]
    by_cases hfe : s.g_frame.empty = true
    · exfalso
      unfold lbuttonUp at hok
      simp only [hsel, if_true, hfe] at hok
      cases hok
      exact hne rfl
    · have hfe2 : s.g_frame.empty = false := by simpa using hfe
      obtain ⟨hc, hr⟩ := frame_pos_of_not_empty s.g_frame hfe2
      rw [h1] at h2
      have hw : (ScreenToImageRect s.g_frame s.g_previewRect
          (selectionRect s.g_mouseStart p)).width > 5 := by
        by_contra hle
        have hsmall := lbuttonUp_small P env p s hsel (Or.inl (not_lt.mp hle))
        rw [hsmall] at hok
        cases hok
        exact hne rfl
      obtain ⟨hpw, hph⟩ := ScreenToImageRect_accept s.g_frame s.g_previewRect
        (selectionRect s.g_mouseStart p) hc hr hw
      exact clampInit_ScreenToImageRect s.g_frame s.g_previewRect _ hc hr hpw hph
  · intro csrtAvailable envd frame d d' hok h0 h1
    exact devManualInit_started csrtAvailable envd frame d d' hok h0 h1
  · intro tenv frame t a hnone hc hm hi
    rw [autoInit_eq, if_pos hc, autoInitTracker_ok P tenv _ a t hnone hm hi]

/-- C26, amended, on the machine: on `sampleLetterbox` the drag released at (400, 535) selects an
image region 4.8979591836734695 high and is rejected although a tracker implementation is
available. -/
theorem C26_small_selection_rejected_witness :
    sampleLetterbox.g_selecting = true ∧
    (Rounded.ScreenToImageRect toDouble sampleLetterbox.g_frame sampleLetterbox.g_previewRect
        (selectionRect sampleLetterbox.g_mouseStart (400, 535))).height =
      2757305894308467 / 562949953421312 ∧
    Rounded.lbuttonUp toDouble samplePlatform sampleSelOk (400, 535) sampleLetterbox =
      .ok { sampleLetterbox with g_selecting := false } :=
  ⟨rfl, congrArg Rect2d.height rounded_selection_letterbox,
    (C26_small_selection_rejected toDouble samplePlatform sampleSelOk (400, 535)
      sampleLetterbox rfl).1
      (Or.inr (by
        have hr : Rounded.ScreenToImageRect toDouble sampleLetterbox.g_frame
            sampleLetterbox.g_previewRect
            (selectionRect sampleLetterbox.g_mouseStart (400, 535)) =
            ⟨7444725914632861 / 281474976710656, 8340850330283113 / 17592186044416,
              215414522992849 / 1099511627776, 2757305894308467 / 562949953421312⟩ :=
          rounded_selection_letterbox
        rw [hr]; norm_num))⟩

/-! ## The overlap test of the detector step (C13) -/

end SecurityWebCam
